import Mathlib

/-!
Member operations of the HHVM runtime (`hphp/runtime/vm/member-operations.h`).

A shallow embedding of the element family of member operations (`Elem`,
`ElemD`, `SetElem`, `IncDecElem`, ...) over an explicit machine state: a heap of
counted strings, a heap of arrays, a heap of objects, reference boxes, the
frame slots that serve as base and value cells, the scratch cell `tvRef`, and
the log of diagnostics raised so far.

Functions that live in `member-operations.h` are transcribed branch by branch.
The collaborators the header only calls (array container, string container,
conversions) are modelled from the specification and say so in their doc
comment; collaborators that run user code (object subscript protocol,
collections) are taken as parameters in `Externals`.
-/

namespace HPHP

/-! ## Values -/

/-- One byte of a string buffer (`char`). -/
abbrev Byte := Fin 256

/-- The tags of `DataType` that a `TypedValue` can carry. -/
inductive DataType
  | KindOfUninit
  | KindOfNull
  | KindOfBoolean
  | KindOfInt64
  | KindOfDouble
  | KindOfStaticString
  | KindOfString
  | KindOfArray
  | KindOfObject
  | KindOfResource
  | KindOfRef
  | KindOfClass
  deriving DecidableEq, Repr

/-- A canonical array key: the key space of an array is integer-or-string. -/
inductive ArrayKey
  | int (n : Int)
  | str (s : List Byte)
  deriving DecidableEq, Repr

/-- A `TypedValue`: tag plus payload.  Static strings are immutable and never
counted, so they carry their bytes; counted strings, arrays, objects and
reference boxes carry the address of their heap data.  A double carries its
bit pattern, a resource its id. -/
inductive TypedValue
  | uninit
  | null
  | bool (b : Bool)
  | int (n : Int)
  | dbl (bits : Nat)
  | sstr (s : List Byte)
  | str (p : Nat)
  | arr (p : Nat)
  | obj (p : Nat)
  | res (id : Nat)
  | ref (p : Nat)
  | cls (p : Nat)
  deriving DecidableEq, Repr

/-- The tag `m_type` of a value. -/
def TypedValue.m_type : TypedValue → DataType
  | .uninit => .KindOfUninit
  | .null => .KindOfNull
  | .bool _ => .KindOfBoolean
  | .int _ => .KindOfInt64
  | .dbl _ => .KindOfDouble
  | .sstr _ => .KindOfStaticString
  | .str _ => .KindOfString
  | .arr _ => .KindOfArray
  | .obj _ => .KindOfObject
  | .res _ => .KindOfResource
  | .ref _ => .KindOfRef
  | .cls _ => .KindOfClass

/-- A `StringData*` as passed for a `KeyType::Str` key: a static string or a
counted string on the heap. -/
inductive StrRef
  | static (s : List Byte)
  | heap (p : Nat)
  deriving DecidableEq, Repr

/-- The key of a member operation, one constructor per `KeyType`:
`key_type<KeyType::Int>` is an `int64_t`, `key_type<KeyType::Str>` a
`StringData*`, `key_type<KeyType::Any>` a `TypedValue`. -/
inductive Key
  | int (n : Int)
  | str (sd : StrRef)
  | any (tv : TypedValue)
  deriving DecidableEq, Repr

/-- The increment/decrement operators of `IncDecOp`. -/
inductive IncDecOp
  | PreInc
  | PostInc
  | PreDec
  | PostDec
  | PreIncO
  | PostIncO
  | PreDecO
  | PostDecO
  deriving DecidableEq, Repr

/-- Modelled from the spec: the enum `SetOpOp`, missing from the sources: the
compound assignments add, sub, mul, div, mod, concat, pow, and, or, xor, shl,
shr, and the overflow-checked variants of add, sub and mul. -/
inductive SetOpOp
  | PlusEqual
  | MinusEqual
  | MulEqual
  | ConcatEqual
  | DivEqual
  | PowEqual
  | ModEqual
  | AndEqual
  | OrEqual
  | XorEqual
  | SlEqual
  | SrEqual
  | PlusEqualO
  | MinusEqualO
  | MulEqualO
  deriving DecidableEq, Repr

/-! ## Machine state -/

/-- A counted string: its bytes and its reference count. -/
structure StringData where
  data : List Byte
  count : Nat
  deriving DecidableEq, Repr

/-- An array: its entries in insertion order, the next free integer index and
its reference count. -/
structure ArrayData where
  elems : List (ArrayKey × TypedValue)
  nextKI : Int
  count : Nat
  deriving DecidableEq, Repr

/-- An object: whether it is a collection, whether its class is the
array-object adapter, its property table and its reference count. -/
structure ObjectData where
  isCollection : Bool
  isArrayObject : Bool
  props : List (List Byte × TypedValue)
  count : Nat
  deriving DecidableEq, Repr

/-- Severity of a non-fatal diagnostic. -/
inductive Level
  | notice
  | warning
  deriving DecidableEq, Repr

/-- The argument substituted into the format string of a diagnostic. -/
inductive DiagArg
  | none
  | str (s : List Byte)
  | int (n : Int)
  deriving DecidableEq, Repr

/-- A diagnostic handed to `raise_notice` or `raise_warning`. -/
structure Diag where
  level : Level
  fmt : String
  arg : DiagArg
  deriving DecidableEq, Repr

/-- A `TypedValue*`: where a cell lives. -/
inductive Loc
  | slot (i : Nat)
  | refInner (r : Nat)
  | arrElem (a : Nat) (k : ArrayKey)
  | objProp (o : Nat) (name : List Byte)
  | tvRef
  | nullVariant
  | initNullVariant
  deriving DecidableEq, Repr

/-- What happens to a base slot when it changes container: the old value of
the slot is released, or a new container is written into the slot. -/
inductive SlotEvent
  | release (old : TypedValue)
  | install (slot : Loc) (v : TypedValue)
  deriving DecidableEq, Repr

/-- The machine state the member operations read and write.  The field `trace`
keeps, in the order in which they happen, the releases and installs of the
auto-vivification transitions of base slots. -/
structure State where
  strs : List StringData
  arrs : List ArrayData
  objs : List ObjectData
  refs : List TypedValue
  slots : List TypedValue
  tvRef : TypedValue
  log : List Diag
  trace : List SlotEvent := []
  deriving DecidableEq, Repr

/-- How a call into the core ends: it returns, it throws
`InvalidSetMException` carrying a value, it raises a fatal error
(`raise_error`), it aborts (`unknownBaseType`, `always_assert`), or an
external collaborator throws. -/
inductive Outcome (α : Type)
  | ok (r : α) (s : State)
  | invalidSetM (tv : TypedValue) (s : State)
  | fatal (msg : String) (s : State)
  | abort (s : State)
  | thrown (s : State)
  deriving DecidableEq, Repr

/-- Sequencing of calls: the continuation runs only after a normal return. -/
def Outcome.bind {α β : Type} (o : Outcome α) (f : α → State → Outcome β) :
    Outcome β :=
  match o with
  | .ok r s => f r s
  | .invalidSetM tv s => .invalidSetM tv s
  | .fatal msg s => .fatal msg s
  | .abort s => .abort s
  | .thrown s => .thrown s

/-- The state in which a call ended. -/
def Outcome.state {α : Type} : Outcome α → State
  | .ok _ s => s
  | .invalidSetM _ s => s
  | .fatal _ s => s
  | .abort s => s
  | .thrown s => s

/-- The value a call returned, when it returned. -/
def Outcome.returned {α : Type} : Outcome α → Option α
  | .ok r _ => some r
  | _ => none

/-- The value carried by the `InvalidSetMException` a call threw, when it
threw one. -/
def Outcome.invalidSetMValue {α : Type} : Outcome α → Option TypedValue
  | .invalidSetM tv _ => some tv
  | _ => none

/-! ## Heap access -/

/-- The string stored at address `p` (an empty dead string when `p` dangles). -/
def State.getStr (s : State) (p : Nat) : StringData :=
  s.strs.getD p { data := [], count := 0 }

/-- The array stored at address `p` (an empty dead array when `p` dangles). -/
def State.getArr (s : State) (p : Nat) : ArrayData :=
  s.arrs.getD p { elems := [], nextKI := 0, count := 0 }

/-- The object stored at address `p`. -/
def State.getObj (s : State) (p : Nat) : ObjectData :=
  s.objs.getD p { isCollection := false, isArrayObject := false, props := [], count := 0 }

/-- Overwrite the string at address `p`. -/
def State.setStr (s : State) (p : Nat) (sd : StringData) : State :=
  { s with strs := s.strs.set p sd }

/-- Overwrite the array at address `p`. -/
def State.setArr (s : State) (p : Nat) (ad : ArrayData) : State :=
  { s with arrs := s.arrs.set p ad }

/-- Overwrite the object at address `p`. -/
def State.setObj (s : State) (p : Nat) (od : ObjectData) : State :=
  { s with objs := s.objs.set p od }

/-- Allocate a string at a fresh address. -/
def State.allocStr (s : State) (sd : StringData) : Nat × State :=
  (s.strs.length, { s with strs := s.strs ++ [sd] })

/-- Allocate an array at a fresh address. -/
def State.allocArr (s : State) (ad : ArrayData) : Nat × State :=
  (s.arrs.length, { s with arrs := s.arrs ++ [ad] })

/-- Allocate an object at a fresh address. -/
def State.allocObj (s : State) (od : ObjectData) : Nat × State :=
  (s.objs.length, { s with objs := s.objs ++ [od] })

/-- A local `TypedValue` of a function body: a cell at a fresh address outside
the frame, holding `v`. -/
def State.allocTemp (s : State) (v : TypedValue) : Nat × State :=
  (s.refs.length, { s with refs := s.refs ++ [v] })

/-- Append a diagnostic to the log. -/
def State.raise (s : State) (d : Diag) : State :=
  { s with log := s.log ++ [d] }

/-- Append a list of diagnostics to the log. -/
def State.raiseAll (s : State) (ds : List Diag) : State :=
  { s with log := s.log ++ ds }

/-- Append an event to the trace of slot transitions. -/
def State.record (s : State) (e : SlotEvent) : State :=
  { s with trace := s.trace ++ [e] }

/-- The call `raise_notice(fmt, arg)`. -/
def raise_notice (s : State) (fmt : String) (arg : DiagArg) : State :=
  s.raise { level := .notice, fmt := fmt, arg := arg }

/-- The call `raise_warning(fmt, arg)`. -/
def raise_warning (s : State) (fmt : String) (arg : DiagArg) : State :=
  s.raise { level := .warning, fmt := fmt, arg := arg }

/-- Lookup of a canonical key among the entries of an array. -/
def elemsGet : List (ArrayKey × TypedValue) → ArrayKey → Option TypedValue
  | [], _ => none
  | (k', v) :: rest, k => if k' = k then some v else elemsGet rest k

/-- Insert-or-replace of a canonical key; a new key goes to the end. -/
def elemsSet : List (ArrayKey × TypedValue) → ArrayKey → TypedValue →
    List (ArrayKey × TypedValue)
  | [], k, v => [(k, v)]
  | (k', v') :: rest, k, v =>
    if k' = k then (k', v) :: rest else (k', v') :: elemsSet rest k v

/-- Overwrite of an existing entry through an interior pointer; the set of
keys never changes. -/
def elemsWrite : List (ArrayKey × TypedValue) → ArrayKey → TypedValue →
    List (ArrayKey × TypedValue)
  | [], _, _ => []
  | (k', v') :: rest, k, v =>
    if k' = k then (k', v) :: rest else (k', v') :: elemsWrite rest k v

/-- Removal of a canonical key: no entry under the key is left. -/
def elemsRemove : List (ArrayKey × TypedValue) → ArrayKey →
    List (ArrayKey × TypedValue)
  | [], _ => []
  | (k', v') :: rest, k =>
    if k' = k then elemsRemove rest k else (k', v') :: elemsRemove rest k

/-- Lookup of a property by name. -/
def propsGet : List (List Byte × TypedValue) → List Byte → Option TypedValue
  | [], _ => none
  | (n', v) :: rest, n => if n' = n then some v else propsGet rest n

/-- Overwrite of an existing property through an interior pointer. -/
def propsWrite : List (List Byte × TypedValue) → List Byte → TypedValue →
    List (List Byte × TypedValue)
  | [], _, _ => []
  | (n', v') :: rest, n, v =>
    if n' = n then (n', v) :: rest else (n', v') :: propsWrite rest n v

/-- Insert-or-replace of a property; a new name goes to the end. -/
def propsSet : List (List Byte × TypedValue) → List Byte → TypedValue →
    List (List Byte × TypedValue)
  | [], n, v => [(n, v)]
  | (n', v') :: rest, n, v =>
    if n' = n then (n', v) :: rest else (n', v') :: propsSet rest n v

/-- Dereference of a cell pointer.  `null_variant` is the uninit sentinel and
`init_null_variant` the null sentinel. -/
def State.load (s : State) : Loc → TypedValue
  | .slot i => s.slots.getD i .uninit
  | .refInner r => s.refs.getD r .uninit
  | .arrElem a k => (elemsGet (s.getArr a).elems k).getD .uninit
  | .objProp o n => (propsGet (s.getObj o).props n).getD .uninit
  | .tvRef => s.tvRef
  | .nullVariant => .uninit
  | .initNullVariant => .null

/-- Assignment through a cell pointer.  The two sentinels are immutable. -/
def State.store (s : State) (l : Loc) (v : TypedValue) : State :=
  match l with
  | .slot i => { s with slots := s.slots.set i v }
  | .refInner r => { s with refs := s.refs.set r v }
  | .arrElem a k =>
    s.setArr a { s.getArr a with elems := elemsWrite (s.getArr a).elems k v }
  | .objProp o n =>
    s.setObj o { s.getObj o with props := propsWrite (s.getObj o).props n v }
  | .tvRef => { s with tvRef := v }
  | .nullVariant => s
  | .initNullVariant => s

/-- The helper `tvToCell`: resolve one level of `Ref` indirection. -/
def tvToCell (s : State) (base : Loc) : Loc :=
  match s.load base with
  | .ref r => .refInner r
  | _ => base

/-! ## Reference counts -/

/-- The helper `decRefStr`: drop one reference of a counted string. -/
def decRefStr (s : State) (p : Nat) : State :=
  s.setStr p { s.getStr p with count := (s.getStr p).count - 1 }

/-- The helper `decRefArr`: drop one reference of an array. -/
def decRefArr (s : State) (p : Nat) : State :=
  s.setArr p { s.getArr p with count := (s.getArr p).count - 1 }

/-- The helper `decRefObj`: drop one reference of an object. -/
def decRefObj (s : State) (p : Nat) : State :=
  s.setObj p { s.getObj p with count := (s.getObj p).count - 1 }

/-- Modelled from the spec: `release` of the tagged-value helpers
(`tvRefcountedDecRef`), missing from the sources: a counted string, array or
object loses one reference, every other value is left alone.  The counts of
reference boxes and resources are not tracked. -/
def tvRefcountedDecRef (s : State) (tv : TypedValue) : State :=
  match tv with
  | .str p => decRefStr s p
  | .arr p => decRefArr s p
  | .obj p => decRefObj s p
  | _ => s

/-- Modelled from the spec: `duplicate` side of the tagged-value helpers
(`tvRefcountedIncRef`), missing from the sources: a counted string, array or
object gains one reference. -/
def tvRefcountedIncRef (s : State) (tv : TypedValue) : State :=
  match tv with
  | .str p => s.setStr p { s.getStr p with count := (s.getStr p).count + 1 }
  | .arr p => s.setArr p { s.getArr p with count := (s.getArr p).count + 1 }
  | .obj p => s.setObj p { s.getObj p with count := (s.getObj p).count + 1 }
  | _ => s

/-- The helper `tvWriteNull`. -/
def tvWriteNull (s : State) (l : Loc) : State := s.store l .null

/-- The helper `tvWriteUninit`. -/
def tvWriteUninit (s : State) (l : Loc) : State := s.store l .uninit

/-! ## External collaborators -/

/-- The collaborators whose behaviour neither the header nor the specification
fixes: runtime options and constants, conversions of doubles and objects, the
collection library, the userland subscript protocol of objects, and what the
array container does when handed a key that is not a legal offset.  Every use
of one of them in the header is a call to the matching field. -/
structure Externals where
  /-- The option `RuntimeOption::EnableHipHopSyntax`. -/
  EnableHipHopSyntax : Bool
  /-- The build flag `MoreWarnings` (set by `HHVM_MORE_WARNINGS`). -/
  MoreWarnings : Bool
  /-- The constant `StringData::MaxSize`. -/
  MaxSize : Int
  /-- Truncation of a double, given by its bits, to `int64_t`. -/
  dblToInt64 : Nat → Int
  /-- Integer value of an object (`o_toInt64`). -/
  objToInt64 : State → Nat → Int
  /-- String form of a double, array, object or resource. -/
  toStringOther : State → TypedValue → List Byte
  /-- Truth value of a double or an object. -/
  toBooleanOther : State → TypedValue → Bool
  /-- The function `incDecBodySlow`, declared in the header and defined elsewhere. -/
  incDecBodySlow : IncDecOp → Loc → Loc → State → Outcome Unit
  /-- The function `cellIncO` on an integer cell. -/
  cellIncO : Int → TypedValue
  /-- The function `cellDecO` on an integer cell. -/
  cellDecO : Int → TypedValue
  /-- The function `collections::at`. -/
  collectionsAt : Nat → TypedValue → State → Outcome Loc
  /-- The function `collections::get` (a null pointer on a miss). -/
  collectionsGet : Nat → TypedValue → State → Outcome (Option Loc)
  /-- The function `collections::atLval`. -/
  collectionsAtLval : Nat → TypedValue → State → Outcome Loc
  /-- The function `collections::atRw`. -/
  collectionsAtRw : Nat → TypedValue → State → Outcome Loc
  /-- The function `collections::set`. -/
  collectionsSet : Nat → TypedValue → Loc → State → Outcome Unit
  /-- The function `collections::unset`. -/
  collectionsUnset : Nat → TypedValue → State → Outcome Unit
  /-- The function `collections::isset`. -/
  collectionsIsset : Nat → TypedValue → State → Outcome Bool
  /-- The function `collections::empty`. -/
  collectionsEmpty : Nat → TypedValue → State → Outcome Bool
  /-- The function `objOffsetGet`. -/
  objOffsetGet : Nat → TypedValue → State → Outcome TypedValue
  /-- The function `objOffsetSet`; the flag is its argument `validate`. -/
  objOffsetSet : Nat → TypedValue → Loc → Bool → State → Outcome Unit
  /-- The function `objOffsetUnset`. -/
  objOffsetUnset : Nat → TypedValue → State → Outcome Unit
  /-- The function `objOffsetIsset`. -/
  objOffsetIsset : Nat → TypedValue → State → Outcome Bool
  /-- The function `objOffsetEmpty`. -/
  objOffsetEmpty : Nat → TypedValue → State → Outcome Bool
  /-- What `Array::rvalAtRef` does with a key tagged Array or Object. -/
  rvalAtRefBadKey : Nat → TypedValue → State → Outcome Loc
  /-- What `Array::lvalAt` does with a key tagged Array or Object. -/
  lvalAtBadKey : TypedValue → State → Outcome Loc
  /-- What `Array::exists` does with a key tagged Array or Object. -/
  existsBadKey : Nat → TypedValue → State → Outcome Bool
  /-- What `Variant::toKey` does, before it returns the null key, with a key
  tagged Array or Object. -/
  toKeyBadKey : TypedValue → State → Outcome Unit
  /-- What `Array::lvalAt()` (and `lvalAtRef()`) does when the array has no
  next free integer index left. -/
  lvalNewFull : State → Outcome Loc
  /-- The property accessor `ObjectData::prop`, given the object, the class of
  the calling scope and the name. -/
  objProp : Nat → Nat → StrRef → State → Outcome Loc
  /-- The function `setopBody`, called by the header and defined elsewhere:
  `setopBody(lhs, op, rhs)` applies the operator to the cell `*lhs` in place. -/
  setopBody : SetOpOp → Loc → Loc → State → Outcome Unit
  /-- The function `collections::append`. -/
  collectionsAppend : Nat → Loc → State → Outcome Unit
  /-- The function `objOffsetAppend`; the flag is its argument `validate`. -/
  objOffsetAppend : Nat → Loc → Bool → State → Outcome Unit
  /-- The property accessor `ObjectData::propW`. -/
  objPropW : Nat → Nat → StrRef → State → Outcome Loc
  /-- The property accessor `ObjectData::propD`. -/
  objPropD : Nat → Nat → StrRef → State → Outcome Loc
  /-- The property accessor `ObjectData::propWD`. -/
  objPropWD : Nat → Nat → StrRef → State → Outcome Loc
  /-- The method `ObjectData::setProp`, given the object, the class of the
  calling scope, the name and the value cell. -/
  objSetProp : Nat → Nat → StrRef → Loc → State → Outcome Unit
  /-- The method `ObjectData::setOpProp`, given the object, the class of the
  calling scope, the operator, the name and the right-hand side. -/
  objSetOpProp : Nat → Nat → SetOpOp → StrRef → Loc → State → Outcome Loc
  /-- The method `ObjectData::incDecProp`, given the object, the class of the
  calling scope, the operator, the name and the destination cell. -/
  objIncDecProp : Nat → Nat → IncDecOp → StrRef → Loc → State → Outcome Unit
  /-- The method `ObjectData::unsetProp`. -/
  objUnsetProp : Nat → Nat → StrRef → State → Outcome Unit
  /-- The method `ObjectData::propIsset`. -/
  objPropIsset : Nat → Nat → StrRef → State → Outcome Bool
  /-- The method `ObjectData::propEmpty`. -/
  objPropEmpty : Nat → Nat → StrRef → State → Outcome Bool
  /-- What `ArrayData::append` does when the array has no next free integer
  index left. -/
  appendFull : Nat → State → Outcome Nat
  /-- The diagnostics that `tvCastToInt64InPlace`, defined elsewhere, raises
  when it casts a value to an integer. -/
  castToInt64Diags : State → TypedValue → List Diag

/-! ## Strings and conversions -/

/-- The bytes behind a `StringData*`. -/
def StrRef.bytes (s : State) : StrRef → List Byte
  | .static b => b
  | .heap p => (s.getStr p).data

/-- The helper `initScratchKey`: the key as a `TypedValue`. -/
def initScratchKey : Key → TypedValue
  | .int n => .int n
  | .str (.static b) => .sstr b
  | .str (.heap p) => .str p
  | .any tv => tv

/-- The predicate `isStringType`. -/
def isStringType : DataType → Bool
  | .KindOfStaticString => true
  | .KindOfString => true
  | _ => false

/-- The predicate `isNullType`. -/
def isNullType : DataType → Bool
  | .KindOfUninit => true
  | .KindOfNull => true
  | _ => false

/-- Whether a byte is an ASCII decimal digit. -/
def isDigit (b : Byte) : Bool := decide (48 ≤ b.val ∧ b.val ≤ 57)

/-- Whether a byte is C white space (space, tab, newline, vertical tab, form
feed, carriage return). -/
def isSpace (b : Byte) : Bool := decide (b.val = 32 ∨ (9 ≤ b.val ∧ b.val ≤ 13))

/-- The number a run of decimal digits denotes. -/
def digitsVal (ds : List Byte) : Nat :=
  ds.foldl (fun acc b => 10 * acc + (b.val - 48)) 0

/-- The two's-complement wrap of an integer into the range of `int64_t`. -/
def wrap64 (z : Int) : Int := (z + 2 ^ 63) % 2 ^ 64 - 2 ^ 63

/-- Modelled from the spec: `is_strictly_integer_key` of the string container
(`StringData::isStrictlyInteger`), missing from the sources: the string parses
strictly as a decimal integer (no white space, no leading zero except "0", an
optional minus sign not followed by zero, fits in 64 bits); the result is that
integer. -/
def isStrictlyInteger (b : List Byte) : Option Int :=
  match b with
  | [] => none
  | c :: rest =>
    if c = 45 then
      match rest with
      | [] => none
      | d :: _ =>
        if d = 48 then none
        else if rest.all isDigit ∧ digitsVal rest ≤ 2 ^ 63 then
          some (-(digitsVal rest : Int))
        else none
    else if c = 48 ∧ rest ≠ [] then none
    else if b.all isDigit ∧ digitsVal b < 2 ^ 63 then some (digitsVal b : Int)
    else none

/-- Modelled from the spec: `to_int64(base)` of the string container
(`StringData::toInt64(10)`), missing from the sources: base-10 parsing with
leading white space stripped and an optional sign; a non-numeric prefix
yields 0; the result saturates at the bounds of `int64_t`. -/
def toInt64 (b : List Byte) : Int :=
  let b1 := b.dropWhile isSpace
  let neg := decide (b1.head? = some 45)
  let b2 := if b1.head? = some 45 ∨ b1.head? = some 43 then b1.tail else b1
  let n : Int := digitsVal (b2.takeWhile isDigit)
  if neg then max (-n) (-(2 ^ 63)) else min n (2 ^ 63 - 1)

/-- The decimal digits of a natural number, as bytes. -/
def natToBytes (n : Nat) : List Byte :=
  (Nat.toDigits 10 n).map (fun c => Fin.ofNat c.toNat)

/-- The decimal form of an integer, as bytes. -/
def intToBytes (z : Int) : List Byte :=
  if z < 0 then (45 : Byte) :: natToBytes z.natAbs else natToBytes z.natAbs

/-- Modelled from the spec: integer coercion of a cell (`cellToInt`, and
`Variant::toInt64`), missing from the sources: null is 0, a boolean 0 or 1, a
string its base-10 parse, an array 0 when empty and 1 otherwise, a resource
its id; doubles and objects go through the external conversions. -/
def cellToInt (ext : Externals) (s : State) : TypedValue → Int
  | .uninit => 0
  | .null => 0
  | .bool b => if b then 1 else 0
  | .int n => n
  | .dbl d => ext.dblToInt64 d
  | .sstr b => toInt64 b
  | .str p => toInt64 (s.getStr p).data
  | .arr p => if (s.getArr p).elems.isEmpty then 0 else 1
  | .obj p => ext.objToInt64 s p
  | .res id => id
  | .ref _ => 0
  | .cls _ => 0

/-- Modelled from the spec: string form of a cell (`tvCastToString`, and
`Variant::toString`), missing from the sources: a string is itself, null is
the empty string, `true` is "1" and `false` the empty string, an integer its
decimal form; the other tags go through the external conversion. -/
def cellToString (ext : Externals) (s : State) : TypedValue → List Byte
  | .uninit => []
  | .null => []
  | .bool b => if b then [49] else []
  | .int n => intToBytes n
  | .sstr b => b
  | .str p => (s.getStr p).data
  | tv => ext.toStringOther s tv

/-- The text that a `%s` conversion prints for the `char*` handed to it by
`toString().data()`: the bytes of the string before its first NUL. -/
def cStr (b : List Byte) : List Byte :=
  b.takeWhile (fun c => decide (c ≠ 0))

/-- Modelled from the spec: truth value of a cell (`cellToBool`), missing from
the sources: null is false, an integer is true unless 0, a string is true
unless empty or "0", an array is true unless empty; doubles and objects go
through the external conversion. -/
def cellToBool (ext : Externals) (s : State) : TypedValue → Bool
  | .uninit => false
  | .null => false
  | .bool b => b
  | .int n => decide (n ≠ 0)
  | .sstr b => decide (b ≠ [] ∧ b ≠ [48])
  | .str p => decide ((s.getStr p).data ≠ [] ∧ (s.getStr p).data ≠ [48])
  | .arr p => !(s.getArr p).elems.isEmpty
  | .res _ => true
  | tv => ext.toBooleanOther s tv

/-- Modelled from the spec: canonicalization of a Str key (`String::toKey`),
missing from the sources: the integer when the string parses strictly as one,
the string itself otherwise. -/
def strKey (b : List Byte) : ArrayKey :=
  match isStrictlyInteger b with
  | some n => .int n
  | none => .str b

/-- Modelled from the spec: canonicalization of an Any key (`Variant::toKey`),
missing from the sources: Int is itself, a string is canonicalized as a Str
key, Null is the empty string, Double, Bool and Resource are cast to integer,
Array and Object are illegal. -/
def toKey (ext : Externals) (s : State) : TypedValue → Option ArrayKey
  | .uninit => some (.str [])
  | .null => some (.str [])
  | .bool b => some (.int (if b then 1 else 0))
  | .int n => some (.int n)
  | .dbl d => some (.int (ext.dblToInt64 d))
  | .sstr b => some (strKey b)
  | .str p => some (strKey (s.getStr p).data)
  | .res id => some (.int id)
  | _ => none

/-- The bytes of a string cell (empty for a cell that is not a string). -/
def cellBytes (s : State) : TypedValue → List Byte
  | .sstr b => b
  | .str p => (s.getStr p).data
  | _ => []

/-! ## Diagnostic texts -/

/-- Modelled from the spec: the text `Strings::UNDEFINED_INDEX`, defined in
`strings.h`, which is missing from the sources. -/
def Strings.UNDEFINED_INDEX : String := "Undefined index: %s"

/-- Modelled from the spec: the text `Strings::CANNOT_USE_SCALAR_AS_ARRAY`,
defined in `strings.h`, which is missing from the sources. -/
def Strings.CANNOT_USE_SCALAR_AS_ARRAY : String :=
  "Cannot use a scalar value as an array"

/-- Modelled from the spec: the text `Strings::OP_NOT_SUPPORTED_STRING`,
defined in `strings.h`, which is missing from the sources. -/
def Strings.OP_NOT_SUPPORTED_STRING : String :=
  "Operator not supported for strings"

/-- Modelled from the spec: the text `Strings::CANT_UNSET_STRING`, defined in
`strings.h`, which is missing from the sources. -/
def Strings.CANT_UNSET_STRING : String := "Cannot unset string offsets"

/-- Modelled from the spec: the text `Strings::CREATING_DEFAULT_OBJECT`,
defined in `strings.h`, which is missing from the sources. -/
def Strings.CREATING_DEFAULT_OBJECT : String :=
  "Creating default object from empty value"

/-! ## The array container -/

/-- Modelled from the spec: `has_multiple_refs` of the array container
(`ArrayData::hasMultipleRefs`), missing from the sources: the reference count
exceeds 1. -/
def ArrayData.hasMultipleRefs (ad : ArrayData) : Bool := decide (1 < ad.count)

/-- Modelled from the spec: `has_multiple_refs` of the string container
(`StringData::hasMultipleRefs`), missing from the sources: a static string
always reports multiple references, a counted one when its count exceeds 1. -/
def strHasMultipleRefs (s : State) : TypedValue → Bool
  | .str p => decide (1 < (s.getStr p).count)
  | _ => true

/-- Modelled from the spec: `get(key) -> cell?` of the array container
(`ArrayData::nvGet`), missing from the sources: a pointer to the stored cell
when the key is present, the null pointer otherwise. -/
def nvGet (s : State) (a : Nat) (k : ArrayKey) : Option Loc :=
  if (elemsGet (s.getArr a).elems k).isSome then some (.arrElem a k) else none

/-- Modelled from the spec: `exists(key) -> bool` of the array container. -/
def arrayExists (s : State) (a : Nat) (k : ArrayKey) : Bool :=
  (elemsGet (s.getArr a).elems k).isSome

/-- The next free integer index after key `k` has been inserted. -/
def updNextKI (nextKI : Int) : ArrayKey → Int
  | .int n => if nextKI ≤ n then n + 1 else nextKI
  | .str _ => nextKI

/-- Modelled from the spec: `set(key, value, cow_request) -> array*` of the
array container (`ArrayData::set`), missing from the sources: with a copy
requested the update is made on a fresh copy of reference count 1, whose
pointer is returned; otherwise the array is updated in place and its own
pointer returned.  The references that stored elements hold are the
container's own bookkeeping and are not tracked. -/
def arraySet (s : State) (a : Nat) (k : ArrayKey) (v : TypedValue)
    (copy : Bool) : Nat × State :=
  let ad := s.getArr a
  if copy then
    s.allocArr { elems := elemsSet ad.elems k v, nextKI := updNextKI ad.nextKI k, count := 1 }
  else
    (a, s.setArr a { ad with elems := elemsSet ad.elems k v, nextKI := updNextKI ad.nextKI k })

/-- Modelled from the spec: `remove(key, cow_request) -> array*` of the array
container (`ArrayData::remove`), missing from the sources: as `set`, for the
removal of a key. -/
def arrayRemove (s : State) (a : Nat) (k : ArrayKey) (copy : Bool) : Nat × State :=
  let ad := s.getArr a
  if copy then
    s.allocArr { elems := elemsRemove ad.elems k, nextKI := ad.nextKI, count := 1 }
  else
    (a, s.setArr a { ad with elems := elemsRemove ad.elems k })

/-- The entries after `lval(key)`: a missing key is created with a null value. -/
def elemsLval (elems : List (ArrayKey × TypedValue)) (k : ArrayKey) :
    List (ArrayKey × TypedValue) :=
  if (elemsGet elems k).isSome then elems else elemsSet elems k .null

/-- Modelled from the spec: `lval(key) -> cell*` (auto-create if missing) of
the array container, reached through the `Array` handle that sits in the base
slot (`Array::lvalAt`), missing from the sources.  It executes the COW
protocol: an array with multiple references is copied, the copy (reference
count 1) is installed in the base slot and the old array loses one reference;
then the key is created with a null value when missing, and a pointer to its
cell is returned. -/
def arrayLval (s : State) (base : Loc) (k : ArrayKey) : Loc × State :=
  match s.load base with
  | .arr a =>
    let ad := s.getArr a
    if ad.hasMultipleRefs then
      let r := s.allocArr
        { elems := elemsLval ad.elems k, nextKI := updNextKI ad.nextKI k, count := 1 }
      (.arrElem r.1 k, decRefArr (r.2.store base (.arr r.1)) a)
    else
      (.arrElem a k,
        s.setArr a { ad with elems := elemsLval ad.elems k, nextKI := updNextKI ad.nextKI k })
  | _ => (.nullVariant, s)

/-- Modelled from the spec: "replace the base slot with a fresh empty array"
(`tvAsVariant(base) = Array::Create()`), whose pieces are missing from the
sources: a fresh empty array of reference count 1 is written into the slot,
and only then is the old value of the slot released. -/
def assignFreshArray (s : State) (base : Loc) : State :=
  let old := s.load base
  let r := s.allocArr { elems := [], nextKI := 0, count := 1 }
  let s1 := (r.2.store base (.arr r.1)).record (.install base (.arr r.1))
  (tvRefcountedDecRef s1 old).record (.release old)

/-- Modelled from the spec: `Array::lvalAt` with a `Variant` key, missing from
the sources: the key is canonicalized as an Any key, and an illegal key is
left to the container. -/
def arrayLvalVariant (ext : Externals) (base : Loc) (key : TypedValue)
    (s : State) : Outcome Loc :=
  match toKey ext s key with
  | some k => .ok (arrayLval s base k).1 (arrayLval s base k).2
  | none => ext.lvalAtBadKey key s

/-- Modelled from the spec: `Array::set` with `Variant` key and value, reached
through the `Array` handle in the base slot, missing from the sources: the key
is canonicalized as an Any key; the container is asked for a copy when the
array has multiple references, and a copy is installed in the slot while the
old array loses one reference.  An illegal key stores nothing. -/
def arraySetVariant (ext : Externals) (base : Loc) (key : TypedValue)
    (v : TypedValue) (s : State) : Outcome Unit :=
  match toKey ext s key with
  | some k =>
    match s.load base with
    | .arr a =>
      let r := arraySet s a k v (s.getArr a).hasMultipleRefs
      if r.1 = a then .ok () r.2
      else .ok () (decRefArr (r.2.store base (.arr r.1)) a)
    | _ => .ok () s
  | none => ext.toKeyBadKey key s

/-- The canonical key that the `Array` handle uses for a key of each
`KeyType`: an Int key as it is, a Str key by the strictly-integer rule, an Any
key through `toKey`. -/
def keyAsValue (ext : Externals) (s : State) : Key → Option ArrayKey
  | .int n => some (.int n)
  | .str sd => some (strKey (sd.bytes s))
  | .any tv => toKey ext s tv

/-! ## Elem -/

/-- The result of `nvGet`, with `null_variant` standing in for a miss. -/
def nvGetOrNullVariant (s : State) (a : Nat) (k : ArrayKey) : Loc :=
  match nvGet s a k with
  | some l => l
  | none => .nullVariant

/-- The overload `ElemArrayPre(ArrayData*, int64_t)`. -/
def ElemArrayPreInt (a : Nat) (key : Int) (s : State) : Outcome Loc :=
  .ok (nvGetOrNullVariant s a (.int key)) s

/-- The overload `ElemArrayPre(ArrayData*, StringData*)`. -/
def ElemArrayPreStr (a : Nat) (key : StrRef) (s : State) : Outcome Loc :=
  match isStrictlyInteger (key.bytes s) with
  | none => .ok (nvGetOrNullVariant s a (.str (key.bytes s))) s
  | some n => .ok (nvGetOrNullVariant s a (.int n)) s

/-- Modelled from the spec: `Array::rvalAtRef` with a `Variant` key, missing
from the sources: the key is canonicalized as an Any key and looked up, a miss
yielding `null_variant`; an illegal key is left to the container. -/
def rvalAtRef (ext : Externals) (a : Nat) (key : TypedValue) (s : State) :
    Outcome Loc :=
  match toKey ext s key with
  | some k => .ok (nvGetOrNullVariant s a k) s
  | none => ext.rvalAtRefBadKey a key s

/-- The function `ElemArrayPre`, one case per overload. -/
def ElemArrayPre (ext : Externals) (a : Nat) (key : Key) (s : State) :
    Outcome Loc :=
  match key with
  | .int n => ElemArrayPreInt a n s
  | .str sd => ElemArrayPreStr a sd s
  | .any (.int n) => ElemArrayPreInt a n s
  | .any (.sstr b) => ElemArrayPreStr a (.static b) s
  | .any (.str p) => ElemArrayPreStr a (.heap p) s
  | .any tv => rvalAtRef ext a tv s

/-- The function `ElemArray`: Elem when base is an Array. -/
def ElemArray (ext : Externals) (warn : Bool) (a : Nat) (key : Key)
    (s : State) : Outcome Loc :=
  (ElemArrayPre ext a key s).bind fun result s1 =>
    if (s1.load result).m_type = .KindOfUninit then
      if warn then
        .ok .initNullVariant
          (raise_notice s1 Strings.UNDEFINED_INDEX
            (.str (cStr (cellToString ext s1 (initScratchKey key)))))
      else .ok .initNullVariant s1
    else .ok result s1

/-- The function `ElemEmptyish`: Elem when base is Null. -/
def ElemEmptyish (s : State) : Outcome Loc := .ok .initNullVariant s

/-- The function `ElemScalar`: Elem when base is an Int64, Double, or
Resource. -/
def ElemScalar (ext : Externals) (s : State) : Outcome Loc :=
  if ext.EnableHipHopSyntax then
    ElemEmptyish (raise_warning s Strings.CANNOT_USE_SCALAR_AS_ARRAY .none)
  else ElemEmptyish s

/-- The function `ElemBoolean`: Elem when base is a Boolean. -/
def ElemBoolean (ext : Externals) (b : Bool) (s : State) : Outcome Loc :=
  if b then ElemScalar ext s else ElemEmptyish s

/-- The function `ElemStringPre`, one case per overload: the integer offset
of a key into a string. -/
def ElemStringPre (ext : Externals) (key : Key) (s : State) : Int × State :=
  match key with
  | .int n => (n, s)
  | .str sd => (toInt64 (sd.bytes s), s)
  | .any (.int n) => (n, s)
  | .any (.sstr b) => (toInt64 b, s)
  | .any (.str p) => (toInt64 (s.getStr p).data, s)
  | .any tv =>
    (cellToInt ext (raise_notice s "String offset cast occurred" .none) tv,
      raise_notice s "String offset cast occurred" .none)

/-- Modelled from the spec: `get_char(i) -> static_string*` of the string
container (`StringData::getChar`), missing from the sources: the static
one-character string holding byte `i`. -/
def getChar (b : List Byte) (i : Int) : TypedValue :=
  .sstr [b.getD i.toNat 0]

/-- The function `ElemString`: Elem when base is a String. -/
def ElemString (ext : Externals) (warn : Bool) (base : Loc) (key : Key)
    (s : State) : Outcome Loc :=
  let r := ElemStringPre ext key s
  let offset := r.1
  let s1 := r.2
  let pstr := cellBytes s1 (s1.load base)
  if offset < 0 ∨ offset ≥ (pstr.length : Int) then
    if warn && ext.EnableHipHopSyntax then
      .ok .tvRef ((raise_warning s1 "Out of bounds" .none).store .tvRef (.sstr []))
    else .ok .tvRef (s1.store .tvRef (.sstr []))
  else .ok .tvRef (s1.store .tvRef (getChar pstr offset))

/-- The function `ElemObject`: Elem when base is an Object. -/
def ElemObject (ext : Externals) (warn : Bool) (o : Nat) (key : Key)
    (s : State) : Outcome Loc :=
  let scratch := initScratchKey key
  if (s.getObj o).isCollection then
    if warn then ext.collectionsAt o scratch s
    else
      (ext.collectionsGet o scratch s).bind fun res s1 =>
        match res with
        | some l => .ok l s1
        | none => .ok .tvRef (tvWriteNull s1 .tvRef)
  else
    (ext.objOffsetGet o scratch s).bind fun tv s1 =>
      .ok .tvRef (s1.store .tvRef tv)

/-- The function `ElemSlow`: `$result = $base[$key]`. -/
def ElemSlow (ext : Externals) (warn : Bool) (base : Loc) (key : Key)
    (s : State) : Outcome Loc :=
  let base := tvToCell s base
  match s.load base with
  | .uninit => ElemEmptyish s
  | .null => ElemEmptyish s
  | .bool b => ElemBoolean ext b s
  | .int _ => ElemScalar ext s
  | .dbl _ => ElemScalar ext s
  | .res _ => ElemScalar ext s
  | .sstr _ => ElemString ext warn base key s
  | .str _ => ElemString ext warn base key s
  | .arr a => ElemArray ext warn a key s
  | .obj o => ElemObject ext warn o key s
  | .ref _ => .abort s
  | .cls _ => .abort s

/-- The function `Elem`: fast path for an Array base, `ElemSlow` otherwise. -/
def Elem (ext : Externals) (warn : Bool) (base : Loc) (key : Key)
    (s : State) : Outcome Loc :=
  match s.load base with
  | .arr a => ElemArray ext warn a key s
  | _ => ElemSlow ext warn base key s

/-! ## ElemD -/

/-- The function `ElemDArrayPre`, one case per specialization: `lvalAt` on the
array in the base slot. -/
def ElemDArrayPre (ext : Externals) (base : Loc) (key : Key) (s : State) :
    Outcome Loc :=
  match key with
  | .int n => .ok (arrayLval s base (.int n)).1 (arrayLval s base (.int n)).2
  | .str sd =>
    .ok (arrayLval s base (strKey (sd.bytes s))).1 (arrayLval s base (strKey (sd.bytes s))).2
  | .any (.int n) => .ok (arrayLval s base (.int n)).1 (arrayLval s base (.int n)).2
  | .any tv => arrayLvalVariant ext base tv s

/-- The test `baseArr.exists(keyAsValue(key))` of `ElemDArray` and
`ElemUArray`. -/
def baseArrExists (ext : Externals) (base : Loc) (key : Key) (s : State) :
    Outcome Bool :=
  match s.load base with
  | .arr a =>
    match keyAsValue ext s key with
    | some k => .ok (arrayExists s a k) s
    | none => ext.existsBadKey a (initScratchKey key) s
  | _ => .ok false s

/-- The function `ElemDArray`: ElemD when base is an Array. -/
def ElemDArray (ext : Externals) (warn : Bool) (base : Loc) (key : Key)
    (s : State) : Outcome Loc :=
  (if warn then baseArrExists ext base key s else .ok true s).bind
    fun defined s1 =>
      (ElemDArrayPre ext base key s1).bind fun result s2 =>
        if warn && !defined then
          .ok result
            (raise_notice s2 Strings.UNDEFINED_INDEX
              (.str (cStr (cellToString ext s2 (initScratchKey key)))))
        else .ok result s2

/-- The function `ElemDEmptyish`: ElemD when base is Null. -/
def ElemDEmptyish (ext : Externals) (warn : Bool) (base : Loc) (key : Key)
    (s : State) : Outcome Loc :=
  let scratchKey := initScratchKey key
  (arrayLvalVariant ext base scratchKey (assignFreshArray s base)).bind
    fun result s1 =>
      if warn then
        .ok result
          (raise_notice s1 Strings.UNDEFINED_INDEX
            (.str (cStr (cellToString ext s1 scratchKey))))
      else .ok result s1

/-- The function `ElemDScalar`: ElemD when base is an Int64, Double, or
Resource. -/
def ElemDScalar (s : State) : Outcome Loc :=
  .ok .tvRef
    (tvWriteUninit (raise_warning s Strings.CANNOT_USE_SCALAR_AS_ARRAY .none) .tvRef)

/-- The function `ElemDBoolean`: ElemD when base is a Boolean. -/
def ElemDBoolean (ext : Externals) (warn : Bool) (base : Loc) (b : Bool)
    (key : Key) (s : State) : Outcome Loc :=
  if b then ElemDScalar s else ElemDEmptyish ext warn base key s

/-- The function `ElemDString`: ElemD when base is a String. -/
def ElemDString (ext : Externals) (warn : Bool) (base : Loc) (key : Key)
    (s : State) : Outcome Loc :=
  if (cellBytes s (s.load base)).length = 0 then ElemDEmptyish ext warn base key s
  else .fatal "Operator not supported for strings" s

/-- The name `s_storage`. -/
def s_storage : List Byte := [115, 116, 111, 114, 97, 103, 101]

/-- The function `ElemDObject`: ElemD when base is an Object. -/
def ElemDObject (ext : Externals) (reffy : Bool) (o : Nat) (key : Key)
    (s : State) : Outcome Loc :=
  let scratchKey := initScratchKey key
  if (s.getObj o).isCollection then
    if reffy then .fatal "Collection elements cannot be taken by reference" s
    else ext.collectionsAtLval o scratchKey s
  else if (s.getObj o).isArrayObject then
    ElemDArray ext false (.objProp o s_storage) key s
  else
    (ext.objOffsetGet o scratchKey s).bind fun tv s1 =>
      .ok .tvRef (s1.store .tvRef tv)

/-- The function `ElemD`: intermediate elem operation for defining member
instructions. -/
def ElemD (ext : Externals) (warn reffy : Bool) (base : Loc) (key : Key)
    (s : State) : Outcome Loc :=
  let base := tvToCell s base
  match s.load base with
  | .uninit => ElemDEmptyish ext warn base key s
  | .null => ElemDEmptyish ext warn base key s
  | .bool b => ElemDBoolean ext warn base b key s
  | .int _ => ElemDScalar s
  | .dbl _ => ElemDScalar s
  | .res _ => ElemDScalar s
  | .sstr _ => ElemDString ext warn base key s
  | .str _ => ElemDString ext warn base key s
  | .arr _ => ElemDArray ext warn base key s
  | .obj o => ElemDObject ext reffy o key s
  | .ref _ => .abort s
  | .cls _ => .abort s

/-! ## SetElem -/

/-- The function `SetElemEmptyish`: SetElem when base is Null. -/
def SetElemEmptyish (ext : Externals) (base : Loc) (key : Key) (value : Loc)
    (s : State) : Outcome Unit :=
  let scratchKey := initScratchKey key
  let s1 := assignFreshArray s base
  arraySetVariant ext base scratchKey (s1.load value) s1

/-- The function `SetElemScalar`: SetElem when base is an Int64, Double, or
Resource. -/
def SetElemScalar (setResult : Bool) (value : Loc) (s : State) : Outcome Unit :=
  let s1 := raise_warning s Strings.CANNOT_USE_SCALAR_AS_ARRAY .none
  if !setResult then .invalidSetM .null s1
  else .ok () (tvWriteNull (tvRefcountedDecRef s1 (s1.load value)) value)

/-- The function `SetElemBoolean`: SetElem when base is a Boolean. -/
def SetElemBoolean (ext : Externals) (setResult : Bool) (base : Loc) (b : Bool)
    (key : Key) (value : Loc) (s : State) : Outcome Unit :=
  if b then SetElemScalar setResult value s
  else SetElemEmptyish ext base key value s

/-- The function `castKeyToInt`: convert a key to integer for SetElem. -/
def castKeyToInt (ext : Externals) (s : State) : Key → Int
  | .int n => n
  | key => cellToInt ext s (initScratchKey key)

/-- The C function `memcpy` on a buffer: the first `n` bytes of `dst` are
replaced by the first `n` bytes of `src`. -/
def memcpy (dst src : List Byte) (n : Nat) : List Byte :=
  src.take n ++ dst.drop n

/-- The C function `memset` on a buffer: `n` bytes from offset `off` on are
set to `c`. -/
def memset (dst : List Byte) (off : Nat) (c : Byte) (n : Nat) : List Byte :=
  dst.take off ++ List.replicate n c ++ dst.drop (off + n)

/-- Modelled from the spec: `modify_char_in_place(i, c)` of the string
container (`StringData::modifyChar`), missing from the sources: byte `i` of
the string is overwritten in place and the same pointer is returned. -/
def modifyChar (s : State) (p : Nat) (i : Nat) (c : Byte) : Nat × State :=
  (p, s.setStr p { s.getStr p with data := (s.getStr p).data.set i c })

/-- The release `decRefStr(base->m_data.pstr)` of the string in a cell: a
static string is not counted. -/
def decRefStrOf (s : State) : TypedValue → State
  | .str p => decRefStr s p
  | _ => s

/-- The buffer that the allocating branch of `SetElemString` fills: a fresh
buffer of `slen` bytes (`StringData::Make(slen)`) receives the bytes of the
base (`memcpy`), spaces from the old length up to `x` when `x` lies beyond it
(`memset`), and the byte `y0` at `x`. -/
def makeCopyBuf (pstr : List Byte) (x slen : Int) (y0 : Byte) : List Byte :=
  let baseLen := pstr.length
  let buf0 := List.replicate slen.toNat (0 : Byte)
  let buf1 := memcpy buf0 pstr baseLen
  let buf2 :=
    if x > (baseLen : Int) then memset buf1 baseLen 32 (slen.toNat - baseLen - 1)
    else buf1
  buf2.set x.toNat y0

/-- The function `SetElemString`: SetElem when base is a String.  The result
is the address of the returned `StringData*`, or `none` for `nullptr`. -/
def SetElemString (ext : Externals) (setResult : Bool) (base : Loc)
    (key : Key) (value : Loc) (s : State) : Outcome (Option Nat) :=
  let baseLen := (cellBytes s (s.load base)).length
  if baseLen = 0 then
    (SetElemEmptyish ext base key value s).bind fun _ s1 =>
      if !setResult then
        .invalidSetM (s1.load value) (tvRefcountedIncRef s1 (s1.load value))
      else .ok none s1
  else
    let x := castKeyToInt ext s key
    if x < 0 ∨ x ≥ ext.MaxSize then
      let s1 := raise_warning s "Illegal string offset: %lld" (.int x)
      if !setResult then .invalidSetM .null s1
      else .ok none (tvWriteNull (tvRefcountedDecRef s1 (s1.load value)) value)
    else
      let slen : Int := if x ≥ (baseLen : Int) then x + 1 else baseLen
      let valStr := cellToString ext s (s.load value)
      let y0 : Byte := if valStr.length > 0 then valStr.getD 0 0 else 0
      let strlen_y : Nat := if y0 = 0 then 0 else 1
      let s3 :=
        if x ≥ 0 ∧ x < (baseLen : Int) ∧ !strHasMultipleRefs s (s.load base) then
          match s.load base with
          | .str oldp =>
            let r := modifyChar s oldp x.toNat y0
            if r.1 ≠ oldp then (decRefStr r.2 oldp).store base (.str r.1) else r.2
          | _ => s
        else
          let r := s.allocStr
            { data := makeCopyBuf (cellBytes s (s.load base)) x slen y0, count := 1 }
          (decRefStrOf r.2 (s.load base)).store base (.str r.1)
      let r := s3.allocStr { data := (y0 :: []).take strlen_y, count := 1 }
      .ok (some r.1) r.2

/-- The function `SetElemObject`: SetElem when base is an Object. -/
def SetElemObject (ext : Externals) (o : Nat) (key : Key) (value : Loc)
    (s : State) : Outcome Unit :=
  let scratchKey := initScratchKey key
  if (s.getObj o).isCollection then ext.collectionsSet o scratchKey value s
  else ext.objOffsetSet o scratchKey value true s

/-- The function `arrayRefShuffle`: the bookkeeping after mutating an array.
The first component is the returned `ArrayData*` (`none` for the `void` of
`setRef = true`). -/
def arrayRefShuffle (setRef : Bool) (oldData newData : Nat) (base : Loc)
    (s : State) : Option Nat × State :=
  if newData = oldData then
    (if setRef then none else some oldData, s)
  else if setRef then
    if s.load base = .arr oldData then
      (none, decRefArr (s.store base (.arr newData)) oldData)
    else (none, decRefArr s newData)
  else (some newData, decRefArr s oldData)

/-- The overload `SetElemArrayPre(ArrayData*, int64_t, Cell*, bool)`. -/
def SetElemArrayPreInt (a : Nat) (key : Int) (value : Loc) (copy : Bool)
    (s : State) : Outcome Nat :=
  .ok (arraySet s a (.int key) (s.load value) copy).1
    (arraySet s a (.int key) (s.load value) copy).2

/-- The overload `SetElemArrayPre(ArrayData*, StringData*, Cell*, bool)`. -/
def SetElemArrayPreStr (a : Nat) (key : StrRef) (value : Loc) (copy : Bool)
    (s : State) : Outcome Nat :=
  match isStrictlyInteger (key.bytes s) with
  | some n =>
    .ok (arraySet s a (.int n) (s.load value) copy).1
      (arraySet s a (.int n) (s.load value) copy).2
  | none =>
    .ok (arraySet s a (.str (key.bytes s)) (s.load value) copy).1
      (arraySet s a (.str (key.bytes s)) (s.load value) copy).2

/-- The function `SetElemArrayPre`, one case per overload. -/
def SetElemArrayPre (ext : Externals) (setResult : Bool) (a : Nat) (key : Key)
    (value : Loc) (copy : Bool) (s : State) : Outcome Nat :=
  match key with
  | .int n => SetElemArrayPreInt a n value copy s
  | .str sd => SetElemArrayPreStr a sd value copy s
  | .any .uninit =>
    .ok (arraySet s a (.str []) (s.load value) copy).1
      (arraySet s a (.str []) (s.load value) copy).2
  | .any .null =>
    .ok (arraySet s a (.str []) (s.load value) copy).1
      (arraySet s a (.str []) (s.load value) copy).2
  | .any (.sstr b) => SetElemArrayPreStr a (.static b) value copy s
  | .any (.str p) => SetElemArrayPreStr a (.heap p) value copy s
  | .any (.int n) => SetElemArrayPreInt a n value copy s
  | .any (.arr _) =>
    let s1 := raise_warning s "Illegal offset type" .none
    if setResult then .ok a (tvWriteNull (tvRefcountedDecRef s1 (s1.load value)) value)
    else .invalidSetM .null s1
  | .any (.obj _) =>
    let s1 := raise_warning s "Illegal offset type" .none
    if setResult then .ok a (tvWriteNull (tvRefcountedDecRef s1 (s1.load value)) value)
    else .invalidSetM .null s1
  | .any tv => SetElemArrayPreInt a (cellToInt ext s tv) value copy s

/-- The function `SetElemArray`: SetElem when base is an Array. -/
def SetElemArray (ext : Externals) (setResult : Bool) (base : Loc) (a : Nat)
    (key : Key) (value : Loc) (s : State) : Outcome Unit :=
  let copy := (s.getArr a).hasMultipleRefs || decide (s.load value = .arr a)
  (SetElemArrayPre ext setResult a key value copy s).bind fun newData s1 =>
    .ok () (arrayRefShuffle true a newData base s1).2

/-- The function `SetElemSlow`. -/
def SetElemSlow (ext : Externals) (setResult : Bool) (base : Loc) (key : Key)
    (value : Loc) (s : State) : Outcome (Option Nat) :=
  let base := tvToCell s base
  match s.load base with
  | .uninit => (SetElemEmptyish ext base key value s).bind fun _ s1 => .ok none s1
  | .null => (SetElemEmptyish ext base key value s).bind fun _ s1 => .ok none s1
  | .bool b =>
    (SetElemBoolean ext setResult base b key value s).bind fun _ s1 => .ok none s1
  | .int _ => (SetElemScalar setResult value s).bind fun _ s1 => .ok none s1
  | .dbl _ => (SetElemScalar setResult value s).bind fun _ s1 => .ok none s1
  | .res _ => (SetElemScalar setResult value s).bind fun _ s1 => .ok none s1
  | .sstr _ => SetElemString ext setResult base key value s
  | .str _ => SetElemString ext setResult base key value s
  | .arr a =>
    (SetElemArray ext setResult base a key value s).bind fun _ s1 => .ok none s1
  | .obj o => (SetElemObject ext o key value s).bind fun _ s1 => .ok none s1
  | .ref _ => .abort s
  | .cls _ => .abort s

/-- The function `SetElem`: fast path for an Array base, `SetElemSlow`
otherwise. -/
def SetElem (ext : Externals) (setResult : Bool) (base : Loc) (key : Key)
    (value : Loc) (s : State) : Outcome (Option Nat) :=
  match s.load base with
  | .arr a =>
    (SetElemArray ext setResult base a key value s).bind fun _ s1 => .ok none s1
  | _ => SetElemSlow ext setResult base key value s

/-! ## IncDecElem -/

/-- The function `IncDecBody`: writes the result in `*to` without releasing
its old value.  The four plain operators work on the integer payload, which
wraps as a 64-bit two's-complement number. -/
def IncDecBody (ext : Externals) (op : IncDecOp) (fr to_ : Loc) (s : State) :
    Outcome Unit :=
  match s.load fr with
  | .int n =>
    match op with
    | .PreInc =>
      let s1 := s.store fr (.int (wrap64 (n + 1)))
      .ok () (s1.store to_ (s1.load fr))
    | .PostInc =>
      let s1 := s.store to_ (s.load fr)
      .ok () (s1.store fr (.int (wrap64 (n + 1))))
    | .PreDec =>
      let s1 := s.store fr (.int (wrap64 (n - 1)))
      .ok () (s1.store to_ (s1.load fr))
    | .PostDec =>
      let s1 := s.store to_ (s.load fr)
      .ok () (s1.store fr (.int (wrap64 (n - 1))))
    | .PreIncO =>
      let s1 := s.store fr (ext.cellIncO n)
      .ok () (s1.store to_ (s1.load fr))
    | .PostIncO =>
      let s1 := s.store to_ (s.load fr)
      .ok () (s1.store fr (ext.cellIncO n))
    | .PreDecO =>
      let s1 := s.store fr (ext.cellDecO n)
      .ok () (s1.store to_ (s1.load fr))
    | .PostDecO =>
      let s1 := s.store to_ (s.load fr)
      .ok () (s1.store fr (ext.cellDecO n))
  | _ => ext.incDecBodySlow op fr to_ s

/-- Modelled from the spec: a local `Array a = Array::Create()` on which
`lvalAt(key)` is taken before `tvAsVariant(base) = a` installs it, pieces
missing from the sources: a fresh array of reference count 1 receives the
canonicalized key with a null value, is written into the base slot, and only
then is the old value of the slot released. -/
def createLvalAssign (ext : Externals) (base : Loc) (key : TypedValue)
    (s : State) : Outcome Loc :=
  match toKey ext s key with
  | some k =>
    let r := s.allocArr { elems := [(k, .null)], nextKI := updNextKI 0 k, count := 1 }
    let s1 := (r.2.store base (.arr r.1)).record (.install base (.arr r.1))
    .ok (.arrElem r.1 k) ((tvRefcountedDecRef s1 (s.load base)).record (.release (s.load base)))
  | none =>
    (ext.lvalAtBadKey key s).bind fun result s1 =>
      let r := s1.allocArr { elems := [], nextKI := 0, count := 1 }
      let s2 := (r.2.store base (.arr r.1)).record (.install base (.arr r.1))
      .ok result ((tvRefcountedDecRef s2 (s1.load base)).record (.release (s1.load base)))

/-- The function `IncDecElemEmptyish`. -/
def IncDecElemEmptyish (ext : Externals) (op : IncDecOp) (base : Loc)
    (key : TypedValue) (dest : Loc) (s : State) : Outcome Unit :=
  (createLvalAssign ext base key s).bind fun result s1 =>
    let s2 :=
      if ext.MoreWarnings then
        raise_notice s1 Strings.UNDEFINED_INDEX (.str (cStr (cellToString ext s1 key)))
      else s1
    IncDecBody ext op result dest s2

/-- The function `IncDecElemScalar`. -/
def IncDecElemScalar (dest : Loc) (s : State) : Outcome Unit :=
  .ok () (tvWriteNull (raise_warning s Strings.CANNOT_USE_SCALAR_AS_ARRAY .none) dest)

/-- The function `IncDecElem`. -/
def IncDecElem (ext : Externals) (op : IncDecOp) (base : Loc)
    (key : TypedValue) (dest : Loc) (s : State) : Outcome Unit :=
  let base := tvToCell s base
  match s.load base with
  | .uninit => IncDecElemEmptyish ext op base key dest s
  | .null => IncDecElemEmptyish ext op base key dest s
  | .bool b =>
    if b then IncDecElemScalar dest s
    else IncDecElemEmptyish ext op base key dest s
  | .int _ => IncDecElemScalar dest s
  | .dbl _ => IncDecElemScalar dest s
  | .res _ => IncDecElemScalar dest s
  | .sstr b =>
    if b.length ≠ 0 then
      .fatal "Cannot increment/decrement overloaded objects nor string offsets" s
    else IncDecElemEmptyish ext op base key dest s
  | .str p =>
    if (s.getStr p).data.length ≠ 0 then
      .fatal "Cannot increment/decrement overloaded objects nor string offsets" s
    else IncDecElemEmptyish ext op base key dest s
  | .arr _ =>
    (ElemDArray ext ext.MoreWarnings base (.any key) s).bind fun result s1 =>
      IncDecBody ext op (tvToCell s1 result) dest s1
  | .obj o =>
    if (s.getObj o).isCollection then
      (ext.collectionsAtRw o key s).bind fun result s1 =>
        IncDecBody ext op result dest s1
    else
      (ext.objOffsetGet o key s).bind fun tv s1 =>
        let s2 := s1.store .tvRef tv
        IncDecBody ext op (tvToCell s2 .tvRef) dest s2
  | .ref _ => .abort s
  | .cls _ => .abort s

/-! ## UnsetElem -/

/-- The overload `UnsetElemArrayPre(ArrayData*, int64_t, bool)`. -/
def UnsetElemArrayPreInt (a : Nat) (key : Int) (copy : Bool) (s : State) :
    Outcome Nat :=
  .ok (arrayRemove s a (.int key) copy).1 (arrayRemove s a (.int key) copy).2

/-- The overload `UnsetElemArrayPre(ArrayData*, StringData*, bool)`. -/
def UnsetElemArrayPreStr (a : Nat) (key : StrRef) (copy : Bool) (s : State) :
    Outcome Nat :=
  match isStrictlyInteger (key.bytes s) with
  | none =>
    .ok (arrayRemove s a (.str (key.bytes s)) copy).1
      (arrayRemove s a (.str (key.bytes s)) copy).2
  | some n => .ok (arrayRemove s a (.int n) copy).1 (arrayRemove s a (.int n) copy).2

/-- The function `UnsetElemArrayPre`, one case per overload. -/
def UnsetElemArrayPre (ext : Externals) (a : Nat) (key : Key) (copy : Bool)
    (s : State) : Outcome Nat :=
  match key with
  | .int n => UnsetElemArrayPreInt a n copy s
  | .str sd => UnsetElemArrayPreStr a sd copy s
  | .any (.sstr b) => UnsetElemArrayPreStr a (.static b) copy s
  | .any (.str p) => UnsetElemArrayPreStr a (.heap p) copy s
  | .any (.int n) => UnsetElemArrayPreInt a n copy s
  | .any tv =>
    match toKey ext s tv with
    | none => (ext.toKeyBadKey tv s).bind fun _ s1 => .ok a s1
    | some k => .ok (arrayRemove s a k copy).1 (arrayRemove s a k copy).2

/-- The function `UnsetElemArray`: UnsetElem when base is an Array. -/
def UnsetElemArray (ext : Externals) (base : Loc) (a : Nat) (key : Key)
    (s : State) : Outcome Unit :=
  let copy := (s.getArr a).hasMultipleRefs
  (UnsetElemArrayPre ext a key copy s).bind fun a2 s1 =>
    if a2 ≠ a then
      match s1.load base with
      | .arr old => .ok () (decRefArr (s1.store base (.arr a2)) old)
      | _ => .ok () (s1.store base (.arr a2))
    else .ok () s1

/-- The function `UnsetElemSlow`: `unset($base[$member])`. -/
def UnsetElemSlow (ext : Externals) (base : Loc) (key : Key) (s : State) :
    Outcome Unit :=
  let base := tvToCell s base
  match s.load base with
  | .uninit => .ok () s
  | .null => .ok () s
  | .bool _ => .ok () s
  | .int _ => .ok () s
  | .dbl _ => .ok () s
  | .res _ => .ok () s
  | .sstr _ => .fatal Strings.CANT_UNSET_STRING s
  | .str _ => .fatal Strings.CANT_UNSET_STRING s
  | .arr a => UnsetElemArray ext base a key s
  | .obj o =>
    if (s.getObj o).isCollection then ext.collectionsUnset o (initScratchKey key) s
    else ext.objOffsetUnset o (initScratchKey key) s
  | .ref _ => .abort s
  | .cls _ => .abort s

/-- The function `UnsetElem`: fast path for an Array base, `UnsetElemSlow`
otherwise. -/
def UnsetElem (ext : Externals) (base : Loc) (key : Key) (s : State) :
    Outcome Unit :=
  match s.load base with
  | .arr a => UnsetElemArray ext base a key s
  | _ => UnsetElemSlow ext base key s

/-! ## IssetEmptyElem -/

/-- The function `IssetEmptyElemObj`: IssetEmptyElem when base is an Object. -/
def IssetEmptyElemObj (ext : Externals) (useEmpty : Bool) (o : Nat) (key : Key)
    (s : State) : Outcome Bool :=
  let scratchKey := initScratchKey key
  if (s.getObj o).isCollection then
    if useEmpty then ext.collectionsEmpty o scratchKey s
    else ext.collectionsIsset o scratchKey s
  else if useEmpty then ext.objOffsetEmpty o scratchKey s
  else ext.objOffsetIsset o scratchKey s

/-- The white space that `IssetEmptyElemString` skips in front of a string
key. -/
def isIssetSpace (b : Byte) : Bool :=
  decide (b.val = 32 ∨ b.val = 9 ∨ b.val = 13 ∨ b.val = 10)

/-- The flag `badKey` of `IssetEmptyElemString` for a key that is not an
integer. -/
def issetBadKey (s : State) : TypedValue → Bool
  | .sstr b => (isStrictlyInteger (b.dropWhile isIssetSpace)).isNone
  | .str p => (isStrictlyInteger ((s.getStr p).data.dropWhile isIssetSpace)).isNone
  | .arr _ => true
  | .obj _ => true
  | .res _ => true
  | _ => false

/-- The function `IssetEmptyElemString`: IssetEmptyElem when base is a
String.  A key that is not an Int is cast to an integer whether it is a bad key
or not (`tvCastToInt64InPlace` on a local copy), which raises the diagnostics of
the cast; the base is read after the cast. -/
def IssetEmptyElemString (ext : Externals) (useEmpty : Bool) (base : Loc)
    (key : Key) (s : State) : Outcome Bool :=
  let scratchKey := initScratchKey key
  let tail := fun (x : Int) (t : State) =>
    let pstr := cellBytes t (t.load base)
    if x < 0 ∨ x ≥ (pstr.length : Int) then useEmpty
    else if !useEmpty then true
    else !cellToBool ext t (getChar pstr x)
  match scratchKey with
  | .int n => .ok (tail n s) s
  | tv =>
    let badKey := issetBadKey s tv
    let x := cellToInt ext s tv
    let s1 := s.raiseAll (ext.castToInt64Diags s tv)
    if badKey then .ok useEmpty s1
    else .ok (tail x s1) s1

/-- The function `IssetEmptyElemArray`: IssetEmptyElem when base is an
Array. -/
def IssetEmptyElemArray (ext : Externals) (useEmpty : Bool) (a : Nat)
    (key : Key) (s : State) : Outcome Bool :=
  (ElemArray ext false a key s).bind fun result s1 =>
    if useEmpty then .ok (!cellToBool ext s1 (s1.load (tvToCell s1 result))) s1
    else .ok (!isNullType (s1.load (tvToCell s1 result)).m_type) s1

/-- The function `IssetEmptyElemSlow`: `isset/empty($base[$key])`. -/
def IssetEmptyElemSlow (ext : Externals) (useEmpty : Bool) (base : Loc)
    (key : Key) (s : State) : Outcome Bool :=
  let base := tvToCell s base
  match s.load base with
  | .uninit => .ok useEmpty s
  | .null => .ok useEmpty s
  | .bool _ => .ok useEmpty s
  | .int _ => .ok useEmpty s
  | .dbl _ => .ok useEmpty s
  | .res _ => .ok useEmpty s
  | .sstr _ => IssetEmptyElemString ext useEmpty base key s
  | .str _ => IssetEmptyElemString ext useEmpty base key s
  | .arr a => IssetEmptyElemArray ext useEmpty a key s
  | .obj o => IssetEmptyElemObj ext useEmpty o key s
  | .ref _ => .abort s
  | .cls _ => .abort s

/-- The function `IssetEmptyElem`: fast path for an Array base,
`IssetEmptyElemSlow` otherwise. -/
def IssetEmptyElem (ext : Externals) (useEmpty : Bool) (base : Loc)
    (key : Key) (s : State) : Outcome Bool :=
  match s.load base with
  | .arr a => IssetEmptyElemArray ext useEmpty a key s
  | _ => IssetEmptyElemSlow ext useEmpty base key s

/-! ## ElemU -/

/-- The function `ElemUArrayImpl`, one case per specialization: `lvalAt` on the
array in the base slot. -/
def ElemUArrayImpl (ext : Externals) (base : Loc) (key : Key) (s : State) :
    Outcome Loc :=
  match key with
  | .int n => .ok (arrayLval s base (.int n)).1 (arrayLval s base (.int n)).2
  | .str sd =>
    .ok (arrayLval s base (strKey (sd.bytes s))).1 (arrayLval s base (strKey (sd.bytes s))).2
  | .any (.int n) => .ok (arrayLval s base (.int n)).1 (arrayLval s base (.int n)).2
  | .any tv => arrayLvalVariant ext base tv s

/-- The function `ElemUArray`: ElemU when base is an Array. -/
def ElemUArray (ext : Externals) (base : Loc) (key : Key) (s : State) :
    Outcome Loc :=
  (baseArrExists ext base key s).bind fun defined s1 =>
    if defined then ElemUArrayImpl ext base key s1
    else .ok .tvRef (tvWriteUninit s1 .tvRef)

/-- The function `ElemUObject`: ElemU when base is an Object. -/
def ElemUObject (ext : Externals) (o : Nat) (key : Key) (s : State) :
    Outcome Loc :=
  let scratchKey := initScratchKey key
  if (s.getObj o).isCollection then ext.collectionsAtLval o scratchKey s
  else
    (ext.objOffsetGet o scratchKey s).bind fun tv s1 =>
      .ok .tvRef (s1.store .tvRef tv)

/-- The function `ElemU`: intermediate Elem operation for an unsetting member
instruction. -/
def ElemU (ext : Externals) (base : Loc) (key : Key) (s : State) : Outcome Loc :=
  let base := tvToCell s base
  match s.load base with
  | .uninit => .ok .nullVariant s
  | .null => .ok .nullVariant s
  | .bool _ => .ok .nullVariant s
  | .int _ => .ok .nullVariant s
  | .dbl _ => .ok .nullVariant s
  | .res _ => .ok .nullVariant s
  | .sstr _ => .fatal Strings.OP_NOT_SUPPORTED_STRING s
  | .str _ => .fatal Strings.OP_NOT_SUPPORTED_STRING s
  | .arr _ => ElemUArray ext base key s
  | .obj o => ElemUObject ext o key s
  | .ref _ => .abort s
  | .cls _ => .abort s

/-! ## NewElem -/

/-- Modelled from the spec: `lval_append() -> cell*` of the array container,
reached through the `Array` handle in the base slot (`Array::lvalAt()`),
missing from the sources: "appends a null element and returns its lvalue".
It executes the COW protocol as `lval(key)` does; the new entry takes the next
free integer index, and an array that has none left is left to the
container. -/
def arrayLvalNew (ext : Externals) (base : Loc) (s : State) : Outcome Loc :=
  match s.load base with
  | .arr a =>
    let ad := s.getArr a
    if 2 ^ 63 ≤ ad.nextKI then ext.lvalNewFull s
    else if ad.hasMultipleRefs then
      let r := s.allocArr
        { elems := elemsSet ad.elems (.int ad.nextKI) .null, nextKI := ad.nextKI + 1,
          count := 1 }
      .ok (.arrElem r.1 (.int ad.nextKI)) (decRefArr (r.2.store base (.arr r.1)) a)
    else
      .ok (.arrElem a (.int ad.nextKI))
        (s.setArr a
          { ad with elems := elemsSet ad.elems (.int ad.nextKI) .null,
                    nextKI := ad.nextKI + 1 })
  | _ => .ok .nullVariant s

/-- Modelled from the spec: a local `Array a = Array::Create()` on which
`lvalAt()` is taken before `tvAsVariant(base) = a` installs it, pieces missing
from the sources: a fresh array of reference count 1 receives a null element
at index 0, is written into the base slot, and only then is the old value of
the slot released. -/
def createLvalNewAssign (base : Loc) (s : State) : Loc × State :=
  let r := s.allocArr { elems := [(.int 0, .null)], nextKI := 1, count := 1 }
  let s1 := (r.2.store base (.arr r.1)).record (.install base (.arr r.1))
  (.arrElem r.1 (.int 0), (tvRefcountedDecRef s1 (s.load base)).record (.release (s.load base)))

/-- The function `NewElemEmptyish`: NewElem when base is Null. -/
def NewElemEmptyish (base : Loc) (s : State) : Outcome Loc :=
  .ok (createLvalNewAssign base s).1 (createLvalNewAssign base s).2

/-- The function `NewElemInvalid`: NewElem when base is not a valid type (a
number, true boolean, non-empty string, etc.). -/
def NewElemInvalid (s : State) : Outcome Loc :=
  .ok .tvRef
    (tvWriteUninit (raise_warning s "Cannot use a scalar value as an array" .none) .tvRef)

/-- The function `NewElemBoolean`: NewElem when base is a Boolean. -/
def NewElemBoolean (base : Loc) (b : Bool) (s : State) : Outcome Loc :=
  if b then NewElemInvalid s else NewElemEmptyish base s

/-- The function `NewElemString`: NewElem when base is a String. -/
def NewElemString (base : Loc) (s : State) : Outcome Loc :=
  if (cellBytes s (s.load base)).length = 0 then NewElemEmptyish base s
  else NewElemInvalid s

/-- The function `NewElemArray`: NewElem when base is an Array.  The by-reference
flavour `lvalAtRef()` appends in the same way. -/
def NewElemArray (ext : Externals) (reffy : Bool) (base : Loc) (s : State) :
    Outcome Loc :=
  if reffy then arrayLvalNew ext base s else arrayLvalNew ext base s

/-- The function `NewElemObject`: NewElem when base is an Object.  The call
`throw_cannot_use_newelem_for_lval_read` throws. -/
def NewElemObject (ext : Externals) (o : Nat) (s : State) : Outcome Loc :=
  if (s.getObj o).isCollection then .thrown s
  else
    (ext.objOffsetGet o .null s).bind fun tv s1 =>
      .ok .tvRef (s1.store .tvRef tv)

/-- The function `NewElem`: `$result = ($base[] = ...)`. -/
def NewElem (ext : Externals) (reffy : Bool) (base : Loc) (s : State) :
    Outcome Loc :=
  let base := tvToCell s base
  match s.load base with
  | .uninit => NewElemEmptyish base s
  | .null => NewElemEmptyish base s
  | .bool b => NewElemBoolean base b s
  | .int _ => NewElemInvalid s
  | .dbl _ => NewElemInvalid s
  | .res _ => NewElemInvalid s
  | .sstr _ => NewElemString base s
  | .str _ => NewElemString base s
  | .arr _ => NewElemArray ext reffy base s
  | .obj o => NewElemObject ext o s
  | .ref _ => .abort s
  | .cls _ => .abort s

/-! ## Properties -/

/-- The function `nullSafeProp`.  The argument `ctx` is the class of the
calling scope. -/
def nullSafeProp (ext : Externals) (ctx : Nat) (base : Loc) (key : StrRef)
    (s : State) : Outcome Loc :=
  let base := tvToCell s base
  match s.load base with
  | .uninit => .ok .tvRef (tvWriteNull s .tvRef)
  | .null => .ok .tvRef (tvWriteNull s .tvRef)
  | .bool _ =>
    .ok .tvRef (raise_notice (tvWriteNull s .tvRef) "Cannot access property on non-object" .none)
  | .int _ =>
    .ok .tvRef (raise_notice (tvWriteNull s .tvRef) "Cannot access property on non-object" .none)
  | .dbl _ =>
    .ok .tvRef (raise_notice (tvWriteNull s .tvRef) "Cannot access property on non-object" .none)
  | .res _ =>
    .ok .tvRef (raise_notice (tvWriteNull s .tvRef) "Cannot access property on non-object" .none)
  | .sstr _ =>
    .ok .tvRef (raise_notice (tvWriteNull s .tvRef) "Cannot access property on non-object" .none)
  | .str _ =>
    .ok .tvRef (raise_notice (tvWriteNull s .tvRef) "Cannot access property on non-object" .none)
  | .arr _ =>
    .ok .tvRef (raise_notice (tvWriteNull s .tvRef) "Cannot access property on non-object" .none)
  | .obj o => ext.objProp o ctx key s
  | .ref _ => .abort s
  | .cls _ => .abort s

/-! ## SetNewElem -/

/-- Modelled from the spec: `append(value, cow_request) -> array*` of the array
container (`ArrayData::append`), missing from the sources: as `set`, for a
value stored under the next free integer index; an array that has no index
left is left to the container. -/
def arrayAppend (ext : Externals) (a : Nat) (v : TypedValue) (copy : Bool)
    (s : State) : Outcome Nat :=
  let ad := s.getArr a
  if 2 ^ 63 ≤ ad.nextKI then ext.appendFull a s
  else if copy then
    .ok (s.allocArr
          { elems := elemsSet ad.elems (.int ad.nextKI) v, nextKI := ad.nextKI + 1,
            count := 1 }).1
      (s.allocArr
          { elems := elemsSet ad.elems (.int ad.nextKI) v, nextKI := ad.nextKI + 1,
            count := 1 }).2
  else
    .ok a
      (s.setArr a
        { ad with elems := elemsSet ad.elems (.int ad.nextKI) v, nextKI := ad.nextKI + 1 })

/-- The function `SetNewElemEmptyish`: SetNewElem when base is Null.  The
pieces `Array::Create`, `append` and the assignment `tvAsVariant(base) = a` are
missing from the sources and modelled from the spec: a fresh array of
reference count 1 holds the value at index 0, is written into the base slot,
and only then is the old value of the slot released. -/
def SetNewElemEmptyish (base value : Loc) (s : State) : Outcome Unit :=
  let old := s.load base
  let r := s.allocArr { elems := [(.int 0, s.load value)], nextKI := 1, count := 1 }
  let s1 := (r.2.store base (.arr r.1)).record (.install base (.arr r.1))
  .ok () ((tvRefcountedDecRef s1 old).record (.release old))

/-- The function `SetNewElemScalar`: SetNewElem when base is Int64 or Double. -/
def SetNewElemScalar (setResult : Bool) (value : Loc) (s : State) : Outcome Unit :=
  let s1 := raise_warning s Strings.CANNOT_USE_SCALAR_AS_ARRAY .none
  if !setResult then .invalidSetM .null s1
  else .ok () (tvWriteNull (tvRefcountedDecRef s1 (s1.load value)) value)

/-- The function `SetNewElemBoolean`: SetNewElem when base is a Boolean. -/
def SetNewElemBoolean (setResult : Bool) (base : Loc) (b : Bool) (value : Loc)
    (s : State) : Outcome Unit :=
  if b then SetNewElemScalar setResult value s
  else SetNewElemEmptyish base value s

/-- The function `SetNewElemString`: SetNewElem when base is a String. -/
def SetNewElemString (base value : Loc) (s : State) : Outcome Unit :=
  let baseLen := (cellBytes s (s.load base)).length
  if baseLen = 0 then SetNewElemEmptyish base value s
  else .fatal "[] operator not supported for strings" s

/-- The function `SetNewElemArray`: SetNewElem when base is an Array. -/
def SetNewElemArray (ext : Externals) (base : Loc) (a : Nat) (value : Loc)
    (s : State) : Outcome Unit :=
  let copy := (s.getArr a).hasMultipleRefs || decide (s.load value = .arr a)
  (arrayAppend ext a (s.load value) copy s).bind fun a2 s1 =>
    if a2 ≠ a then
      match s1.load base with
      | .arr old => .ok () (decRefArr (s1.store base (.arr a2)) old)
      | _ => .ok () (s1.store base (.arr a2))
    else .ok () s1

/-- The function `SetNewElemObject`: SetNewElem when base is an Object. -/
def SetNewElemObject (ext : Externals) (o : Nat) (value : Loc) (s : State) :
    Outcome Unit :=
  if (s.getObj o).isCollection then ext.collectionsAppend o value s
  else ext.objOffsetAppend o value true s

/-- The function `SetNewElem`: `$base[] = ...`. -/
def SetNewElem (ext : Externals) (setResult : Bool) (base value : Loc)
    (s : State) : Outcome Unit :=
  let base := tvToCell s base
  match s.load base with
  | .uninit => SetNewElemEmptyish base value s
  | .null => SetNewElemEmptyish base value s
  | .bool b => SetNewElemBoolean setResult base b value s
  | .int _ => SetNewElemScalar setResult value s
  | .dbl _ => SetNewElemScalar setResult value s
  | .res _ => SetNewElemScalar setResult value s
  | .sstr _ => SetNewElemString base value s
  | .str _ => SetNewElemString base value s
  | .arr a => SetNewElemArray ext base a value s
  | .obj o => SetNewElemObject ext o value s
  | .ref _ => .abort s
  | .cls _ => .abort s

/-! ## SetOpElem and SetOpNewElem -/

/-- The function `SetOpElemEmptyish`: SetOpElem when base is Null. -/
def SetOpElemEmptyish (ext : Externals) (op : SetOpOp) (base : Loc)
    (key : TypedValue) (rhs : Loc) (s : State) : Outcome Loc :=
  (createLvalAssign ext base key s).bind fun result s1 =>
    let s2 :=
      if ext.MoreWarnings then
        raise_notice s1 Strings.UNDEFINED_INDEX (.str (cStr (cellToString ext s1 key)))
      else s1
    (ext.setopBody op result rhs s2).bind fun _ s3 => .ok result s3

/-- Modelled from the spec: `instanceFromTv`, missing from the sources: the
object that a cell holds, read from the cell at the moment of the call; on a
cell that holds no object its assertion fails. -/
def instanceFromTv (s : State) (base : Loc) : Option Nat :=
  match s.load base with
  | .obj o => some o
  | _ => none

/-- The function `SetOpElemScalar`: SetOpElem when base is Int64 or Double. -/
def SetOpElemScalar (s : State) : Outcome Loc :=
  .ok .tvRef (tvWriteNull (raise_warning s Strings.CANNOT_USE_SCALAR_AS_ARRAY .none) .tvRef)

/-- The function `SetOpElem`: `$result = ($base[$x] <op>= $y)`. -/
def SetOpElem (ext : Externals) (op : SetOpOp) (base : Loc) (key : TypedValue)
    (rhs : Loc) (s : State) : Outcome Loc :=
  let base := tvToCell s base
  match s.load base with
  | .uninit => SetOpElemEmptyish ext op base key rhs s
  | .null => SetOpElemEmptyish ext op base key rhs s
  | .bool b =>
    if b then SetOpElemScalar s
    else SetOpElemEmptyish ext op base key rhs s
  | .int _ => SetOpElemScalar s
  | .dbl _ => SetOpElemScalar s
  | .res _ => SetOpElemScalar s
  | .sstr b =>
    if b.length ≠ 0 then
      .fatal "Cannot use assign-op operators with overloaded objects nor string offsets" s
    else SetOpElemEmptyish ext op base key rhs s
  | .str p =>
    if (s.getStr p).data.length ≠ 0 then
      .fatal "Cannot use assign-op operators with overloaded objects nor string offsets" s
    else SetOpElemEmptyish ext op base key rhs s
  | .arr _ =>
    (ElemDArray ext ext.MoreWarnings base (.any key) s).bind fun result s1 =>
      (ext.setopBody op (tvToCell s1 result) rhs s1).bind fun _ s2 =>
        .ok (tvToCell s1 result) s2
  | .obj o =>
    if (s.getObj o).isCollection then
      (ext.collectionsAtRw o key s).bind fun result s1 =>
        (ext.setopBody op (tvToCell s1 result) rhs s1).bind fun _ s2 => .ok result s2
    else
      (ext.objOffsetGet o key s).bind fun tv s1 =>
        let s2 := s1.store .tvRef tv
        (ext.setopBody op (tvToCell s2 .tvRef) rhs s2).bind fun _ s3 =>
          match instanceFromTv s3 base with
          | some o2 =>
            (ext.objOffsetSet o2 key .tvRef false s3).bind fun _ s4 => .ok .tvRef s4
          | none => .abort s3
  | .ref _ => .abort s
  | .cls _ => .abort s

/-- The function `SetOpNewElemEmptyish`. -/
def SetOpNewElemEmptyish (ext : Externals) (op : SetOpOp) (base rhs : Loc)
    (s : State) : Outcome Loc :=
  let r := createLvalNewAssign base s
  (ext.setopBody op (tvToCell r.2 r.1) rhs r.2).bind fun _ s1 => .ok r.1 s1

/-- The function `SetOpNewElemScalar`. -/
def SetOpNewElemScalar (s : State) : Outcome Loc :=
  .ok .tvRef (tvWriteNull (raise_warning s Strings.CANNOT_USE_SCALAR_AS_ARRAY .none) .tvRef)

/-- The function `SetOpNewElem`. -/
def SetOpNewElem (ext : Externals) (op : SetOpOp) (base rhs : Loc) (s : State) :
    Outcome Loc :=
  let base := tvToCell s base
  match s.load base with
  | .uninit => SetOpNewElemEmptyish ext op base rhs s
  | .null => SetOpNewElemEmptyish ext op base rhs s
  | .bool b =>
    if b then SetOpNewElemScalar s
    else SetOpNewElemEmptyish ext op base rhs s
  | .int _ => SetOpNewElemScalar s
  | .dbl _ => SetOpNewElemScalar s
  | .res _ => SetOpNewElemScalar s
  | .sstr b =>
    if b.length ≠ 0 then .fatal "[] operator not supported for strings" s
    else SetOpNewElemEmptyish ext op base rhs s
  | .str p =>
    if (s.getStr p).data.length ≠ 0 then .fatal "[] operator not supported for strings" s
    else SetOpNewElemEmptyish ext op base rhs s
  | .arr _ =>
    (arrayLvalNew ext base s).bind fun result s1 =>
      (ext.setopBody op (tvToCell s1 result) rhs s1).bind fun _ s2 => .ok result s2
  | .obj o =>
    if (s.getObj o).isCollection then .thrown s
    else
      (ext.objOffsetGet o .null s).bind fun tv s1 =>
        let s2 := s1.store .tvRef tv
        (ext.setopBody op (tvToCell s2 .tvRef) rhs s2).bind fun _ s3 =>
          match instanceFromTv s3 base with
          | some o2 =>
            (ext.objOffsetAppend o2 .tvRef false s3).bind fun _ s4 => .ok .tvRef s4
          | none => .abort s3
  | .ref _ => .abort s
  | .cls _ => .abort s

/-! ## IncDecNewElem -/

/-- The function `IncDecNewElemEmptyish`. -/
def IncDecNewElemEmptyish (ext : Externals) (op : IncDecOp) (base dest : Loc)
    (s : State) : Outcome Unit :=
  let r := createLvalNewAssign base s
  IncDecBody ext op r.1 dest r.2

/-- The function `IncDecNewElemScalar`. -/
def IncDecNewElemScalar (dest : Loc) (s : State) : Outcome Unit :=
  .ok () (tvWriteNull (raise_warning s Strings.CANNOT_USE_SCALAR_AS_ARRAY .none) dest)

/-- The function `IncDecNewElem`. -/
def IncDecNewElem (ext : Externals) (op : IncDecOp) (base dest : Loc) (s : State) :
    Outcome Unit :=
  let base := tvToCell s base
  match s.load base with
  | .uninit => IncDecNewElemEmptyish ext op base dest s
  | .null => IncDecNewElemEmptyish ext op base dest s
  | .bool b =>
    if b then IncDecNewElemScalar dest s
    else IncDecNewElemEmptyish ext op base dest s
  | .int _ => IncDecNewElemScalar dest s
  | .dbl _ => IncDecNewElemScalar dest s
  | .res _ => IncDecNewElemScalar dest s
  | .sstr b =>
    if b.length ≠ 0 then .fatal "[] operator not supported for strings" s
    else IncDecNewElemEmptyish ext op base dest s
  | .str p =>
    if (s.getStr p).data.length ≠ 0 then .fatal "[] operator not supported for strings" s
    else IncDecNewElemEmptyish ext op base dest s
  | .arr _ =>
    (arrayLvalNew ext base s).bind fun result s1 =>
      IncDecBody ext op (tvToCell s1 result) dest s1
  | .obj o =>
    if (s.getObj o).isCollection then .thrown s
    else
      (ext.objOffsetGet o .null s).bind fun tv s1 =>
        let s2 := s1.store .tvRef tv
        IncDecBody ext op (tvToCell s2 .tvRef) dest s2
  | .ref _ => .abort s
  | .cls _ => .abort s

/-! ## The property family -/

/-- Modelled from the spec: `newInstance(SystemLib::s_stdclassClass)`, missing
from the sources: "construct a fresh instance of the system stdclass", an
object of reference count 1 that is not a collection and has no property. -/
def newInstanceStdclass (s : State) : Nat × State :=
  s.allocObj { isCollection := false, isArrayObject := false, props := [], count := 1 }

/-- Modelled from the spec: `setProp` of the object protocol on the stdclass
instance that the caller has just made (`obj->setProp(nullptr, keySD, val)`),
missing from the sources: stdclass declares no property and no handler, so the
value becomes the property of that name. -/
def stdclassSetProp (s : State) (o : Nat) (name : List Byte) (v : TypedValue) : State :=
  s.setObj o { s.getObj o with props := propsSet (s.getObj o).props name v }

/-- Modelled from the spec: `prepareKey`, whose generic overload
`prepareAnyKey` is declared in the header and defined elsewhere: operations
"cast their key to a string".  A string key is itself, any other key is its
string form; an Int key is taken as its scratch key.  The reference that the
generic overload hands out is released again on every path (`releaseKey`,
`decRefStr`) and is left out. -/
def prepareKey (ext : Externals) (s : State) : Key → StrRef
  | .str sd => sd
  | .any (.sstr b) => .static b
  | .any (.str p) => .heap p
  | .any tv => .static (cellToString ext s tv)
  | .int n => .static (cellToString ext s (.int n))

/-- The function `propPreNull`. -/
def propPreNull (warn : Bool) (s : State) : Outcome Loc :=
  let s1 := tvWriteNull s .tvRef
  if warn then .ok .tvRef (raise_notice s1 "Cannot access property on non-object" .none)
  else .ok .tvRef s1

/-- The function `propPreStdclass`. -/
def propPreStdclass (ext : Externals) (warn define : Bool) (base : Loc) (s : State) :
    Outcome Loc :=
  if !define then propPreNull warn s
  else
    let r := newInstanceStdclass s
    let s1 := (tvRefcountedDecRef r.2 (r.2.load base)).record (.release (r.2.load base))
    let s2 := (s1.store base (.obj r.1)).record (.install base (.obj r.1))
    if ext.EnableHipHopSyntax then
      .ok base (raise_warning s2 Strings.CREATING_DEFAULT_OBJECT .none)
    else .ok base s2

/-- The function `propPre`. -/
def propPre (ext : Externals) (warn define : Bool) (base : Loc) (s : State) :
    Outcome Loc :=
  let base := tvToCell s base
  match s.load base with
  | .uninit => propPreStdclass ext warn define base s
  | .null => propPreStdclass ext warn define base s
  | .bool b =>
    if b then propPreNull warn s
    else propPreStdclass ext warn define base s
  | .int _ => propPreNull warn s
  | .dbl _ => propPreNull warn s
  | .res _ => propPreNull warn s
  | .sstr b =>
    if b.length ≠ 0 then propPreNull warn s
    else propPreStdclass ext warn define base s
  | .str p =>
    if (s.getStr p).data.length ≠ 0 then propPreNull warn s
    else propPreStdclass ext warn define base s
  | .arr _ => propPreNull warn s
  | .obj _ => .ok base s
  | .ref _ => .abort s
  | .cls _ => .abort s

/-- The part of `Prop` that follows the base: the property access on the
instance.  It is the whole of `Prop` in the flavour `baseIsObj = true`. -/
def PropObj (ext : Externals) (warn define unset : Bool) (ctx : Nat) (o : Nat)
    (key : Key) (s : State) : Outcome Loc :=
  let keySD := prepareKey ext s key
  if warn then
    if define then ext.objPropWD o ctx keySD s
    else ext.objPropW o ctx keySD s
  else if define || unset then ext.objPropD o ctx keySD s
  else ext.objProp o ctx keySD s

/-- The function `Prop` (a reserved word here, hence the underscore): generic
property access, in the flavour `baseIsObj = false`.  The `assertx` that the
outcome of `propPre` is an object when it is not null is taken as an abort. -/
def Prop_ (ext : Externals) (warn define unset : Bool) (ctx : Nat) (base : Loc)
    (key : Key) (s : State) : Outcome Loc :=
  (propPre ext warn define base s).bind fun result s1 =>
    match s1.load result with
    | .null => .ok result s1
    | .obj o => PropObj ext warn define unset ctx o key s1
    | _ => .abort s1

/-- The function `IssetEmptyPropObj`. -/
def IssetEmptyPropObj (ext : Externals) (useEmpty : Bool) (ctx : Nat) (o : Nat)
    (key : TypedValue) (s : State) : Outcome Bool :=
  let keySD := prepareKey ext s (.any key)
  if useEmpty then ext.objPropEmpty o ctx keySD s
  else ext.objPropIsset o ctx keySD s

/-- The function `IssetEmptyProp`, in the flavour `isObj = false`. -/
def IssetEmptyProp (ext : Externals) (useEmpty : Bool) (ctx : Nat) (base : Loc)
    (key : TypedValue) (s : State) : Outcome Bool :=
  let base := tvToCell s base
  match s.load base with
  | .obj o => IssetEmptyPropObj ext useEmpty ctx o key s
  | _ => .ok useEmpty s

/-- The function `SetPropNull`. -/
def SetPropNull (setResult : Bool) (val : Loc) (s : State) : Outcome Unit :=
  let s1 := raise_warning s "Cannot access property on non-object" .none
  if setResult then .ok () (tvWriteNull (tvRefcountedDecRef s1 (s1.load val)) val)
  else .invalidSetM .null s1

/-- The function `SetPropStdclass`. -/
def SetPropStdclass (ext : Externals) (base : Loc) (key : TypedValue) (val : Loc)
    (s : State) : Outcome Unit :=
  let r := newInstanceStdclass s
  let keySD := prepareKey ext r.2 (.any key)
  let s1 := stdclassSetProp r.2 r.1 (keySD.bytes r.2) (r.2.load val)
  let s2 := (tvRefcountedDecRef s1 (s1.load base)).record (.release (s1.load base))
  let s3 := (s2.store base (.obj r.1)).record (.install base (.obj r.1))
  .ok () (raise_warning s3 Strings.CREATING_DEFAULT_OBJECT .none)

/-- The function `SetPropObj`.  It is the whole of `SetProp` in the flavour
`isObj = true`. -/
def SetPropObj (ext : Externals) (ctx : Nat) (o : Nat) (key : Key) (val : Loc)
    (s : State) : Outcome Unit :=
  ext.objSetProp o ctx (prepareKey ext s key) val s

/-- The function `SetProp`: `$base->$key = $val`, in the flavour
`isObj = false`. -/
def SetProp (ext : Externals) (setResult : Bool) (ctx : Nat) (base : Loc) (key : Key)
    (val : Loc) (s : State) : Outcome Unit :=
  let base := tvToCell s base
  match s.load base with
  | .uninit => SetPropStdclass ext base (initScratchKey key) val s
  | .null => SetPropStdclass ext base (initScratchKey key) val s
  | .bool b =>
    if b then SetPropNull setResult val s
    else SetPropStdclass ext base (initScratchKey key) val s
  | .int _ => SetPropNull setResult val s
  | .dbl _ => SetPropNull setResult val s
  | .arr _ => SetPropNull setResult val s
  | .res _ => SetPropNull setResult val s
  | .sstr b =>
    if b.length ≠ 0 then SetPropNull setResult val s
    else SetPropStdclass ext base (initScratchKey key) val s
  | .str p =>
    if (s.getStr p).data.length ≠ 0 then SetPropNull setResult val s
    else SetPropStdclass ext base (initScratchKey key) val s
  | .obj o => SetPropObj ext ctx o key val s
  | .ref _ => .abort s
  | .cls _ => .abort s

/-- The function `SetOpPropNull`. -/
def SetOpPropNull (s : State) : Outcome Loc :=
  .ok .tvRef (tvWriteNull (raise_warning s "Attempt to assign property of non-object" .none) .tvRef)

/-- The function `SetOpPropStdclass`. -/
def SetOpPropStdclass (ext : Externals) (op : SetOpOp) (base : Loc) (key : TypedValue)
    (rhs : Loc) (s : State) : Outcome Loc :=
  let r := newInstanceStdclass s
  let s1 := (tvRefcountedDecRef r.2 (r.2.load base)).record (.release (r.2.load base))
  let s2 := (s1.store base (.obj r.1)).record (.install base (.obj r.1))
  let s3 := raise_warning s2 Strings.CREATING_DEFAULT_OBJECT .none
  let keySD := prepareKey ext s3 (.any key)
  let s4 := tvWriteNull s3 .tvRef
  (ext.setopBody op (tvToCell s4 .tvRef) rhs s4).bind fun _ s5 =>
    .ok .tvRef (stdclassSetProp s5 r.1 (keySD.bytes s5) (s5.load .tvRef))

/-- The function `SetOpPropObj`.  It is the whole of `SetOpProp` in the flavour
`isObj = true`. -/
def SetOpPropObj (ext : Externals) (ctx : Nat) (op : SetOpOp) (o : Nat)
    (key : TypedValue) (rhs : Loc) (s : State) : Outcome Loc :=
  ext.objSetOpProp o ctx op (prepareKey ext s (.any key)) rhs s

/-- The function `SetOpProp`: `$base->$key <op>= $rhs`, in the flavour
`isObj = false`. -/
def SetOpProp (ext : Externals) (ctx : Nat) (op : SetOpOp) (base : Loc)
    (key : TypedValue) (rhs : Loc) (s : State) : Outcome Loc :=
  let base := tvToCell s base
  match s.load base with
  | .uninit => SetOpPropStdclass ext op base key rhs s
  | .null => SetOpPropStdclass ext op base key rhs s
  | .bool b =>
    if b then SetOpPropNull s
    else SetOpPropStdclass ext op base key rhs s
  | .int _ => SetOpPropNull s
  | .dbl _ => SetOpPropNull s
  | .arr _ => SetOpPropNull s
  | .res _ => SetOpPropNull s
  | .sstr b =>
    if b.length ≠ 0 then SetOpPropNull s
    else SetOpPropStdclass ext op base key rhs s
  | .str p =>
    if (s.getStr p).data.length ≠ 0 then SetOpPropNull s
    else SetOpPropStdclass ext op base key rhs s
  | .obj o => SetOpPropObj ext ctx op o key rhs s
  | .ref _ => .abort s
  | .cls _ => .abort s

/-- The function `IncDecPropNull`. -/
def IncDecPropNull (dest : Loc) (s : State) : Outcome Unit :=
  .ok ()
    (tvWriteNull
      (raise_warning s "Attempt to increment/decrement property of non-object" .none) dest)

/-- The function `IncDecPropStdclass`.  The local `tv` is a cell of its own;
the property is set from `dest`. -/
def IncDecPropStdclass (ext : Externals) (op : IncDecOp) (base : Loc)
    (key : TypedValue) (dest : Loc) (s : State) : Outcome Unit :=
  let r := newInstanceStdclass s
  let s1 := (tvRefcountedDecRef r.2 (r.2.load base)).record (.release (r.2.load base))
  let s2 := (s1.store base (.obj r.1)).record (.install base (.obj r.1))
  let s3 := raise_warning s2 Strings.CREATING_DEFAULT_OBJECT .none
  let keySD := prepareKey ext s3 (.any key)
  let tv := s3.allocTemp .null
  (IncDecBody ext op (.refInner tv.1) dest tv.2).bind fun _ s4 =>
    .ok () (stdclassSetProp s4 r.1 (keySD.bytes s4) (s4.load dest))

/-- The function `IncDecPropObj`.  It is the whole of `IncDecProp` in the
flavour `isObj = true`. -/
def IncDecPropObj (ext : Externals) (ctx : Nat) (op : IncDecOp) (o : Nat)
    (key : TypedValue) (dest : Loc) (s : State) : Outcome Unit :=
  ext.objIncDecProp o ctx op (prepareKey ext s (.any key)) dest s

/-- The function `IncDecProp`, in the flavour `isObj = false`. -/
def IncDecProp (ext : Externals) (ctx : Nat) (op : IncDecOp) (base : Loc)
    (key : TypedValue) (dest : Loc) (s : State) : Outcome Unit :=
  let base := tvToCell s base
  match s.load base with
  | .uninit => IncDecPropStdclass ext op base key dest s
  | .null => IncDecPropStdclass ext op base key dest s
  | .bool b =>
    if b then IncDecPropNull dest s
    else IncDecPropStdclass ext op base key dest s
  | .int _ => IncDecPropNull dest s
  | .dbl _ => IncDecPropNull dest s
  | .arr _ => IncDecPropNull dest s
  | .res _ => IncDecPropNull dest s
  | .sstr b =>
    if b.length ≠ 0 then IncDecPropNull dest s
    else IncDecPropStdclass ext op base key dest s
  | .str p =>
    if (s.getStr p).data.length ≠ 0 then IncDecPropNull dest s
    else IncDecPropStdclass ext op base key dest s
  | .obj o => IncDecPropObj ext ctx op o key dest s
  | .ref _ => .abort s
  | .cls _ => .abort s

/-- The function `UnsetProp`, in the flavour `isObj = false`. -/
def UnsetProp (ext : Externals) (ctx : Nat) (base : Loc) (key : TypedValue)
    (s : State) : Outcome Unit :=
  let base := tvToCell s base
  match s.load base with
  | .obj o => ext.objUnsetProp o ctx (prepareKey ext s (.any key)) s
  | _ => .ok () s

/-! ## A concrete set of collaborators -/

/-- Collaborators for concrete scenarios: HipHop syntax on, `MoreWarnings`
off, `StringData::MaxSize` equal to `0x7ffffffe`, conversions of doubles and
objects that yield a constant, overflowing increments that promote to the
double `2^63`, and object and collection calls that return at once without
touching the state. -/
def Externals.inert : Externals where
  EnableHipHopSyntax := true
  MoreWarnings := false
  MaxSize := 0x7ffffffe
  dblToInt64 := fun _ => 0
  objToInt64 := fun _ _ => 1
  toStringOther := fun _ _ => []
  toBooleanOther := fun _ _ => true
  incDecBodySlow := fun _ _ _ s => .ok () s
  cellIncO := fun n => if n = 2 ^ 63 - 1 then .dbl 0x43E0000000000000 else .int (n + 1)
  cellDecO := fun n => if n = -(2 ^ 63) then .dbl 0xC3E0000000000000 else .int (n - 1)
  collectionsAt := fun _ _ s => .ok .initNullVariant s
  collectionsGet := fun _ _ s => .ok none s
  collectionsAtLval := fun _ _ s => .ok .tvRef s
  collectionsAtRw := fun _ _ s => .ok .tvRef s
  collectionsSet := fun _ _ _ s => .ok () s
  collectionsUnset := fun _ _ s => .ok () s
  collectionsIsset := fun _ _ s => .ok false s
  collectionsEmpty := fun _ _ s => .ok true s
  objOffsetGet := fun _ _ s => .ok .null s
  objOffsetSet := fun _ _ _ _ s => .ok () s
  objOffsetUnset := fun _ _ s => .ok () s
  objOffsetIsset := fun _ _ s => .ok false s
  objOffsetEmpty := fun _ _ s => .ok true s
  rvalAtRefBadKey := fun _ _ s => .ok .nullVariant s
  lvalAtBadKey := fun _ s => .ok .tvRef s
  existsBadKey := fun _ _ s => .ok false s
  toKeyBadKey := fun _ s => .ok () s
  lvalNewFull := fun s => .ok .tvRef s
  objProp := fun _ _ _ s => .ok .initNullVariant s
  setopBody := fun _ _ _ s => .ok () s
  collectionsAppend := fun _ _ s => .ok () s
  objOffsetAppend := fun _ _ _ s => .ok () s
  objPropW := fun _ _ _ s => .ok .initNullVariant s
  objPropD := fun _ _ _ s => .ok .tvRef s
  objPropWD := fun _ _ _ s => .ok .tvRef s
  objSetProp := fun _ _ _ _ s => .ok () s
  objSetOpProp := fun _ _ _ _ _ s => .ok .tvRef s
  objIncDecProp := fun _ _ _ _ _ s => .ok () s
  objUnsetProp := fun _ _ _ s => .ok () s
  objPropIsset := fun _ _ _ s => .ok false s
  objPropEmpty := fun _ _ _ s => .ok true s
  appendFull := fun a s => .ok a s
  castToInt64Diags := fun _ _ => []

/-- The collaborators of `Externals.inert`, except that the user-defined
`offsetUnset` handler keeps a trace of its calls: every call adds a property
named "n" to the object. -/
def Externals.countingUnset : Externals :=
  { Externals.inert with
    objOffsetUnset := fun o _ s =>
      .ok () (s.setObj o
        { s.getObj o with props := (s.getObj o).props ++ [([110], TypedValue.null)] }) }

/-- The collaborators of `Externals.inert`, except that the conversion of an
illegal key by the array container reports it with the warning "Illegal
offset type". -/
def Externals.warnBadKey : Externals :=
  { Externals.inert with
    toKeyBadKey := fun _ s => .ok () (raise_warning s "Illegal offset type" .none) }

/-- The collaborators of `Externals.inert`, except that the cast of an object
to an integer by `tvCastToInt64InPlace` raises the notice "Object could not be
converted to int". -/
def Externals.noisyCast : Externals :=
  { Externals.inert with
    castToInt64Diags := fun _ tv =>
      match tv with
      | .obj _ => [⟨.notice, "Object could not be converted to int", .none⟩]
      | _ => [] }

/-- The collaborators of `Externals.inert` with the HipHop syntax turned
off. -/
def Externals.plainSyntax : Externals :=
  { Externals.inert with EnableHipHopSyntax := false }

/-- The collaborators of `Externals.inert`, except that `incDecBodySlow`
treats a Null source as the language does: an increment makes it the integer
1, a decrement leaves it Null; the prefix forms copy the new value to the
destination, the postfix forms the old one. -/
def Externals.nullIncDec : Externals :=
  { Externals.inert with
    incDecBodySlow := fun op fr to_ s =>
      match s.load fr with
      | .null =>
        match op with
        | .PreInc => .ok () ((s.store fr (.int 1)).store to_ (.int 1))
        | .PreIncO => .ok () ((s.store fr (.int 1)).store to_ (.int 1))
        | .PostInc => .ok () ((s.store to_ .null).store fr (.int 1))
        | .PostIncO => .ok () ((s.store to_ .null).store fr (.int 1))
        | _ => .ok () (s.store to_ .null)
      | _ => .ok () s }

/-- The collaborators of `Externals.inert`, except that the subscript protocol
of an object reads and writes its properties under the bytes of a static
string key, each call of `offsetGet` and `offsetSet` leaving a notice in the
log, and that `setopBody` adds two integers for `PlusEqual`. -/
def Externals.arrayAccess : Externals :=
  { Externals.inert with
    objOffsetGet := fun o key s =>
      match key with
      | .sstr b =>
        .ok ((propsGet (s.getObj o).props b).getD .null) (raise_notice s "offsetGet" .none)
      | _ => .ok .null (raise_notice s "offsetGet" .none)
    objOffsetSet := fun o key val _ s =>
      match key with
      | .sstr b =>
        .ok ()
          (raise_notice
            (s.setObj o { s.getObj o with props := propsSet (s.getObj o).props b (s.load val) })
            "offsetSet" .none)
      | _ => .ok () (raise_notice s "offsetSet" .none)
    setopBody := fun op lhs rhs s =>
      match op, s.load lhs, s.load rhs with
      | .PlusEqual, .int a, .int b => .ok () (s.store lhs (.int (wrap64 (a + b))))
      | _, _, _ => .ok () s }

/-- The collaborators of `Externals.arrayAccess`, except that the `offsetGet`
handler, which is user code, rebinds the variable of slot 0 to the object 1
before it returns the property. -/
def Externals.rebinding : Externals :=
  { Externals.arrayAccess with
    objOffsetGet := fun o key s =>
      match key with
      | .sstr b =>
        .ok ((propsGet (s.getObj o).props b).getD .null)
          (raise_notice (s.store (.slot 0) (.obj 1)) "offsetGet" .none)
      | _ => .ok .null (raise_notice (s.store (.slot 0) (.obj 1)) "offsetGet" .none) }

/-! ## Where cells live -/

/-- Whether a pointer designates a cell that exists and can be assigned
through: a slot or reference box in range, an entry or property that is
present, or the scratch cell.  The two sentinels are immutable. -/
def State.writable (s : State) : Loc → Bool
  | .slot i => decide (i < s.slots.length)
  | .refInner r => decide (r < s.refs.length)
  | .arrElem a k => decide (a < s.arrs.length) && (elemsGet (s.getArr a).elems k).isSome
  | .objProp o n => decide (o < s.objs.length) && (propsGet (s.getObj o).props n).isSome
  | .tvRef => true
  | .nullVariant => false
  | .initNullVariant => false

/-- Whether a pointer designates a cell of the frame (a local or stack slot,
the inner cell of a reference box, or the scratch cell) rather than a cell
inside a container. -/
def Loc.inFrame : Loc → Bool
  | .slot _ => true
  | .refInner _ => true
  | .tvRef => true
  | _ => false

/-- Whether a cell is empty-ish, the bases that member operations
auto-vivify: Uninit, Null, Bool false or the empty string. -/
def isEmptyish (s : State) : TypedValue → Bool
  | .uninit => true
  | .null => true
  | .bool b => !b
  | .sstr b => b.isEmpty
  | .str p => (s.getStr p).data.isEmpty
  | _ => false

/-- The collaborators that `SetElem`, `SetNewElem` and `SetProp` hand over to
(the container's handling of an illegal key and of a full array, the setters
of a collection and of the `ArrayAccess` protocol, the instance's `setProp`) do
not throw `InvalidSetMException` themselves. -/
def Externals.raisesNoInvalidSetM (ext : Externals) : Prop :=
  (∀ tv s, (ext.toKeyBadKey tv s).invalidSetMValue = none) ∧
  (∀ a s, (ext.appendFull a s).invalidSetMValue = none) ∧
  (∀ o k v s, (ext.collectionsSet o k v s).invalidSetMValue = none) ∧
  (∀ o k v b s, (ext.objOffsetSet o k v b s).invalidSetMValue = none) ∧
  (∀ o v s, (ext.collectionsAppend o v s).invalidSetMValue = none) ∧
  (∀ o v b s, (ext.objOffsetAppend o v b s).invalidSetMValue = none) ∧
  (∀ o c k v s, (ext.objSetProp o c k v s).invalidSetMValue = none)

/-! ## Concrete scenarios -/

/-- Scenario: slot 0 holds the counted string "ab", slot 1 the counted string
"Z". -/
def stStringAb : State :=
  { strs := [{ data := [97, 98], count := 1 }, { data := [90], count := 1 }],
    arrs := [], objs := [], refs := [],
    slots := [.str 0, .str 1], tvRef := .uninit, log := [] }

/-- Scenario: slot 0 holds the counted string "ab", slot 1 the static empty
string. -/
def stStringAbEmptyRhs : State :=
  { strs := [{ data := [97, 98], count := 1 }],
    arrs := [], objs := [], refs := [],
    slots := [.str 0, .sstr []], tvRef := .uninit, log := [] }

/-- Scenario: slot 0 holds the static empty string, slot 1 the integer 5. -/
def stEmptyString : State :=
  { strs := [], arrs := [], objs := [], refs := [],
    slots := [.sstr [], .int 5], tvRef := .uninit, log := [] }

/-- Scenario: slot 0 holds the integer 42, slot 1 the integer 5. -/
def stInt42 : State :=
  { strs := [], arrs := [], objs := [], refs := [],
    slots := [.int 42, .int 5], tvRef := .uninit, log := [] }

/-- Scenario: slots 0 and 1 share the array `[0, 1, 2]` (reference count 2),
slot 2 holds the integer 9. -/
def stSharedArray : State :=
  { strs := [],
    arrs := [{ elems := [(.int 0, .int 0), (.int 1, .int 1), (.int 2, .int 2)],
               nextKI := 3, count := 2 }],
    objs := [], refs := [],
    slots := [.arr 0, .arr 0, .int 9], tvRef := .uninit, log := [] }

/-- Scenario: slot 0 holds the array `["a" => 1]`. -/
def stArrayA1 : State :=
  { strs := [],
    arrs := [{ elems := [(.str [97], .int 1)], nextKI := 0, count := 1 }],
    objs := [], refs := [],
    slots := [.arr 0], tvRef := .uninit, log := [] }

/-- Scenario: slot 0 is Uninit, slot 1 is a free cell. -/
def stUninit : State :=
  { strs := [], arrs := [], objs := [], refs := [],
    slots := [.uninit, .uninit], tvRef := .uninit, log := [] }

/-- Scenario: slot 0 holds the array `["n" => 5]`, slot 1 is the cell `dest`. -/
def stArrayN5 : State :=
  { strs := [],
    arrs := [{ elems := [(.str [110], .int 5)], nextKI := 0, count := 1 }],
    objs := [], refs := [],
    slots := [.arr 0, .uninit], tvRef := .uninit, log := [] }

/-- Scenario: slot 0 holds an object that is not a collection and has no
property. -/
def stObject : State :=
  { strs := [], arrs := [],
    objs := [{ isCollection := false, isArrayObject := false, props := [], count := 1 }],
    refs := [],
    slots := [.obj 0], tvRef := .uninit, log := [] }

/-- Scenario: slot 0 holds Null, slot 1 the integer 5, slot 2 is a free
cell. -/
def stNull : State :=
  { strs := [], arrs := [], objs := [], refs := [],
    slots := [.null, .int 5, .uninit], tvRef := .uninit, log := [] }

/-- Scenario: slot 0 holds a counted empty string, slot 1 the integer 5, slot 2
is a free cell. -/
def stEmptyCountedString : State :=
  { strs := [{ data := [], count := 1 }], arrs := [], objs := [], refs := [],
    slots := [.str 0, .int 5, .uninit], tvRef := .uninit, log := [] }

/-- Scenario: slot 0 holds a class, slot 1 the integer 5. -/
def stClass : State :=
  { strs := [], arrs := [], objs := [], refs := [],
    slots := [.cls 0, .int 5], tvRef := .uninit, log := [] }

/-- Scenario: slot 0 holds an object that is not a collection and whose
property "k" is the integer 5, slot 1 the integer 3. -/
def stObjectK5 : State :=
  { strs := [], arrs := [],
    objs := [{ isCollection := false, isArrayObject := false, props := [([107], .int 5)],
               count := 1 }],
    refs := [],
    slots := [.obj 0, .int 3], tvRef := .uninit, log := [] }

/-- Scenario: slots 0 and 1 share the array `[0 => 7]` (reference count 2);
a second array `[0 => 7, 1 => 8]` carries the one reference of its creation and
no slot holds it yet. -/
def stTwoArrays : State :=
  { strs := [],
    arrs := [{ elems := [(.int 0, .int 7)], nextKI := 1, count := 2 },
             { elems := [(.int 0, .int 7), (.int 1, .int 8)], nextKI := 2, count := 1 }],
    objs := [], refs := [],
    slots := [.arr 0, .arr 0, .int 9], tvRef := .uninit, log := [] }

/-- Scenario: slot 0 holds the counted string "a0". -/
def stStringA0 : State :=
  { strs := [{ data := [97, 48], count := 1 }],
    arrs := [], objs := [], refs := [],
    slots := [.str 0], tvRef := .uninit, log := [] }

/-- Scenario: slot 0 holds the static empty string, slot 1 the counted string
"hi" with one reference. -/
def stEmptyStringStrRhs : State :=
  { strs := [{ data := [104, 105], count := 1 }],
    arrs := [], objs := [], refs := [],
    slots := [.sstr [], .str 0], tvRef := .uninit, log := [] }

/-- Scenario: as `stStringAb`, but the string "ab" has two references: slot
2 holds it as well. -/
def stSharedStringAb : State :=
  { strs := [{ data := [97, 98], count := 2 }, { data := [90], count := 1 }],
    arrs := [], objs := [], refs := [],
    slots := [.str 0, .str 1, .str 0], tvRef := .uninit, log := [] }

/-- Scenario with nested cells: slot 0 holds the array
`["x" => null, "y" => ["n" => 5]]`, slot 1 holds the integer 9, slot 2 holds
an object whose property "p" is null and whose property "q" is the string
"". -/
def stNested : State :=
  { strs := [],
    arrs := [{ elems := [(.str [120], .null), (.str [121], .arr 1)], nextKI := 0, count := 1 },
             { elems := [(.str [110], .int 5)], nextKI := 0, count := 1 }],
    objs := [{ isCollection := false, isArrayObject := false,
               props := [([112], .null), ([113], .sstr [])], count := 1 }],
    refs := [],
    slots := [.arr 0, .int 9, .obj 0], tvRef := .uninit, log := [] }

/-- Scenario with a reference cycle, as `$a[0] = &$a` leaves it: slot 0 holds
the reference box 0, the box holds the array 0, and the element 0 of that array
is the same box; slot 1 holds the integer 5. -/
def stRefCycle : State :=
  { strs := [],
    arrs := [{ elems := [(.int 0, .ref 0)], nextKI := 1, count := 1 }],
    objs := [], refs := [.arr 0],
    slots := [.ref 0, .int 5], tvRef := .uninit, log := [] }

/-- Scenario with a shared nested array: slot 0 holds the array
`["y" => [5]]`, whose element "y" is the array 1; the array 1 has two
references (slot 1 holds it as well) and the array 2 is its fresh copy, with
one reference. -/
def stNestedShared : State :=
  { strs := [],
    arrs := [{ elems := [(.str [121], .arr 1)], nextKI := 0, count := 1 },
             { elems := [(.int 0, .int 5)], nextKI := 1, count := 2 },
             { elems := [(.int 0, .int 5)], nextKI := 1, count := 1 }],
    objs := [], refs := [],
    slots := [.arr 0, .arr 1, .int 7], tvRef := .uninit, log := [] }

/-- Scenario with two objects, neither a collection: slot 0 holds the object
0, whose property "k" is the integer 5; the object 1 has no property; slot 1
holds the integer 3. -/
def stTwoObjects : State :=
  { strs := [], arrs := [],
    objs := [{ isCollection := false, isArrayObject := false, props := [([107], .int 5)],
               count := 1 },
             { isCollection := false, isArrayObject := false, props := [], count := 1 }],
    refs := [],
    slots := [.obj 0, .int 3], tvRef := .uninit, log := [] }

/-! ## Basic facts about the state -/

theorem getD_set_same {α : Type} (l : List α) (i : Nat) (v d : α) (h : i < l.length) :
    (l.set i v).getD i d = v := by
  simp [List.getD_eq_getElem?_getD, List.getElem?_set, h]

theorem getD_set_other {α : Type} (l : List α) (i j : Nat) (v d : α) (h : i ≠ j) :
    (l.set i v).getD j d = l.getD j d := by
  simp [List.getD_eq_getElem?_getD, List.getElem?_set, h]

theorem getD_append_length {α : Type} (l : List α) (v d : α) :
    (l ++ [v]).getD l.length d = v := by
  simp [List.getD_eq_getElem?_getD]

theorem getD_append_lt {α : Type} (l : List α) (i : Nat) (v d : α) (h : i < l.length) :
    (l ++ [v]).getD i d = l.getD i d := by
  simp [List.getD_eq_getElem?_getD, List.getElem?_append_left h]

theorem getD_ne_default_lt {α : Type} (l : List α) (i : Nat) (d : α)
    (h : l.getD i d ≠ d) : i < l.length := by
  by_contra hc
  apply h
  simp [List.getD_eq_getElem?_getD, List.getElem?_eq_none (Nat.le_of_not_lt hc)]

theorem elemsGet_elemsWrite_same (elems : List (ArrayKey × TypedValue)) (k : ArrayKey)
    (v : TypedValue) (h : (elemsGet elems k).isSome) :
    elemsGet (elemsWrite elems k v) k = some v := by
  induction elems with
  | nil => simp [elemsGet] at h
  | cons hd tl ih =>
    obtain ⟨k', v'⟩ := hd
    by_cases hk : k' = k
    · simp [elemsWrite, elemsGet, hk]
    · simp [elemsWrite, elemsGet, hk] at h ⊢
      exact ih h

theorem propsGet_propsWrite_same (props : List (List Byte × TypedValue)) (n : List Byte)
    (v : TypedValue) (h : (propsGet props n).isSome) :
    propsGet (propsWrite props n v) n = some v := by
  induction props with
  | nil => simp [propsGet] at h
  | cons hd tl ih =>
    obtain ⟨n', v'⟩ := hd
    by_cases hn : n' = n
    · simp [propsWrite, propsGet, hn]
    · simp [propsWrite, propsGet, hn] at h ⊢
      exact ih h

/-- A cell that holds something is read back after a store through its
pointer. -/
theorem load_store_same (s : State) (l : Loc) (v : TypedValue)
    (h1 : s.load l ≠ .uninit) (h2 : l ≠ .initNullVariant) :
    (s.store l v).load l = v := by
  cases l with
  | slot i =>
    have hi : i < s.slots.length := getD_ne_default_lt _ _ _ h1
    simp [State.store, State.load, getD_set_same, hi]
  | refInner r =>
    have hi : r < s.refs.length := getD_ne_default_lt _ _ _ h1
    simp [State.store, State.load, getD_set_same, hi]
  | arrElem a k =>
    simp only [State.load] at h1
    have hs : (elemsGet (s.getArr a).elems k).isSome := by
      cases hg : elemsGet (s.getArr a).elems k with
      | none => simp [hg] at h1
      | some w => rfl
    have ha : a < s.arrs.length := by
      by_contra hc
      have : s.getArr a = { elems := [], nextKI := 0, count := 0 } := by
        simp [State.getArr, List.getD_eq_getElem?_getD, List.getElem?_eq_none (Nat.le_of_not_lt hc)]
      rw [this] at hs
      simp [elemsGet] at hs
    simp only [State.store, State.load, State.setArr, State.getArr]
    rw [getD_set_same _ _ _ _ ha]
    simp only [State.getArr] at hs
    rw [elemsGet_elemsWrite_same _ _ _ hs]
    rfl
  | objProp o n =>
    simp only [State.load] at h1
    have hs : (propsGet (s.getObj o).props n).isSome := by
      cases hg : propsGet (s.getObj o).props n with
      | none => simp [hg] at h1
      | some w => rfl
    have ha : o < s.objs.length := by
      by_contra hc
      have : s.getObj o = { isCollection := false, isArrayObject := false, props := [], count := 0 } := by
        simp [State.getObj, List.getD_eq_getElem?_getD, List.getElem?_eq_none (Nat.le_of_not_lt hc)]
      rw [this] at hs
      simp [propsGet] at hs
    simp only [State.store, State.load, State.setObj, State.getObj]
    rw [getD_set_same _ _ _ _ ha]
    simp only [State.getObj] at hs
    rw [propsGet_propsWrite_same _ _ _ hs]
    rfl
  | tvRef => simp [State.store, State.load]
  | nullVariant => simp [State.load] at h1
  | initNullVariant => exact absurd rfl h2

@[simp] theorem load_setStr (s : State) (p : Nat) (sd : StringData) (l : Loc) :
    (s.setStr p sd).load l = s.load l := by
  cases l <;> rfl

@[simp] theorem load_allocStr (s : State) (sd : StringData) (l : Loc) :
    (s.allocStr sd).2.load l = s.load l := by
  cases l <;> rfl

@[simp] theorem load_decRefStr (s : State) (p : Nat) (l : Loc) :
    (decRefStr s p).load l = s.load l := by
  simp [decRefStr]

@[simp] theorem load_decRefStrOf (s : State) (tv : TypedValue) (l : Loc) :
    (decRefStrOf s tv).load l = s.load l := by
  cases tv <;> simp [decRefStrOf]

@[simp] theorem load_raise (s : State) (d : Diag) (l : Loc) :
    (s.raise d).load l = s.load l := by
  cases l <;> rfl

@[simp] theorem strs_store (s : State) (l : Loc) (v : TypedValue) :
    (s.store l v).strs = s.strs := by
  cases l <;> rfl

@[simp] theorem getStr_store (s : State) (l : Loc) (v : TypedValue) (p : Nat) :
    (s.store l v).getStr p = s.getStr p := by
  simp [State.getStr]

theorem makeCopyBuf_length (pstr : List Byte) (x : Nat) (y0 : Byte) :
    (makeCopyBuf pstr x (if (x : Int) ≥ (pstr.length : Int) then (x : Int) + 1 else pstr.length) y0).length
      = max pstr.length (x + 1) := by
  unfold makeCopyBuf memcpy memset
  by_cases h : (x : Int) ≥ (pstr.length : Int)
  · have h' : pstr.length ≤ x := by omega
    have e : ((x : Int) + 1).toNat = x + 1 := by omega
    simp only [h, if_true, e]
    split <;> simp <;> omega
  · have h' : x < pstr.length := by omega
    have hx : ¬ ((x : Int) > (pstr.length : Int)) := by omega
    simp only [h, if_false, hx, Int.toNat_ofNat]
    simp
    omega

theorem makeCopyBuf_get (pstr : List Byte) (x : Nat) (y0 : Byte) (i : Nat) :
    (makeCopyBuf pstr x (if (x : Int) ≥ (pstr.length : Int) then (x : Int) + 1 else pstr.length) y0)[i]?
      = if i = x then some y0
        else if i < pstr.length then pstr[i]?
        else if i < x then some 32 else none := by
  unfold makeCopyBuf memcpy memset
  by_cases h : (x : Int) ≥ (pstr.length : Int)
  · have h' : pstr.length ≤ x := by omega
    have e : ((x : Int) + 1).toNat = x + 1 := by omega
    simp only [h, if_true, e, Int.toNat_ofNat]
    by_cases hgt : (x : Int) > (pstr.length : Int)
    · simp only [hgt, if_true]
      have hgt' : pstr.length < x := by omega
      rw [List.getElem?_set]
      by_cases hix : i = x
      · subst hix
        simp
        omega
      · have hxi : ¬ x = i := fun h => hix h.symm
        simp only [hxi, hix, if_false]
        by_cases hil : i < pstr.length
        · simp only [hil, if_true]
          rw [List.getElem?_append_left (by simp; omega)]
          rw [List.getElem?_append_left (by simp; omega)]
          simp [List.getElem?_take, hil]
        · simp only [hil, if_false]
          by_cases hlt : i < x
          · simp only [hlt, if_true]
            rw [List.getElem?_append_left (by simp; omega)]
            rw [List.getElem?_append_right (by simp; omega)]
            rw [List.getElem?_replicate]
            simp
            omega
          · simp only [hlt, if_false]
            rw [List.getElem?_eq_none]
            simp
            omega
    · simp only [hgt, if_false]
      have hxe : x = pstr.length := by omega
      rw [List.getElem?_set]
      by_cases hix : i = x
      · subst hix
        simp
        omega
      · have hxi : ¬ x = i := fun h => hix h.symm
        simp only [hxi, hix, if_false]
        by_cases hil : i < pstr.length
        · simp only [hil, if_true]
          rw [List.getElem?_append_left (by simp; omega)]
          simp [List.getElem?_take, hil]
        · simp only [hil, if_false]
          have : ¬ i < x := by omega
          simp only [this, if_false]
          rw [List.getElem?_eq_none]
          simp
          omega
  · have h' : x < pstr.length := by omega
    have hx : ¬ ((x : Int) > (pstr.length : Int)) := by omega
    simp only [h, if_false, hx, Int.toNat_ofNat]
    rw [List.getElem?_set]
    by_cases hix : i = x
    · subst hix
      simp
      omega
    · have hxi : ¬ x = i := fun h => hix h.symm
      simp only [hxi, hix, if_false]
      by_cases hil : i < pstr.length
      · simp only [hil, if_true]
        rw [List.getElem?_append_left (by simp; omega)]
        simp [List.getElem?_take, hil]
      · simp only [hil, if_false]
        have : ¬ i < x := by omega
        simp only [this, if_false]
        rw [List.getElem?_eq_none]
        simp
        omega

theorem getStr_setStr_same (s : State) (p : Nat) (sd : StringData) (h : p < s.strs.length) :
    (s.setStr p sd).getStr p = sd := by
  simp only [State.getStr, State.setStr]
  exact getD_set_same _ _ _ _ h

theorem getStr_setStr_other (s : State) (p q : Nat) (sd : StringData) (h : p ≠ q) :
    (s.setStr p sd).getStr q = s.getStr q := by
  simp only [State.getStr, State.setStr]
  exact getD_set_other _ _ _ _ _ h

theorem getStr_allocStr_new (s : State) (sd : StringData) :
    (s.allocStr sd).2.getStr s.strs.length = sd := by
  simp only [State.getStr, State.allocStr]
  exact getD_append_length _ _ _

theorem getStr_allocStr_old (s : State) (sd : StringData) (p : Nat) (h : p < s.strs.length) :
    (s.allocStr sd).2.getStr p = s.getStr p := by
  simp only [State.getStr, State.allocStr]
  exact getD_append_lt _ _ _ _ h

theorem getStr_lt_of_data_ne_nil (s : State) (p : Nat) (h : (s.getStr p).data ≠ []) :
    p < s.strs.length := by
  by_contra hc
  apply h
  simp [State.getStr, List.getD_eq_getElem?_getD, List.getElem?_eq_none (Nat.le_of_not_lt hc)]

theorem data_getStr_decRefStr (s : State) (p q : Nat) :
    ((decRefStr s p).getStr q).data = (s.getStr q).data := by
  unfold decRefStr
  by_cases hpq : p = q
  · subst hpq
    by_cases hp : p < s.strs.length
    · rw [getStr_setStr_same _ _ _ hp]
    · have hle := Nat.le_of_not_lt hp
      have e1 : ∀ sd : StringData, (s.strs.set p sd)[p]? = none := fun sd =>
        List.getElem?_eq_none (by simpa using hle)
      simp [State.getStr, State.setStr, List.getD_eq_getElem?_getD, e1,
        List.getElem?_eq_none hle]
  · rw [getStr_setStr_other _ _ _ _ hpq]

theorem data_getStr_decRefStrOf (s : State) (tv : TypedValue) (q : Nat) :
    ((decRefStrOf s tv).getStr q).data = (s.getStr q).data := by
  cases tv <;> simp [decRefStrOf, data_getStr_decRefStr]

@[simp] theorem strs_length_decRefStrOf (s : State) (tv : TypedValue) :
    (decRefStrOf s tv).strs.length = s.strs.length := by
  cases tv <;> simp [decRefStrOf, decRefStr, State.setStr]

theorem cellBytes_str (s : State) (p : Nat) : cellBytes s (.str p) = (s.getStr p).data := rfl

theorem allocStr_fst (s : State) (sd : StringData) : (s.allocStr sd).1 = s.strs.length := rfl

/-- What `SetElemString` does to a non-empty string for a legal offset and a
right-hand side whose string form starts with the byte `c`. -/
theorem SetElemString_write (ext : Externals) (setResult : Bool) (b : Loc) (key : Key)
    (value : Loc) (s : State) (x : Nat) (c : Byte) (rest : List Byte)
    (hstr : isStringType (s.load b).m_type = true)
    (hne : cellBytes s (s.load b) ≠ [])
    (hx : castKeyToInt ext s key = (x : Int))
    (hmax : (x : Int) < ext.MaxSize)
    (hv : cellToString ext s (s.load value) = c :: rest) :
    ∃ r s', SetElemString ext setResult b key value s = .ok (some r) s' ∧
      (cellBytes s' (s'.load b)).length = max (cellBytes s (s.load b)).length (x + 1) ∧
      (∀ i, (cellBytes s' (s'.load b))[i]? =
        if i = x then some c
        else if i < (cellBytes s (s.load b)).length then (cellBytes s (s.load b))[i]?
        else if i < x then some 32 else none) := by
  have hlen : (cellBytes s (s.load b)).length ≠ 0 := by
    intro h
    exact hne (List.length_eq_zero.mp h)
  have hrange : ¬ ((x : Int) < 0 ∨ (x : Int) ≥ ext.MaxSize) := by omega
  have hb1 : s.load b ≠ .uninit := by
    intro h
    rw [h] at hstr
    simp [isStringType, TypedValue.m_type] at hstr
  have hb2 : b ≠ .initNullVariant := by
    intro h
    rw [h] at hstr
    simp [isStringType, TypedValue.m_type, State.load] at hstr
  unfold SetElemString
  simp only [hlen, if_false, hx, hrange, hv, List.length_cons, Nat.succ_pos, gt_iff_lt,
    Nat.zero_lt_succ, if_true, List.getD_cons_zero, Int.toNat_ofNat]
  by_cases hin : (x : Int) ≥ 0 ∧ (x : Int) < ((cellBytes s (s.load b)).length : Int) ∧
      (!strHasMultipleRefs s (s.load b)) = true
  · obtain ⟨_, hxlt, hnm⟩ := hin
    have hxlt' : x < (cellBytes s (s.load b)).length := by omega
    cases hl : s.load b with
    | str oldp =>
      rw [hl] at hxlt' hne hxlt hnm
      have hcond : (x : Int) ≥ 0 ∧ (x : Int) < ((cellBytes s (.str oldp)).length : Int) ∧
          (!strHasMultipleRefs s (.str oldp)) = true := ⟨by omega, hxlt, hnm⟩
      simp only [hcond, and_self, if_true, modifyChar, ne_eq, not_true_eq_false, if_false]
      simp only [cellBytes] at hxlt' hne ⊢
      have hp : oldp < s.strs.length := getStr_lt_of_data_ne_nil s oldp hne
      refine ⟨_, _, rfl, ?_, ?_⟩
      · simp only [load_allocStr, load_setStr, hl, cellBytes]
        rw [getStr_allocStr_old _ _ _ (by simpa [State.setStr] using hp)]
        rw [getStr_setStr_same _ _ _ hp]
        simp
        omega
      · intro i
        simp only [load_allocStr, load_setStr, hl, cellBytes]
        rw [getStr_allocStr_old _ _ _ (by simpa [State.setStr] using hp)]
        rw [getStr_setStr_same _ _ _ hp]
        simp only [List.getElem?_set]
        by_cases hix : i = x
        · subst hix
          simp [hxlt']
        · have hxi : ¬ x = i := fun h => hix h.symm
          simp only [hxi, hix, if_false]
          by_cases hil : i < (s.getStr oldp).data.length
          · simp [hil]
          · have : ¬ i < x := by omega
            simp only [hil, this, if_false]
            rw [List.getElem?_eq_none]
            omega
    | _ => rw [hl] at hnm; simp [strHasMultipleRefs] at hnm
  · simp only [hin, if_false]
    refine ⟨_, _, rfl, ?_, ?_⟩
    · simp only [load_allocStr]
      rw [load_store_same _ _ _ (by simpa using hb1) hb2]
      simp only [cellBytes_str, allocStr_fst]
      rw [getStr_allocStr_old _ _ _ (by simp [State.allocStr])]
      rw [getStr_store, data_getStr_decRefStrOf, getStr_allocStr_new]
      exact makeCopyBuf_length _ _ _
    · intro i
      simp only [load_allocStr]
      rw [load_store_same _ _ _ (by simpa using hb1) hb2]
      simp only [cellBytes_str, allocStr_fst]
      rw [getStr_allocStr_old _ _ _ (by simp [State.allocStr])]
      rw [getStr_store, data_getStr_decRefStrOf, getStr_allocStr_new]
      exact makeCopyBuf_get _ _ _ _

/-- On a base whose cell is a string, `SetElem` is `SetElemString` on that
cell. -/
theorem SetElem_eq_SetElemString (ext : Externals) (setResult : Bool) (base : Loc)
    (key : Key) (value : Loc) (s : State)
    (hstr : isStringType (s.load (tvToCell s base)).m_type = true) :
    SetElem ext setResult base key value s
      = SetElemString ext setResult (tvToCell s base) key value s := by
  have hslow : SetElemSlow ext setResult base key value s
      = SetElemString ext setResult (tvToCell s base) key value s := by
    unfold SetElemSlow
    cases hl : s.load (tvToCell s base) <;>
      simp [hl, isStringType, TypedValue.m_type] at hstr ⊢
  cases hb : s.load base with
  | arr a =>
    have e : tvToCell s base = base := by simp [tvToCell, hb]
    rw [e, hb] at hstr
    simp [isStringType, TypedValue.m_type] at hstr
  | _ => simp only [SetElem, hb, hslow]

/-- C1: on a non-empty string base of length `n`, for a key whose integer value
`x` satisfies `0 ≤ x < StringData::MaxSize` and a right-hand side whose string
form is non-empty with first byte `c`, `SetElem` returns and leaves the base
holding a string of length `max n (x+1)` in which byte `x` is `c`, every byte
`i < n` with `i ≠ x` is the old byte `i`, and every byte `i` with
`n ≤ i < x` is the ASCII space `0x20`. -/
theorem SetElem_string_offset_write (ext : Externals) (setResult : Bool) (base : Loc)
    (key : Key) (value : Loc) (s : State) (x : Nat) (c : Byte) (rest : List Byte)
    (hstr : isStringType (s.load (tvToCell s base)).m_type = true)
    (hne : cellBytes s (s.load (tvToCell s base)) ≠ [])
    (hx : castKeyToInt ext s key = (x : Int))
    (hmax : (x : Int) < ext.MaxSize)
    (hv : cellToString ext s (s.load value) = c :: rest) :
    ∃ r s', SetElem ext setResult base key value s = .ok r s' ∧
      (cellBytes s' (s'.load (tvToCell s base))).length
        = max (cellBytes s (s.load (tvToCell s base))).length (x + 1) ∧
      (cellBytes s' (s'.load (tvToCell s base)))[x]? = some c ∧
      (∀ i, i < (cellBytes s (s.load (tvToCell s base))).length → i ≠ x →
        (cellBytes s' (s'.load (tvToCell s base)))[i]?
          = (cellBytes s (s.load (tvToCell s base)))[i]?) ∧
      (∀ i, (cellBytes s (s.load (tvToCell s base))).length ≤ i → i < x →
        (cellBytes s' (s'.load (tvToCell s base)))[i]? = some 32) := by
  obtain ⟨r, s', hrun, hlen, hget⟩ :=
    SetElemString_write ext setResult (tvToCell s base) key value s x c rest hstr hne hx hmax hv
  refine ⟨some r, s', ?_, hlen, ?_, ?_, ?_⟩
  · rw [SetElem_eq_SetElemString ext setResult base key value s hstr, hrun]
  · rw [hget x]
    simp
  · intro i hi hix
    rw [hget i]
    simp [hix, hi]
  · intro i hi hix
    rw [hget i]
    have h1 : i ≠ x := by omega
    have h2 : ¬ i < (cellBytes s (s.load (tvToCell s base))).length := by omega
    simp [h1, h2, hix]

/-- Witness for C1: base "ab", key 5, right-hand side "Z". -/
theorem SetElem_string_offset_write_witness :
    ∃ r s', SetElem Externals.inert true (.slot 0) (.int 5) (.slot 1) stStringAb = .ok r s' ∧
      (cellBytes s' (s'.load (tvToCell stStringAb (.slot 0)))).length
        = max (cellBytes stStringAb (stStringAb.load (tvToCell stStringAb (.slot 0)))).length (5 + 1) ∧
      (cellBytes s' (s'.load (tvToCell stStringAb (.slot 0))))[5]? = some 90 ∧
      (∀ i, i < (cellBytes stStringAb (stStringAb.load (tvToCell stStringAb (.slot 0)))).length → i ≠ 5 →
        (cellBytes s' (s'.load (tvToCell stStringAb (.slot 0))))[i]?
          = (cellBytes stStringAb (stStringAb.load (tvToCell stStringAb (.slot 0))))[i]?) ∧
      (∀ i, (cellBytes stStringAb (stStringAb.load (tvToCell stStringAb (.slot 0)))).length ≤ i → i < 5 →
        (cellBytes s' (s'.load (tvToCell stStringAb (.slot 0))))[i]? = some 32) :=
  SetElem_string_offset_write Externals.inert true (.slot 0) (.int 5) (.slot 1) stStringAb
    5 90 [] (by decide) (by decide) (by decide) (by decide) (by decide)

theorem bind_ok_none_result {α : Type} (o : Outcome α) (r : Option Nat) (s' : State)
    (h : (o.bind fun _ s1 => Outcome.ok (none : Option Nat) s1) = .ok r s') : r = none := by
  cases o <;> simp [Outcome.bind] at h
  exact h.1.symm

/-- The string that `SetElemString` returns for a non-empty base and a legal
offset: the first byte of the string form of the right-hand side, unless that
byte is NUL. -/
theorem SetElemString_result (ext : Externals) (setResult : Bool) (b : Loc) (key : Key)
    (value : Loc) (s : State) (x : Nat) (c : Byte) (rest : List Byte)
    (hne : cellBytes s (s.load b) ≠ [])
    (hx : castKeyToInt ext s key = (x : Int))
    (hmax : (x : Int) < ext.MaxSize)
    (hv : cellToString ext s (s.load value) = c :: rest) :
    ∃ r s', SetElemString ext setResult b key value s = .ok (some r) s' ∧
      (s'.getStr r).data = if c = 0 then [] else [c] := by
  have hlen : (cellBytes s (s.load b)).length ≠ 0 := by
    intro h
    exact hne (List.length_eq_zero.mp h)
  have hrange : ¬ ((x : Int) < 0 ∨ (x : Int) ≥ ext.MaxSize) := by omega
  unfold SetElemString
  simp only [hlen, if_false, hx, hrange, hv, List.length_cons, gt_iff_lt,
    Nat.zero_lt_succ, if_true, List.getD_cons_zero]
  refine ⟨_, _, rfl, ?_⟩
  rw [show ∀ (t : State) (sd : StringData), (t.allocStr sd).2.getStr (t.allocStr sd).1 = sd
    from fun t sd => getStr_allocStr_new t sd]
  by_cases hc : c = 0 <;> simp [hc]

/-- On a base whose cell is not a string, a call of `SetElem` that returns,
returns the null pointer. -/
theorem SetElem_nonstring_result (ext : Externals) (setResult : Bool) (base : Loc)
    (key : Key) (value : Loc) (s : State)
    (hstr : isStringType (s.load (tvToCell s base)).m_type = false)
    (r : Option Nat) (s' : State)
    (hrun : SetElem ext setResult base key value s = .ok r s') : r = none := by
  have hslow : ∀ r s', SetElemSlow ext setResult base key value s = .ok r s' → r = none := by
    intro r s' h
    unfold SetElemSlow at h
    cases hl : s.load (tvToCell s base) <;>
      simp only [hl, isStringType, TypedValue.m_type] at hstr h <;>
      first
        | exact bind_ok_none_result _ _ _ h
        | exact absurd h (by simp)
        | exact absurd hstr (by simp)
  unfold SetElem at hrun
  cases hb : s.load base <;> simp only [hb] at hrun <;>
    first
      | exact bind_ok_none_result _ _ _ hrun
      | exact hslow _ _ hrun

/-- C2 (amended): `SetElem` returns a string of length exactly one, holding the
first byte of the string form of the right-hand side, whenever the unboxed
base is a non-empty string, the integer value of the key lies in
`[0, StringData::MaxSize)` and that first byte exists and is not NUL; and on
every base that is not a string, a call that returns, returns null. -/
theorem SetElem_return_value (ext : Externals) (setResult : Bool) (base : Loc)
    (key : Key) (value : Loc) (s : State) :
    (∀ (x : Nat) (c : Byte) (rest : List Byte),
      isStringType (s.load (tvToCell s base)).m_type = true →
      cellBytes s (s.load (tvToCell s base)) ≠ [] →
      castKeyToInt ext s key = (x : Int) → (x : Int) < ext.MaxSize →
      cellToString ext s (s.load value) = c :: rest → c ≠ 0 →
      ∃ r s', SetElem ext setResult base key value s = .ok (some r) s' ∧
        (s'.getStr r).data = [c] ∧ (s'.getStr r).data.length = 1) ∧
    (isStringType (s.load (tvToCell s base)).m_type = false →
      ∀ r s', SetElem ext setResult base key value s = .ok r s' → r = none) := by
  constructor
  · intro x c rest hstr hne hx hmax hv hc
    obtain ⟨r, s', hrun, hdata⟩ :=
      SetElemString_result ext setResult (tvToCell s base) key value s x c rest hne hx hmax hv
    refine ⟨r, s', ?_, ?_, ?_⟩
    · rw [SetElem_eq_SetElemString ext setResult base key value s hstr, hrun]
    · simpa [hc] using hdata
    · simp [hdata, hc]
  · intro hstr r s' hrun
    exact SetElem_nonstring_result ext setResult base key value s hstr r s' hrun

/-- Witness for C2 (amended): base "ab", key 5 and right-hand side "Z" for the
string part; base 42 with `setResult = true`, a call that returns, for the
other part. -/
theorem SetElem_return_value_witness :
    (∃ r s', SetElem Externals.inert true (.slot 0) (.int 5) (.slot 1) stStringAb
        = .ok (some r) s' ∧
        (s'.getStr r).data = [90] ∧ (s'.getStr r).data.length = 1) ∧
    (∀ r s', SetElem Externals.inert true (.slot 0) (.int 0) (.slot 1) stInt42 = .ok r s' →
        r = none) ∧
    (SetElem Externals.inert true (.slot 0) (.int 0) (.slot 1) stInt42).returned = some none :=
  ⟨(SetElem_return_value Externals.inert true (.slot 0) (.int 5) (.slot 1) stStringAb).1
      5 90 [] (by decide) (by decide) (by decide) (by decide) (by decide) (by decide),
    (SetElem_return_value Externals.inert true (.slot 0) (.int 0) (.slot 1) stInt42).2
      (by decide),
    by decide⟩

/-- C2 as stated fails: a string base does not always yield a one-character
string.  With the empty string as base `SetElem` returns null; with base "ab"
and the illegal offset -1 it returns null; with base "ab", offset 0 and an
empty right-hand side it returns a string of length 0; and with the base 42
and `setResult = false` it does not return at all but throws
`InvalidSetMException`. -/
theorem SetElem_return_value_counterexample :
    (isStringType (stEmptyString.load (tvToCell stEmptyString (.slot 0))).m_type = true ∧
      (SetElem Externals.inert true (.slot 0) (.int 0) (.slot 1) stEmptyString).returned
        = some none) ∧
    (isStringType (stStringAb.load (tvToCell stStringAb (.slot 0))).m_type = true ∧
      (SetElem Externals.inert true (.slot 0) (.int (-1)) (.slot 1) stStringAb).returned
        = some none) ∧
    (isStringType (stStringAbEmptyRhs.load (tvToCell stStringAbEmptyRhs (.slot 0))).m_type = true ∧
      (SetElem Externals.inert true (.slot 0) (.int 0) (.slot 1) stStringAbEmptyRhs).returned
        = some (some 1) ∧
      ((SetElem Externals.inert true (.slot 0) (.int 0) (.slot 1)
        stStringAbEmptyRhs).state.getStr 1).data.length = 0) ∧
    (isStringType (stInt42.load (tvToCell stInt42 (.slot 0))).m_type = false ∧
      (SetElem Externals.inert false (.slot 0) (.int 0) (.slot 1) stInt42).returned = none ∧
      (SetElem Externals.inert false (.slot 0) (.int 0) (.slot 1) stInt42).invalidSetMValue
        = some .null) := by
  decide

/-! ## Facts about the array heap -/

theorem getArr_setArr_same (s : State) (p : Nat) (ad : ArrayData) (h : p < s.arrs.length) :
    (s.setArr p ad).getArr p = ad := by
  simp only [State.getArr, State.setArr]
  exact getD_set_same _ _ _ _ h

theorem getArr_setArr_other (s : State) (p q : Nat) (ad : ArrayData) (h : p ≠ q) :
    (s.setArr p ad).getArr q = s.getArr q := by
  simp only [State.getArr, State.setArr]
  exact getD_set_other _ _ _ _ _ h

theorem getArr_allocArr_new (s : State) (ad : ArrayData) :
    (s.allocArr ad).2.getArr s.arrs.length = ad := by
  simp only [State.getArr, State.allocArr]
  exact getD_append_length _ _ _

theorem getArr_allocArr_old (s : State) (ad : ArrayData) (p : Nat) (h : p < s.arrs.length) :
    (s.allocArr ad).2.getArr p = s.getArr p := by
  simp only [State.getArr, State.allocArr]
  exact getD_append_lt _ _ _ _ h

theorem allocArr_fst (s : State) (ad : ArrayData) : (s.allocArr ad).1 = s.arrs.length := rfl

theorem getArr_dangling (s : State) (p : Nat) (h : ¬ p < s.arrs.length) :
    s.getArr p = { elems := [], nextKI := 0, count := 0 } := by
  simp [State.getArr, List.getD_eq_getElem?_getD, List.getElem?_eq_none (Nat.le_of_not_lt h)]

theorem getObj_dangling (s : State) (p : Nat) (h : ¬ p < s.objs.length) :
    s.getObj p = { isCollection := false, isArrayObject := false, props := [], count := 0 } := by
  simp [State.getObj, List.getD_eq_getElem?_getD, List.getElem?_eq_none (Nat.le_of_not_lt h)]

theorem getArr_lt_of_count_pos (s : State) (p : Nat) (h : 0 < (s.getArr p).count) :
    p < s.arrs.length := by
  by_contra hc
  rw [getArr_dangling s p hc] at h
  simp at h

theorem setArr_dangling (s : State) (p : Nat) (ad : ArrayData) (h : ¬ p < s.arrs.length) :
    s.setArr p ad = s := by
  simp only [State.setArr]
  rw [List.set_eq_of_length_le (Nat.le_of_not_lt h)]

theorem setObj_dangling (s : State) (p : Nat) (od : ObjectData) (h : ¬ p < s.objs.length) :
    s.setObj p od = s := by
  simp only [State.setObj]
  rw [List.set_eq_of_length_le (Nat.le_of_not_lt h)]

/-- Overwriting an array by one with the same entries changes no cell. -/
theorem load_setArr_same_elems (s : State) (p : Nat) (ad : ArrayData) (l : Loc)
    (h : ad.elems = (s.getArr p).elems) : (s.setArr p ad).load l = s.load l := by
  by_cases hp : p < s.arrs.length
  · cases l with
    | arrElem a k =>
      simp only [State.load]
      by_cases ha : p = a
      · subst ha
        rw [getArr_setArr_same _ _ _ hp, h]
      · rw [getArr_setArr_other _ _ _ _ ha]
    | _ => rfl
  · rw [setArr_dangling s p ad hp]

/-- Overwriting an object by one with the same properties changes no cell. -/
theorem load_setObj_same_props (s : State) (p : Nat) (od : ObjectData) (l : Loc)
    (h : od.props = (s.getObj p).props) : (s.setObj p od).load l = s.load l := by
  by_cases hp : p < s.objs.length
  · cases l with
    | objProp o n =>
      simp only [State.load]
      by_cases ha : p = o
      · subst ha
        have : (s.setObj p od).getObj p = od := by
          simp only [State.getObj, State.setObj]
          exact getD_set_same _ _ _ _ hp
        rw [this, h]
      · have : (s.setObj p od).getObj o = s.getObj o := by
          simp only [State.getObj, State.setObj]
          exact getD_set_other _ _ _ _ _ ha
        rw [this]
    | _ => rfl
  · rw [setObj_dangling s p od hp]

@[simp] theorem load_decRefArr (s : State) (p : Nat) (l : Loc) :
    (decRefArr s p).load l = s.load l :=
  load_setArr_same_elems s p _ l rfl

@[simp] theorem load_decRefObj (s : State) (p : Nat) (l : Loc) :
    (decRefObj s p).load l = s.load l :=
  load_setObj_same_props s p _ l rfl

@[simp] theorem load_tvRefcountedDecRef (s : State) (tv : TypedValue) (l : Loc) :
    (tvRefcountedDecRef s tv).load l = s.load l := by
  cases tv <;> simp [tvRefcountedDecRef]

@[simp] theorem load_raise_warning (s : State) (fmt : String) (arg : DiagArg) (l : Loc) :
    (raise_warning s fmt arg).load l = s.load l := by
  simp [raise_warning]

@[simp] theorem load_raise_notice (s : State) (fmt : String) (arg : DiagArg) (l : Loc) :
    (raise_notice s fmt arg).load l = s.load l := by
  simp [raise_notice]

theorem elemsGet_elemsWrite_other (elems : List (ArrayKey × TypedValue)) (k k' : ArrayKey)
    (v : TypedValue) (h : k ≠ k') :
    elemsGet (elemsWrite elems k v) k' = elemsGet elems k' := by
  induction elems with
  | nil => rfl
  | cons hd tl ih =>
    obtain ⟨k0, v0⟩ := hd
    by_cases h0 : k0 = k
    · subst h0
      simp [elemsWrite, elemsGet, h]
    · by_cases h1 : k0 = k'
      · subst h1
        simp [elemsWrite, elemsGet, h0]
      · simp [elemsWrite, elemsGet, h0, h1, ih]

theorem propsGet_propsWrite_other (props : List (List Byte × TypedValue)) (n n' : List Byte)
    (v : TypedValue) (h : n ≠ n') :
    propsGet (propsWrite props n v) n' = propsGet props n' := by
  induction props with
  | nil => rfl
  | cons hd tl ih =>
    obtain ⟨n0, v0⟩ := hd
    by_cases h0 : n0 = n
    · subst h0
      simp [propsWrite, propsGet, h]
    · by_cases h1 : n0 = n'
      · subst h1
        simp [propsWrite, propsGet, h0]
      · simp [propsWrite, propsGet, h0, h1, ih]

/-- A store through one pointer changes no other cell. -/
theorem load_store_other (s : State) (l l' : Loc) (v : TypedValue) (h : l ≠ l') :
    (s.store l v).load l' = s.load l' := by
  cases l with
  | slot i =>
    cases l' with
    | slot j =>
      have hij : i ≠ j := fun e => h (by rw [e])
      simp only [State.store, State.load]
      exact getD_set_other _ _ _ _ _ hij
    | _ => rfl
  | refInner r =>
    cases l' with
    | refInner r' =>
      have hij : r ≠ r' := fun e => h (by rw [e])
      simp only [State.store, State.load]
      exact getD_set_other _ _ _ _ _ hij
    | _ => rfl
  | arrElem a k =>
    cases l' with
    | arrElem a' k' =>
      simp only [State.store, State.load]
      by_cases ha : a = a'
      · subst ha
        have hk : k ≠ k' := fun e => h (by rw [e])
        by_cases hp : a < s.arrs.length
        · rw [getArr_setArr_same _ _ _ hp]
          simp only [elemsGet_elemsWrite_other _ _ _ _ hk]
        · rw [setArr_dangling _ _ _ hp]
      · rw [getArr_setArr_other _ _ _ _ ha]
    | _ => rfl
  | objProp o n =>
    cases l' with
    | objProp o' n' =>
      simp only [State.store, State.load]
      by_cases ha : o = o'
      · subst ha
        have hk : n ≠ n' := fun e => h (by rw [e])
        by_cases hp : o < s.objs.length
        · have : (s.setObj o { s.getObj o with props := propsWrite (s.getObj o).props n v }).getObj o
              = { s.getObj o with props := propsWrite (s.getObj o).props n v } := by
            simp only [State.getObj, State.setObj]
            exact getD_set_same _ _ _ _ hp
          rw [this]
          simp only [propsGet_propsWrite_other _ _ _ _ hk]
        · rw [setObj_dangling _ _ _ hp]
      · have : (s.setObj o { s.getObj o with props := propsWrite (s.getObj o).props n v }).getObj o'
            = s.getObj o' := by
          simp only [State.getObj, State.setObj]
          exact getD_set_other _ _ _ _ _ ha
        rw [this]
    | _ => rfl
  | tvRef =>
    cases l' with
    | tvRef => exact absurd rfl h
    | _ => rfl
  | nullVariant => rfl
  | initNullVariant => rfl

/-- A writable cell is read back after a store through its pointer. -/
theorem load_store_writable (s : State) (l : Loc) (v : TypedValue)
    (h : s.writable l = true) : (s.store l v).load l = v := by
  cases l with
  | slot i =>
    simp only [State.writable, decide_eq_true_eq] at h
    simp only [State.store, State.load]
    exact getD_set_same _ _ _ _ h
  | refInner r =>
    simp only [State.writable, decide_eq_true_eq] at h
    simp only [State.store, State.load]
    exact getD_set_same _ _ _ _ h
  | arrElem a k =>
    simp only [State.writable, Bool.and_eq_true, decide_eq_true_eq] at h
    simp only [State.store, State.load]
    rw [getArr_setArr_same _ _ _ h.1]
    simp only [elemsGet_elemsWrite_same _ _ _ h.2]
    rfl
  | objProp o n =>
    simp only [State.writable, Bool.and_eq_true, decide_eq_true_eq] at h
    simp only [State.store, State.load]
    have : (s.setObj o { s.getObj o with props := propsWrite (s.getObj o).props n v }).getObj o
        = { s.getObj o with props := propsWrite (s.getObj o).props n v } := by
      simp only [State.getObj, State.setObj]
      exact getD_set_same _ _ _ _ h.1
    rw [this]
    simp only [propsGet_propsWrite_same _ _ _ h.2]
    rfl
  | tvRef => rfl
  | nullVariant => simp [State.writable] at h
  | initNullVariant => simp [State.writable] at h

@[simp] theorem log_store (s : State) (l : Loc) (v : TypedValue) :
    (s.store l v).log = s.log := by
  cases l <;> rfl

@[simp] theorem log_tvRefcountedDecRef (s : State) (tv : TypedValue) :
    (tvRefcountedDecRef s tv).log = s.log := by
  cases tv <;> rfl

@[simp] theorem log_raise_warning (s : State) (fmt : String) (arg : DiagArg) :
    (raise_warning s fmt arg).log = s.log ++ [{ level := .warning, fmt := fmt, arg := arg }] :=
  rfl

@[simp] theorem log_raise_notice (s : State) (fmt : String) (arg : DiagArg) :
    (raise_notice s fmt arg).log = s.log ++ [{ level := .notice, fmt := fmt, arg := arg }] :=
  rfl

theorem writable_of_same_shape (s t : State) (l : Loc)
    (h1 : t.slots.length = s.slots.length) (h2 : t.refs.length = s.refs.length)
    (h3 : t.arrs.length = s.arrs.length) (h4 : t.objs.length = s.objs.length)
    (h5 : ∀ a, (t.getArr a).elems = (s.getArr a).elems)
    (h6 : ∀ o, (t.getObj o).props = (s.getObj o).props) :
    t.writable l = s.writable l := by
  cases l <;> simp [State.writable, h1, h2, h3, h4, h5, h6]

end HPHP

namespace HPHP

@[simp] theorem load_record (s : State) (e : SlotEvent) (l : Loc) :
    (s.record e).load l = s.load l := by
  cases l <;> rfl

@[simp] theorem strs_record (s : State) (e : SlotEvent) : (s.record e).strs = s.strs := rfl

@[simp] theorem arrs_record (s : State) (e : SlotEvent) : (s.record e).arrs = s.arrs := rfl

@[simp] theorem objs_record (s : State) (e : SlotEvent) : (s.record e).objs = s.objs := rfl

@[simp] theorem log_record (s : State) (e : SlotEvent) : (s.record e).log = s.log := rfl

@[simp] theorem trace_record (s : State) (e : SlotEvent) :
    (s.record e).trace = s.trace ++ [e] := rfl

@[simp] theorem getStr_record (s : State) (e : SlotEvent) (p : Nat) :
    (s.record e).getStr p = s.getStr p := rfl

@[simp] theorem getArr_record (s : State) (e : SlotEvent) (p : Nat) :
    (s.record e).getArr p = s.getArr p := rfl

@[simp] theorem getObj_record (s : State) (e : SlotEvent) (p : Nat) :
    (s.record e).getObj p = s.getObj p := rfl

@[simp] theorem writable_record (s : State) (e : SlotEvent) (l : Loc) :
    (s.record e).writable l = s.writable l := by
  cases l <;> rfl

@[simp] theorem trace_store (s : State) (l : Loc) (v : TypedValue) :
    (s.store l v).trace = s.trace := by
  cases l <;> rfl

@[simp] theorem trace_tvRefcountedDecRef (s : State) (tv : TypedValue) :
    (tvRefcountedDecRef s tv).trace = s.trace := by
  cases tv <;> rfl

@[simp] theorem trace_raise_warning (s : State) (fmt : String) (arg : DiagArg) :
    (raise_warning s fmt arg).trace = s.trace := rfl

@[simp] theorem trace_raise_notice (s : State) (fmt : String) (arg : DiagArg) :
    (raise_notice s fmt arg).trace = s.trace := rfl

@[simp] theorem trace_allocArr (s : State) (ad : ArrayData) :
    (s.allocArr ad).2.trace = s.trace := rfl

@[simp] theorem trace_setArr (s : State) (p : Nat) (ad : ArrayData) :
    (s.setArr p ad).trace = s.trace := rfl

theorem tvToCell_of_arr (s : State) (base : Loc) (a : Nat) (h : s.load base = .arr a) :
    tvToCell s base = base := by
  simp [tvToCell, h]

/-- Off the array fast path `SetElem` is `SetElemSlow`. -/
theorem SetElem_eq_SetElemSlow (ext : Externals) (setResult : Bool) (base : Loc)
    (key : Key) (value : Loc) (s : State)
    (h : ∀ a, s.load (tvToCell s base) ≠ .arr a) :
    SetElem ext setResult base key value s = SetElemSlow ext setResult base key value s := by
  cases hb : s.load base with
  | arr a =>
    have e := tvToCell_of_arr s base a hb
    rw [e] at h
    exact absurd hb (h a)
  | _ => simp only [SetElem, hb]

theorem getObj_setObj_same (s : State) (p : Nat) (od : ObjectData) (h : p < s.objs.length) :
    (s.setObj p od).getObj p = od := by
  simp only [State.getObj, State.setObj]
  exact getD_set_same _ _ _ _ h

theorem getObj_setObj_other (s : State) (p q : Nat) (od : ObjectData) (h : p ≠ q) :
    (s.setObj p od).getObj q = s.getObj q := by
  simp only [State.getObj, State.setObj]
  exact getD_set_other _ _ _ _ _ h

theorem writable_tvRefcountedDecRef (s : State) (tv : TypedValue) (l : Loc) :
    (tvRefcountedDecRef s tv).writable l = s.writable l := by
  cases tv with
  | str p => cases l <;> rfl
  | arr p =>
    simp only [tvRefcountedDecRef, decRefArr]
    by_cases hp : p < s.arrs.length
    · refine writable_of_same_shape _ _ _ rfl rfl ?_ rfl ?_ ?_
      · simp [State.setArr]
      · intro a
        by_cases ha : p = a
        · subst ha
          rw [getArr_setArr_same _ _ _ hp]
        · rw [getArr_setArr_other _ _ _ _ ha]
      · intro o
        rfl
    · rw [setArr_dangling _ _ _ hp]
  | obj p =>
    simp only [tvRefcountedDecRef, decRefObj]
    by_cases hp : p < s.objs.length
    · refine writable_of_same_shape _ _ _ rfl rfl rfl ?_ ?_ ?_
      · simp [State.setObj]
      · intro a
        rfl
      · intro o
        by_cases ha : p = o
        · subst ha
          rw [getObj_setObj_same _ _ _ hp]
        · rw [getObj_setObj_other _ _ _ _ ha]
    · rw [setObj_dangling _ _ _ hp]
  | _ => rfl

@[simp] theorem writable_raise_warning (s : State) (fmt : String) (arg : DiagArg) (l : Loc) :
    (raise_warning s fmt arg).writable l = s.writable l := by
  cases l <;> rfl

@[simp] theorem writable_raise_notice (s : State) (fmt : String) (arg : DiagArg) (l : Loc) :
    (raise_notice s fmt arg).writable l = s.writable l := by
  cases l <;> rfl

/-- What `SetElemScalar` does. -/
theorem SetElemScalar_spec (setResult : Bool) (value b : Loc) (s : State)
    (hval : s.writable value = true) (hne : value ≠ b) :
    (setResult = false →
      SetElemScalar setResult value s
        = .invalidSetM .null (raise_warning s Strings.CANNOT_USE_SCALAR_AS_ARRAY .none)) ∧
    (setResult = true →
      ∃ s', SetElemScalar setResult value s = .ok () s' ∧
        s'.load value = .null ∧
        s'.log = s.log ++ [{ level := .warning, fmt := Strings.CANNOT_USE_SCALAR_AS_ARRAY, arg := .none }] ∧
        s'.load b = s.load b) := by
  constructor
  · intro h
    subst h
    rfl
  · intro h
    subst h
    refine ⟨_, rfl, ?_, ?_, ?_⟩
    · unfold tvWriteNull
      apply load_store_writable
      rw [writable_tvRefcountedDecRef, writable_raise_warning]
      exact hval
    · simp [tvWriteNull]
    · unfold tvWriteNull
      rw [load_store_other _ _ _ _ hne]
      simp

/-- C8: on a base tagged Int, Double, Resource or Bool true, `SetElem` raises
the warning "Cannot use a scalar value as an array" and leaves the base
unchanged; with `setResult = false` it throws `InvalidSetMException` carrying
null, and with `setResult = true` it overwrites the right-hand side with null
and returns null. -/
theorem SetElem_scalar_base (ext : Externals) (setResult : Bool) (base : Loc)
    (key : Key) (value : Loc) (s : State)
    (hscalar : (∃ n, s.load (tvToCell s base) = .int n) ∨
      (∃ d, s.load (tvToCell s base) = .dbl d) ∨
      (∃ i, s.load (tvToCell s base) = .res i) ∨
      s.load (tvToCell s base) = .bool true)
    (hval : s.writable value = true) (hne : value ≠ tvToCell s base) :
    (setResult = false →
      ∃ s', SetElem ext setResult base key value s = .invalidSetM .null s' ∧
        s'.log = s.log ++ [⟨.warning, "Cannot use a scalar value as an array", .none⟩] ∧
        s'.load (tvToCell s base) = s.load (tvToCell s base)) ∧
    (setResult = true →
      ∃ s', SetElem ext setResult base key value s = .ok none s' ∧
        s'.load value = .null ∧
        s'.log = s.log ++ [⟨.warning, "Cannot use a scalar value as an array", .none⟩] ∧
        s'.load (tvToCell s base) = s.load (tvToCell s base)) := by
  have hslow : SetElem ext setResult base key value s
      = (SetElemScalar setResult value s).bind fun _ s1 => .ok none s1 := by
    rw [SetElem_eq_SetElemSlow]
    · unfold SetElemSlow
      rcases hscalar with ⟨n, h⟩ | ⟨d, h⟩ | ⟨i, h⟩ | h <;> simp [h, SetElemBoolean]
    · intro a
      rcases hscalar with ⟨n, h⟩ | ⟨d, h⟩ | ⟨i, h⟩ | h <;> simp [h]
  obtain ⟨h1, h2⟩ := SetElemScalar_spec setResult value (tvToCell s base) s hval hne
  constructor
  · intro hf
    refine ⟨raise_warning s Strings.CANNOT_USE_SCALAR_AS_ARRAY .none, ?_, ?_, ?_⟩
    · rw [hslow, h1 hf]
      rfl
    · rfl
    · simp
  · intro ht
    obtain ⟨s', hrun, hv, hl, hb⟩ := h2 ht
    refine ⟨s', ?_, hv, hl, hb⟩
    rw [hslow, hrun]
    rfl

/-- Witness for C8: base 42, key 0, right-hand side 5, with
`setResult = false` and with `setResult = true`. -/
theorem SetElem_scalar_base_witness :
    (∃ s', SetElem Externals.inert false (.slot 0) (.int 0) (.slot 1) stInt42
        = .invalidSetM .null s' ∧
      s'.log = stInt42.log ++ [⟨.warning, "Cannot use a scalar value as an array", .none⟩] ∧
      s'.load (tvToCell stInt42 (.slot 0)) = stInt42.load (tvToCell stInt42 (.slot 0))) ∧
    (∃ s', SetElem Externals.inert true (.slot 0) (.int 0) (.slot 1) stInt42 = .ok none s' ∧
      s'.load (.slot 1) = .null ∧
      s'.log = stInt42.log ++ [⟨.warning, "Cannot use a scalar value as an array", .none⟩] ∧
      s'.load (tvToCell stInt42 (.slot 0)) = stInt42.load (tvToCell stInt42 (.slot 0))) :=
  ⟨(SetElem_scalar_base Externals.inert false (.slot 0) (.int 0) (.slot 1) stInt42
      (Or.inl ⟨42, by decide⟩) (by decide) (by decide)).1 rfl,
    (SetElem_scalar_base Externals.inert true (.slot 0) (.int 0) (.slot 1) stInt42
      (Or.inl ⟨42, by decide⟩) (by decide) (by decide)).2 rfl⟩

/-- The cast of a key to a string offset changes the state at most by the
notice "String offset cast occurred". -/
theorem ElemStringPre_state (ext : Externals) (key : Key) (s : State) :
    (ElemStringPre ext key s).2 = s ∨
    (ElemStringPre ext key s).2 = raise_notice s "String offset cast occurred" .none := by
  cases key with
  | int n => exact Or.inl rfl
  | str sd => exact Or.inl rfl
  | any tv => cases tv <;> first | exact Or.inl rfl | exact Or.inr rfl

/-- Off the array fast path `Elem` is `ElemSlow`. -/
theorem Elem_eq_ElemSlow (ext : Externals) (warn : Bool) (base : Loc) (key : Key) (s : State)
    (h : ∀ a, s.load (tvToCell s base) ≠ .arr a) :
    Elem ext warn base key s = ElemSlow ext warn base key s := by
  cases hb : s.load base with
  | arr a =>
    have e := tvToCell_of_arr s base a hb
    rw [e] at h
    exact absurd hb (h a)
  | _ => simp only [Elem, hb]

theorem cellBytes_raise_notice (s : State) (fmt : String) (arg : DiagArg) (tv : TypedValue) :
    cellBytes (raise_notice s fmt arg) tv = cellBytes s tv := by
  cases tv <;> rfl

theorem cellBytes_raise_warning (s : State) (fmt : String) (arg : DiagArg) (tv : TypedValue) :
    cellBytes (raise_warning s fmt arg) tv = cellBytes s tv := by
  cases tv <;> rfl

theorem cellBytes_store (s : State) (l : Loc) (v tv : TypedValue) :
    cellBytes (s.store l v) tv = cellBytes s tv := by
  cases tv <;> simp [cellBytes]

/-- What `Elem` does on a string base: the scratch cell, the base and the log
afterwards. -/
theorem Elem_string_lookup (ext : Externals) (warn : Bool) (base : Loc) (key : Key) (s : State)
    (hstr : isStringType (s.load (tvToCell s base)).m_type = true)
    (hb : tvToCell s base ≠ .tvRef) :
    ∃ s', Elem ext warn base key s = .ok .tvRef s' ∧
      (0 ≤ (ElemStringPre ext key s).1 ∧
        (ElemStringPre ext key s).1 < ((cellBytes s (s.load (tvToCell s base))).length : Int) →
          ∃ c, (cellBytes s (s.load (tvToCell s base)))[((ElemStringPre ext key s).1).toNat]? = some c ∧
            s'.load .tvRef = .sstr [c]) ∧
      (¬ (0 ≤ (ElemStringPre ext key s).1 ∧
        (ElemStringPre ext key s).1 < ((cellBytes s (s.load (tvToCell s base))).length : Int)) →
          s'.load .tvRef = .sstr []) ∧
      s'.load (tvToCell s base) = s.load (tvToCell s base) ∧
      cellBytes s' (s'.load (tvToCell s base)) = cellBytes s (s.load (tvToCell s base)) ∧
      ∃ pre, (⟨.warning, "Out of bounds", .none⟩ : Diag) ∉ pre ∧
        s'.log = s.log ++ pre ++
          (if ¬ (0 ≤ (ElemStringPre ext key s).1 ∧
                (ElemStringPre ext key s).1 < ((cellBytes s (s.load (tvToCell s base))).length : Int))
              ∧ warn = true ∧ ext.EnableHipHopSyntax = true
           then [⟨.warning, "Out of bounds", .none⟩] else []) := by
  have hslow : Elem ext warn base key s = ElemString ext warn (tvToCell s base) key s := by
    rw [Elem_eq_ElemSlow]
    · unfold ElemSlow
      cases hl : s.load (tvToCell s base) <;>
        simp [hl, isStringType, TypedValue.m_type] at hstr ⊢
    · intro a h
      rw [h] at hstr
      simp [isStringType, TypedValue.m_type] at hstr
  have hb' : Loc.tvRef ≠ tvToCell s base := fun e => hb e.symm
  have hload : (ElemStringPre ext key s).2.load (tvToCell s base) = s.load (tvToCell s base) := by
    rcases ElemStringPre_state ext key s with e | e <;> simp [e]
  have hbytes : cellBytes (ElemStringPre ext key s).2 (s.load (tvToCell s base))
      = cellBytes s (s.load (tvToCell s base)) := by
    rcases ElemStringPre_state ext key s with e | e <;> rw [e]
    exact cellBytes_raise_notice _ _ _ _
  have hlog : ∃ pre, (⟨.warning, "Out of bounds", .none⟩ : Diag) ∉ pre ∧
      (ElemStringPre ext key s).2.log = s.log ++ pre := by
    rcases ElemStringPre_state ext key s with e | e
    · exact ⟨[], by simp, by rw [e]; simp⟩
    · refine ⟨[⟨.notice, "String offset cast occurred", .none⟩], by decide, ?_⟩
      rw [e]
      rfl
  obtain ⟨pre, hpre, hlog⟩ := hlog
  rw [hslow]
  unfold ElemString
  simp only [hload, hbytes]
  by_cases hout : (ElemStringPre ext key s).1 < 0 ∨
      (ElemStringPre ext key s).1 ≥ ((cellBytes s (s.load (tvToCell s base))).length : Int)
  · have hnin : ¬ (0 ≤ (ElemStringPre ext key s).1 ∧
        (ElemStringPre ext key s).1 < ((cellBytes s (s.load (tvToCell s base))).length : Int)) := by
      omega
    simp only [hout, if_true]
    by_cases hw : (warn && ext.EnableHipHopSyntax) = true
    · simp only [hw, if_true]
      refine ⟨_, rfl, ?_, ?_, ?_, ?_, pre, hpre, ?_⟩
      · intro h
        exact absurd h hnin
      · intro _
        rfl
      · rw [load_store_other _ _ _ _ hb']
        simp [hload]
      · rw [load_store_other _ _ _ _ hb', cellBytes_store]
        simp only [load_raise_warning, hload, cellBytes_raise_warning, hbytes]
      · simp only [Bool.and_eq_true] at hw
        simp [hlog, hnin, hw.1, hw.2]
    · simp only [hw, if_false]
      refine ⟨_, rfl, ?_, ?_, ?_, ?_, pre, hpre, ?_⟩
      · intro h
        exact absurd h hnin
      · intro _
        rfl
      · rw [load_store_other _ _ _ _ hb']
        exact hload
      · rw [load_store_other _ _ _ _ hb', cellBytes_store, hload, hbytes]
      · have hw' : ¬ (warn = true ∧ ext.EnableHipHopSyntax = true) := by
          simpa [Bool.and_eq_true] using hw
        have : ¬ (¬ (0 ≤ (ElemStringPre ext key s).1 ∧
            (ElemStringPre ext key s).1 < ((cellBytes s (s.load (tvToCell s base))).length : Int))
              ∧ warn = true ∧ ext.EnableHipHopSyntax = true) := fun h => hw' h.2
        simp only [log_store, hlog, this, if_false, List.append_nil]
  · have hin : 0 ≤ (ElemStringPre ext key s).1 ∧
        (ElemStringPre ext key s).1 < ((cellBytes s (s.load (tvToCell s base))).length : Int) := by
      omega
    simp only [hout, if_false]
    refine ⟨_, rfl, ?_, ?_, ?_, ?_, pre, hpre, ?_⟩
    · intro _
      have hlt : ((ElemStringPre ext key s).1).toNat
          < (cellBytes s (s.load (tvToCell s base))).length := by omega
      refine ⟨(cellBytes s (s.load (tvToCell s base)))[((ElemStringPre ext key s).1).toNat], ?_, ?_⟩
      · exact List.getElem?_eq_getElem hlt
      · show getChar _ _ = _
        simp [getChar, List.getD_eq_getElem?_getD, List.getElem?_eq_getElem hlt]
    · intro h
      exact absurd hin h
    · rw [load_store_other _ _ _ _ hb']
      exact hload
    · rw [load_store_other _ _ _ _ hb', cellBytes_store, hload, hbytes]
    · have : ¬ (¬ (0 ≤ (ElemStringPre ext key s).1 ∧
          (ElemStringPre ext key s).1 < ((cellBytes s (s.load (tvToCell s base))).length : Int))
            ∧ warn = true ∧ ext.EnableHipHopSyntax = true) := fun h => h.1 hin
      simp only [log_store, hlog, this, if_false, List.append_nil]

/-- On a base whose cell is an array, `Elem` is `ElemArray` on that array. -/
theorem Elem_eq_ElemArray (ext : Externals) (warn : Bool) (base : Loc) (key : Key)
    (s : State) (a : Nat) (h : s.load (tvToCell s base) = .arr a) :
    Elem ext warn base key s = ElemArray ext warn a key s := by
  cases hb : s.load base with
  | arr a' =>
    have e := tvToCell_of_arr s base a' hb
    rw [e, hb] at h
    cases h
    simp only [Elem, hb]
  | _ => simp only [Elem, hb, ElemSlow, h]

/-- For a legal key `ElemArrayPre` is the lookup of its canonical form. -/
theorem ElemArrayPre_legal (ext : Externals) (a : Nat) (key : Key) (s : State) (k : ArrayKey)
    (hk : keyAsValue ext s key = some k) :
    ElemArrayPre ext a key s = .ok (nvGetOrNullVariant s a k) s := by
  cases key with
  | int n =>
    simp only [keyAsValue, Option.some.injEq] at hk
    subst hk
    rfl
  | str sd =>
    simp only [keyAsValue, strKey] at hk
    simp only [ElemArrayPre, ElemArrayPreStr]
    cases hi : isStrictlyInteger (sd.bytes s) with
    | none =>
      simp only [hi, Option.some.injEq] at hk
      subst hk
      rfl
    | some n =>
      simp only [hi, Option.some.injEq] at hk
      subst hk
      rfl
  | any tv =>
    simp only [keyAsValue] at hk
    cases tv with
    | int n =>
      simp only [toKey, Option.some.injEq] at hk
      subst hk
      rfl
    | sstr b =>
      simp only [toKey, strKey] at hk
      simp only [ElemArrayPre, ElemArrayPreStr, StrRef.bytes]
      cases hi : isStrictlyInteger b with
      | none =>
        simp only [hi, Option.some.injEq] at hk
        subst hk
        rfl
      | some n =>
        simp only [hi, Option.some.injEq] at hk
        subst hk
        rfl
    | str p =>
      simp only [toKey, strKey] at hk
      simp only [ElemArrayPre, ElemArrayPreStr, StrRef.bytes]
      cases hi : isStrictlyInteger (s.getStr p).data with
      | none =>
        simp only [hi, Option.some.injEq] at hk
        subst hk
        rfl
      | some n =>
        simp only [hi, Option.some.injEq] at hk
        subst hk
        rfl
    | uninit => simp only [ElemArrayPre, rvalAtRef, hk]
    | null => simp only [ElemArrayPre, rvalAtRef, hk]
    | bool b => simp only [ElemArrayPre, rvalAtRef, hk]
    | dbl d => simp only [ElemArrayPre, rvalAtRef, hk]
    | res i => simp only [ElemArrayPre, rvalAtRef, hk]
    | arr p => simp [toKey] at hk
    | obj p => simp [toKey] at hk
    | ref p => simp [toKey] at hk
    | cls p => simp [toKey] at hk

/-- The lookup that `Elem` performs on an array base for a legal key. -/
theorem Elem_array_lookup (ext : Externals) (warn : Bool) (base : Loc) (key : Key)
    (s : State) (a : Nat) (k : ArrayKey)
    (hbase : s.load (tvToCell s base) = .arr a)
    (hk : keyAsValue ext s key = some k) :
    (∀ v, elemsGet (s.getArr a).elems k = some v → v ≠ .uninit →
      Elem ext warn base key s = .ok (.arrElem a k) s ∧ s.load (.arrElem a k) = v) ∧
    (elemsGet (s.getArr a).elems k = none →
      ∃ s', Elem ext warn base key s = .ok .initNullVariant s' ∧
        s'.load .initNullVariant = .null ∧
        s'.arrs = s.arrs ∧ s'.slots = s.slots ∧
        s'.log = s.log ++
          (if warn = true then
            [⟨.notice, "Undefined index: %s",
              .str (cStr (cellToString ext s (initScratchKey key)))⟩]
           else [])) := by
  rw [Elem_eq_ElemArray ext warn base key s a hbase]
  unfold ElemArray
  rw [ElemArrayPre_legal ext a key s k hk]
  constructor
  · intro v hv hne
    have hl : s.load (nvGetOrNullVariant s a k) = v := by
      simp [nvGetOrNullVariant, nvGet, hv, State.load]
    have hne' : (s.load (nvGetOrNullVariant s a k)).m_type ≠ .KindOfUninit := by
      rw [hl]
      cases v <;> simp [TypedValue.m_type] at hne ⊢
    constructor
    · simp only [Outcome.bind, hne', if_false]
      simp [nvGetOrNullVariant, nvGet, hv]
    · simp [State.load, hv]
  · intro hnone
    have hl : s.load (nvGetOrNullVariant s a k) = .uninit := by
      simp [nvGetOrNullVariant, nvGet, hnone, State.load]
    simp only [Outcome.bind, hl, TypedValue.m_type, if_true]
    cases warn with
    | true => exact ⟨_, rfl, rfl, rfl, rfl, rfl⟩
    | false => exact ⟨_, rfl, rfl, rfl, rfl, by simp⟩

/-- C4: on an array base (wherever the base cell lives), for a legal key,
`Elem` returns the stored cell, raises nothing and leaves the state as it was
when the key is present (arrays do not store Uninit cells); when the key is
absent it returns the null sentinel, raising exactly one "Undefined index"
notice when `warn` is true and no notice when `warn` is false. The notice
names the key: the decimal form of an Int key, the bytes of a Str key, the
string form of an Any key, each as `%s` prints it (up to the first NUL
byte). In both cases no array, object, reference box, string or frame slot
changes. -/
theorem Elem_array_base (ext : Externals) (warn : Bool) (base : Loc) (key : Key)
    (s : State) (a : Nat) (k : ArrayKey)
    (hbase : s.load (tvToCell s base) = .arr a)
    (hk : keyAsValue ext s key = some k) :
    (∀ v, elemsGet (s.getArr a).elems k = some v → v ≠ .uninit →
      Elem ext warn base key s = .ok (.arrElem a k) s ∧ s.load (.arrElem a k) = v) ∧
    (elemsGet (s.getArr a).elems k = none →
      ∃ s', Elem ext warn base key s = .ok .initNullVariant s' ∧
        s'.load .initNullVariant = .null ∧
        s'.arrs = s.arrs ∧ s'.objs = s.objs ∧ s'.refs = s.refs ∧ s'.strs = s.strs ∧
        s'.slots = s.slots ∧ s'.tvRef = s.tvRef ∧
        s'.log = s.log ++
          (if warn = true then
            [⟨.notice, "Undefined index: %s",
              .str ((match key with
                | .int n => intToBytes n
                | .str (.static b) => b
                | .str (.heap p) => (s.getStr p).data
                | .any .uninit => []
                | .any .null => []
                | .any (.bool b) => if b then [49] else []
                | .any (.int n) => intToBytes n
                | .any (.sstr b) => b
                | .any (.str p) => (s.getStr p).data
                | .any tv => ext.toStringOther s tv).takeWhile (fun c => decide (c ≠ 0)))⟩]
           else [])) := by
  rw [Elem_eq_ElemArray ext warn base key s a hbase]
  unfold ElemArray
  rw [ElemArrayPre_legal ext a key s k hk]
  constructor
  · intro v hv hne
    have hl : s.load (nvGetOrNullVariant s a k) = v := by
      simp [nvGetOrNullVariant, nvGet, hv, State.load]
    have hne' : (s.load (nvGetOrNullVariant s a k)).m_type ≠ .KindOfUninit := by
      rw [hl]
      cases v <;> simp [TypedValue.m_type] at hne ⊢
    constructor
    · simp only [Outcome.bind, hne', if_false]
      simp [nvGetOrNullVariant, nvGet, hv]
    · simp [State.load, hv]
  · intro hnone
    have hl : s.load (nvGetOrNullVariant s a k) = .uninit := by
      simp [nvGetOrNullVariant, nvGet, hnone, State.load]
    have hname : cStr (cellToString ext s (initScratchKey key))
        = (match key with
            | .int n => intToBytes n
            | .str (.static b) => b
            | .str (.heap p) => (s.getStr p).data
            | .any .uninit => []
            | .any .null => []
            | .any (.bool b) => if b then [49] else []
            | .any (.int n) => intToBytes n
            | .any (.sstr b) => b
            | .any (.str p) => (s.getStr p).data
            | .any tv => ext.toStringOther s tv).takeWhile (fun c => decide (c ≠ 0)) := by
      unfold cStr
      cases key with
      | int n => rfl
      | str sd => cases sd <;> rfl
      | any tv => cases tv <;> rfl
    simp only [Outcome.bind, hl, TypedValue.m_type, if_true]
    rw [hname]
    cases warn with
    | true => exact ⟨_, rfl, rfl, rfl, rfl, rfl, rfl, rfl, rfl, rfl⟩
    | false => exact ⟨_, rfl, rfl, rfl, rfl, rfl, rfl, rfl, rfl, by simp⟩

/-- Witness for C4: base `["a" => 1]` with `warn = true`; the key "b" is
absent and the notice names "b"; the absent key made of the bytes "b", NUL, "c" is named up
to its NUL byte, the absent Int key 7 by its decimal form; the present key "a"
gives the stored cell and no notice. The same holds for the array
`["n" => 5]` held in an element of another array. -/
theorem Elem_array_base_witness :
    ((∀ v, elemsGet (stArrayA1.getArr 0).elems (.str [98]) = some v → v ≠ .uninit →
      Elem Externals.inert true (.slot 0) (.str (.static [98])) stArrayA1
          = .ok (.arrElem 0 (.str [98])) stArrayA1 ∧
        stArrayA1.load (.arrElem 0 (.str [98])) = v) ∧
    (elemsGet (stArrayA1.getArr 0).elems (.str [98]) = none →
      ∃ s', Elem Externals.inert true (.slot 0) (.str (.static [98])) stArrayA1
          = .ok .initNullVariant s' ∧
        s'.load .initNullVariant = .null ∧
        s'.arrs = stArrayA1.arrs ∧ s'.objs = stArrayA1.objs ∧ s'.refs = stArrayA1.refs ∧
        s'.strs = stArrayA1.strs ∧ s'.slots = stArrayA1.slots ∧
        s'.tvRef = stArrayA1.tvRef ∧
        s'.log = stArrayA1.log ++
          (if true = true then
            [⟨.notice, "Undefined index: %s",
              .str (([98] : List Byte).takeWhile (fun c => decide (c ≠ 0)))⟩]
           else []))) ∧
    (Elem Externals.inert true (.slot 0) (.str (.static [98])) stArrayA1).state.log
      = [⟨.notice, "Undefined index: %s", .str [98]⟩] ∧
    (Elem Externals.inert true (.slot 0) (.str (.static [98, 0, 99])) stArrayA1).state.log
      = [⟨.notice, "Undefined index: %s", .str [98]⟩] ∧
    (Elem Externals.inert true (.slot 0) (.int 7) stArrayA1).state.log
      = [⟨.notice, "Undefined index: %s", .str [55]⟩] ∧
    (Elem Externals.inert true (.slot 0) (.any (.bool true)) stArrayA1).state.log
      = [⟨.notice, "Undefined index: %s", .str [49]⟩] ∧
    (Elem Externals.inert false (.slot 0) (.str (.static [98])) stArrayA1).state.log = [] ∧
    Elem Externals.inert true (.slot 0) (.str (.static [97])) stArrayA1
      = .ok (.arrElem 0 (.str [97])) stArrayA1 ∧
    Elem Externals.inert true (.arrElem 0 (.str [121])) (.str (.static [110])) stNested
      = .ok (.arrElem 1 (.str [110])) stNested ∧
    (Elem Externals.inert true (.arrElem 0 (.str [121])) (.str (.static [98])) stNested).state.log
      = [⟨.notice, "Undefined index: %s", .str [98]⟩] :=
  ⟨Elem_array_base Externals.inert true (.slot 0) (.str (.static [98])) stArrayA1 0 (.str [98])
    (by decide) (by decide), by decide, by decide, by decide, by decide, by decide, by decide,
    by decide, by decide⟩

theorem elemsGet_elemsSet_same (elems : List (ArrayKey × TypedValue)) (k : ArrayKey)
    (v : TypedValue) : elemsGet (elemsSet elems k v) k = some v := by
  induction elems with
  | nil => simp [elemsSet, elemsGet]
  | cons hd tl ih =>
    obtain ⟨k0, v0⟩ := hd
    by_cases h0 : k0 = k
    · simp [elemsSet, elemsGet, h0]
    · simp [elemsSet, elemsGet, h0, ih]

theorem elemsGet_elemsSet_other (elems : List (ArrayKey × TypedValue)) (k k' : ArrayKey)
    (v : TypedValue) (h : k ≠ k') :
    elemsGet (elemsSet elems k v) k' = elemsGet elems k' := by
  induction elems with
  | nil => simp [elemsSet, elemsGet, h]
  | cons hd tl ih =>
    obtain ⟨k0, v0⟩ := hd
    by_cases h0 : k0 = k
    · subst h0
      simp [elemsSet, elemsGet, h]
    · by_cases h1 : k0 = k'
      · subst h1
        simp [elemsSet, elemsGet, h0]
      · simp [elemsSet, elemsGet, h0, h1, ih]

/-- For a legal key `SetElemArrayPre` is `set` under its canonical form. -/
theorem SetElemArrayPre_legal (ext : Externals) (setResult : Bool) (a : Nat) (key : Key)
    (value : Loc) (copy : Bool) (s : State) (k : ArrayKey)
    (hk : keyAsValue ext s key = some k) :
    SetElemArrayPre ext setResult a key value copy s
      = .ok (arraySet s a k (s.load value) copy).1 (arraySet s a k (s.load value) copy).2 := by
  cases key with
  | int n =>
    simp only [keyAsValue, Option.some.injEq] at hk
    subst hk
    rfl
  | str sd =>
    simp only [keyAsValue, strKey] at hk
    simp only [SetElemArrayPre, SetElemArrayPreStr]
    cases hi : isStrictlyInteger (sd.bytes s) with
    | none =>
      simp only [hi, Option.some.injEq] at hk
      subst hk
      rfl
    | some n =>
      simp only [hi, Option.some.injEq] at hk
      subst hk
      rfl
  | any tv =>
    simp only [keyAsValue] at hk
    cases tv with
    | int n =>
      simp only [toKey, Option.some.injEq] at hk
      subst hk
      rfl
    | sstr b =>
      simp only [toKey, strKey] at hk
      simp only [SetElemArrayPre, SetElemArrayPreStr, StrRef.bytes]
      cases hi : isStrictlyInteger b with
      | none =>
        simp only [hi, Option.some.injEq] at hk
        subst hk
        rfl
      | some n =>
        simp only [hi, Option.some.injEq] at hk
        subst hk
        rfl
    | str p =>
      simp only [toKey, strKey] at hk
      simp only [SetElemArrayPre, SetElemArrayPreStr, StrRef.bytes]
      cases hi : isStrictlyInteger (s.getStr p).data with
      | none =>
        simp only [hi, Option.some.injEq] at hk
        subst hk
        rfl
      | some n =>
        simp only [hi, Option.some.injEq] at hk
        subst hk
        rfl
    | uninit =>
      simp only [toKey, Option.some.injEq] at hk
      subst hk
      rfl
    | null =>
      simp only [toKey, Option.some.injEq] at hk
      subst hk
      rfl
    | bool b =>
      simp only [toKey, Option.some.injEq] at hk
      subst hk
      rfl
    | dbl d =>
      simp only [toKey, Option.some.injEq] at hk
      subst hk
      rfl
    | res i =>
      simp only [toKey, Option.some.injEq] at hk
      subst hk
      rfl
    | arr p => simp [toKey] at hk
    | obj p => simp [toKey] at hk
    | ref p => simp [toKey] at hk
    | cls p => simp [toKey] at hk

theorem slot_lt_of_getElem? (s : State) (i : Nat) (v : TypedValue)
    (h : s.slots[i]? = some v) : i < s.slots.length := by
  by_contra hc
  rw [List.getElem?_eq_none (Nat.le_of_not_lt hc)] at h
  cases h

theorem load_slot_of_getElem? (s : State) (i : Nat) (v : TypedValue)
    (h : s.slots[i]? = some v) : s.load (.slot i) = v := by
  simp [State.load, List.getD_eq_getElem?_getD, h]

/-- C3: when two base slots share an array (reference count greater than 1),
`SetElem` through one slot with a legal key requests a copy, installs the
updated copy (at a fresh address, reference count 1) in that slot, releases
one reference of the original, and leaves the other slot pointing at the
original array with exactly its previous contents; when the count was 2 each
array ends with reference count 1. -/
theorem SetElem_shared_array (ext : Externals) (setResult : Bool) (i j : Nat) (key : Key)
    (value : Loc) (s : State) (a : Nat) (k : ArrayKey)
    (hi : s.slots[i]? = some (.arr a)) (hj : s.slots[j]? = some (.arr a)) (hij : i ≠ j)
    (hshared : 1 < (s.getArr a).count)
    (hk : keyAsValue ext s key = some k) :
    ((s.getArr a).hasMultipleRefs || decide (s.load value = .arr a)) = true ∧
    ∃ s', SetElem ext setResult (.slot i) key value s = .ok none s' ∧
      s.arrs.length ≠ a ∧
      s'.load (.slot i) = .arr s.arrs.length ∧
      elemsGet (s'.getArr s.arrs.length).elems k = some (s.load value) ∧
      (∀ k', k' ≠ k →
        elemsGet (s'.getArr s.arrs.length).elems k' = elemsGet (s.getArr a).elems k') ∧
      (s'.getArr s.arrs.length).count = 1 ∧
      s'.load (.slot j) = .arr a ∧
      (s'.getArr a).elems = (s.getArr a).elems ∧
      (s'.getArr a).count = (s.getArr a).count - 1 ∧
      ((s.getArr a).count = 2 →
        (s'.getArr a).count = 1 ∧ (s'.getArr s.arrs.length).count = 1) := by
  have hmulti : (s.getArr a).hasMultipleRefs = true := by
    simp [ArrayData.hasMultipleRefs, hshared]
  have ha : a < s.arrs.length := getArr_lt_of_count_pos s a (by omega)
  have hne : s.arrs.length ≠ a := by omega
  have hli : s.load (.slot i) = .arr a := load_slot_of_getElem? s i _ hi
  have hlj : s.load (.slot j) = .arr a := load_slot_of_getElem? s j _ hj
  have hiw : i < s.slots.length := slot_lt_of_getElem? s i _ hi
  refine ⟨by simp [hmulti], ?_⟩
  have hrun : SetElem ext setResult (.slot i) key value s
      = .ok none (decRefArr (((s.allocArr
          { elems := elemsSet (s.getArr a).elems k (s.load value),
            nextKI := updNextKI (s.getArr a).nextKI k, count := 1 }).2).store (.slot i)
            (.arr s.arrs.length)) a) := by
    simp only [SetElem, hli, SetElemArray, hmulti, Bool.true_or]
    rw [SetElemArrayPre_legal ext setResult a key value true s k hk]
    simp only [arraySet, if_true, Outcome.bind, arrayRefShuffle, allocArr_fst, hne, if_false]
    have : (s.allocArr
          { elems := elemsSet (s.getArr a).elems k (s.load value),
            nextKI := updNextKI (s.getArr a).nextKI k, count := 1 }).2.load (.slot i)
          = .arr a := hli
    simp only [this, if_true]
  have hq : ∀ ad : ArrayData,
      (decRefArr (((s.allocArr ad).2).store (.slot i) (.arr s.arrs.length)) a).getArr s.arrs.length
        = ad := by
    intro ad
    unfold decRefArr
    rw [getArr_setArr_other _ _ _ _ (fun e => hne e.symm)]
    exact getArr_allocArr_new s ad
  have hold : ∀ ad : ArrayData,
      (decRefArr (((s.allocArr ad).2).store (.slot i) (.arr s.arrs.length)) a).getArr a
        = { s.getArr a with count := (s.getArr a).count - 1 } := by
    intro ad
    unfold decRefArr
    have e : (((s.allocArr ad).2).store (.slot i) (.arr s.arrs.length)).getArr a = s.getArr a :=
      getArr_allocArr_old s ad a ha
    rw [getArr_setArr_same _ _ _ (by simp [State.store, State.allocArr]; omega), e]
  refine ⟨_, hrun, hne, ?_, ?_, ?_, ?_, ?_, ?_, ?_, ?_⟩
  · rw [load_decRefArr]
    exact load_store_writable _ _ _ (by simpa [State.writable, State.allocArr] using hiw)
  · rw [hq]
    exact elemsGet_elemsSet_same _ _ _
  · intro k' hk'
    rw [hq]
    exact elemsGet_elemsSet_other _ _ _ _ (fun e => hk' e.symm)
  · rw [hq]
  · rw [load_decRefArr, load_store_other _ _ _ _ (by simpa using hij)]
    exact hlj
  · rw [hold]
  · rw [hold]
  · intro h2
    rw [hold, hq]
    simp [h2]

/-- Witness for C3: `a = b = [0, 1, 2]`, then `SetElem(a, 1, 9)`. -/
theorem SetElem_shared_array_witness :
    ((stSharedArray.getArr 0).hasMultipleRefs
        || decide (stSharedArray.load (.slot 2) = .arr 0)) = true ∧
    ∃ s', SetElem Externals.inert true (.slot 0) (.int 1) (.slot 2) stSharedArray = .ok none s' ∧
      stSharedArray.arrs.length ≠ 0 ∧
      s'.load (.slot 0) = .arr stSharedArray.arrs.length ∧
      elemsGet (s'.getArr stSharedArray.arrs.length).elems (.int 1)
        = some (stSharedArray.load (.slot 2)) ∧
      (∀ k', k' ≠ .int 1 →
        elemsGet (s'.getArr stSharedArray.arrs.length).elems k'
          = elemsGet (stSharedArray.getArr 0).elems k') ∧
      (s'.getArr stSharedArray.arrs.length).count = 1 ∧
      s'.load (.slot 1) = .arr 0 ∧
      (s'.getArr 0).elems = (stSharedArray.getArr 0).elems ∧
      (s'.getArr 0).count = (stSharedArray.getArr 0).count - 1 ∧
      ((stSharedArray.getArr 0).count = 2 →
        (s'.getArr 0).count = 1 ∧ (s'.getArr stSharedArray.arrs.length).count = 1) :=
  SetElem_shared_array Externals.inert true 0 1 (.int 1) (.slot 2) stSharedArray 0 (.int 1)
    (by decide) (by decide) (by decide) (by decide) (by decide)

/-! ## Cells of the frame -/

theorem getArr_store_inFrame (s : State) (l : Loc) (v : TypedValue) (p : Nat)
    (h : l.inFrame = true) : (s.store l v).getArr p = s.getArr p := by
  cases l <;> first | rfl | simp [Loc.inFrame] at h

@[simp] theorem load_allocArr_inFrame (s : State) (ad : ArrayData) (l : Loc)
    (h : l.inFrame = true) : (s.allocArr ad).2.load l = s.load l := by
  cases l <;> first | rfl | simp [Loc.inFrame] at h

/-- Releasing an empty-ish value touches no array. -/
theorem arrs_tvRefcountedDecRef_emptyish (s t : State) (tv : TypedValue)
    (h : isEmptyish t tv = true) : (tvRefcountedDecRef s tv).arrs = s.arrs := by
  cases tv <;> first | rfl | simp [isEmptyish] at h

/-- Releasing a value changes the bytes of no string. -/
theorem data_getStr_tvRefcountedDecRef (s : State) (tv : TypedValue) (q : Nat) :
    ((tvRefcountedDecRef s tv).getStr q).data = (s.getStr q).data := by
  cases tv <;> first | rfl | exact data_getStr_decRefStr _ _ _

/-- The canonical form of a key depends on the state only through the bytes
of the strings. -/
theorem toKey_congr (ext : Externals) (s t : State) (tv : TypedValue)
    (h : ∀ p, (t.getStr p).data = (s.getStr p).data) : toKey ext t tv = toKey ext s tv := by
  cases tv <;> simp [toKey, h]

theorem toKey_initScratchKey (ext : Externals) (s : State) (key : Key) :
    toKey ext s (initScratchKey key) = keyAsValue ext s key := by
  cases key with
  | int n => rfl
  | str sd => cases sd <;> rfl
  | any tv => rfl

/-- On an empty-ish base `ElemD` is `ElemDEmptyish` on the unboxed cell. -/
theorem ElemD_eq_ElemDEmptyish (ext : Externals) (warn reffy : Bool) (base : Loc) (key : Key)
    (s : State) (hemp : isEmptyish s (s.load (tvToCell s base)) = true) :
    ElemD ext warn reffy base key s = ElemDEmptyish ext warn (tvToCell s base) key s := by
  unfold ElemD
  cases hl : s.load (tvToCell s base) with
  | uninit => simp only [hl]
  | null => simp only [hl]
  | bool b =>
    rw [hl] at hemp
    cases b with
    | true => simp [isEmptyish] at hemp
    | false => simp [hl, ElemDBoolean]
  | sstr b =>
    rw [hl] at hemp
    have : b = [] := by simpa [isEmptyish] using hemp
    subst this
    simp [ElemDString, hl, cellBytes]
  | str p =>
    rw [hl] at hemp
    have : (s.getStr p).data = [] := by simpa [isEmptyish] using hemp
    simp [ElemDString, hl, cellBytes, this]
  | _ => rw [hl] at hemp; simp [isEmptyish] at hemp

theorem elemsGet_elemsLval_same (elems : List (ArrayKey × TypedValue)) (k : ArrayKey) :
    elemsGet (elemsLval elems k) k = some ((elemsGet elems k).getD .null) := by
  unfold elemsLval
  cases h : elemsGet elems k with
  | none => simp [elemsGet_elemsSet_same]
  | some v => simp [h]

theorem elemsGet_elemsLval_other (elems : List (ArrayKey × TypedValue)) (k k' : ArrayKey)
    (h : k ≠ k') : elemsGet (elemsLval elems k) k' = elemsGet elems k' := by
  unfold elemsLval
  split
  · rfl
  · exact elemsGet_elemsSet_other _ _ _ _ h

@[simp] theorem strs_setArr (s : State) (p : Nat) (ad : ArrayData) :
    (s.setArr p ad).strs = s.strs := rfl

@[simp] theorem strs_allocArr (s : State) (ad : ArrayData) : (s.allocArr ad).2.strs = s.strs := rfl

@[simp] theorem strs_decRefArr (s : State) (p : Nat) : (decRefArr s p).strs = s.strs := rfl

@[simp] theorem log_setArr (s : State) (p : Nat) (ad : ArrayData) :
    (s.setArr p ad).log = s.log := rfl

@[simp] theorem log_allocArr (s : State) (ad : ArrayData) : (s.allocArr ad).2.log = s.log := rfl

@[simp] theorem log_decRefArr (s : State) (p : Nat) : (decRefArr s p).log = s.log := rfl

/-- For a legal key `ElemDArrayPre` is `lval` under its canonical form. -/
theorem ElemDArrayPre_legal (ext : Externals) (b : Loc) (key : Key) (s : State) (k : ArrayKey)
    (hk : keyAsValue ext s key = some k) :
    ElemDArrayPre ext b key s = .ok (arrayLval s b k).1 (arrayLval s b k).2 := by
  cases key with
  | int n =>
    simp only [keyAsValue, Option.some.injEq] at hk
    subst hk
    rfl
  | str sd =>
    simp only [keyAsValue, Option.some.injEq] at hk
    subst hk
    rfl
  | any tv =>
    simp only [keyAsValue] at hk
    cases tv with
    | int n =>
      simp only [toKey, Option.some.injEq] at hk
      subst hk
      rfl
    | _ => simp only [ElemDArrayPre, arrayLvalVariant, hk]

/-- The canonical form of a key depends on the state only through the bytes
of the strings. -/
theorem keyAsValue_congr (ext : Externals) (s t : State) (key : Key)
    (h : ∀ p, (t.getStr p).data = (s.getStr p).data) :
    keyAsValue ext t key = keyAsValue ext s key := by
  cases key with
  | int n => rfl
  | str sd => cases sd <;> simp [keyAsValue, StrRef.bytes, h]
  | any tv => exact toKey_congr ext s t tv h

/-- On a base whose cell is an array, `SetElem` is `SetElemArray` on that
cell. -/
theorem SetElem_eq_SetElemArray (ext : Externals) (setResult : Bool) (base : Loc) (key : Key)
    (value : Loc) (s : State) (a : Nat) (h : s.load (tvToCell s base) = .arr a) :
    SetElem ext setResult base key value s
      = (SetElemArray ext setResult (tvToCell s base) a key value s).bind
          fun _ s1 => .ok none s1 := by
  cases hb : s.load base with
  | arr a' =>
    have e := tvToCell_of_arr s base a' hb
    rw [e, hb] at h
    cases h
    rw [e]
    simp only [SetElem, hb]
  | _ => simp only [SetElem, hb, SetElemSlow, h]

/-- On a base whose cell is an array, `UnsetElem` is `UnsetElemArray` on that
cell. -/
theorem UnsetElem_eq_UnsetElemArray (ext : Externals) (base : Loc) (key : Key)
    (s : State) (a : Nat) (h : s.load (tvToCell s base) = .arr a) :
    UnsetElem ext base key s = UnsetElemArray ext (tvToCell s base) a key s := by
  cases hb : s.load base with
  | arr a' =>
    have e := tvToCell_of_arr s base a' hb
    rw [e, hb] at h
    cases h
    rw [e]
    simp only [UnsetElem, hb]
  | _ => simp only [UnsetElem, hb, UnsetElemSlow, h]

/-- On a base whose cell is an array, `IssetEmptyElem` is
`IssetEmptyElemArray` on that array. -/
theorem IssetEmptyElem_eq_IssetEmptyElemArray (ext : Externals) (useEmpty : Bool) (base : Loc)
    (key : Key) (s : State) (a : Nat) (h : s.load (tvToCell s base) = .arr a) :
    IssetEmptyElem ext useEmpty base key s = IssetEmptyElemArray ext useEmpty a key s := by
  cases hb : s.load base with
  | arr a' =>
    have e := tvToCell_of_arr s base a' hb
    rw [e, hb] at h
    cases h
    simp only [IssetEmptyElem, hb]
  | _ => simp only [IssetEmptyElem, hb, IssetEmptyElemSlow, h]



theorem wrap64_range (z : Int) : -(2 ^ 63) ≤ wrap64 z ∧ wrap64 z < 2 ^ 63 := by
  unfold wrap64
  omega

theorem wrap64_congruent (z : Int) : (wrap64 z - z) % 2 ^ 64 = 0 := by
  unfold wrap64
  omega



/-- C11: `nullSafeProp` returns a null cell (the scratch cell, set to Null) with
no diagnostic when the base is Uninit or Null; for every other non-object base
(Bool of either value, Int, Double, Resource, String of any length, Array) it
returns a null cell and raises the notice "Cannot access property on
non-object"; in both cases the base and the heaps of strings, arrays and
objects are unchanged, so no object is auto-vivified. -/
theorem nullSafeProp_non_object (ext : Externals) (ctx : Nat) (base : Loc) (key : StrRef)
    (s : State) (hb : tvToCell s base ≠ .tvRef) :
    ((s.load (tvToCell s base) = .uninit ∨ s.load (tvToCell s base) = .null) →
      ∃ s', nullSafeProp ext ctx base key s = .ok .tvRef s' ∧
        s'.load .tvRef = .null ∧ s'.log = s.log ∧
        s'.load (tvToCell s base) = s.load (tvToCell s base) ∧
        s'.strs = s.strs ∧ s'.arrs = s.arrs ∧ s'.objs = s.objs) ∧
    (((∃ b, s.load (tvToCell s base) = .bool b) ∨ (∃ n, s.load (tvToCell s base) = .int n) ∨
      (∃ d, s.load (tvToCell s base) = .dbl d) ∨ (∃ i, s.load (tvToCell s base) = .res i) ∨
      (∃ b, s.load (tvToCell s base) = .sstr b) ∨ (∃ p, s.load (tvToCell s base) = .str p) ∨
      (∃ a, s.load (tvToCell s base) = .arr a)) →
      ∃ s', nullSafeProp ext ctx base key s = .ok .tvRef s' ∧
        s'.load .tvRef = .null ∧
        s'.log = s.log ++ [⟨.notice, "Cannot access property on non-object", .none⟩] ∧
        s'.load (tvToCell s base) = s.load (tvToCell s base) ∧
        s'.strs = s.strs ∧ s'.arrs = s.arrs ∧ s'.objs = s.objs) := by
  have hb' : Loc.tvRef ≠ tvToCell s base := fun e => hb e.symm
  have hkeep : (tvWriteNull s .tvRef).load (tvToCell s base) = s.load (tvToCell s base) :=
    load_store_other _ _ _ _ hb'
  constructor
  · intro h
    refine ⟨tvWriteNull s .tvRef, ?_, rfl, rfl, hkeep, rfl, rfl, rfl⟩
    unfold nullSafeProp
    rcases h with h | h <;> simp only [h]
  · intro h
    refine ⟨raise_notice (tvWriteNull s .tvRef) "Cannot access property on non-object" .none,
      ?_, rfl, rfl, ?_, rfl, rfl, rfl⟩
    · unfold nullSafeProp
      rcases h with ⟨x, h⟩ | ⟨x, h⟩ | ⟨x, h⟩ | ⟨x, h⟩ | ⟨x, h⟩ | ⟨x, h⟩ | ⟨x, h⟩ <;>
        simp only [h]
    · rw [load_raise_notice]
      exact hkeep

/-- Witness for C11: the Uninit base of the scenario, property "foo". -/
theorem nullSafeProp_non_object_witness :
    ((stUninit.load (tvToCell stUninit (.slot 0)) = .uninit ∨
        stUninit.load (tvToCell stUninit (.slot 0)) = .null) →
      ∃ s', nullSafeProp Externals.inert 0 (.slot 0) (.static [102, 111, 111]) stUninit
          = .ok .tvRef s' ∧
        s'.load .tvRef = .null ∧ s'.log = stUninit.log ∧
        s'.load (tvToCell stUninit (.slot 0)) = stUninit.load (tvToCell stUninit (.slot 0)) ∧
        s'.strs = stUninit.strs ∧ s'.arrs = stUninit.arrs ∧ s'.objs = stUninit.objs) ∧
    (nullSafeProp Externals.inert 0 (.slot 0) (.static [102, 111, 111]) stUninit).returned
      = some .tvRef ∧
    (nullSafeProp Externals.inert 0 (.slot 0) (.static [102, 111, 111]) stUninit).state.log = [] ∧
    (nullSafeProp Externals.inert 0 (.slot 0) (.static [102, 111, 111]) stInt42).state.log
      = [⟨.notice, "Cannot access property on non-object", .none⟩] :=
  ⟨(nullSafeProp_non_object Externals.inert 0 (.slot 0) (.static [102, 111, 111]) stUninit
      (by decide)).1,
    by decide, by decide, by decide⟩

theorem cellBytes_tvRefcountedDecRef (s : State) (tv v : TypedValue) :
    cellBytes (tvRefcountedDecRef s tv) v = cellBytes s v := by
  cases v <;> simp [cellBytes, data_getStr_tvRefcountedDecRef]

/-- Releasing a value changes the entries of no array. -/
theorem elems_getArr_tvRefcountedDecRef (s : State) (tv : TypedValue) (q : Nat) :
    ((tvRefcountedDecRef s tv).getArr q).elems = (s.getArr q).elems := by
  cases tv with
  | arr p =>
    simp only [tvRefcountedDecRef, decRefArr]
    by_cases hp : p < s.arrs.length
    · by_cases hpq : p = q
      · subst hpq
        rw [getArr_setArr_same _ _ _ hp]
      · rw [getArr_setArr_other _ _ _ _ hpq]
    · rw [setArr_dangling _ _ _ hp]
  | _ => rfl

/-- C13: on an array base, for an Any key tagged Array or Object, `SetElem`
raises the warning "Illegal offset type" and stores nothing (the base still
points to the same array, whose contents are unchanged); with
`setResult = true` it overwrites the right-hand side with null, with
`setResult = false` it throws `InvalidSetMException` carrying null. -/
theorem SetElem_illegal_offset_type (ext : Externals) (setResult : Bool) (base : Loc)
    (tv : TypedValue) (value : Loc) (s : State) (a : Nat)
    (hload : s.load (tvToCell s base) = .arr a)
    (hkey : (∃ p, tv = .arr p) ∨ (∃ p, tv = .obj p))
    (hvf : value.inFrame = true) (hval : s.writable value = true)
    (hvb : value ≠ tvToCell s base) :
    (setResult = false →
      ∃ s', SetElem ext setResult base (.any tv) value s = .invalidSetM .null s' ∧
        s'.log = s.log ++ [⟨.warning, "Illegal offset type", .none⟩] ∧
        s'.load (tvToCell s base) = .arr a ∧
        (s'.getArr a).elems = (s.getArr a).elems) ∧
    (setResult = true →
      ∃ s', SetElem ext setResult base (.any tv) value s = .ok none s' ∧
        s'.load value = .null ∧
        s'.log = s.log ++ [⟨.warning, "Illegal offset type", .none⟩] ∧
        s'.load (tvToCell s base) = .arr a ∧
        (s'.getArr a).elems = (s.getArr a).elems) := by
  rw [SetElem_eq_SetElemArray ext setResult base _ value s a hload]
  have hpre : SetElemArrayPre ext setResult a (.any tv) value
      ((s.getArr a).hasMultipleRefs || decide (s.load value = .arr a)) s
      = (if setResult = true then
          .ok a (tvWriteNull (tvRefcountedDecRef (raise_warning s "Illegal offset type" .none)
            ((raise_warning s "Illegal offset type" .none).load value)) value)
         else .invalidSetM .null (raise_warning s "Illegal offset type" .none)) := by
    rcases hkey with ⟨p, h⟩ | ⟨p, h⟩ <;> subst h <;> rfl
  simp only [SetElemArray, hpre]
  constructor
  · intro hf
    subst hf
    refine ⟨_, rfl, rfl, ?_, rfl⟩
    rw [load_raise_warning]
    exact hload
  · intro ht
    subst ht
    simp only [if_true, Outcome.bind, arrayRefShuffle]
    refine ⟨_, rfl, ?_, ?_, ?_, ?_⟩
    · unfold tvWriteNull
      apply load_store_writable
      rw [writable_tvRefcountedDecRef, writable_raise_warning]
      exact hval
    · simp [tvWriteNull]
    · unfold tvWriteNull
      rw [load_store_other _ _ _ _ hvb]
      simpa using hload
    · unfold tvWriteNull
      rw [getArr_store_inFrame _ _ _ _ hvf, elems_getArr_tvRefcountedDecRef]
      rfl

/-- Witness for C13: the array `[0, 1, 2]` in slot 0, the array itself as key,
right-hand side 9, in both flavours. -/
theorem SetElem_illegal_offset_type_witness :
    (∃ s', SetElem Externals.inert false (.slot 0) (.any (.arr 0)) (.slot 2) stSharedArray
        = .invalidSetM .null s' ∧
      s'.log = stSharedArray.log ++ [⟨.warning, "Illegal offset type", .none⟩] ∧
      s'.load (tvToCell stSharedArray (.slot 0)) = .arr 0 ∧
      (s'.getArr 0).elems = (stSharedArray.getArr 0).elems) ∧
    (∃ s', SetElem Externals.inert true (.slot 0) (.any (.arr 0)) (.slot 2) stSharedArray
        = .ok none s' ∧
      s'.load (.slot 2) = .null ∧
      s'.log = stSharedArray.log ++ [⟨.warning, "Illegal offset type", .none⟩] ∧
      s'.load (tvToCell stSharedArray (.slot 0)) = .arr 0 ∧
      (s'.getArr 0).elems = (stSharedArray.getArr 0).elems) :=
  ⟨(SetElem_illegal_offset_type Externals.inert false (.slot 0) (.arr 0) (.slot 2)
      stSharedArray 0 (by decide) (Or.inl ⟨0, rfl⟩) (by decide) (by decide) (by decide)).1 rfl,
    (SetElem_illegal_offset_type Externals.inert true (.slot 0) (.arr 0) (.slot 2)
      stSharedArray 0 (by decide) (Or.inl ⟨0, rfl⟩) (by decide) (by decide) (by decide)).2 rfl⟩

/-- Off the array fast path `IssetEmptyElem` is `IssetEmptyElemSlow`. -/
theorem IssetEmptyElem_eq_Slow (ext : Externals) (useEmpty : Bool) (base : Loc) (key : Key)
    (s : State) (h : ∀ a, s.load (tvToCell s base) ≠ .arr a) :
    IssetEmptyElem ext useEmpty base key s = IssetEmptyElemSlow ext useEmpty base key s := by
  cases hb : s.load base with
  | arr a =>
    have e := tvToCell_of_arr s base a hb
    rw [e] at h
    exact absurd hb (h a)
  | _ => simp only [IssetEmptyElem, hb]

/-- The cell that `ElemArray` without warning hands to `IssetEmptyElemArray`
is null-ish, and falsy, exactly when the unboxed entry is. -/
theorem issetEmpty_on_lookup (ext : Externals) (s : State) (a : Nat) (k : ArrayKey) :
    (isNullType (s.load (tvToCell s
        (if (s.load (nvGetOrNullVariant s a k)).m_type = .KindOfUninit then .initNullVariant
         else nvGetOrNullVariant s a k))).m_type
      = isNullType (s.load (tvToCell s (.arrElem a k))).m_type) ∧
    (cellToBool ext s (s.load (tvToCell s
        (if (s.load (nvGetOrNullVariant s a k)).m_type = .KindOfUninit then .initNullVariant
         else nvGetOrNullVariant s a k)))
      = cellToBool ext s (s.load (tvToCell s (.arrElem a k)))) := by
  cases hg : elemsGet (s.getArr a).elems k with
  | none =>
    have h1 : nvGetOrNullVariant s a k = .nullVariant := by
      simp [nvGetOrNullVariant, nvGet, hg]
    have h2 : s.load (.arrElem a k) = .uninit := by simp [State.load, hg]
    have h3 : tvToCell s (.arrElem a k) = .arrElem a k := by simp [tvToCell, h2]
    rw [h1, h3, h2]
    simp [State.load, TypedValue.m_type, tvToCell, isNullType, cellToBool]
  | some v =>
    have h1 : nvGetOrNullVariant s a k = .arrElem a k := by
      simp [nvGetOrNullVariant, nvGet, hg]
    have h2 : s.load (.arrElem a k) = v := by simp [State.load, hg]
    rw [h1, h2]
    by_cases hu : v = .uninit
    · subst hu
      have h3 : tvToCell s (.arrElem a k) = .arrElem a k := by simp [tvToCell, h2]
      rw [h3, h2]
      simp [State.load, TypedValue.m_type, tvToCell, isNullType, cellToBool]
    · have : v.m_type ≠ .KindOfUninit := by
        cases v <;> simp [TypedValue.m_type] at hu ⊢
      simp [this]

/-- C15: `IssetEmptyElem` returns `useEmpty` on every base tagged Uninit, Null,
Bool, Int, Double or Resource.  On an array base, for a legal key, the isset
flavour returns true exactly when the key is present with a (unboxed) value
that is not null-ish, and the empty flavour returns true exactly when the key
is absent or its (unboxed) value is falsy; the state is unchanged. -/
theorem IssetEmptyElem_scalar_and_array (ext : Externals) (useEmpty : Bool) (base : Loc)
    (key : Key) (s : State) :
    (((s.load (tvToCell s base) = .uninit) ∨ (s.load (tvToCell s base) = .null) ∨
      (∃ b, s.load (tvToCell s base) = .bool b) ∨ (∃ n, s.load (tvToCell s base) = .int n) ∨
      (∃ d, s.load (tvToCell s base) = .dbl d) ∨ (∃ i, s.load (tvToCell s base) = .res i)) →
      IssetEmptyElem ext useEmpty base key s = .ok useEmpty s) ∧
    (∀ a k, s.load (tvToCell s base) = .arr a → keyAsValue ext s key = some k →
      (IssetEmptyElem ext false base key s
        = .ok (!isNullType (s.load (tvToCell s (.arrElem a k))).m_type) s ∧
       IssetEmptyElem ext true base key s
        = .ok (!cellToBool ext s (s.load (tvToCell s (.arrElem a k)))) s) ∧
      (elemsGet (s.getArr a).elems k = none →
        IssetEmptyElem ext false base key s = .ok false s ∧
        IssetEmptyElem ext true base key s = .ok true s) ∧
      (∀ v, elemsGet (s.getArr a).elems k = some v → s.load (.arrElem a k) = v)) := by
  constructor
  · intro h
    rw [IssetEmptyElem_eq_Slow]
    · unfold IssetEmptyElemSlow
      rcases h with h | h | ⟨x, h⟩ | ⟨x, h⟩ | ⟨x, h⟩ | ⟨x, h⟩ <;> simp only [h]
    · intro a
      rcases h with h | h | ⟨x, h⟩ | ⟨x, h⟩ | ⟨x, h⟩ | ⟨x, h⟩ <;> simp [h]
  · intro a k hload hk
    obtain ⟨g1, g2⟩ := issetEmpty_on_lookup ext s a k
    have hrun : ∀ ue, IssetEmptyElem ext ue base key s
        = .ok (if ue = true then !cellToBool ext s (s.load (tvToCell s (.arrElem a k)))
               else !isNullType (s.load (tvToCell s (.arrElem a k))).m_type) s := by
      intro ue
      rw [IssetEmptyElem_eq_IssetEmptyElemArray ext ue base key s a hload]
      simp only [IssetEmptyElemArray, ElemArray, ElemArrayPre_legal ext a key s k hk,
        Outcome.bind, Bool.false_eq_true, if_false]
      by_cases hu : (s.load (nvGetOrNullVariant s a k)).m_type = .KindOfUninit
      · simp only [hu, if_true] at g1 g2 ⊢
        cases ue <;> simp [g1, g2]
      · simp only [hu, if_false] at g1 g2 ⊢
        cases ue <;> simp [g1, g2]
    refine ⟨⟨?_, ?_⟩, ?_, ?_⟩
    · simpa using hrun false
    · simpa using hrun true
    · intro hnone
      have h2 : s.load (.arrElem a k) = .uninit := by simp [State.load, hnone]
      have h3 : tvToCell s (.arrElem a k) = .arrElem a k := by simp [tvToCell, h2]
      constructor
      · rw [hrun false, h3, h2]
        rfl
      · rw [hrun true, h3, h2]
        rfl
    · intro v hv
      simp [State.load, hv]

/-- Witness for C15: on the integer base 42 both flavours
return `useEmpty`; on the array `["a" => 1]` the key "a" is set and not empty,
the key "b" is not set and empty. -/
theorem IssetEmptyElem_scalar_and_array_witness :
    IssetEmptyElem Externals.inert false (.slot 0) (.int 0) stInt42 = .ok false stInt42 ∧
    IssetEmptyElem Externals.inert true (.slot 0) (.int 0) stInt42 = .ok true stInt42 ∧
    IssetEmptyElem Externals.inert false (.slot 0) (.str (.static [97])) stArrayA1
      = .ok true stArrayA1 ∧
    IssetEmptyElem Externals.inert true (.slot 0) (.str (.static [97])) stArrayA1
      = .ok false stArrayA1 ∧
    IssetEmptyElem Externals.inert false (.slot 0) (.str (.static [98])) stArrayA1
      = .ok false stArrayA1 ∧
    IssetEmptyElem Externals.inert true (.slot 0) (.str (.static [98])) stArrayA1
      = .ok true stArrayA1 :=
  ⟨(IssetEmptyElem_scalar_and_array Externals.inert false (.slot 0) (.int 0) stInt42).1
      (Or.inr (Or.inr (Or.inr (Or.inl ⟨42, by decide⟩)))),
    (IssetEmptyElem_scalar_and_array Externals.inert true (.slot 0) (.int 0) stInt42).1
      (Or.inr (Or.inr (Or.inr (Or.inl ⟨42, by decide⟩)))),
    ((IssetEmptyElem_scalar_and_array Externals.inert false (.slot 0) (.str (.static [97]))
      stArrayA1).2 0 (.str [97]) (by decide) (by decide)).1.1,
    ((IssetEmptyElem_scalar_and_array Externals.inert false (.slot 0) (.str (.static [97]))
      stArrayA1).2 0 (.str [97]) (by decide) (by decide)).1.2,
    ((IssetEmptyElem_scalar_and_array Externals.inert false (.slot 0) (.str (.static [98]))
      stArrayA1).2 0 (.str [98]) (by decide) (by decide)).2.1 (by decide) |>.1,
    ((IssetEmptyElem_scalar_and_array Externals.inert false (.slot 0) (.str (.static [98]))
      stArrayA1).2 0 (.str [98]) (by decide) (by decide)).2.1 (by decide) |>.2⟩

@[simp] theorem load_raiseAll (s : State) (ds : List Diag) (l : Loc) :
    (s.raiseAll ds).load l = s.load l := by
  cases l <;> rfl

@[simp] theorem cellBytes_raiseAll (s : State) (ds : List Diag) (tv : TypedValue) :
    cellBytes (s.raiseAll ds) tv = cellBytes s tv := by
  cases tv <;> rfl

theorem raiseAll_nil (s : State) : s.raiseAll [] = s := by
  simp [State.raiseAll]

/-- What `IssetEmptyElemString` computes: `useEmpty` for a bad key, and
otherwise the bounds test (and, for empty, the truth value of the character)
at the integer cast of the key; the state afterwards is the state of before
with the diagnostics of the cast of the key, which is made exactly when the
key is not an integer. -/
theorem IssetEmptyElemString_eq (ext : Externals) (useEmpty : Bool) (b : Loc) (key : Key)
    (s : State) :
    IssetEmptyElemString ext useEmpty b key s
      = .ok (if issetBadKey s (initScratchKey key) = true then useEmpty
             else if cellToInt ext s (initScratchKey key) < 0 ∨
                 cellToInt ext s (initScratchKey key) ≥ ((cellBytes s (s.load b)).length : Int)
               then useEmpty
             else if (!useEmpty) = true then true
             else !cellToBool ext s (getChar (cellBytes s (s.load b))
                 (cellToInt ext s (initScratchKey key))))
          (s.raiseAll (match initScratchKey key with
            | .int _ => []
            | tv => ext.castToInt64Diags s tv)) := by
  unfold IssetEmptyElemString
  cases hsk : initScratchKey key <;>
    simp [issetBadKey, cellToInt, raiseAll_nil, getChar, cellToBool] <;>
    split <;> rfl

/-- For a key that `IssetEmptyElemString` does not reject, its integer cast is
the offset that `ElemStringPre` computes. -/
theorem cellToInt_eq_ElemStringPre (ext : Externals) (key : Key) (s : State)
    (h : issetBadKey s (initScratchKey key) = false) :
    cellToInt ext s (initScratchKey key) = (ElemStringPre ext key s).1 := by
  cases key with
  | int n => rfl
  | str sd => cases sd <;> rfl
  | any tv =>
    cases tv <;> first | rfl | simp [initScratchKey, issetBadKey] at h

/-- After `elemsRemove` the key is absent. -/
theorem elemsGet_elemsRemove_same (elems : List (ArrayKey × TypedValue)) (k : ArrayKey) :
    elemsGet (elemsRemove elems k) k = none := by
  induction elems with
  | nil => rfl
  | cons e rest ih =>
    obtain ⟨k0, v0⟩ := e
    by_cases h : k0 = k
    · simp [elemsRemove, h, ih]
    · simp [elemsRemove, elemsGet, h, ih]

/-- The entries under the other keys survive `elemsRemove`. -/
theorem elemsGet_elemsRemove_other (elems : List (ArrayKey × TypedValue)) (k k' : ArrayKey)
    (hne : k' ≠ k) :
    elemsGet (elemsRemove elems k) k' = elemsGet elems k' := by
  induction elems with
  | nil => rfl
  | cons e rest ih =>
    obtain ⟨k0, v0⟩ := e
    by_cases h : k0 = k
    · have h' : ¬ k0 = k' := fun e => hne (e.symm.trans h)
      simp only [elemsRemove, elemsGet, h, if_true, ih]
      rw [if_neg (fun e => hne e.symm)]
    · by_cases h1 : k0 = k'
      · subst h1
        simp only [elemsRemove, elemsGet, h, if_false, if_true]
      · simp only [elemsRemove, elemsGet, h, if_false, h1, ih]

/-- Removing an absent key changes nothing. -/
theorem elemsRemove_of_absent (elems : List (ArrayKey × TypedValue)) (k : ArrayKey)
    (h : elemsGet elems k = none) :
    elemsRemove elems k = elems := by
  induction elems with
  | nil => rfl
  | cons e rest ih =>
    obtain ⟨k0, v0⟩ := e
    by_cases h0 : k0 = k
    · simp [elemsGet, h0] at h
    · simp only [elemsGet, h0, if_false] at h
      simp [elemsRemove, h0, ih h]

/-- Writing back the array that is stored at an address changes nothing. -/
theorem setArr_getArr_self (s : State) (q : Nat) (h : q < s.arrs.length) :
    s.setArr q (s.getArr q) = s := by
  cases s with
  | mk strs arrs objs refs slots tvRef log =>
    simp only [State.setArr, State.getArr, State.mk.injEq, true_and, and_true]
    simp only at h
    apply List.ext_getElem
    · simp
    · intro i h1 h2
      by_cases hi : q = i
      · subst hi
        simp [List.getD, List.getElem?_eq_getElem h]
      · simp [List.getElem_set_ne hi]

/-- For a legal key `UnsetElemArrayPre` is `remove` under its canonical form. -/
theorem UnsetElemArrayPre_legal (ext : Externals) (a : Nat) (key : Key) (copy : Bool)
    (s : State) (k : ArrayKey) (hk : keyAsValue ext s key = some k) :
    UnsetElemArrayPre ext a key copy s
      = .ok (arrayRemove s a k copy).1 (arrayRemove s a k copy).2 := by
  cases key with
  | int n =>
    simp only [keyAsValue, Option.some.injEq] at hk
    subst hk
    rfl
  | str sd =>
    simp only [keyAsValue, strKey] at hk
    simp only [UnsetElemArrayPre, UnsetElemArrayPreStr]
    cases hi : isStrictlyInteger (sd.bytes s) with
    | none =>
      simp only [hi, Option.some.injEq] at hk
      subst hk
      rfl
    | some n =>
      simp only [hi, Option.some.injEq] at hk
      subst hk
      rfl
  | any tv =>
    simp only [keyAsValue] at hk
    cases tv with
    | int n =>
      simp only [toKey, Option.some.injEq] at hk
      subst hk
      rfl
    | sstr b =>
      simp only [toKey, strKey] at hk
      simp only [UnsetElemArrayPre, UnsetElemArrayPreStr, StrRef.bytes]
      cases hi : isStrictlyInteger b with
      | none =>
        simp only [hi, Option.some.injEq] at hk
        subst hk
        rfl
      | some n =>
        simp only [hi, Option.some.injEq] at hk
        subst hk
        rfl
    | str p =>
      simp only [toKey, strKey] at hk
      simp only [UnsetElemArrayPre, UnsetElemArrayPreStr, StrRef.bytes]
      cases hi : isStrictlyInteger (s.getStr p).data with
      | none =>
        simp only [hi, Option.some.injEq] at hk
        subst hk
        rfl
      | some n =>
        simp only [hi, Option.some.injEq] at hk
        subst hk
        rfl
    | uninit => simp only [UnsetElemArrayPre, hk]
    | null => simp only [UnsetElemArrayPre, hk]
    | bool b => simp only [UnsetElemArrayPre, hk]
    | dbl d => simp only [UnsetElemArrayPre, hk]
    | arr p => simp only [UnsetElemArrayPre, hk]
    | obj p => simp only [UnsetElemArrayPre, hk]
    | res p => simp only [UnsetElemArrayPre, hk]
    | ref p => simp only [UnsetElemArrayPre, hk]
    | cls p => simp only [UnsetElemArrayPre, hk]

/-- On an unshared array from which the key is already absent, `UnsetElemArray`
changes nothing. -/
theorem UnsetElemArray_absent (ext : Externals) (b : Loc) (key : Key) (s : State) (a : Nat)
    (k : ArrayKey) (ha : a < s.arrs.length)
    (hk : keyAsValue ext s key = some k)
    (habs : elemsGet (s.getArr a).elems k = none)
    (hone : (s.getArr a).hasMultipleRefs = false) :
    UnsetElemArray ext b a key s = .ok () s := by
  simp only [UnsetElemArray, UnsetElemArrayPre_legal ext a key _ s k hk, hone, arrayRemove,
    Bool.false_eq_true, if_false, Outcome.bind, ne_eq, not_true_eq_false,
    elemsRemove_of_absent _ _ habs]
  rw [setArr_getArr_self s a ha]

/-- C18: `UnsetElem` returns with the whole state unchanged, so with the base
unchanged and no diagnostic raised, for every base tagged Uninit, Null, Bool,
Int, Double or Resource; for every string base, the empty string included, it
raises the fatal error "Cannot unset string offsets" with the whole state
unchanged. -/
theorem UnsetElem_scalar_and_string (ext : Externals) (base : Loc) (key : Key) (s : State) :
    ((s.load (tvToCell s base)).m_type ∈
        [DataType.KindOfUninit, .KindOfNull, .KindOfBoolean, .KindOfInt64, .KindOfDouble,
          .KindOfResource] →
      UnsetElem ext base key s = .ok () s) ∧
    (isStringType (s.load (tvToCell s base)).m_type = true →
      UnsetElem ext base key s = .fatal "Cannot unset string offsets" s) := by
  have hslow : (∀ a, s.load (tvToCell s base) ≠ .arr a) →
      UnsetElem ext base key s = UnsetElemSlow ext base key s := by
    intro hna
    unfold UnsetElem
    cases hb : s.load base with
    | arr a =>
      have : tvToCell s base = base := by simp [tvToCell, hb]
      rw [this] at hna
      exact absurd hb (hna a)
    | _ => rfl
  constructor
  · intro hty
    rw [hslow (by intro a h; rw [h] at hty; simp [TypedValue.m_type] at hty)]
    unfold UnsetElemSlow
    cases hl : s.load (tvToCell s base) <;> simp [hl, TypedValue.m_type] at hty ⊢
  · intro hstr
    rw [hslow (by intro a h; rw [h] at hstr; simp [isStringType, TypedValue.m_type] at hstr)]
    unfold UnsetElemSlow
    cases hl : s.load (tvToCell s base) <;>
      simp [hl, isStringType, TypedValue.m_type] at hstr ⊢ <;> rfl

/-- Witness for C18: the integer base 42 and the empty string base. -/
theorem UnsetElem_scalar_and_string_witness :
    UnsetElem Externals.inert (.slot 0) (.int 0) stInt42 = .ok () stInt42 ∧
    UnsetElem Externals.inert (.slot 0) (.int 0) stEmptyString
      = .fatal "Cannot unset string offsets" stEmptyString :=
  ⟨(UnsetElem_scalar_and_string Externals.inert (.slot 0) (.int 0) stInt42).1 (by decide),
    (UnsetElem_scalar_and_string Externals.inert (.slot 0) (.int 0) stEmptyString).2
      (by decide)⟩

/-- The function `ElemUArrayImpl` makes the same call of `lvalAt` as
`ElemDArrayPre`. -/
theorem ElemUArrayImpl_eq (ext : Externals) (b : Loc) (key : Key) (s : State) :
    ElemUArrayImpl ext b key s = ElemDArrayPre ext b key s := by
  cases key with
  | int n => rfl
  | str sd => rfl
  | any tv => cases tv <;> rfl

/-- C20 (amended): for every non-empty string base `NewElem` raises no fatal
error: it raises the warning "Cannot use a scalar value as an array", sets the
scratch cell to Uninit and returns the scratch cell to the caller; the base
(when it is not the scratch cell itself) and the heaps of strings and arrays
are unchanged. -/
theorem NewElem_non_empty_string (ext : Externals) (reffy : Bool) (base : Loc) (s : State)
    (hstr : isStringType (s.load (tvToCell s base)).m_type = true)
    (hne : cellBytes s (s.load (tvToCell s base)) ≠ []) :
    ∃ s', NewElem ext reffy base s = .ok .tvRef s' ∧
      s'.log = s.log ++ [⟨.warning, "Cannot use a scalar value as an array", .none⟩] ∧
      s'.load .tvRef = .uninit ∧
      s'.strs = s.strs ∧ s'.arrs = s.arrs ∧
      (tvToCell s base ≠ .tvRef → s'.load (tvToCell s base) = s.load (tvToCell s base)) := by
  have hlen : ¬ (cellBytes s (s.load (tvToCell s base))).length = 0 := by
    intro h
    exact hne (List.length_eq_zero.mp h)
  refine ⟨tvWriteUninit (raise_warning s "Cannot use a scalar value as an array" .none) .tvRef,
    ?_, rfl, rfl, rfl, rfl, ?_⟩
  · unfold NewElem
    cases hl : s.load (tvToCell s base) <;>
      simp only [hl, isStringType, TypedValue.m_type] at hstr hlen ⊢ <;>
      first
        | (simp only [NewElemString, hl, hlen, if_false, NewElemInvalid])
        | (simp at hstr)
  · intro hb
    unfold tvWriteUninit
    rw [load_store_other _ _ _ _ (fun e => hb e.symm), load_raise_warning]

/-- Witness for C20 (amended): the base "ab". -/
theorem NewElem_non_empty_string_witness :
    ∃ s', NewElem Externals.inert false (.slot 0) stStringAb = .ok .tvRef s' ∧
      s'.log = stStringAb.log ++ [⟨.warning, "Cannot use a scalar value as an array", .none⟩] ∧
      s'.load .tvRef = .uninit ∧
      s'.strs = stStringAb.strs ∧ s'.arrs = stStringAb.arrs ∧
      (tvToCell stStringAb (.slot 0) ≠ .tvRef →
        s'.load (tvToCell stStringAb (.slot 0)) = stStringAb.load (tvToCell stStringAb (.slot 0))) :=
  NewElem_non_empty_string Externals.inert false (.slot 0) stStringAb (by decide) (by decide)

/-- C20 as stated fails: on the base "ab" `NewElem` raises no fatal error; it
returns the scratch cell to the caller after a warning. -/
theorem NewElem_non_empty_string_counterexample :
    isStringType (stStringAb.load (tvToCell stStringAb (.slot 0))).m_type = true ∧
    cellBytes stStringAb (stStringAb.load (tvToCell stStringAb (.slot 0))) = [97, 98] ∧
    (NewElem Externals.inert false (.slot 0) stStringAb).returned = some .tvRef ∧
    (NewElem Externals.inert true (.slot 0) stStringAb).returned = some .tvRef ∧
    (NewElem Externals.inert false (.slot 0) stStringAb).state.log
      = [⟨.warning, "Cannot use a scalar value as an array", .none⟩] := by
  decide

/-- C21: for every non-empty string base, every key and both values of `warn`
(and of `reffy`), `ElemD` raises the fatal error "Operator not supported for
strings" with the whole state unchanged: the base string stays as it is and no
array takes its place. -/
theorem ElemD_non_empty_string (ext : Externals) (warn reffy : Bool) (base : Loc) (key : Key)
    (s : State)
    (hstr : isStringType (s.load (tvToCell s base)).m_type = true)
    (hne : cellBytes s (s.load (tvToCell s base)) ≠ []) :
    ElemD ext warn reffy base key s = .fatal "Operator not supported for strings" s := by
  have hlen : ¬ (cellBytes s (s.load (tvToCell s base))).length = 0 := by
    intro h
    exact hne (List.length_eq_zero.mp h)
  unfold ElemD
  cases hl : s.load (tvToCell s base) <;>
    simp only [hl, isStringType, TypedValue.m_type] at hstr hlen ⊢ <;>
    first
      | (simp only [ElemDString, hl, hlen, if_false])
      | (simp at hstr)

/-- Witness for C21: the base "ab". -/
theorem ElemD_non_empty_string_witness :
    ElemD Externals.inert true false (.slot 0) (.int 0) stStringAb
      = .fatal "Operator not supported for strings" stStringAb :=
  ElemD_non_empty_string Externals.inert true false (.slot 0) (.int 0) stStringAb
    (by decide) (by decide)

/-- The length test of the string cases, from the bytes of the cell. -/
theorem string_length_ne_zero (s : State) (tv : TypedValue)
    (hne : cellBytes s tv ≠ []) : ¬ (cellBytes s tv).length = 0 := by
  intro h
  exact hne (List.length_eq_zero.mp h)

/-- C22: for every non-empty string base, `SetNewElem`, `SetOpNewElem` and
`IncDecNewElem` each raise the fatal error "[] operator not supported for
strings" with the whole state unchanged, so the base string stays as it is. -/
theorem NewElem_writes_non_empty_string (ext : Externals) (setResult : Bool) (op : SetOpOp)
    (iop : IncDecOp) (base value dest : Loc) (s : State)
    (hstr : isStringType (s.load (tvToCell s base)).m_type = true)
    (hne : cellBytes s (s.load (tvToCell s base)) ≠ []) :
    SetNewElem ext setResult base value s
      = .fatal "[] operator not supported for strings" s ∧
    SetOpNewElem ext op base value s
      = .fatal "[] operator not supported for strings" s ∧
    IncDecNewElem ext iop base dest s
      = .fatal "[] operator not supported for strings" s := by
  have hlen := string_length_ne_zero s _ hne
  refine ⟨?_, ?_, ?_⟩
  · unfold SetNewElem
    cases hl : s.load (tvToCell s base) <;>
      simp only [hl, isStringType, TypedValue.m_type] at hstr hlen ⊢ <;>
      first
        | (simp only [SetNewElemString, hl, hlen, if_false])
        | (simp at hstr)
  · unfold SetOpNewElem
    cases hl : s.load (tvToCell s base) <;>
      simp only [hl, isStringType, TypedValue.m_type, cellBytes] at hstr hlen ⊢ <;>
      first
        | (simp only [ne_eq, hlen, not_false_eq_true, if_true])
        | (simp at hstr)
  · unfold IncDecNewElem
    cases hl : s.load (tvToCell s base) <;>
      simp only [hl, isStringType, TypedValue.m_type, cellBytes] at hstr hlen ⊢ <;>
      first
        | (simp only [ne_eq, hlen, not_false_eq_true, if_true])
        | (simp at hstr)

/-- Witness for C22: the base "ab". -/
theorem NewElem_writes_non_empty_string_witness :
    SetNewElem Externals.inert true (.slot 0) (.slot 1) stStringAb
      = .fatal "[] operator not supported for strings" stStringAb ∧
    SetOpNewElem Externals.inert .PlusEqual (.slot 0) (.slot 1) stStringAb
      = .fatal "[] operator not supported for strings" stStringAb ∧
    IncDecNewElem Externals.inert .PostInc (.slot 0) (.slot 1) stStringAb
      = .fatal "[] operator not supported for strings" stStringAb :=
  NewElem_writes_non_empty_string Externals.inert true .PlusEqual .PostInc (.slot 0) (.slot 1)
    (.slot 1) stStringAb (by decide) (by decide)

@[simp] theorem load_tvRefcountedIncRef (s : State) (tv : TypedValue) (l : Loc) :
    (tvRefcountedIncRef s tv).load l = s.load l := by
  cases tv with
  | str p => simp [tvRefcountedIncRef]
  | arr p => exact load_setArr_same_elems s p _ l rfl
  | obj p => exact load_setObj_same_props s p _ l rfl
  | _ => rfl

/-- Taking a reference to a value changes the entries of no array. -/
theorem elems_getArr_tvRefcountedIncRef (s : State) (tv : TypedValue) (q : Nat) :
    ((tvRefcountedIncRef s tv).getArr q).elems = (s.getArr q).elems := by
  cases tv with
  | arr p =>
    simp only [tvRefcountedIncRef]
    by_cases hp : p < s.arrs.length
    · by_cases hpq : p = q
      · subst hpq
        rw [getArr_setArr_same _ _ _ hp]
      · rw [getArr_setArr_other _ _ _ _ hpq]
    · rw [setArr_dangling _ _ _ hp]
  | _ => rfl

/-- A string cell with no byte is empty-ish. -/
theorem isEmptyish_of_empty_string (s : State) (tv : TypedValue)
    (hstr : isStringType tv.m_type = true) (hemp : cellBytes s tv = []) :
    isEmptyish s tv = true := by
  cases tv <;> simp [isStringType, TypedValue.m_type] at hstr <;>
    simp [isEmptyish, cellBytes] at hemp ⊢ <;> exact hemp

/-- The unboxed cell of a base stays the same when a value that is not a
reference is written into it. -/
theorem tvToCell_store_cell (s : State) (base : Loc) (v : TypedValue)
    (hv : ∀ r, v ≠ .ref r) (hw : s.writable (tvToCell s base) = true) :
    tvToCell (s.store (tvToCell s base) v) base = tvToCell s base := by
  cases hb : s.load base with
  | ref r =>
    have e : tvToCell s base = .refInner r := by simp [tvToCell, hb]
    rw [e] at hw ⊢
    by_cases hbase : base = .refInner r
    · subst hbase
      have : (s.store (.refInner r) v).load (.refInner r) = v := load_store_writable _ _ _ hw
      unfold tvToCell
      rw [this]
      cases v <;> first | rfl | exact absurd rfl (hv _)
    · have : (s.store (.refInner r) v).load base = .ref r := by
        rw [load_store_other _ _ _ _ (fun e => hbase e.symm)]
        exact hb
      simp [tvToCell, this]
  | _ =>
    have e : tvToCell s base = base := by simp [tvToCell, hb]
    rw [e] at hw ⊢
    have : (s.store base v).load base = v := load_store_writable _ _ _ hw
    unfold tvToCell
    rw [this]
    cases v <;> first | rfl | exact absurd rfl (hv _)



/-- C24 (amended): for every base tagged Int, Double, Resource or Bool true,
`Elem` returns the null sentinel and leaves the base unchanged; it raises the
warning "Cannot use a scalar value as an array" when the option
`EnableHipHopSyntax` is on, and no diagnostic when it is off.  For every base
tagged Uninit, Null or Bool false it returns the null sentinel with the whole
state unchanged. -/
theorem Elem_scalar_base (ext : Externals) (warn : Bool) (base : Loc) (key : Key) (s : State) :
    (((∃ n, s.load (tvToCell s base) = .int n) ∨
      (∃ d, s.load (tvToCell s base) = .dbl d) ∨
      (∃ i, s.load (tvToCell s base) = .res i) ∨
      s.load (tvToCell s base) = .bool true) →
      ∃ s', Elem ext warn base key s = .ok .initNullVariant s' ∧
        s'.load .initNullVariant = .null ∧
        s'.log = s.log ++
          (if ext.EnableHipHopSyntax = true then
            [⟨.warning, "Cannot use a scalar value as an array", .none⟩] else []) ∧
        s'.load (tvToCell s base) = s.load (tvToCell s base)) ∧
    ((s.load (tvToCell s base) = .uninit ∨ s.load (tvToCell s base) = .null ∨
      s.load (tvToCell s base) = .bool false) →
      Elem ext warn base key s = .ok .initNullVariant s ∧ s.load .initNullVariant = .null) := by
  constructor
  · intro hscalar
    have hslow : Elem ext warn base key s = ElemScalar ext s := by
      rw [Elem_eq_ElemSlow]
      · unfold ElemSlow
        rcases hscalar with ⟨n, h⟩ | ⟨d, h⟩ | ⟨i, h⟩ | h <;> simp [h, ElemBoolean]
      · intro a
        rcases hscalar with ⟨n, h⟩ | ⟨d, h⟩ | ⟨i, h⟩ | h <;> simp [h]
    rw [hslow]
    unfold ElemScalar ElemEmptyish
    cases hopt : ext.EnableHipHopSyntax with
    | true =>
      refine ⟨raise_warning s Strings.CANNOT_USE_SCALAR_AS_ARRAY .none, by simp, rfl, ?_, ?_⟩
      · simp
        rfl
      · simp
    | false =>
      exact ⟨s, by simp, rfl, by simp, rfl⟩
  · intro hemp
    refine ⟨?_, rfl⟩
    rw [Elem_eq_ElemSlow]
    · unfold ElemSlow
      rcases hemp with h | h | h <;> simp [h, ElemBoolean, ElemEmptyish]
    · intro a
      rcases hemp with h | h | h <;> simp [h]

/-- Witness for C24 (amended): the integer base 42 with the HipHop syntax
on. -/
theorem Elem_scalar_base_witness :
    ∃ s', Elem Externals.inert true (.slot 0) (.int 0) stInt42 = .ok .initNullVariant s' ∧
      s'.load .initNullVariant = .null ∧
      s'.log = stInt42.log ++
        (if Externals.inert.EnableHipHopSyntax = true then
          [⟨.warning, "Cannot use a scalar value as an array", .none⟩] else []) ∧
      s'.load (tvToCell stInt42 (.slot 0)) = stInt42.load (tvToCell stInt42 (.slot 0)) :=
  (Elem_scalar_base Externals.inert true (.slot 0) (.int 0) stInt42).1 (Or.inl ⟨42, by decide⟩)

/-- C24 as stated fails: with the option `EnableHipHopSyntax` off, `Elem` on
the integer base 42 returns the null sentinel and raises no warning. -/
theorem Elem_scalar_base_counterexample :
    stInt42.load (tvToCell stInt42 (.slot 0)) = .int 42 ∧
    (Elem Externals.plainSyntax true (.slot 0) (.int 0) stInt42).returned
      = some .initNullVariant ∧
    (Elem Externals.plainSyntax true (.slot 0) (.int 0) stInt42).state.log = [] := by
  decide

/-- C25 (amended): when the unboxed base is tagged Class, the entry points
`Elem`, `ElemD`, `ElemU`, `NewElem`, `SetElem`, `SetNewElem`, `SetOpElem`,
`SetOpNewElem`, `IncDecElem`, `IncDecNewElem`, `UnsetElem`, `IssetEmptyElem`,
`Prop`, `nullSafeProp`, `SetProp`, `SetOpProp` and `IncDecProp` abort with the
state unchanged; `UnsetProp` and `IssetEmptyProp`, which test only whether the
base is an object, return normally: `UnsetProp` does nothing and
`IssetEmptyProp` returns `useEmpty`. -/
theorem Class_base_entry_points (ext : Externals) (warn reffy setResult define unset
    useEmpty : Bool) (ctx : Nat) (op : SetOpOp) (iop : IncDecOp) (base : Loc) (key : Key)
    (tvKey : TypedValue) (sd : StrRef) (value dest : Loc) (s : State) (c : Nat)
    (hcls : s.load (tvToCell s base) = .cls c) :
    Elem ext warn base key s = .abort s ∧
    ElemD ext warn reffy base key s = .abort s ∧
    ElemU ext base key s = .abort s ∧
    NewElem ext reffy base s = .abort s ∧
    SetElem ext setResult base key value s = .abort s ∧
    SetNewElem ext setResult base value s = .abort s ∧
    SetOpElem ext op base tvKey value s = .abort s ∧
    SetOpNewElem ext op base value s = .abort s ∧
    IncDecElem ext iop base tvKey dest s = .abort s ∧
    IncDecNewElem ext iop base dest s = .abort s ∧
    UnsetElem ext base key s = .abort s ∧
    IssetEmptyElem ext useEmpty base key s = .abort s ∧
    Prop_ ext warn define unset ctx base key s = .abort s ∧
    nullSafeProp ext ctx base sd s = .abort s ∧
    SetProp ext setResult ctx base key value s = .abort s ∧
    SetOpProp ext ctx op base tvKey value s = .abort s ∧
    IncDecProp ext ctx iop base tvKey dest s = .abort s ∧
    UnsetProp ext ctx base tvKey s = .ok () s ∧
    IssetEmptyProp ext useEmpty ctx base tvKey s = .ok useEmpty s := by
  have hna : ∀ a, s.load (tvToCell s base) ≠ .arr a := by
    intro a h
    rw [hcls] at h
    cases h
  refine ⟨?_, ?_, ?_, ?_, ?_, ?_, ?_, ?_, ?_, ?_, ?_, ?_, ?_, ?_, ?_, ?_, ?_, ?_, ?_⟩
  · rw [Elem_eq_ElemSlow ext warn base key s hna]
    simp only [ElemSlow, hcls]
  · simp only [ElemD, hcls]
  · simp only [ElemU, hcls]
  · simp only [NewElem, hcls]
  · rw [SetElem_eq_SetElemSlow ext setResult base key value s hna]
    simp only [SetElemSlow, hcls]
  · simp only [SetNewElem, hcls]
  · simp only [SetOpElem, hcls]
  · simp only [SetOpNewElem, hcls]
  · simp only [IncDecElem, hcls]
  · simp only [IncDecNewElem, hcls]
  · have hslow : UnsetElem ext base key s = UnsetElemSlow ext base key s := by
      unfold UnsetElem
      cases hb : s.load base with
      | arr a =>
        have e := tvToCell_of_arr s base a hb
        rw [e] at hna
        exact absurd hb (hna a)
      | _ => rfl
    rw [hslow]
    simp only [UnsetElemSlow, hcls]
  · rw [IssetEmptyElem_eq_Slow ext useEmpty base key s hna]
    simp only [IssetEmptyElemSlow, hcls]
  · simp only [Prop_, propPre, hcls, Outcome.bind]
  · simp only [nullSafeProp, hcls]
  · simp only [SetProp, hcls]
  · simp only [SetOpProp, hcls]
  · simp only [IncDecProp, hcls]
  · simp only [UnsetProp, hcls]
  · simp only [IssetEmptyProp, hcls]

/-- Witness for C25 (amended): a class in slot 0. -/
theorem Class_base_entry_points_witness :
    Elem Externals.inert true (.slot 0) (.int 0) stClass = .abort stClass ∧
    SetProp Externals.inert true 0 (.slot 0) (.int 0) (.slot 1) stClass = .abort stClass ∧
    UnsetProp Externals.inert 0 (.slot 0) (.int 0) stClass = .ok () stClass ∧
    IssetEmptyProp Externals.inert false 0 (.slot 0) (.int 0) stClass = .ok false stClass := by
  have h := Class_base_entry_points Externals.inert true false true false false false 0
    .PlusEqual .PostInc (.slot 0) (.int 0) (.int 0) (.static []) (.slot 1) (.slot 1) stClass 0
    (by decide)
  exact ⟨h.1, h.2.2.2.2.2.2.2.2.2.2.2.2.2.2.1, h.2.2.2.2.2.2.2.2.2.2.2.2.2.2.2.2.2.1,
    h.2.2.2.2.2.2.2.2.2.2.2.2.2.2.2.2.2.2⟩

/-- C25 as stated fails: on a base tagged Class `UnsetProp` and
`IssetEmptyProp` return normally instead of aborting. -/
theorem Class_base_entry_points_counterexample :
    stClass.load (tvToCell stClass (.slot 0)) = .cls 0 ∧
    (UnsetProp Externals.inert 0 (.slot 0) (.sstr [102]) stClass).returned = some () ∧
    (IssetEmptyProp Externals.inert false 0 (.slot 0) (.sstr [102]) stClass).returned
      = some false ∧
    (IssetEmptyProp Externals.inert true 0 (.slot 0) (.sstr [102]) stClass).returned
      = some true := by
  decide

theorem getObj_allocObj_new (s : State) (od : ObjectData) :
    (s.allocObj od).2.getObj s.objs.length = od := by
  simp only [State.getObj, State.allocObj]
  exact getD_append_length _ _ _

/-- Releasing an empty-ish value touches no object. -/
theorem getObj_tvRefcountedDecRef_emptyish (s t : State) (tv : TypedValue)
    (h : isEmptyish t tv = true) (p : Nat) :
    (tvRefcountedDecRef s tv).getObj p = s.getObj p := by
  cases tv <;> first | rfl | simp [isEmptyish] at h

theorem objs_length_tvRefcountedDecRef_emptyish (s t : State) (tv : TypedValue)
    (h : isEmptyish t tv = true) :
    (tvRefcountedDecRef s tv).objs.length = s.objs.length := by
  cases tv <;> first | rfl | simp [isEmptyish] at h

theorem refs_tvRefcountedDecRef (s : State) (tv : TypedValue) :
    (tvRefcountedDecRef s tv).refs = s.refs := by
  cases tv <;> rfl

theorem refs_length_store (s : State) (l : Loc) (v : TypedValue) :
    (s.store l v).refs.length = s.refs.length := by
  cases l <;> simp [State.store, State.setArr, State.setObj]

/-- Allocating an object without property changes the value of no cell. -/
theorem load_allocObj_noProps (s : State) (od : ObjectData) (h : od.props = []) (l : Loc) :
    (s.allocObj od).2.load l = s.load l := by
  cases l with
  | objProp o n =>
    simp only [State.load]
    by_cases ho : o < s.objs.length
    · have : (s.allocObj od).2.getObj o = s.getObj o := by
        simp only [State.getObj, State.allocObj]
        exact getD_append_lt _ _ _ _ ho
      rw [this]
    · rw [getObj_dangling s o ho]
      by_cases ho2 : o = s.objs.length
      · subst ho2
        rw [getObj_allocObj_new, h]
      · have : ¬ o < (s.allocObj od).2.objs.length := by
          simp [State.allocObj]
          omega
        rw [getObj_dangling _ o this]
  | _ => rfl

/-- A fresh stdclass object has no property, so no cell changes its value when
it is allocated. -/
theorem load_newInstanceStdclass (s : State) (l : Loc) :
    (newInstanceStdclass s).2.load l = s.load l :=
  load_allocObj_noProps s _ rfl l

@[simp] theorem getObj_raise_warning (s : State) (fmt : String) (arg : DiagArg) (p : Nat) :
    (raise_warning s fmt arg).getObj p = s.getObj p := rfl

/-- On an empty-ish base `propPre` is `propPreStdclass` on the unboxed cell. -/
theorem propPre_eq_propPreStdclass (ext : Externals) (warn define : Bool) (base : Loc)
    (s : State) (hemp : isEmptyish s (s.load (tvToCell s base)) = true) :
    propPre ext warn define base s = propPreStdclass ext warn define (tvToCell s base) s := by
  unfold propPre
  cases hl : s.load (tvToCell s base) with
  | uninit => simp only [hl]
  | null => simp only [hl]
  | bool b =>
    rw [hl] at hemp
    cases b with
    | true => simp [isEmptyish] at hemp
    | false => simp [hl]
  | sstr b =>
    rw [hl] at hemp
    have : b = [] := by simpa [isEmptyish] using hemp
    subst this
    simp [hl]
  | str p =>
    rw [hl] at hemp
    have : (s.getStr p).data = [] := by simpa [isEmptyish] using hemp
    simp [hl, this]
  | _ => rw [hl] at hemp; simp [isEmptyish] at hemp

/-- On an empty-ish base `SetProp` is `SetPropStdclass` on the unboxed cell. -/
theorem SetProp_eq_SetPropStdclass (ext : Externals) (setResult : Bool) (ctx : Nat)
    (base : Loc) (key : Key) (val : Loc) (s : State)
    (hemp : isEmptyish s (s.load (tvToCell s base)) = true) :
    SetProp ext setResult ctx base key val s
      = SetPropStdclass ext (tvToCell s base) (initScratchKey key) val s := by
  unfold SetProp
  cases hl : s.load (tvToCell s base) with
  | uninit => simp only [hl]
  | null => simp only [hl]
  | bool b =>
    rw [hl] at hemp
    cases b with
    | true => simp [isEmptyish] at hemp
    | false => simp [hl]
  | sstr b =>
    rw [hl] at hemp
    have : b = [] := by simpa [isEmptyish] using hemp
    subst this
    simp [hl]
  | str p =>
    rw [hl] at hemp
    have : (s.getStr p).data = [] := by simpa [isEmptyish] using hemp
    simp [hl, this]
  | _ => rw [hl] at hemp; simp [isEmptyish] at hemp

/-- On an empty-ish base `SetOpProp` is `SetOpPropStdclass` on the unboxed
cell. -/
theorem SetOpProp_eq_SetOpPropStdclass (ext : Externals) (ctx : Nat) (op : SetOpOp)
    (base : Loc) (key : TypedValue) (rhs : Loc) (s : State)
    (hemp : isEmptyish s (s.load (tvToCell s base)) = true) :
    SetOpProp ext ctx op base key rhs s
      = SetOpPropStdclass ext op (tvToCell s base) key rhs s := by
  unfold SetOpProp
  cases hl : s.load (tvToCell s base) with
  | uninit => simp only [hl]
  | null => simp only [hl]
  | bool b =>
    rw [hl] at hemp
    cases b with
    | true => simp [isEmptyish] at hemp
    | false => simp [hl]
  | sstr b =>
    rw [hl] at hemp
    have : b = [] := by simpa [isEmptyish] using hemp
    subst this
    simp [hl]
  | str p =>
    rw [hl] at hemp
    have : (s.getStr p).data = [] := by simpa [isEmptyish] using hemp
    simp [hl, this]
  | _ => rw [hl] at hemp; simp [isEmptyish] at hemp

/-- On an empty-ish base `IncDecProp` is `IncDecPropStdclass` on the unboxed
cell. -/
theorem IncDecProp_eq_IncDecPropStdclass (ext : Externals) (ctx : Nat) (op : IncDecOp)
    (base : Loc) (key : TypedValue) (dest : Loc) (s : State)
    (hemp : isEmptyish s (s.load (tvToCell s base)) = true) :
    IncDecProp ext ctx op base key dest s
      = IncDecPropStdclass ext op (tvToCell s base) key dest s := by
  unfold IncDecProp
  cases hl : s.load (tvToCell s base) with
  | uninit => simp only [hl]
  | null => simp only [hl]
  | bool b =>
    rw [hl] at hemp
    cases b with
    | true => simp [isEmptyish] at hemp
    | false => simp [hl]
  | sstr b =>
    rw [hl] at hemp
    have : b = [] := by simpa [isEmptyish] using hemp
    subst this
    simp [hl]
  | str p =>
    rw [hl] at hemp
    have : (s.getStr p).data = [] := by simpa [isEmptyish] using hemp
    simp [hl, this]
  | _ => rw [hl] at hemp; simp [isEmptyish] at hemp

theorem load_allocTemp_of_writable (s : State) (v : TypedValue) (l : Loc)
    (hw : s.writable l = true) : (s.allocTemp v).2.load l = s.load l := by
  cases l with
  | refInner r =>
    simp only [State.writable, decide_eq_true_eq] at hw
    simp only [State.load, State.allocTemp]
    exact getD_append_lt _ _ _ _ hw
  | _ => rfl

theorem load_allocTemp_new (s : State) (v : TypedValue) :
    (s.allocTemp v).2.load (.refInner s.refs.length) = v := by
  simp only [State.load, State.allocTemp]
  exact getD_append_length _ _ _



@[simp] theorem trace_decRefArr (s : State) (p : Nat) : (decRefArr s p).trace = s.trace := rfl

@[simp] theorem trace_setObj (s : State) (p : Nat) (od : ObjectData) :
    (s.setObj p od).trace = s.trace := rfl

@[simp] theorem trace_newInstanceStdclass (s : State) :
    (newInstanceStdclass s).2.trace = s.trace := rfl

@[simp] theorem trace_allocTemp (s : State) (v : TypedValue) :
    (s.allocTemp v).2.trace = s.trace := rfl

@[simp] theorem trace_stdclassSetProp (s : State) (o : Nat) (n : List Byte) (v : TypedValue) :
    (stdclassSetProp s o n v).trace = s.trace := rfl

/-- The array container records no slot event of its own in `lval(key)`. -/
theorem trace_arrayLval (s : State) (b : Loc) (k : ArrayKey) :
    (arrayLval s b k).2.trace = s.trace := by
  unfold arrayLval
  cases s.load b <;> simp only []
  split <;> simp

/-- The bytes of the strings are the same after `assignFreshArray`. -/
theorem data_getStr_assignFreshArray (s : State) (b : Loc) (p : Nat) :
    ((assignFreshArray s b).getStr p).data = (s.getStr p).data := by
  unfold assignFreshArray
  simp only [getStr_record]
  rw [data_getStr_tvRefcountedDecRef, getStr_record, getStr_store]
  rfl

/-- The two events of `assignFreshArray`, in their order. -/
theorem trace_assignFreshArray (s : State) (b : Loc) :
    (assignFreshArray s b).trace
      = s.trace ++ [.install b (.arr s.arrs.length), .release (s.load b)] := by
  unfold assignFreshArray
  simp [State.allocArr]

/-- The function `IncDecBody` records no slot event when `incDecBodySlow`
records none. -/
theorem trace_IncDecBody (ext : Externals) (op : IncDecOp) (fr to_ : Loc) (s : State)
    (hinc : ∀ o f d t, (ext.incDecBodySlow o f d t).state.trace = t.trace) :
    (IncDecBody ext op fr to_ s).state.trace = s.trace := by
  unfold IncDecBody
  cases s.load fr <;> simp only [] <;> first | exact hinc _ _ _ _ | skip
  cases op <;> simp [Outcome.state]

/-- The array container records no slot event of its own in `set`. -/
theorem trace_arraySet (s : State) (a : Nat) (k : ArrayKey) (v : TypedValue) (copy : Bool) :
    (arraySet s a k v copy).2.trace = s.trace := by
  unfold arraySet
  cases copy <;> rfl

/-- The `Array` handle records no slot event of its own in `set` with a legal
key. -/
theorem trace_arraySetVariant_legal (ext : Externals) (b : Loc) (key v : TypedValue)
    (s : State) (k : ArrayKey) (hk : toKey ext s key = some k) :
    (arraySetVariant ext b key v s).state.trace = s.trace := by
  unfold arraySetVariant
  simp only [hk]
  cases hl : s.load b with
  | arr a =>
    simp only []
    by_cases h : (arraySet s a k v (s.getArr a).hasMultipleRefs).1 = a
    · simp only [h, if_true, Outcome.state, trace_arraySet]
    · simp only [h, if_false, Outcome.state, trace_decRefArr, trace_store, trace_arraySet]
  | _ => rfl

theorem bind_ok {α β : Type} (r : α) (s : State) (f : α → State → Outcome β) :
    (Outcome.ok r s).bind f = f r s := rfl

/-- A continuation that records no slot event leaves the trace of the first
step. -/
theorem trace_bind {α β : Type} (o : Outcome α) (f : α → State → Outcome β)
    (h : ∀ r t, (f r t).state.trace = t.trace) :
    (o.bind f).state.trace = o.state.trace := by
  cases o <;> first | exact h _ _ | rfl



/-- What `SetPropNull` does. -/
theorem SetPropNull_spec (setResult : Bool) (val b : Loc) (s : State)
    (hval : s.writable val = true) (hne : val ≠ b) :
    (setResult = true →
      ∃ s', SetPropNull setResult val s = .ok () s' ∧
        s'.load val = .null ∧
        s'.log = s.log ++ [⟨.warning, "Cannot access property on non-object", .none⟩] ∧
        s'.load b = s.load b ∧
        cellBytes s' (s'.load b) = cellBytes s (s.load b)) ∧
    (setResult = false →
      SetPropNull setResult val s
        = .invalidSetM .null (raise_warning s "Cannot access property on non-object" .none)) := by
  constructor
  · intro h
    subst h
    have hb : (tvWriteNull (tvRefcountedDecRef
        (raise_warning s "Cannot access property on non-object" .none)
        ((raise_warning s "Cannot access property on non-object" .none).load val)) val).load b
        = s.load b := by
      unfold tvWriteNull
      rw [load_store_other _ _ _ _ hne]
      simp
    refine ⟨_, rfl, ?_, ?_, hb, ?_⟩
    · unfold tvWriteNull
      apply load_store_writable
      rw [writable_tvRefcountedDecRef, writable_raise_warning]
      exact hval
    · simp [tvWriteNull]
    · rw [hb]
      unfold tvWriteNull
      rw [cellBytes_store, cellBytes_tvRefcountedDecRef, cellBytes_raise_warning]
  · intro h
    subst h
    rfl

/-- C28: for every base tagged Int, Double, Resource, Array, Bool true or
non-empty String, `SetProp` raises the warning "Cannot access property on
non-object" and leaves the base cell (and the bytes of a string base)
unchanged; with `setResult = true` it overwrites the right-hand side with null
and returns, and with `setResult = false` it throws `InvalidSetMException`
carrying null. -/
theorem SetProp_non_object (ext : Externals) (setResult : Bool) (ctx : Nat) (base : Loc)
    (key : Key) (val : Loc) (s : State)
    (hbase : (∃ n, s.load (tvToCell s base) = .int n) ∨
      (∃ d, s.load (tvToCell s base) = .dbl d) ∨
      (∃ i, s.load (tvToCell s base) = .res i) ∨
      (∃ a, s.load (tvToCell s base) = .arr a) ∨
      s.load (tvToCell s base) = .bool true ∨
      (isStringType (s.load (tvToCell s base)).m_type = true ∧
        cellBytes s (s.load (tvToCell s base)) ≠ []))
    (hval : s.writable val = true) (hne : val ≠ tvToCell s base) :
    (setResult = true →
      ∃ s', SetProp ext setResult ctx base key val s = .ok () s' ∧
        s'.load val = .null ∧
        s'.log = s.log ++ [⟨.warning, "Cannot access property on non-object", .none⟩] ∧
        s'.load (tvToCell s base) = s.load (tvToCell s base) ∧
        cellBytes s' (s'.load (tvToCell s base)) = cellBytes s (s.load (tvToCell s base))) ∧
    (setResult = false →
      ∃ s', SetProp ext setResult ctx base key val s = .invalidSetM .null s' ∧
        s'.log = s.log ++ [⟨.warning, "Cannot access property on non-object", .none⟩] ∧
        s'.load (tvToCell s base) = s.load (tvToCell s base) ∧
        cellBytes s' (s'.load (tvToCell s base)) = cellBytes s (s.load (tvToCell s base))) := by
  have hrun : SetProp ext setResult ctx base key val s = SetPropNull setResult val s := by
    unfold SetProp
    rcases hbase with ⟨n, h⟩ | ⟨d, h⟩ | ⟨i, h⟩ | ⟨a, h⟩ | h | ⟨hstr, hbytes⟩
    · simp only [h]
    · simp only [h]
    · simp only [h]
    · simp only [h]
    · simp [h]
    · have hlen := string_length_ne_zero s _ hbytes
      cases hl : s.load (tvToCell s base) <;>
        simp only [hl, isStringType, TypedValue.m_type, cellBytes] at hstr hlen ⊢ <;>
        first
          | (simp only [ne_eq, hlen, not_false_eq_true, if_true])
          | (simp at hstr)
  obtain ⟨h1, h2⟩ := SetPropNull_spec setResult val (tvToCell s base) s hval hne
  constructor
  · intro ht
    obtain ⟨s', hr, hv, hl, hb, hc⟩ := h1 ht
    exact ⟨s', by rw [hrun, hr], hv, hl, hb, hc⟩
  · intro hf
    refine ⟨raise_warning s "Cannot access property on non-object" .none, ?_, rfl, ?_, ?_⟩
    · rw [hrun, h2 hf]
    · simp
    · rw [load_raise_warning, cellBytes_raise_warning]

/-- Witness for C28: the integer base 42, right-hand side 5. -/
theorem SetProp_non_object_witness :
    (∃ s', SetProp Externals.inert true 0 (.slot 0) (.str (.static [102])) (.slot 1) stInt42
        = .ok () s' ∧
      s'.load (.slot 1) = .null ∧
      s'.log = stInt42.log ++ [⟨.warning, "Cannot access property on non-object", .none⟩] ∧
      s'.load (tvToCell stInt42 (.slot 0)) = stInt42.load (tvToCell stInt42 (.slot 0)) ∧
      cellBytes s' (s'.load (tvToCell stInt42 (.slot 0)))
        = cellBytes stInt42 (stInt42.load (tvToCell stInt42 (.slot 0)))) ∧
    (∃ s', SetProp Externals.inert false 0 (.slot 0) (.str (.static [102])) (.slot 1) stInt42
        = .invalidSetM .null s' ∧
      s'.log = stInt42.log ++ [⟨.warning, "Cannot access property on non-object", .none⟩] ∧
      s'.load (tvToCell stInt42 (.slot 0)) = stInt42.load (tvToCell stInt42 (.slot 0)) ∧
      cellBytes s' (s'.load (tvToCell stInt42 (.slot 0)))
        = cellBytes stInt42 (stInt42.load (tvToCell stInt42 (.slot 0)))) :=
  ⟨(SetProp_non_object Externals.inert true 0 (.slot 0) (.str (.static [102])) (.slot 1)
      stInt42 (Or.inl ⟨42, by decide⟩) (by decide) (by decide)).1 rfl,
    (SetProp_non_object Externals.inert false 0 (.slot 0) (.str (.static [102])) (.slot 1)
      stInt42 (Or.inl ⟨42, by decide⟩) (by decide) (by decide)).2 rfl⟩

/-- C29 (the code at the failing input): on a Null base, with
`incDecBodySlow` incrementing a Null source to 1, `IncDecProp` with `PostInc`
leaves the destination holding the prior null and sets the property "n" of
the new stdclass object to that null, while the incremented value 1 stays in
the local cell and is dropped; with `PreInc` the destination and the property
both hold 1.  The property is set from the destination, so the prefix and the
postfix form store different property values. -/
theorem IncDecProp_stdclass_property :
    stNull.load (tvToCell stNull (.slot 0)) = .null ∧
    (IncDecProp Externals.nullIncDec 0 .PostInc (.slot 0) (.sstr [110]) (.slot 2)
      stNull).returned = some () ∧
    (IncDecProp Externals.nullIncDec 0 .PostInc (.slot 0) (.sstr [110]) (.slot 2)
      stNull).state.load (.slot 2) = .null ∧
    ((IncDecProp Externals.nullIncDec 0 .PostInc (.slot 0) (.sstr [110]) (.slot 2)
      stNull).state.getObj 0).props = [([110], .null)] ∧
    (IncDecProp Externals.nullIncDec 0 .PostInc (.slot 0) (.sstr [110]) (.slot 2)
      stNull).state.load (.refInner 0) = .int 1 ∧
    (IncDecProp Externals.nullIncDec 0 .PreInc (.slot 0) (.sstr [110]) (.slot 2)
      stNull).state.load (.slot 2) = .int 1 ∧
    ((IncDecProp Externals.nullIncDec 0 .PreInc (.slot 0) (.sstr [110]) (.slot 2)
      stNull).state.getObj 0).props = [([110], .int 1)] := by
  decide

/-- Dropping a reference of an array: its count goes down by one, its entries
stay, and no other array is touched. -/
theorem getArr_decRefArr (s : State) (p q : Nat) :
    ((decRefArr s p).getArr q).count
        = (if q = p then (s.getArr q).count - 1 else (s.getArr q).count) ∧
    ((decRefArr s p).getArr q).elems = (s.getArr q).elems ∧
    ((decRefArr s p).getArr q).nextKI = (s.getArr q).nextKI := by
  unfold decRefArr
  by_cases hp : p < s.arrs.length
  · by_cases hpq : p = q
    · subst hpq
      rw [getArr_setArr_same _ _ _ hp]
      simp
    · rw [getArr_setArr_other _ _ _ _ hpq]
      have : ¬ q = p := fun e => hpq e.symm
      simp [this]
  · rw [setArr_dangling _ _ _ hp]
    by_cases hpq : q = p
    · subst hpq
      rw [getArr_dangling s q hp]
      simp
    · simp [hpq]

/-- On an array, `empty` answers true whenever `isset` answers false. -/
theorem IssetEmptyElemArray_isset_false (ext : Externals) (a : Nat) (key : Key) (s s1 : State)
    (h : IssetEmptyElemArray ext false a key s = .ok false s1) :
    IssetEmptyElemArray ext true a key s = .ok true s1 := by
  unfold IssetEmptyElemArray at h ⊢
  cases hE : ElemArray ext false a key s with
  | ok r t =>
    rw [hE] at h
    simp only [Outcome.bind, Bool.false_eq_true, if_false, if_true] at h ⊢
    injection h with h1 h2
    subst h2
    have hn : isNullType (t.load (tvToCell t r)).m_type = true := by
      cases hc : isNullType (t.load (tvToCell t r)).m_type <;> simp [hc] at h1 ⊢
    cases hv : t.load (tvToCell t r) <;> rw [hv] at hn <;>
      first
        | (simp [isNullType, TypedValue.m_type] at hn; done)
        | simp [cellToBool]
  | invalidSetM v t => rw [hE] at h; simp [Outcome.bind] at h
  | fatal m t => rw [hE] at h; simp [Outcome.bind] at h
  | abort t => rw [hE] at h; simp [Outcome.bind] at h
  | thrown t => rw [hE] at h; simp [Outcome.bind] at h

/-- On a string, `empty` answers true whenever `isset` answers false. -/
theorem IssetEmptyElemString_isset_false (ext : Externals) (b : Loc) (key : Key) (s s1 : State)
    (h : IssetEmptyElemString ext false b key s = .ok false s1) :
    IssetEmptyElemString ext true b key s = .ok true s1 := by
  rw [IssetEmptyElemString_eq] at h ⊢
  injection h with h1 h2
  subst h2
  congr 1
  by_cases hbad : issetBadKey s (initScratchKey key) = true
  · simp [hbad]
  · by_cases hr : cellToInt ext s (initScratchKey key) < 0 ∨
        cellToInt ext s (initScratchKey key) ≥ ((cellBytes s (s.load b)).length : Int)
    · simp [hbad, hr]
    · simp [hbad, hr] at h1

/-- C37: for a base that is not an object, whenever `isset($base[$key])`
(`IssetEmptyElem` with `useEmpty = false`) returns false,
`empty($base[$key])` (`useEmpty = true`) on the same state returns true, with
the same final state. -/
theorem IssetEmptyElem_isset_false_empty_true (ext : Externals) (base : Loc) (key : Key)
    (s s1 : State)
    (hobj : (s.load (tvToCell s base)).m_type ≠ .KindOfObject)
    (h : IssetEmptyElem ext false base key s = .ok false s1) :
    IssetEmptyElem ext true base key s = .ok true s1 := by
  cases hb : s.load (tvToCell s base) with
  | arr a =>
    rw [IssetEmptyElem_eq_IssetEmptyElemArray ext _ base key s a hb] at h ⊢
    exact IssetEmptyElemArray_isset_false ext a key s s1 h
  | obj o => rw [hb] at hobj; exact absurd rfl hobj
  | sstr x =>
    have hs : ∀ a, s.load (tvToCell s base) ≠ .arr a := by intro a; rw [hb]; simp
    rw [IssetEmptyElem_eq_Slow ext _ base key s hs] at h ⊢
    simp only [IssetEmptyElemSlow, hb] at h ⊢
    exact IssetEmptyElemString_isset_false ext _ key s s1 h
  | str x =>
    have hs : ∀ a, s.load (tvToCell s base) ≠ .arr a := by intro a; rw [hb]; simp
    rw [IssetEmptyElem_eq_Slow ext _ base key s hs] at h ⊢
    simp only [IssetEmptyElemSlow, hb] at h ⊢
    exact IssetEmptyElemString_isset_false ext _ key s s1 h
  | _ =>
    have hs : ∀ a, s.load (tvToCell s base) ≠ .arr a := by intro a; rw [hb]; simp
    rw [IssetEmptyElem_eq_Slow ext _ base key s hs] at h ⊢
    simp only [IssetEmptyElemSlow, hb] at h ⊢
    first
      | (injection h with h1 h2; subst h2; rfl)
      | simp at h

/-- Witness for C37: on the string "ab" the offset 7 is out of range, `isset`
is false and `empty` is true; on the array `["a" => 1]` the key "z" is absent,
`isset` is false and `empty` is true. -/
theorem IssetEmptyElem_isset_false_empty_true_witness :
    IssetEmptyElem Externals.inert false (.slot 0) (.int 7) stStringAb = .ok false stStringAb ∧
    IssetEmptyElem Externals.inert true (.slot 0) (.int 7) stStringAb = .ok true stStringAb ∧
    (IssetEmptyElem Externals.inert false (.slot 0) (.str (.static [122])) stArrayA1).returned
      = some false ∧
    (IssetEmptyElem Externals.inert true (.slot 0) (.str (.static [122])) stArrayA1).returned
      = some true :=
  ⟨by decide,
    IssetEmptyElem_isset_false_empty_true Externals.inert (.slot 0) (.int 7) stStringAb
      stStringAb (by decide) (by decide),
    by decide, by decide⟩

/-- C38: for a string base and an integer key `x` with `0 ≤ x < length`,
`isset($base[x])` returns true, and `empty($base[x])` returns true exactly when
the byte at offset `x` is the character `'0'` (48). -/
theorem IssetEmptyElem_string_in_range (ext : Externals) (base : Loc) (key : Key) (s : State)
    (x : Int)
    (hstr : isStringType (s.load (tvToCell s base)).m_type = true)
    (hk : initScratchKey key = .int x)
    (h0 : 0 ≤ x) (hlen : x < ((cellBytes s (s.load (tvToCell s base))).length : Int)) :
    IssetEmptyElem ext false base key s = .ok true s ∧
    IssetEmptyElem ext true base key s
      = .ok (decide ((cellBytes s (s.load (tvToCell s base))).getD x.toNat 0 = 48)) s := by
  have hs : ∀ a, s.load (tvToCell s base) ≠ .arr a := by
    intro a e
    rw [e] at hstr
    simp [isStringType, TypedValue.m_type] at hstr
  have hslow : ∀ u, IssetEmptyElem ext u base key s
      = IssetEmptyElemString ext u (tvToCell s base) key s := by
    intro u
    rw [IssetEmptyElem_eq_Slow ext u base key s hs]
    cases hb : s.load (tvToCell s base) <;> rw [hb] at hstr <;>
      first
        | (simp [isStringType, TypedValue.m_type] at hstr; done)
        | simp only [IssetEmptyElemSlow, hb]
  have hr : ¬ (x < 0 ∨ x ≥ ((cellBytes s (s.load (tvToCell s base))).length : Int)) := by
    omega
  rw [hslow, hslow]
  unfold IssetEmptyElemString
  simp only [hk]
  refine ⟨?_, ?_⟩
  · simp [hr]
  · simp only [hr, if_false, Bool.not_true, Bool.false_eq_true]
    congr 1
    simp [cellToBool, getChar]

/-- Witness for C38: on the string "a0" both offsets are set; the byte at
offset 0 is `'a'`, so `empty` is false there, and the byte at offset 1 is `'0'`,
so `empty` is true there. -/
theorem IssetEmptyElem_string_in_range_witness :
    (IssetEmptyElem Externals.inert false (.slot 0) (.int 1) stStringA0 = .ok true stStringA0 ∧
      IssetEmptyElem Externals.inert true (.slot 0) (.int 1) stStringA0
        = .ok (decide ((cellBytes stStringA0
            (stStringA0.load (tvToCell stStringA0 (.slot 0)))).getD (1 : Int).toNat 0 = 48))
            stStringA0) ∧
    IssetEmptyElem Externals.inert true (.slot 0) (.int 1) stStringA0 = .ok true stStringA0 ∧
    IssetEmptyElem Externals.inert false (.slot 0) (.int 0) stStringA0 = .ok true stStringA0 ∧
    IssetEmptyElem Externals.inert true (.slot 0) (.int 0) stStringA0 = .ok false stStringA0 :=
  ⟨IssetEmptyElem_string_in_range Externals.inert (.slot 0) (.int 1) stStringA0 1
      (by decide) (by decide) (by decide) (by decide),
    by decide, by decide, by decide⟩

/-- On an integer source `IncDecBody` returns, stores into the source and the
destination only, and logs nothing. -/
theorem IncDecBody_int_frame (ext : Externals) (op : IncDecOp) (fr to_ : Loc) (s : State)
    (n : Int) (h : s.load fr = .int n) :
    (IncDecBody ext op fr to_ s).returned = some () ∧
    (IncDecBody ext op fr to_ s).state.log = s.log ∧
    (∀ l : Loc, l ≠ fr → l ≠ to_ → (IncDecBody ext op fr to_ s).state.load l = s.load l) := by
  unfold IncDecBody
  rw [h]
  cases op <;>
    (refine ⟨rfl, ?_, ?_⟩
     · simp only [Outcome.state, log_store]
     · intro l h1 h2
       simp only [Outcome.state]
       first
         | rw [load_store_other _ _ _ _ (fun e => h2 e.symm),
             load_store_other _ _ _ _ (fun e => h1 e.symm)]
         | rw [load_store_other _ _ _ _ (fun e => h1 e.symm),
             load_store_other _ _ _ _ (fun e => h2 e.symm)])

/-- Taking a reference of a counted string raises its count by one. -/
theorem count_getStr_tvRefcountedIncRef (s : State) (p : Nat) (h : p < s.strs.length) :
    ((tvRefcountedIncRef s (.str p)).getStr p).count = (s.getStr p).count + 1 := by
  simp only [tvRefcountedIncRef, State.getStr, State.setStr]
  rw [getD_set_same _ _ _ _ h]

/-- A store allocates no array. -/
theorem arrs_length_store (s : State) (l : Loc) (v : TypedValue) :
    (s.store l v).arrs.length = s.arrs.length := by
  cases l <;> simp [State.store, State.setArr, State.setObj]

/-- Dropping a reference allocates no array. -/
theorem arrs_length_decRefArr (s : State) (p : Nat) :
    (decRefArr s p).arrs.length = s.arrs.length := by
  simp [decRefArr, State.setArr]

/-- The container's `set` allocates one array exactly when a copy is
requested. -/
theorem arrs_length_arraySet (s : State) (a : Nat) (k : ArrayKey) (v : TypedValue)
    (copy : Bool) :
    (arraySet s a k v copy).2.arrs.length = s.arrs.length + (if copy = true then 1 else 0) := by
  cases copy <;> simp [arraySet, State.allocArr, State.setArr]

/-- The container's `remove` allocates one array exactly when a copy is
requested. -/
theorem arrs_length_arrayRemove (s : State) (a : Nat) (k : ArrayKey) (copy : Bool) :
    (arrayRemove s a k copy).2.arrs.length = s.arrs.length + (if copy = true then 1 else 0) := by
  cases copy <;> simp [arrayRemove, State.allocArr, State.setArr]

/-- The bookkeeping of `arrayRefShuffle` allocates no array. -/
theorem arrs_length_arrayRefShuffle (setRef : Bool) (oldData newData : Nat) (base : Loc)
    (s : State) :
    (arrayRefShuffle setRef oldData newData base s).2.arrs.length = s.arrs.length := by
  unfold arrayRefShuffle
  split
  · rfl
  · split
    · split
      · rw [arrs_length_decRefArr, arrs_length_store]
      · rw [arrs_length_decRefArr]
    · rw [arrs_length_decRefArr]

/-- C36: on an array base with a legal key, `SetElem` hands the container's
`set` the copy request "the array has more than one reference, or the
right-hand side cell holds that same array", `SetNewElem` hands `append` the
same request, and `UnsetElem` hands `remove` the request "the array has more
than one reference".  Accordingly the call allocates one array (the copy)
exactly under that condition, and none otherwise. -/
theorem copy_request_array_base (ext : Externals) (setResult : Bool) (base : Loc) (key : Key)
    (value : Loc) (s : State) (a : Nat) (k : ArrayKey)
    (hload : s.load (tvToCell s base) = .arr a)
    (hk : keyAsValue ext s key = some k)
    (hroom : (s.getArr a).nextKI < 2 ^ 63) :
    (SetElem ext setResult base key value s
      = .ok none (arrayRefShuffle true a
          (arraySet s a k (s.load value)
            (decide (1 < (s.getArr a).count ∨ s.load value = .arr a))).1 (tvToCell s base)
          (arraySet s a k (s.load value)
            (decide (1 < (s.getArr a).count ∨ s.load value = .arr a))).2).2) ∧
    ((SetElem ext setResult base key value s).state.arrs.length
      = s.arrs.length + (if 1 < (s.getArr a).count ∨ s.load value = .arr a then 1 else 0)) ∧
    (SetNewElem ext setResult base value s
      = (arrayAppend ext a (s.load value)
          (decide (1 < (s.getArr a).count ∨ s.load value = .arr a)) s).bind (fun a2 s1 =>
            if a2 ≠ a then
              match s1.load (tvToCell s base) with
              | .arr old => .ok () (decRefArr (s1.store (tvToCell s base) (.arr a2)) old)
              | _ => .ok () (s1.store (tvToCell s base) (.arr a2))
            else .ok () s1)) ∧
    ((SetNewElem ext setResult base value s).returned = some ()) ∧
    ((SetNewElem ext setResult base value s).state.arrs.length
      = s.arrs.length + (if 1 < (s.getArr a).count ∨ s.load value = .arr a then 1 else 0)) ∧
    (UnsetElem ext base key s
      = (fun r : Nat × State =>
          if r.1 ≠ a then
            match r.2.load (tvToCell s base) with
            | .arr old => Outcome.ok () (decRefArr (r.2.store (tvToCell s base) (.arr r.1)) old)
            | _ => Outcome.ok () (r.2.store (tvToCell s base) (.arr r.1))
          else Outcome.ok () r.2)
        (arrayRemove s a k (decide (1 < (s.getArr a).count)))) ∧
    ((UnsetElem ext base key s).returned = some ()) ∧
    ((UnsetElem ext base key s).state.arrs.length
      = s.arrs.length + (if 1 < (s.getArr a).count then 1 else 0)) := by
  have hcopy : ((s.getArr a).hasMultipleRefs || decide (s.load value = .arr a))
      = decide (1 < (s.getArr a).count ∨ s.load value = .arr a) := by
    simp [ArrayData.hasMultipleRefs, Bool.decide_or]
  have hset : SetElem ext setResult base key value s
      = .ok none (arrayRefShuffle true a
          (arraySet s a k (s.load value)
            (decide (1 < (s.getArr a).count ∨ s.load value = .arr a))).1 (tvToCell s base)
          (arraySet s a k (s.load value)
            (decide (1 < (s.getArr a).count ∨ s.load value = .arr a))).2).2 := by
    rw [SetElem_eq_SetElemArray ext setResult base key value s a hload]
    simp only [SetElemArray, hcopy, SetElemArrayPre_legal ext setResult a key value _ s k hk,
      Outcome.bind]
  have hnew : SetNewElem ext setResult base value s
      = (arrayAppend ext a (s.load value)
          (decide (1 < (s.getArr a).count ∨ s.load value = .arr a)) s).bind (fun a2 s1 =>
            if a2 ≠ a then
              match s1.load (tvToCell s base) with
              | .arr old => .ok () (decRefArr (s1.store (tvToCell s base) (.arr a2)) old)
              | _ => .ok () (s1.store (tvToCell s base) (.arr a2))
            else .ok () s1) := by
    unfold SetNewElem
    simp only [hload, SetNewElemArray, hcopy]
  have hunset : UnsetElem ext base key s
      = (fun r : Nat × State =>
          if r.1 ≠ a then
            match r.2.load (tvToCell s base) with
            | .arr old => Outcome.ok () (decRefArr (r.2.store (tvToCell s base) (.arr r.1)) old)
            | _ => Outcome.ok () (r.2.store (tvToCell s base) (.arr r.1))
          else Outcome.ok () r.2)
        (arrayRemove s a k (decide (1 < (s.getArr a).count))) := by
    rw [UnsetElem_eq_UnsetElemArray ext base key s a hload]
    simp only [UnsetElemArray, UnsetElemArrayPre_legal ext a key _ s k hk, Outcome.bind,
      ArrayData.hasMultipleRefs]
  have hroom' : ¬ (2 : Int) ^ 63 ≤ (s.getArr a).nextKI := by omega
  refine ⟨hset, ?_, hnew, ?_, ?_, hunset, ?_, ?_⟩
  · rw [hset]
    simp only [Outcome.state]
    rw [arrs_length_arrayRefShuffle, arrs_length_arraySet]
    simp
  · rw [hnew]
    unfold arrayAppend
    simp only [hroom', if_false]
    split <;> simp only [Outcome.bind] <;> split <;> try split
    all_goals rfl
  · rw [hnew]
    unfold arrayAppend
    simp only [hroom', if_false]
    by_cases hc : (1 < (s.getArr a).count ∨ s.load value = .arr a)
    · simp only [hc, decide_True, if_true, Outcome.bind]
      split
      · split <;>
          simp [Outcome.state, arrs_length_decRefArr, arrs_length_store, State.allocArr]
      · simp [Outcome.state, State.allocArr]
    · simp only [hc, decide_False, Bool.false_eq_true, if_false, Outcome.bind, ne_eq,
        not_true_eq_false]
      simp [Outcome.state, State.setArr]
  · rw [hunset]
    dsimp only
    split
    · split <;> rfl
    · rfl
  · rw [hunset]
    dsimp only
    have hlen := arrs_length_arrayRemove s a k (decide (1 < (s.getArr a).count))
    split
    · split <;>
        simp only [Outcome.state, arrs_length_decRefArr, arrs_length_store, hlen] <;> simp
    · simp only [Outcome.state, hlen]
      simp

/-- Witness for C36: an unshared array written with itself as right-hand
side is copied (two arrays afterwards); a shared array written with an integer
is copied; an unshared array written with another cell, or unset, is not. -/
theorem copy_request_array_base_witness :
    ((SetElem Externals.inert true (.slot 0) (.int 3) (.slot 0) stArrayA1).state.arrs.length
      = stArrayA1.arrs.length
        + (if 1 < (stArrayA1.getArr 0).count ∨ stArrayA1.load (.slot 0) = .arr 0 then 1
           else 0)) ∧
    (SetElem Externals.inert true (.slot 0) (.int 3) (.slot 0) stArrayA1).state.arrs.length
      = 2 ∧
    (SetElem Externals.inert true (.slot 0) (.int 3) (.slot 2) stSharedArray).state.arrs.length
      = 2 ∧
    (SetElem Externals.inert true (.slot 0) (.int 3) (.slot 1) stArrayN5).state.arrs.length
      = 1 ∧
    (SetNewElem Externals.inert true (.slot 0) (.slot 0) stArrayA1).state.arrs.length = 2 ∧
    (SetNewElem Externals.inert true (.slot 0) (.slot 1) stArrayN5).state.arrs.length = 1 ∧
    (UnsetElem Externals.inert (.slot 0) (.int 3) stSharedArray).state.arrs.length = 2 ∧
    (UnsetElem Externals.inert (.slot 0) (.int 3) stArrayA1).state.arrs.length = 1 :=
  ⟨(copy_request_array_base Externals.inert true (.slot 0) (.int 3) (.slot 0) stArrayA1 0
      (.int 3) (by decide) (by decide) (by decide)).2.1,
    by decide, by decide, by decide, by decide, by decide, by decide, by decide⟩

/-- A sequence throws no `InvalidSetMException` when neither part does. -/
theorem invalidSetMValue_bind {α β : Type} (o : Outcome α) (f : α → State → Outcome β)
    (h1 : o.invalidSetMValue = none) (h2 : ∀ r t, (f r t).invalidSetMValue = none) :
    (o.bind f).invalidSetMValue = none := by
  cases o with
  | ok r t => exact h2 r t
  | invalidSetM v t => simp [Outcome.invalidSetMValue] at h1
  | fatal m t => rfl
  | abort t => rfl
  | thrown t => rfl

theorem SetElemEmptyish_no_throw (ext : Externals) (h : ext.raisesNoInvalidSetM) (base : Loc)
    (key : Key) (value : Loc) (s : State) :
    (SetElemEmptyish ext base key value s).invalidSetMValue = none := by
  unfold SetElemEmptyish arraySetVariant
  dsimp only
  split
  · split
    · split <;> rfl
    · rfl
  · exact h.1 _ _

theorem SetElemString_no_throw (ext : Externals) (h : ext.raisesNoInvalidSetM) (base : Loc)
    (key : Key) (value : Loc) (s : State) :
    (SetElemString ext true base key value s).invalidSetMValue = none := by
  unfold SetElemString
  dsimp only
  split
  · exact invalidSetMValue_bind _ _ (SetElemEmptyish_no_throw ext h base key value s)
      (by intro r t; rfl)
  · split <;> rfl

theorem SetElemArray_no_throw (ext : Externals) (base : Loc) (a : Nat)
    (key : Key) (value : Loc) (s : State) :
    (SetElemArray ext true base a key value s).invalidSetMValue = none := by
  unfold SetElemArray
  dsimp only
  apply invalidSetMValue_bind
  · unfold SetElemArrayPre
    split <;> first | rfl | (unfold SetElemArrayPreStr; split <;> rfl)
  · intro r t
    rfl

theorem SetElemSlow_no_throw (ext : Externals) (h : ext.raisesNoInvalidSetM) (base : Loc)
    (key : Key) (value : Loc) (s : State) :
    (SetElemSlow ext true base key value s).invalidSetMValue = none := by
  unfold SetElemSlow
  dsimp only
  split
  · exact invalidSetMValue_bind _ _ (SetElemEmptyish_no_throw ext h _ key value s)
      (by intro r t; rfl)
  · exact invalidSetMValue_bind _ _ (SetElemEmptyish_no_throw ext h _ key value s)
      (by intro r t; rfl)
  · apply invalidSetMValue_bind _ _ _ (by intro r t; rfl)
    unfold SetElemBoolean
    split
    · rfl
    · exact SetElemEmptyish_no_throw ext h _ key value s
  · rfl
  · rfl
  · rfl
  · exact SetElemString_no_throw ext h _ key value s
  · exact SetElemString_no_throw ext h _ key value s
  · exact invalidSetMValue_bind _ _ (SetElemArray_no_throw ext _ _ key value s)
      (by intro r t; rfl)
  · apply invalidSetMValue_bind _ _ _ (by intro r t; rfl)
    unfold SetElemObject
    dsimp only
    split
    · exact h.2.2.1 _ _ _ _
    · exact h.2.2.2.1 _ _ _ _ _
  · rfl
  · rfl

theorem SetElem_no_throw (ext : Externals) (h : ext.raisesNoInvalidSetM) (base : Loc)
    (key : Key) (value : Loc) (s : State) :
    (SetElem ext true base key value s).invalidSetMValue = none := by
  unfold SetElem
  split
  · exact invalidSetMValue_bind _ _ (SetElemArray_no_throw ext _ _ key value s)
      (by intro r t; rfl)
  · exact SetElemSlow_no_throw ext h base key value s

theorem SetNewElem_no_throw (ext : Externals) (h : ext.raisesNoInvalidSetM) (base : Loc)
    (value : Loc) (s : State) :
    (SetNewElem ext true base value s).invalidSetMValue = none := by
  unfold SetNewElem
  dsimp only
  split
  · rfl
  · rfl
  · unfold SetNewElemBoolean
    split <;> rfl
  · rfl
  · rfl
  · rfl
  · unfold SetNewElemString
    dsimp only
    split <;> rfl
  · unfold SetNewElemString
    dsimp only
    split <;> rfl
  · unfold SetNewElemArray
    dsimp only
    apply invalidSetMValue_bind
    · unfold arrayAppend
      dsimp only
      split
      · exact h.2.1 _ _
      · split <;> rfl
    · intro r t
      split
      · split <;> rfl
      · rfl
  · unfold SetNewElemObject
    split
    · exact h.2.2.2.2.1 _ _ _
    · exact h.2.2.2.2.2.1 _ _ _ _
  · rfl
  · rfl

theorem SetProp_no_throw (ext : Externals) (h : ext.raisesNoInvalidSetM) (ctx : Nat)
    (base : Loc) (key : Key) (value : Loc) (s : State) :
    (SetProp ext true ctx base key value s).invalidSetMValue = none := by
  unfold SetProp
  dsimp only
  split <;>
    first
      | rfl
      | (split <;> rfl)
      | exact h.2.2.2.2.2.2 _ _ _ _ _

/-- The cell of the right-hand side after a failure branch taken with
`setResult = true` holds null. -/
theorem load_nulled_rhs (s : State) (fmt : String) (arg : DiagArg) (value : Loc)
    (hval : s.writable value = true) :
    (tvWriteNull (tvRefcountedDecRef (raise_warning s fmt arg)
      ((raise_warning s fmt arg).load value)) value).load value = .null := by
  unfold tvWriteNull
  apply load_store_writable
  rw [writable_tvRefcountedDecRef, writable_raise_warning]
  exact hval

end HPHP

namespace HPHP

/-- C33: the core throws `InvalidSetMException` only when `setResult` is
false.  Provided the collaborators do not throw it themselves, a call of
`SetElem`, `SetNewElem` or `SetProp` that ends with `InvalidSetMException` was
made with `setResult = false`.  On each failure branch taken with
`setResult = true` (`SetElem` and `SetNewElem` on an Int, Double, Resource or
Bool true base, `SetElem` on a non-empty string with an illegal offset,
`SetElem` on an array with an Array or Object key, `SetProp` on a base that is
neither empty-ish nor an object) the call returns normally and the cell of the
right-hand side holds null. -/
theorem InvalidSetM_only_without_setResult (ext : Externals) (setResult : Bool) (ctx : Nat)
    (base : Loc) (key : Key) (value : Loc) (s : State)
    (hext : ext.raisesNoInvalidSetM)
    (hval : s.writable value = true) :
    (∀ v, (SetElem ext setResult base key value s).invalidSetMValue = some v →
      setResult = false) ∧
    (∀ v, (SetNewElem ext setResult base value s).invalidSetMValue = some v →
      setResult = false) ∧
    (∀ v, (SetProp ext setResult ctx base key value s).invalidSetMValue = some v →
      setResult = false) ∧
    (((∃ n, s.load (tvToCell s base) = .int n) ∨ (∃ d, s.load (tvToCell s base) = .dbl d) ∨
        (∃ i, s.load (tvToCell s base) = .res i) ∨ s.load (tvToCell s base) = .bool true) →
      (∃ s', SetElem ext true base key value s = .ok none s' ∧ s'.load value = .null) ∧
      (∃ s', SetNewElem ext true base value s = .ok () s' ∧ s'.load value = .null)) ∧
    (isStringType (s.load (tvToCell s base)).m_type = true →
      cellBytes s (s.load (tvToCell s base)) ≠ [] →
      (castKeyToInt ext s key < 0 ∨ castKeyToInt ext s key ≥ ext.MaxSize) →
      ∃ s', SetElem ext true base key value s = .ok none s' ∧ s'.load value = .null) ∧
    (∀ a tv, s.load (tvToCell s base) = .arr a → key = .any tv →
      ((∃ p, tv = .arr p) ∨ (∃ p, tv = .obj p)) →
      ∃ s', SetElem ext true base key value s = .ok none s' ∧ s'.load value = .null) ∧
    (((∃ n, s.load (tvToCell s base) = .int n) ∨ (∃ d, s.load (tvToCell s base) = .dbl d) ∨
        (∃ i, s.load (tvToCell s base) = .res i) ∨ (∃ a, s.load (tvToCell s base) = .arr a) ∨
        s.load (tvToCell s base) = .bool true ∨
        (isStringType (s.load (tvToCell s base)).m_type = true ∧
          cellBytes s (s.load (tvToCell s base)) ≠ [])) →
      ∃ s', SetProp ext true ctx base key value s = .ok () s' ∧ s'.load value = .null) := by
  refine ⟨?_, ?_, ?_, ?_, ?_, ?_, ?_⟩
  · intro v hv
    cases setResult with
    | false => rfl
    | true =>
      rw [SetElem_no_throw ext hext base key value s] at hv
      cases hv
  · intro v hv
    cases setResult with
    | false => rfl
    | true =>
      rw [SetNewElem_no_throw ext hext base value s] at hv
      cases hv
  · intro v hv
    cases setResult with
    | false => rfl
    | true =>
      rw [SetProp_no_throw ext hext ctx base key value s] at hv
      cases hv
  · intro hb
    constructor
    · have hslow : SetElem ext true base key value s = SetElemSlow ext true base key value s := by
        apply SetElem_eq_SetElemSlow
        intro a e
        rcases hb with ⟨n, h⟩ | ⟨d, h⟩ | ⟨i, h⟩ | h <;> rw [h] at e <;> cases e
      rw [hslow]
      unfold SetElemSlow
      rcases hb with ⟨n, h⟩ | ⟨d, h⟩ | ⟨i, h⟩ | h <;>
        simp only [h, SetElemBoolean, if_true, SetElemScalar, Outcome.bind, Bool.not_true,
          Bool.false_eq_true, if_false] <;>
        exact ⟨_, rfl, load_nulled_rhs s _ _ value hval⟩
    · unfold SetNewElem
      rcases hb with ⟨n, h⟩ | ⟨d, h⟩ | ⟨i, h⟩ | h <;>
        simp only [h, SetNewElemBoolean, if_true, SetNewElemScalar, Bool.not_true,
          Bool.false_eq_true, if_false] <;>
        exact ⟨_, rfl, load_nulled_rhs s _ _ value hval⟩
  · intro hstr hne hx
    have hlen : (cellBytes s (s.load (tvToCell s base))).length ≠ 0 := by
      intro h
      exact hne (List.length_eq_zero.mp h)
    rw [SetElem_eq_SetElemString ext true base key value s hstr]
    unfold SetElemString
    simp only [hlen, if_false, hx, if_true, Bool.not_true, Bool.false_eq_true]
    exact ⟨_, rfl, load_nulled_rhs s _ _ value hval⟩
  · intro a tv hload hkey htv
    subst hkey
    rw [SetElem_eq_SetElemArray ext true base _ value s a hload]
    have hpre : SetElemArrayPre ext true a (.any tv) value
        ((s.getArr a).hasMultipleRefs || decide (s.load value = .arr a)) s
        = .ok a (tvWriteNull (tvRefcountedDecRef (raise_warning s "Illegal offset type" .none)
            ((raise_warning s "Illegal offset type" .none).load value)) value) := by
      rcases htv with ⟨p, h⟩ | ⟨p, h⟩ <;> subst h <;> rfl
    simp only [SetElemArray, hpre, Outcome.bind, arrayRefShuffle, if_true]
    exact ⟨_, rfl, load_nulled_rhs s _ _ value hval⟩
  · intro hbase
    have hrun : SetProp ext true ctx base key value s = SetPropNull true value s := by
      unfold SetProp
      rcases hbase with ⟨n, h⟩ | ⟨d, h⟩ | ⟨i, h⟩ | ⟨a, h⟩ | h | ⟨hstr, hbytes⟩
      · simp only [h]
      · simp only [h]
      · simp only [h]
      · simp only [h]
      · simp [h]
      · have hlen := string_length_ne_zero s _ hbytes
        cases hl : s.load (tvToCell s base) <;>
          simp only [hl, isStringType, TypedValue.m_type, cellBytes] at hstr hlen ⊢ <;>
          first
            | (simp only [ne_eq, hlen, not_false_eq_true, if_true])
            | (simp at hstr)
    rw [hrun]
    simp only [SetPropNull, if_true]
    exact ⟨_, rfl, load_nulled_rhs s _ _ value hval⟩

/-- Witness for C33: the integer base 42 and right-hand side 5.  With
`setResult = true` the three operations return and the right-hand side holds
null; with `setResult = false` each throws `InvalidSetMException` carrying
null. -/
theorem InvalidSetM_only_without_setResult_witness :
    ((∃ s', SetElem Externals.inert true (.slot 0) (.int 0) (.slot 1) stInt42 = .ok none s' ∧
        s'.load (.slot 1) = .null) ∧
      (∃ s', SetNewElem Externals.inert true (.slot 0) (.slot 1) stInt42 = .ok () s' ∧
        s'.load (.slot 1) = .null)) ∧
    (SetElem Externals.inert true (.slot 0) (.int 0) (.slot 1) stInt42).invalidSetMValue
      = none ∧
    (SetElem Externals.inert false (.slot 0) (.int 0) (.slot 1) stInt42).invalidSetMValue
      = some .null ∧
    (SetNewElem Externals.inert false (.slot 0) (.slot 1) stInt42).invalidSetMValue
      = some .null ∧
    (SetProp Externals.inert false 0 (.slot 0) (.int 0) (.slot 1) stInt42).invalidSetMValue
      = some .null ∧
    (SetProp Externals.inert true 0 (.slot 0) (.int 0) (.slot 1) stInt42).state.load (.slot 1)
      = .null :=
  ⟨(InvalidSetM_only_without_setResult Externals.inert true 0 (.slot 0) (.int 0) (.slot 1)
      stInt42
      ⟨fun _ _ => rfl, fun _ _ => rfl, fun _ _ _ _ => rfl, fun _ _ _ _ _ => rfl,
        fun _ _ _ => rfl, fun _ _ _ _ => rfl, fun _ _ _ _ _ => rfl⟩
      (by decide)).2.2.2.1 (Or.inl ⟨42, by decide⟩),
    by decide, by decide, by decide, by decide, by decide⟩

/-- What `SetElemString` does to a non-empty string for a legal offset, `c`
being the byte that it extracts from the right-hand side (the first byte of its
string form, or NUL when that form is empty): the byte is at offset `x` of the
base string, the other bytes are kept, and a gap is filled with spaces; the
returned string is empty when `c` is NUL and the one byte `c` otherwise.  When
the string is shared or `x` lies beyond its end, the base holds a new string
and no existing string changes its bytes; otherwise the base holds the same
string as before. -/
theorem SetElemString_write_byte (ext : Externals) (setResult : Bool) (b : Loc) (key : Key)
    (value : Loc) (s : State) (x : Nat) (c : Byte)
    (hstr : isStringType (s.load b).m_type = true)
    (hne : cellBytes s (s.load b) ≠ [])
    (hx : castKeyToInt ext s key = (x : Int))
    (hmax : (x : Int) < ext.MaxSize)
    (hy : (if (cellToString ext s (s.load value)).length > 0
            then (cellToString ext s (s.load value)).getD 0 0 else 0) = c) :
    ∃ r s', SetElemString ext setResult b key value s = .ok (some r) s' ∧
      (cellBytes s' (s'.load b)).length = max (cellBytes s (s.load b)).length (x + 1) ∧
      (∀ i, (cellBytes s' (s'.load b))[i]? =
        if i = x then some c
        else if i < (cellBytes s (s.load b)).length then (cellBytes s (s.load b))[i]?
        else if i < x then some 32 else none) ∧
      (s'.getStr r).data = (if c = 0 then [] else [c]) ∧
      (strHasMultipleRefs s (s.load b) = true ∨ (cellBytes s (s.load b)).length ≤ x →
        s'.load b = .str s.strs.length ∧
        ∀ p, p < s.strs.length → (s'.getStr p).data = (s.getStr p).data) ∧
      (strHasMultipleRefs s (s.load b) = false → x < (cellBytes s (s.load b)).length →
        s'.load b = s.load b) := by
  have hlen : (cellBytes s (s.load b)).length ≠ 0 := by
    intro h
    exact hne (List.length_eq_zero.mp h)
  have hrange : ¬ ((x : Int) < 0 ∨ (x : Int) ≥ ext.MaxSize) := by omega
  have hb1 : s.load b ≠ .uninit := by
    intro h
    rw [h] at hstr
    simp [isStringType, TypedValue.m_type] at hstr
  have hb2 : b ≠ .initNullVariant := by
    intro h
    rw [h] at hstr
    simp [isStringType, TypedValue.m_type, State.load] at hstr
  have hres : ∀ (t : State), ((t.allocStr
      { data := (c :: []).take (if c = 0 then 0 else 1), count := 1 }).2.getStr
        (t.allocStr { data := (c :: []).take (if c = 0 then 0 else 1), count := 1 }).1).data
      = (if c = 0 then [] else [c]) := by
    intro t
    rw [show ∀ (t : State) (sd : StringData), (t.allocStr sd).2.getStr (t.allocStr sd).1 = sd
      from fun t sd => getStr_allocStr_new t sd]
    by_cases hc : c = 0 <;> simp [hc]
  unfold SetElemString
  simp only [hlen, if_false, hx, hrange, hy, Int.toNat_ofNat]
  by_cases hin : (x : Int) ≥ 0 ∧ (x : Int) < ((cellBytes s (s.load b)).length : Int) ∧
      (!strHasMultipleRefs s (s.load b)) = true
  · obtain ⟨_, hxlt, hnm⟩ := hin
    have hxlt' : x < (cellBytes s (s.load b)).length := by omega
    cases hl : s.load b with
    | str oldp =>
      rw [hl] at hxlt' hne hxlt hnm
      have hcond : (x : Int) ≥ 0 ∧ (x : Int) < ((cellBytes s (.str oldp)).length : Int) ∧
          (!strHasMultipleRefs s (.str oldp)) = true := ⟨by omega, hxlt, hnm⟩
      simp only [hcond, and_self, if_true, modifyChar, ne_eq, not_true_eq_false, if_false]
      simp only [cellBytes] at hxlt' hne ⊢
      have hp : oldp < s.strs.length := getStr_lt_of_data_ne_nil s oldp hne
      refine ⟨_, _, rfl, ?_, ?_, hres _, ?_, ?_⟩
      · simp only [load_allocStr, load_setStr, hl, cellBytes]
        rw [getStr_allocStr_old _ _ _ (by simpa [State.setStr] using hp)]
        rw [getStr_setStr_same _ _ _ hp]
        simp
        omega
      · intro i
        simp only [load_allocStr, load_setStr, hl, cellBytes]
        rw [getStr_allocStr_old _ _ _ (by simpa [State.setStr] using hp)]
        rw [getStr_setStr_same _ _ _ hp]
        simp only [List.getElem?_set]
        by_cases hix : i = x
        · subst hix
          simp [hxlt']
        · have hxi : ¬ x = i := fun h => hix h.symm
          simp only [hxi, hix, if_false]
          by_cases hil : i < (s.getStr oldp).data.length
          · simp [hil]
          · have : ¬ i < x := by omega
            simp only [hil, this, if_false]
            rw [List.getElem?_eq_none]
            omega
      · intro hsh
        rcases hsh with hsh | hsh
        · rw [hsh] at hnm
          simp at hnm
        · omega
      · intro _ _
        simp only [load_allocStr, load_setStr, hl]
    | _ => rw [hl] at hnm; simp [strHasMultipleRefs] at hnm
  · simp only [hin, if_false]
    refine ⟨_, _, rfl, ?_, ?_, hres _, ?_, ?_⟩
    · simp only [load_allocStr]
      rw [load_store_same _ _ _ (by simpa using hb1) hb2]
      simp only [cellBytes_str, allocStr_fst]
      rw [getStr_allocStr_old _ _ _ (by simp [State.allocStr])]
      rw [getStr_store, data_getStr_decRefStrOf, getStr_allocStr_new]
      exact makeCopyBuf_length _ _ _
    · intro i
      simp only [load_allocStr]
      rw [load_store_same _ _ _ (by simpa using hb1) hb2]
      simp only [cellBytes_str, allocStr_fst]
      rw [getStr_allocStr_old _ _ _ (by simp [State.allocStr])]
      rw [getStr_store, data_getStr_decRefStrOf, getStr_allocStr_new]
      exact makeCopyBuf_get _ _ _ _
    · intro _
      refine ⟨?_, ?_⟩
      · simp only [load_allocStr]
        rw [load_store_same _ _ _ (by simpa using hb1) hb2]
        rfl
      · intro p hp
        rw [getStr_allocStr_old _ _ _ (by simp [State.allocStr]; omega)]
        rw [getStr_store, data_getStr_decRefStrOf, getStr_allocStr_old _ _ _ hp]
    · intro hns hlt
      exfalso
      apply hin
      refine ⟨by omega, by omega, ?_⟩
      rw [hns]
      rfl

/-- A list that agrees entry by entry with an update of another one is that
update. -/
theorem eq_set_of_getElem? {α : Type} (l old : List α) (x : Nat) (c : α) (d : α)
    (hx : x < old.length)
    (h : ∀ i, l[i]? = if i = x then some c
        else if i < old.length then old[i]? else if i < x then some d else none) :
    l = old.set x c := by
  apply List.ext_getElem?
  intro i
  rw [h i, List.getElem?_set]
  by_cases hix : i = x
  · subst hix
    simp [hx]
  · have hxi : ¬ x = i := fun e => hix e.symm
    simp only [hix, hxi, if_false]
    by_cases hil : i < old.length
    · simp [hil]
    · have hlt : ¬ i < x := by omega
      simp only [hil, hlt, if_false]
      rw [List.getElem?_eq_none]
      omega

/-- C34: for a non-empty string base and a legal offset `x`, when the string
form of the right-hand side is empty or starts with the byte NUL, `SetElem`
leaves the byte 0x00 at offset `x` of the base string (the other bytes of the
string are kept and its length is the larger of the old length and `x + 1`) and
returns a string of length 0. -/
theorem SetElem_string_nul_byte (ext : Externals) (setResult : Bool) (base : Loc) (key : Key)
    (value : Loc) (s : State) (x : Nat)
    (hstr : isStringType (s.load (tvToCell s base)).m_type = true)
    (hne : cellBytes s (s.load (tvToCell s base)) ≠ [])
    (hx : castKeyToInt ext s key = (x : Int))
    (hmax : (x : Int) < ext.MaxSize)
    (hnul : cellToString ext s (s.load value) = [] ∨
      (cellToString ext s (s.load value)).head? = some 0) :
    ∃ r s', SetElem ext setResult base key value s = .ok (some r) s' ∧
      (cellBytes s' (s'.load (tvToCell s base)))[x]? = some 0 ∧
      (s'.getStr r).data = [] ∧
      (s'.getStr r).data.length = 0 ∧
      (cellBytes s' (s'.load (tvToCell s base))).length
        = max (cellBytes s (s.load (tvToCell s base))).length (x + 1) ∧
      (∀ i, i ≠ x → i < (cellBytes s (s.load (tvToCell s base))).length →
        (cellBytes s' (s'.load (tvToCell s base)))[i]?
          = (cellBytes s (s.load (tvToCell s base)))[i]?) := by
  have hy : (if (cellToString ext s (s.load value)).length > 0
      then (cellToString ext s (s.load value)).getD 0 0 else 0) = (0 : Byte) := by
    rcases hnul with h | h
    · rw [h]
      rfl
    · cases hc : cellToString ext s (s.load value) with
      | nil => rfl
      | cons a l =>
        rw [hc] at h
        simp only [List.head?_cons, Option.some.injEq] at h
        subst h
        simp
  obtain ⟨r, s', hrun, h1, h2, h3, _, _⟩ :=
    SetElemString_write_byte ext setResult (tvToCell s base) key value s x 0 hstr hne hx hmax hy
  refine ⟨r, s', ?_, ?_, ?_, ?_, h1, ?_⟩
  · rw [SetElem_eq_SetElemString ext setResult base key value s hstr]
    exact hrun
  · rw [h2 x]
    simp
  · rw [h3]
    simp
  · rw [h3]
    simp
  · intro i hix hil
    rw [h2 i]
    simp [hix, hil]

/-- Witness for C34: the string "ab", offset 1 and the empty string as
right-hand side: the base string becomes the bytes `'a'`, NUL and the returned
string is empty. -/
theorem SetElem_string_nul_byte_witness :
    (∃ r s', SetElem Externals.inert true (.slot 0) (.int 1) (.slot 1) stStringAbEmptyRhs
        = .ok (some r) s' ∧
      (cellBytes s' (s'.load (tvToCell stStringAbEmptyRhs (.slot 0))))[1]? = some 0 ∧
      (s'.getStr r).data = [] ∧
      (s'.getStr r).data.length = 0 ∧
      (cellBytes s' (s'.load (tvToCell stStringAbEmptyRhs (.slot 0)))).length
        = max (cellBytes stStringAbEmptyRhs
            (stStringAbEmptyRhs.load (tvToCell stStringAbEmptyRhs (.slot 0)))).length (1 + 1) ∧
      (∀ i, i ≠ 1 →
        i < (cellBytes stStringAbEmptyRhs
            (stStringAbEmptyRhs.load (tvToCell stStringAbEmptyRhs (.slot 0)))).length →
        (cellBytes s' (s'.load (tvToCell stStringAbEmptyRhs (.slot 0))))[i]?
          = (cellBytes stStringAbEmptyRhs
              (stStringAbEmptyRhs.load (tvToCell stStringAbEmptyRhs (.slot 0))))[i]?)) ∧
    (SetElem Externals.inert true (.slot 0) (.int 1) (.slot 1) stStringAbEmptyRhs).state.strs
      = [{ data := [97, 0], count := 1 }, { data := [], count := 1 }] ∧
    (SetElem Externals.inert true (.slot 0) (.int 1) (.slot 1) stStringAbEmptyRhs).returned
      = some (some 1) :=
  ⟨SetElem_string_nul_byte Externals.inert true (.slot 0) (.int 1) (.slot 1)
      stStringAbEmptyRhs 1 (by decide) (by decide) (by decide) (by decide) (by decide),
    by decide, by decide⟩

/-- C40: in `SetElemString`, for a non-empty base string, an offset `x` within
it and the byte `c` taken from the right-hand side, run on a state `s` where the
string is not shared (the in-place branch: the base slot keeps its pointer) and
on a state `t` where a string of the same bytes is shared (the allocating
branch: the base slot holds a fresh string), the base slot ends up holding
strings of identical length and bytes, the old bytes with `c` at offset `x`;
and on `t` no string that existed before, the shared original included, has
its bytes modified. -/
theorem SetElemString_in_place_vs_copy (ext : Externals) (setResult : Bool) (b : Loc)
    (key : Key) (value : Loc) (s t : State) (x : Nat) (c : Byte)
    (hstrS : isStringType (s.load b).m_type = true)
    (hstrT : isStringType (t.load b).m_type = true)
    (hne : cellBytes s (s.load b) ≠ [])
    (hsame : cellBytes t (t.load b) = cellBytes s (s.load b))
    (hxS : castKeyToInt ext s key = (x : Int))
    (hxT : castKeyToInt ext t key = (x : Int))
    (hlt : x < (cellBytes s (s.load b)).length)
    (hmax : (x : Int) < ext.MaxSize)
    (hyS : (if (cellToString ext s (s.load value)).length > 0
            then (cellToString ext s (s.load value)).getD 0 0 else 0) = c)
    (hyT : (if (cellToString ext t (t.load value)).length > 0
            then (cellToString ext t (t.load value)).getD 0 0 else 0) = c)
    (hunshared : strHasMultipleRefs s (s.load b) = false)
    (hshared : strHasMultipleRefs t (t.load b) = true) :
    ∃ r1 s' r2 t', SetElemString ext setResult b key value s = .ok (some r1) s' ∧
      SetElemString ext setResult b key value t = .ok (some r2) t' ∧
      s'.load b = s.load b ∧
      t'.load b = .str t.strs.length ∧
      cellBytes s' (s'.load b) = (cellBytes s (s.load b)).set x c ∧
      cellBytes t' (t'.load b) = cellBytes s' (s'.load b) ∧
      (cellBytes t' (t'.load b)).length = (cellBytes s' (s'.load b)).length ∧
      (∀ p, p < t.strs.length → (t'.getStr p).data = (t.getStr p).data) ∧
      cellBytes t' (t.load b) = cellBytes t (t.load b) := by
  have hneT : cellBytes t (t.load b) ≠ [] := by rw [hsame]; exact hne
  have hltT : x < (cellBytes t (t.load b)).length := by rw [hsame]; exact hlt
  obtain ⟨r1, s', hrunS, _, hS2, _, _, hS5⟩ :=
    SetElemString_write_byte ext setResult b key value s x c hstrS hne hxS hmax hyS
  obtain ⟨r2, t', hrunT, _, hT2, _, hT4, _⟩ :=
    SetElemString_write_byte ext setResult b key value t x c hstrT hneT hxT hmax hyT
  have hbS : cellBytes s' (s'.load b) = (cellBytes s (s.load b)).set x c :=
    eq_set_of_getElem? _ _ x c 32 hlt hS2
  have hbT : cellBytes t' (t'.load b) = (cellBytes t (t.load b)).set x c :=
    eq_set_of_getElem? _ _ x c 32 hltT hT2
  obtain ⟨hT4a, hT4b⟩ := hT4 (Or.inl hshared)
  have hbytes : cellBytes t' (t'.load b) = cellBytes s' (s'.load b) := by
    rw [hbT, hbS, hsame]
  refine ⟨r1, s', r2, t', hrunS, hrunT, hS5 hunshared hlt, hT4a, hbS, hbytes, ?_, hT4b, ?_⟩
  · rw [hbytes]
  · cases hl : t.load b with
    | str p =>
      rw [hl] at hneT
      simp only [cellBytes] at hneT ⊢
      exact hT4b p (getStr_lt_of_data_ne_nil t p hneT)
    | _ => rfl

/-- Witness for C40: the string "ab", offset 1 and the right-hand side "Z".
With one reference the string is overwritten in place and becomes "aZ"; with
two references the base slot receives a fresh string "aZ" and the original
still reads "ab". -/
theorem SetElemString_in_place_vs_copy_witness :
    (∃ r1 s' r2 t',
      SetElemString Externals.inert true (.slot 0) (.int 1) (.slot 1) stStringAb
        = .ok (some r1) s' ∧
      SetElemString Externals.inert true (.slot 0) (.int 1) (.slot 1) stSharedStringAb
        = .ok (some r2) t' ∧
      s'.load (.slot 0) = stStringAb.load (.slot 0) ∧
      t'.load (.slot 0) = .str stSharedStringAb.strs.length ∧
      cellBytes s' (s'.load (.slot 0))
        = (cellBytes stStringAb (stStringAb.load (.slot 0))).set 1 90 ∧
      cellBytes t' (t'.load (.slot 0)) = cellBytes s' (s'.load (.slot 0)) ∧
      (cellBytes t' (t'.load (.slot 0))).length = (cellBytes s' (s'.load (.slot 0))).length ∧
      (∀ p, p < stSharedStringAb.strs.length →
        (t'.getStr p).data = (stSharedStringAb.getStr p).data) ∧
      cellBytes t' (stSharedStringAb.load (.slot 0))
        = cellBytes stSharedStringAb (stSharedStringAb.load (.slot 0))) ∧
    (SetElemString Externals.inert true (.slot 0) (.int 1) (.slot 1) stStringAb).state.strs
      = [{ data := [97, 90], count := 1 }, { data := [90], count := 1 },
         { data := [90], count := 1 }] ∧
    (SetElemString Externals.inert true (.slot 0) (.int 1) (.slot 1) stStringAb).state.slots
      = [.str 0, .str 1] ∧
    (SetElemString Externals.inert true (.slot 0) (.int 1) (.slot 1)
      stSharedStringAb).state.strs
      = [{ data := [97, 98], count := 1 }, { data := [90], count := 1 },
         { data := [97, 90], count := 1 }, { data := [90], count := 1 }] ∧
    (SetElemString Externals.inert true (.slot 0) (.int 1) (.slot 1)
      stSharedStringAb).state.slots = [.str 2, .str 1, .str 0] :=
  ⟨SetElemString_in_place_vs_copy Externals.inert true (.slot 0) (.int 1) (.slot 1)
      stStringAb stSharedStringAb 1 90 (by decide) (by decide) (by decide) (by decide)
      (by decide) (by decide) (by decide) (by decide) (by decide) (by decide) (by decide)
      (by decide),
    by decide, by decide, by decide, by decide⟩

/-- Off the array fast path `UnsetElem` is `UnsetElemSlow`. -/
theorem UnsetElem_eq_UnsetElemSlow (ext : Externals) (base : Loc) (key : Key) (s : State)
    (h : ∀ a, s.load (tvToCell s base) ≠ .arr a) :
    UnsetElem ext base key s = UnsetElemSlow ext base key s := by
  cases hb : s.load base with
  | arr a =>
    have e := tvToCell_of_arr s base a hb
    rw [e] at h
    exact absurd hb (h a)
  | _ => simp only [UnsetElem, hb]

/-- On a non-empty string, whatever `SetElemString` does, the base cell holds
a string afterwards. -/
theorem SetElemString_keeps_string (ext : Externals) (setResult : Bool) (c : Loc) (key : Key)
    (value : Loc) (s : State)
    (hstr : isStringType (s.load c).m_type = true)
    (hne : cellBytes s (s.load c) ≠ [])
    (hv : value ≠ c) :
    isStringType ((SetElemString ext setResult c key value s).state.load c).m_type = true := by
  have hlen : (cellBytes s (s.load c)).length ≠ 0 := by
    intro h
    exact hne (List.length_eq_zero.mp h)
  have hb1 : s.load c ≠ .uninit := by
    intro h
    rw [h] at hstr
    simp [isStringType, TypedValue.m_type] at hstr
  have hb2 : c ≠ .initNullVariant := by
    intro h
    rw [h] at hstr
    simp [isStringType, TypedValue.m_type, State.load] at hstr
  unfold SetElemString
  simp only [hlen, if_false]
  split
  · split
    · simpa [Outcome.state] using hstr
    · simp only [Outcome.state, tvWriteNull]
      rw [load_store_other _ _ _ _ hv]
      simpa using hstr
  · simp only [Outcome.state, load_allocStr]
    by_cases hin : castKeyToInt ext s key ≥ 0 ∧
        castKeyToInt ext s key < ((cellBytes s (s.load c)).length : Int) ∧
        (!strHasMultipleRefs s (s.load c)) = true
    · simp only [hin, and_self, if_true]
      cases hl : s.load c with
      | str oldp =>
        simp only [modifyChar, ne_eq, not_true_eq_false, if_false, load_setStr, hl]
        rfl
      | _ =>
        simp only [hl]
        rw [hl] at hstr
        exact hstr
    · simp only [hin, if_false]
      rw [load_store_same _ _ _ (by simpa using hb1) hb2]
      rfl

/-- The scratch cell holds what was last stored in it. -/
theorem load_store_tvRef (s : State) (v : TypedValue) : (s.store .tvRef v).load .tvRef = v :=
  rfl

/-- Computing the offset of a key into a string changes no cell. -/
theorem load_ElemStringPre (ext : Externals) (key : Key) (s : State) (l : Loc) :
    (ElemStringPre ext key s).2.load l = s.load l := by
  cases key with
  | int n => rfl
  | str sd => rfl
  | any tv => cases tv <;> simp [ElemStringPre]

/-- The function `ElemString` writes the scratch cell only. -/
theorem load_ElemString (ext : Externals) (warn : Bool) (b : Loc) (key : Key) (s : State)
    (l : Loc) (hl : Loc.tvRef ≠ l) :
    (ElemString ext warn b key s).state.load l = s.load l := by
  unfold ElemString
  dsimp only
  split
  · split
    · simp only [Outcome.state]
      rw [load_store_other _ _ _ _ hl, load_raise_warning, load_ElemStringPre]
    · simp only [Outcome.state]
      rw [load_store_other _ _ _ _ hl, load_ElemStringPre]
  · simp only [Outcome.state]
    rw [load_store_other _ _ _ _ hl, load_ElemStringPre]

/-- C32: promotion is blocked for the bases that cannot be promoted.  For a
base cell (other than the scratch cell, and other than the cells of the
right-hand side and of the destination) that holds Bool true, an Int, a Double
or a Resource, each of the twelve element verbs and of the seven property verbs
ends with the base cell holding the value it held before; and for a base cell
holding a non-empty string each of them ends with the base cell holding a
string, so that its tag never becomes Array or Object. -/
theorem promotion_blocked (ext : Externals)
    (warn define unset reffy setResult useEmpty : Bool) (ctx : Nat) (base : Loc) (key : Key)
    (tkey : TypedValue) (skey : StrRef) (value dest rhs : Loc) (sop : SetOpOp) (iop : IncDecOp)
    (s : State)
    (hc : tvToCell s base ≠ .tvRef)
    (hv : value ≠ tvToCell s base) (hd : dest ≠ tvToCell s base) :
    (((∃ n, s.load (tvToCell s base) = .int n) ∨ (∃ d, s.load (tvToCell s base) = .dbl d) ∨
        (∃ i, s.load (tvToCell s base) = .res i) ∨ s.load (tvToCell s base) = .bool true) →
      (Elem ext warn base key s).state.load (tvToCell s base) = s.load (tvToCell s base) ∧
      (ElemD ext warn reffy base key s).state.load (tvToCell s base) = s.load (tvToCell s base) ∧
      (ElemU ext base key s).state.load (tvToCell s base) = s.load (tvToCell s base) ∧
      (NewElem ext reffy base s).state.load (tvToCell s base) = s.load (tvToCell s base) ∧
      (SetElem ext setResult base key value s).state.load (tvToCell s base) = s.load (tvToCell s base) ∧
      (SetNewElem ext setResult base value s).state.load (tvToCell s base) = s.load (tvToCell s base) ∧
      (SetOpElem ext sop base tkey rhs s).state.load (tvToCell s base) = s.load (tvToCell s base) ∧
      (SetOpNewElem ext sop base rhs s).state.load (tvToCell s base) = s.load (tvToCell s base) ∧
      (IncDecElem ext iop base tkey dest s).state.load (tvToCell s base) = s.load (tvToCell s base) ∧
      (IncDecNewElem ext iop base dest s).state.load (tvToCell s base) = s.load (tvToCell s base) ∧
      (UnsetElem ext base key s).state.load (tvToCell s base) = s.load (tvToCell s base) ∧
      (IssetEmptyElem ext useEmpty base key s).state.load (tvToCell s base) = s.load (tvToCell s base) ∧
      (Prop_ ext warn define unset ctx base key s).state.load (tvToCell s base) = s.load (tvToCell s base) ∧
      (nullSafeProp ext ctx base skey s).state.load (tvToCell s base) = s.load (tvToCell s base) ∧
      (SetProp ext setResult ctx base key value s).state.load (tvToCell s base) = s.load (tvToCell s base) ∧
      (SetOpProp ext ctx sop base tkey rhs s).state.load (tvToCell s base) = s.load (tvToCell s base) ∧
      (IncDecProp ext ctx iop base tkey dest s).state.load (tvToCell s base) = s.load (tvToCell s base) ∧
      (UnsetProp ext ctx base tkey s).state.load (tvToCell s base) = s.load (tvToCell s base) ∧
      (IssetEmptyProp ext useEmpty ctx base tkey s).state.load (tvToCell s base) = s.load (tvToCell s base)) ∧
    (isStringType (s.load (tvToCell s base)).m_type = true →
      cellBytes s (s.load (tvToCell s base)) ≠ [] →
      isStringType ((Elem ext warn base key s).state.load (tvToCell s base)).m_type = true ∧
      isStringType ((ElemD ext warn reffy base key s).state.load (tvToCell s base)).m_type = true ∧
      isStringType ((ElemU ext base key s).state.load (tvToCell s base)).m_type = true ∧
      isStringType ((NewElem ext reffy base s).state.load (tvToCell s base)).m_type = true ∧
      isStringType ((SetElem ext setResult base key value s).state.load (tvToCell s base)).m_type = true ∧
      isStringType ((SetNewElem ext setResult base value s).state.load (tvToCell s base)).m_type = true ∧
      isStringType ((SetOpElem ext sop base tkey rhs s).state.load (tvToCell s base)).m_type = true ∧
      isStringType ((SetOpNewElem ext sop base rhs s).state.load (tvToCell s base)).m_type = true ∧
      isStringType ((IncDecElem ext iop base tkey dest s).state.load (tvToCell s base)).m_type = true ∧
      isStringType ((IncDecNewElem ext iop base dest s).state.load (tvToCell s base)).m_type = true ∧
      isStringType ((UnsetElem ext base key s).state.load (tvToCell s base)).m_type = true ∧
      isStringType ((IssetEmptyElem ext useEmpty base key s).state.load (tvToCell s base)).m_type = true ∧
      isStringType ((Prop_ ext warn define unset ctx base key s).state.load (tvToCell s base)).m_type = true ∧
      isStringType ((nullSafeProp ext ctx base skey s).state.load (tvToCell s base)).m_type = true ∧
      isStringType ((SetProp ext setResult ctx base key value s).state.load (tvToCell s base)).m_type = true ∧
      isStringType ((SetOpProp ext ctx sop base tkey rhs s).state.load (tvToCell s base)).m_type = true ∧
      isStringType ((IncDecProp ext ctx iop base tkey dest s).state.load (tvToCell s base)).m_type = true ∧
      isStringType ((UnsetProp ext ctx base tkey s).state.load (tvToCell s base)).m_type = true ∧
      isStringType ((IssetEmptyProp ext useEmpty ctx base tkey s).state.load (tvToCell s base)).m_type = true) := by
  have hc' : Loc.tvRef ≠ tvToCell s base := fun e => hc e.symm
  constructor
  · intro hb
    have hnarr : ∀ a, s.load (tvToCell s base) ≠ .arr a := by
      intro a e
      rcases hb with ⟨n, h⟩ | ⟨d, h⟩ | ⟨i, h⟩ | h <;> rw [h] at e <;> cases e
    have hElem := Elem_eq_ElemSlow ext warn base key s hnarr
    have hSet := SetElem_eq_SetElemSlow ext setResult base key value s hnarr
    have hUnset := UnsetElem_eq_UnsetElemSlow ext base key s hnarr
    have hIsset := IssetEmptyElem_eq_Slow ext useEmpty base key s hnarr
    rcases hb with ⟨n, h⟩ | ⟨d, h⟩ | ⟨i, h⟩ | h <;>
      refine ⟨?_, ?_, ?_, ?_, ?_, ?_, ?_, ?_, ?_, ?_, ?_, ?_, ?_, ?_, ?_, ?_, ?_, ?_, ?_⟩ <;>
      first
        | (simp [hElem, hSet, hUnset, hIsset, ElemSlow, ElemScalar, ElemBoolean, ElemEmptyish,
            ElemString, ElemD, ElemDScalar, ElemDBoolean, ElemDString, ElemU, NewElem,
            NewElemInvalid, NewElemBoolean, NewElemString, SetElemSlow, SetElemScalar,
            SetElemBoolean, SetNewElem, SetNewElemScalar, SetNewElemBoolean, SetNewElemString,
            SetOpElem, SetOpElemScalar, SetOpNewElem, SetOpNewElemScalar, IncDecElem,
            IncDecElemScalar, IncDecNewElem, IncDecNewElemScalar, UnsetElemSlow,
            IssetEmptyElemSlow, IssetEmptyElemString, Prop_, propPre, propPreNull,
            nullSafeProp, SetProp, SetPropNull, SetOpProp, SetOpPropNull, IncDecProp,
            IncDecPropNull, UnsetProp, IssetEmptyProp, Outcome.state, Outcome.bind,
            tvWriteNull, tvWriteUninit, load_store_tvRef, load_store_other, hc', hv, hd, h]; done)
        | (cases setResult <;> simp [hElem, hSet, hUnset, hIsset, ElemSlow, ElemScalar, ElemBoolean, ElemEmptyish,
            ElemString, ElemD, ElemDScalar, ElemDBoolean, ElemDString, ElemU, NewElem,
            NewElemInvalid, NewElemBoolean, NewElemString, SetElemSlow, SetElemScalar,
            SetElemBoolean, SetNewElem, SetNewElemScalar, SetNewElemBoolean, SetNewElemString,
            SetOpElem, SetOpElemScalar, SetOpNewElem, SetOpNewElemScalar, IncDecElem,
            IncDecElemScalar, IncDecNewElem, IncDecNewElemScalar, UnsetElemSlow,
            IssetEmptyElemSlow, IssetEmptyElemString, Prop_, propPre, propPreNull,
            nullSafeProp, SetProp, SetPropNull, SetOpProp, SetOpPropNull, IncDecProp,
            IncDecPropNull, UnsetProp, IssetEmptyProp, Outcome.state, Outcome.bind,
            tvWriteNull, tvWriteUninit, load_store_tvRef, load_store_other, hc', hv, hd, h]; done)
        | (cases hH : ext.EnableHipHopSyntax <;> simp [hElem, hSet, hUnset, hIsset, ElemSlow, ElemScalar, ElemBoolean, ElemEmptyish,
            ElemString, ElemD, ElemDScalar, ElemDBoolean, ElemDString, ElemU, NewElem,
            NewElemInvalid, NewElemBoolean, NewElemString, SetElemSlow, SetElemScalar,
            SetElemBoolean, SetNewElem, SetNewElemScalar, SetNewElemBoolean, SetNewElemString,
            SetOpElem, SetOpElemScalar, SetOpNewElem, SetOpNewElemScalar, IncDecElem,
            IncDecElemScalar, IncDecNewElem, IncDecNewElemScalar, UnsetElemSlow,
            IssetEmptyElemSlow, IssetEmptyElemString, Prop_, propPre, propPreNull,
            nullSafeProp, SetProp, SetPropNull, SetOpProp, SetOpPropNull, IncDecProp,
            IncDecPropNull, UnsetProp, IssetEmptyProp, Outcome.state, Outcome.bind,
            tvWriteNull, tvWriteUninit, load_store_tvRef, load_store_other, hc', hv, hd, h, hH]; done)
        | (cases warn <;> simp [hElem, hSet, hUnset, hIsset, ElemSlow, ElemScalar, ElemBoolean, ElemEmptyish,
            ElemString, ElemD, ElemDScalar, ElemDBoolean, ElemDString, ElemU, NewElem,
            NewElemInvalid, NewElemBoolean, NewElemString, SetElemSlow, SetElemScalar,
            SetElemBoolean, SetNewElem, SetNewElemScalar, SetNewElemBoolean, SetNewElemString,
            SetOpElem, SetOpElemScalar, SetOpNewElem, SetOpNewElemScalar, IncDecElem,
            IncDecElemScalar, IncDecNewElem, IncDecNewElemScalar, UnsetElemSlow,
            IssetEmptyElemSlow, IssetEmptyElemString, Prop_, propPre, propPreNull,
            nullSafeProp, SetProp, SetPropNull, SetOpProp, SetOpPropNull, IncDecProp,
            IncDecPropNull, UnsetProp, IssetEmptyProp, Outcome.state, Outcome.bind,
            tvWriteNull, tvWriteUninit, load_store_tvRef, load_store_other, hc', hv, hd, h])
  · intro hstr hne
    have hnarr : ∀ a, s.load (tvToCell s base) ≠ .arr a := by
      intro a e
      rw [e] at hstr
      simp [isStringType, TypedValue.m_type] at hstr
    have hElem := Elem_eq_ElemSlow ext warn base key s hnarr
    have hSet := SetElem_eq_SetElemString ext setResult base key value s hstr
    have hUnset := UnsetElem_eq_UnsetElemSlow ext base key s hnarr
    have hIsset := IssetEmptyElem_eq_Slow ext useEmpty base key s hnarr
    have hkeep := SetElemString_keeps_string ext setResult (tvToCell s base) key value s
      hstr hne hv
    cases hl : s.load (tvToCell s base) <;> rw [hl] at hstr hne <;>
      first
        | (simp [isStringType, TypedValue.m_type] at hstr; done)
        | skip
    all_goals
      simp only [cellBytes] at hne
      refine ⟨?_, ?_, ?_, ?_, ?_, ?_, ?_, ?_, ?_, ?_, ?_, ?_, ?_, ?_, ?_, ?_, ?_, ?_, ?_⟩ <;>
      first
        | (rw [hSet]; exact hkeep)
        | (rw [hElem]; simp only [ElemSlow, hl]; rw [load_ElemString _ _ _ _ _ _ hc', hl]; rfl)
        | (rw [hIsset]; simp only [IssetEmptyElemSlow, hl]; rw [IssetEmptyElemString_eq]
           simp only [Outcome.state, load_raiseAll]; rw [hl]; rfl)
        | (simp [hElem, hUnset, hIsset, ElemSlow, load_ElemString, ElemD, ElemDString, ElemU,
            NewElem, NewElemInvalid, NewElemString, SetNewElem, SetNewElemString, SetOpElem,
            SetOpNewElem, IncDecElem, IncDecNewElem, UnsetElemSlow, IssetEmptyElemSlow,
            IssetEmptyElemString, Prop_, propPre, propPreNull, nullSafeProp, SetProp,
            SetPropNull, SetOpProp, SetOpPropNull, IncDecProp, IncDecPropNull, UnsetProp,
            IssetEmptyProp, Outcome.state, Outcome.bind, tvWriteNull, tvWriteUninit,
            load_store_tvRef, load_store_other, hc', hv, hd, hl, hne, isStringType,
            TypedValue.m_type, cellBytes]; done)
        | (cases setResult <;> simp [hElem, hUnset, hIsset, ElemSlow, load_ElemString, ElemD, ElemDString, ElemU,
            NewElem, NewElemInvalid, NewElemString, SetNewElem, SetNewElemString, SetOpElem,
            SetOpNewElem, IncDecElem, IncDecNewElem, UnsetElemSlow, IssetEmptyElemSlow,
            IssetEmptyElemString, Prop_, propPre, propPreNull, nullSafeProp, SetProp,
            SetPropNull, SetOpProp, SetOpPropNull, IncDecProp, IncDecPropNull, UnsetProp,
            IssetEmptyProp, Outcome.state, Outcome.bind, tvWriteNull, tvWriteUninit,
            load_store_tvRef, load_store_other, hc', hv, hd, hl, hne, isStringType,
            TypedValue.m_type, cellBytes]; done)
        | (cases warn <;> simp [hElem, hUnset, hIsset, ElemSlow, load_ElemString, ElemD, ElemDString, ElemU,
            NewElem, NewElemInvalid, NewElemString, SetNewElem, SetNewElemString, SetOpElem,
            SetOpNewElem, IncDecElem, IncDecNewElem, UnsetElemSlow, IssetEmptyElemSlow,
            IssetEmptyElemString, Prop_, propPre, propPreNull, nullSafeProp, SetProp,
            SetPropNull, SetOpProp, SetOpPropNull, IncDecProp, IncDecPropNull, UnsetProp,
            IssetEmptyProp, Outcome.state, Outcome.bind, tvWriteNull, tvWriteUninit,
            load_store_tvRef, load_store_other, hc', hv, hd, hl, hne, isStringType,
            TypedValue.m_type, cellBytes])

/-- Witness for C32: the integer base 42 stays the integer 42 under each of
the nineteen verbs; the string "ab" is still a string after `SetElem` (which
makes it "aZ") and after `SetProp`, `NewElem` and `IncDecProp`. -/
theorem promotion_blocked_witness :
    (      (Elem Externals.inert true (.slot 0) (.int 0) stInt42).state.load (tvToCell stInt42 (.slot 0))
        = stInt42.load (tvToCell stInt42 (.slot 0)) ∧
      (ElemD Externals.inert true false (.slot 0) (.int 0) stInt42).state.load (tvToCell stInt42 (.slot 0))
        = stInt42.load (tvToCell stInt42 (.slot 0)) ∧
      (ElemU Externals.inert (.slot 0) (.int 0) stInt42).state.load (tvToCell stInt42 (.slot 0))
        = stInt42.load (tvToCell stInt42 (.slot 0)) ∧
      (NewElem Externals.inert false (.slot 0) stInt42).state.load (tvToCell stInt42 (.slot 0))
        = stInt42.load (tvToCell stInt42 (.slot 0)) ∧
      (SetElem Externals.inert true (.slot 0) (.int 0) (.slot 1) stInt42).state.load (tvToCell stInt42 (.slot 0))
        = stInt42.load (tvToCell stInt42 (.slot 0)) ∧
      (SetNewElem Externals.inert true (.slot 0) (.slot 1) stInt42).state.load (tvToCell stInt42 (.slot 0))
        = stInt42.load (tvToCell stInt42 (.slot 0)) ∧
      (SetOpElem Externals.inert .PlusEqual (.slot 0) (.int 0) (.slot 1) stInt42).state.load (tvToCell stInt42 (.slot 0))
        = stInt42.load (tvToCell stInt42 (.slot 0)) ∧
      (SetOpNewElem Externals.inert .PlusEqual (.slot 0) (.slot 1) stInt42).state.load (tvToCell stInt42 (.slot 0))
        = stInt42.load (tvToCell stInt42 (.slot 0)) ∧
      (IncDecElem Externals.inert .PostInc (.slot 0) (.int 0) (.slot 1) stInt42).state.load (tvToCell stInt42 (.slot 0))
        = stInt42.load (tvToCell stInt42 (.slot 0)) ∧
      (IncDecNewElem Externals.inert .PostInc (.slot 0) (.slot 1) stInt42).state.load (tvToCell stInt42 (.slot 0))
        = stInt42.load (tvToCell stInt42 (.slot 0)) ∧
      (UnsetElem Externals.inert (.slot 0) (.int 0) stInt42).state.load (tvToCell stInt42 (.slot 0))
        = stInt42.load (tvToCell stInt42 (.slot 0)) ∧
      (IssetEmptyElem Externals.inert false (.slot 0) (.int 0) stInt42).state.load (tvToCell stInt42 (.slot 0))
        = stInt42.load (tvToCell stInt42 (.slot 0)) ∧
      (Prop_ Externals.inert true false false 0 (.slot 0) (.int 0) stInt42).state.load (tvToCell stInt42 (.slot 0))
        = stInt42.load (tvToCell stInt42 (.slot 0)) ∧
      (nullSafeProp Externals.inert 0 (.slot 0) (.static [102]) stInt42).state.load (tvToCell stInt42 (.slot 0))
        = stInt42.load (tvToCell stInt42 (.slot 0)) ∧
      (SetProp Externals.inert true 0 (.slot 0) (.int 0) (.slot 1) stInt42).state.load (tvToCell stInt42 (.slot 0))
        = stInt42.load (tvToCell stInt42 (.slot 0)) ∧
      (SetOpProp Externals.inert 0 .PlusEqual (.slot 0) (.int 0) (.slot 1) stInt42).state.load (tvToCell stInt42 (.slot 0))
        = stInt42.load (tvToCell stInt42 (.slot 0)) ∧
      (IncDecProp Externals.inert 0 .PostInc (.slot 0) (.int 0) (.slot 1) stInt42).state.load (tvToCell stInt42 (.slot 0))
        = stInt42.load (tvToCell stInt42 (.slot 0)) ∧
      (UnsetProp Externals.inert 0 (.slot 0) (.int 0) stInt42).state.load (tvToCell stInt42 (.slot 0))
        = stInt42.load (tvToCell stInt42 (.slot 0)) ∧
      (IssetEmptyProp Externals.inert false 0 (.slot 0) (.int 0) stInt42).state.load (tvToCell stInt42 (.slot 0))
        = stInt42.load (tvToCell stInt42 (.slot 0))) ∧
    (SetElem Externals.inert true (.slot 0) (.int 0) (.slot 1) stInt42).state.load (.slot 0)
      = .int 42 ∧
    (SetElem Externals.inert true (.slot 0) (.int 1) (.slot 1) stStringAb).state.load (.slot 0)
      = .str 0 ∧
    ((SetElem Externals.inert true (.slot 0) (.int 1) (.slot 1) stStringAb).state.getStr 0).data
      = [97, 90] ∧
    (SetProp Externals.inert false 0 (.slot 0) (.int 1) (.slot 1) stStringAb).state.load (.slot 0)
      = .str 0 ∧
    (NewElem Externals.inert false (.slot 0) stStringAb).state.load (.slot 0) = .str 0 ∧
    (IncDecProp Externals.inert 0 .PostInc (.slot 0) (.int 1) (.slot 1)
      stStringAb).state.load (.slot 0) = .str 0 :=
  ⟨(promotion_blocked Externals.inert true false false false true false 0 (.slot 0) (.int 0)
      (.int 0) (.static [102]) (.slot 1) (.slot 1) (.slot 1) .PlusEqual .PostInc stInt42
      (by decide) (by decide) (by decide)).1 (Or.inl ⟨42, by decide⟩),
    by decide, by decide, by decide, by decide, by decide, by decide⟩

/-! ## Cells anywhere: locals, reference boxes, array elements, properties -/

theorem getD_append_ne {α : Type} (l : List α) (x d : α) (i : Nat) (h : i ≠ l.length) :
    (l ++ [x]).getD i d = l.getD i d := by
  by_cases hi : i < l.length
  · exact getD_append_lt _ _ _ _ hi
  · have h1 : l.length < i := by omega
    simp [List.getD_eq_getElem?_getD, List.getElem?_eq_none (by simp; omega : (l ++ [x]).length ≤ i),
      List.getElem?_eq_none (by omega : l.length ≤ i)]

theorem getArr_allocArr_ne (s : State) (ad : ArrayData) (p : Nat) (h : p ≠ s.arrs.length) :
    (s.allocArr ad).2.getArr p = s.getArr p := by
  simp only [State.getArr, State.allocArr]
  exact getD_append_ne _ _ _ _ h

theorem getObj_allocObj_ne (s : State) (od : ObjectData) (p : Nat) (h : p ≠ s.objs.length) :
    (s.allocObj od).2.getObj p = s.getObj p := by
  simp only [State.getObj, State.allocObj]
  exact getD_append_ne _ _ _ _ h

theorem elemsGet_elemsWrite_isSome (e : List (ArrayKey × TypedValue)) (k k' : ArrayKey)
    (v : TypedValue) : (elemsGet (elemsWrite e k v) k').isSome = (elemsGet e k').isSome := by
  induction e with
  | nil => rfl
  | cons hd tl ih =>
    obtain ⟨k0, v0⟩ := hd
    by_cases h0 : k0 = k
    · subst h0
      by_cases h1 : k0 = k'
      · subst h1
        simp [elemsWrite, elemsGet]
      · simp [elemsWrite, elemsGet, h1]
    · by_cases h1 : k0 = k'
      · subst h1
        simp [elemsWrite, elemsGet, h0]
      · simp [elemsWrite, elemsGet, h0, h1, ih]

theorem propsGet_propsWrite_isSome (e : List (List Byte × TypedValue)) (k k' : List Byte)
    (v : TypedValue) : (propsGet (propsWrite e k v) k').isSome = (propsGet e k').isSome := by
  induction e with
  | nil => rfl
  | cons hd tl ih =>
    obtain ⟨k0, v0⟩ := hd
    by_cases h0 : k0 = k
    · subst h0
      by_cases h1 : k0 = k'
      · subst h1
        simp [propsWrite, propsGet]
      · simp [propsWrite, propsGet, h1]
    · by_cases h1 : k0 = k'
      · subst h1
        simp [propsWrite, propsGet, h0]
      · simp [propsWrite, propsGet, h0, h1, ih]

/-- A cell that holds something and is not the null sentinel exists. -/
theorem writable_of_load (s : State) (l : Loc) (h1 : s.load l ≠ .uninit)
    (h2 : l ≠ .initNullVariant) : s.writable l = true := by
  cases l with
  | slot i =>
    have hi : i < s.slots.length := getD_ne_default_lt _ _ _ h1
    simp [State.writable, hi]
  | refInner r =>
    have hi : r < s.refs.length := getD_ne_default_lt _ _ _ h1
    simp [State.writable, hi]
  | arrElem a k =>
    simp only [State.load] at h1
    cases hg : elemsGet (s.getArr a).elems k with
    | none => rw [hg] at h1; exact absurd rfl h1
    | some v =>
      have ha : a < s.arrs.length := by
        by_contra hc
        rw [getArr_dangling s a hc] at hg
        simp [elemsGet] at hg
      simp [State.writable, ha, hg]
  | objProp o n =>
    simp only [State.load] at h1
    cases hg : propsGet (s.getObj o).props n with
    | none => rw [hg] at h1; exact absurd rfl h1
    | some v =>
      have ho : o < s.objs.length := by
        by_contra hc
        rw [getObj_dangling s o hc] at hg
        simp [propsGet] at hg
      simp [State.writable, ho, hg]
  | tvRef => rfl
  | nullVariant => exact absurd rfl h1
  | initNullVariant => exact absurd rfl h2

theorem writable_of_load_arr (s : State) (l : Loc) (a : Nat) (h : s.load l = .arr a) :
    s.writable l = true := by
  apply writable_of_load
  · rw [h]; simp
  · intro e
    rw [e] at h
    simp [State.load] at h

theorem writable_of_load_ref (s : State) (l : Loc) (r : Nat) (h : s.load l = .ref r) :
    s.writable l = true := by
  apply writable_of_load
  · rw [h]; simp
  · intro e
    rw [e] at h
    simp [State.load] at h

/-- A store creates and destroys no cell. -/
theorem writable_store (s : State) (l : Loc) (v : TypedValue) (l' : Loc) :
    (s.store l v).writable l' = s.writable l' := by
  cases l with
  | slot i => cases l' <;> simp [State.store, State.writable, State.getArr, State.getObj]
  | refInner r => cases l' <;> simp [State.store, State.writable, State.getArr, State.getObj]
  | tvRef => cases l' <;> rfl
  | nullVariant => rfl
  | initNullVariant => rfl
  | arrElem a k =>
    cases l' with
    | arrElem a' k' =>
      simp only [State.store, State.writable]
      by_cases haa : a = a'
      · subst haa
        by_cases ha : a < s.arrs.length
        · rw [getArr_setArr_same _ _ _ ha]
          simp [State.setArr, elemsGet_elemsWrite_isSome]
        · simp only [setArr_dangling _ _ _ ha]
      · rw [getArr_setArr_other _ _ _ _ haa]
        simp [State.setArr]
    | _ => rfl
  | objProp o n =>
    cases l' with
    | objProp o' n' =>
      simp only [State.store, State.writable]
      by_cases hoo : o = o'
      · subst hoo
        by_cases ho : o < s.objs.length
        · rw [getObj_setObj_same _ _ _ ho]
          simp [State.setObj, propsGet_propsWrite_isSome]
        · simp only [setObj_dangling _ _ _ ho]
      · rw [getObj_setObj_other _ _ _ _ hoo]
        simp [State.setObj]
    | _ => rfl

/-- A cell that exists is not an element of the array about to be
allocated. -/
theorem ne_fresh_of_writable (s : State) (l : Loc) (h : s.writable l = true) (k : ArrayKey) :
    l ≠ .arrElem s.arrs.length k := by
  intro e
  rw [e] at h
  simp [State.writable] at h

theorem load_allocArr_ne (s : State) (ad : ArrayData) (l : Loc)
    (h : ∀ k, l ≠ .arrElem s.arrs.length k) : (s.allocArr ad).2.load l = s.load l := by
  cases l with
  | arrElem a k =>
    have hne : a ≠ s.arrs.length := by
      intro e
      exact h k (by rw [e])
    simp only [State.load]
    rw [getArr_allocArr_ne _ _ _ hne]
  | _ => rfl

theorem load_allocArr_writable (s : State) (ad : ArrayData) (l : Loc)
    (h : s.writable l = true) : (s.allocArr ad).2.load l = s.load l :=
  load_allocArr_ne s ad l (ne_fresh_of_writable s l h)

theorem writable_allocArr_mono (s : State) (ad : ArrayData) (l : Loc)
    (h : s.writable l = true) : (s.allocArr ad).2.writable l = true := by
  cases l with
  | arrElem a k =>
    simp only [State.writable, Bool.and_eq_true, decide_eq_true_eq] at h ⊢
    have hne : a ≠ s.arrs.length := by omega
    rw [getArr_allocArr_ne _ _ _ hne]
    refine ⟨?_, h.2⟩
    simp [State.allocArr]
    omega
  | _ => exact h

theorem load_setArr_ne (s : State) (a : Nat) (ad : ArrayData) (l : Loc)
    (h : ∀ k, l ≠ .arrElem a k) : (s.setArr a ad).load l = s.load l := by
  cases l with
  | arrElem a' k =>
    have hne : a ≠ a' := by
      intro e
      exact h k (by rw [e])
    simp only [State.load]
    rw [getArr_setArr_other _ _ _ _ hne]
  | _ => rfl

/-- Overwriting an array leaves every cell whose entry it keeps as it was. -/
theorem load_setArr_of_get (s : State) (a : Nat) (ad : ArrayData) (l : Loc)
    (h : ∀ k, l = .arrElem a k → elemsGet ad.elems k = elemsGet (s.getArr a).elems k) :
    (s.setArr a ad).load l = s.load l := by
  cases l with
  | arrElem a' k =>
    by_cases haa : a = a'
    · subst haa
      by_cases ha : a < s.arrs.length
      · simp only [State.load]
        rw [getArr_setArr_same _ _ _ ha, h k rfl]
      · rw [setArr_dangling _ _ _ ha]
    · simp only [State.load]
      rw [getArr_setArr_other _ _ _ _ haa]
  | _ => rfl

theorem writable_setArr_mono (s : State) (a : Nat) (ad : ArrayData) (l : Loc)
    (h : ∀ k, (elemsGet (s.getArr a).elems k).isSome = true → (elemsGet ad.elems k).isSome = true)
    (hw : s.writable l = true) : (s.setArr a ad).writable l = true := by
  cases l with
  | arrElem a' k =>
    simp only [State.writable, Bool.and_eq_true, decide_eq_true_eq] at hw ⊢
    by_cases haa : a = a'
    · subst haa
      rw [getArr_setArr_same _ _ _ hw.1]
      exact ⟨by simpa [State.setArr] using hw.1, h k hw.2⟩
    · rw [getArr_setArr_other _ _ _ _ haa]
      exact ⟨by simpa [State.setArr] using hw.1, hw.2⟩
  | _ => exact hw

theorem getArr_store_other (s : State) (l : Loc) (v : TypedValue) (p : Nat)
    (h : ∀ k, l ≠ .arrElem p k) : (s.store l v).getArr p = s.getArr p := by
  cases l with
  | arrElem a k =>
    have hne : a ≠ p := by
      intro e
      exact h k (by rw [e])
    simp only [State.store]
    exact getArr_setArr_other _ _ _ _ hne
  | _ => rfl

/-- A store changes the reference count and the next free index of no
array. -/
theorem count_getArr_store (s : State) (l : Loc) (v : TypedValue) (p : Nat) :
    ((s.store l v).getArr p).count = (s.getArr p).count ∧
    ((s.store l v).getArr p).nextKI = (s.getArr p).nextKI := by
  cases l with
  | arrElem a k =>
    simp only [State.store]
    by_cases hap : a = p
    · subst hap
      by_cases ha : a < s.arrs.length
      · rw [getArr_setArr_same _ _ _ ha]
        exact ⟨rfl, rfl⟩
      · rw [setArr_dangling _ _ _ ha]
        exact ⟨rfl, rfl⟩
    · rw [getArr_setArr_other _ _ _ _ hap]
      exact ⟨rfl, rfl⟩
  | _ => exact ⟨rfl, rfl⟩

/-- A store changes the reference count and the kind of no object. -/
theorem count_getObj_store (s : State) (l : Loc) (v : TypedValue) (p : Nat) :
    ((s.store l v).getObj p).count = (s.getObj p).count ∧
    ((s.store l v).getObj p).isCollection = (s.getObj p).isCollection := by
  cases l with
  | objProp o n =>
    simp only [State.store]
    by_cases hop : o = p
    · subst hop
      by_cases ho : o < s.objs.length
      · rw [getObj_setObj_same _ _ _ ho]
        exact ⟨rfl, rfl⟩
      · rw [setObj_dangling _ _ _ ho]
        exact ⟨rfl, rfl⟩
    · rw [getObj_setObj_other _ _ _ _ hop]
      exact ⟨rfl, rfl⟩
  | _ => exact ⟨rfl, rfl⟩

theorem writable_decRefArr (s : State) (p : Nat) (l : Loc) :
    (decRefArr s p).writable l = s.writable l := by
  unfold decRefArr
  by_cases hp : p < s.arrs.length
  · cases l with
    | arrElem a k =>
      simp only [State.writable]
      by_cases hpa : p = a
      · subst hpa
        rw [getArr_setArr_same _ _ _ hp]
        simp [State.setArr]
      · rw [getArr_setArr_other _ _ _ _ hpa]
        simp [State.setArr]
    | _ => rfl
  · rw [setArr_dangling _ _ _ hp]

/-- The unboxed cell of a base is the same in two states when it holds no
reference box in either and, if the base is a reference, the base still holds
it. -/
theorem tvToCell_eq_of (s t : State) (base : Loc)
    (hs : ∀ r, s.load (tvToCell s base) ≠ .ref r)
    (ht : ∀ r, t.load (tvToCell s base) ≠ .ref r)
    (h : tvToCell s base ≠ base → t.load base = s.load base) :
    tvToCell t base = tvToCell s base := by
  cases hb : s.load base with
  | ref r =>
    have e : tvToCell s base = .refInner r := by simp [tvToCell, hb]
    have hne : tvToCell s base ≠ base := by
      intro h'
      rw [h'] at hs
      exact hs r hb
    have : t.load base = .ref r := by rw [h hne, hb]
    simp [tvToCell, this, hb]
  | _ =>
    have e : tvToCell s base = base := by simp [tvToCell, hb]
    rw [e] at ht ⊢
    unfold tvToCell
    cases ht' : t.load base with
    | ref r => exact absurd ht' (ht r)
    | _ => rfl

/-- The unboxed cell of a base is the base or the inner cell of a reference
box, and in the latter case the base holds that box. -/
theorem tvToCell_cases (s : State) (base : Loc) :
    tvToCell s base = base ∨ ∃ r, s.load base = .ref r ∧ tvToCell s base = .refInner r := by
  cases hb : s.load base with
  | ref r => exact Or.inr ⟨r, rfl, by simp [tvToCell, hb]⟩
  | _ => exact Or.inl (by simp [tvToCell, hb])

/-! ## Array operations through a base cell anywhere -/

theorem getArr_tvRefcountedDecRef_emptyish (s t : State) (tv : TypedValue) (p : Nat)
    (h : isEmptyish t tv = true) : (tvRefcountedDecRef s tv).getArr p = s.getArr p := by
  simp only [State.getArr, arrs_tvRefcountedDecRef_emptyish s t tv h]

/-- An entry that `lval` finds in the array is left as it is. -/
theorem elemsGet_elemsLval_keep (elems : List (ArrayKey × TypedValue)) (k k' : ArrayKey)
    (h : k' ≠ k ∨ (elemsGet elems k').isSome = true) :
    elemsGet (elemsLval elems k) k' = elemsGet elems k' := by
  by_cases hk : k = k'
  · subst hk
    rcases h with h | h
    · exact absurd rfl h
    · unfold elemsLval
      simp [h]
  · exact elemsGet_elemsLval_other _ _ _ hk

theorem isSome_elemsGet_of_load (s : State) (a : Nat) (k : ArrayKey) (v : TypedValue)
    (h : s.load (.arrElem a k) = v) (hv : v ≠ .uninit) :
    (elemsGet (s.getArr a).elems k).isSome = true := by
  simp only [State.load] at h
  cases hg : elemsGet (s.getArr a).elems k with
  | none => rw [hg] at h; exact absurd h.symm hv
  | some w => rfl

/-- The state after `assignFreshArray` on a cell that exists and holds an
empty-ish value, wherever the cell lives. -/
theorem assignFreshArray_any (s : State) (b : Loc)
    (hemp : isEmptyish s (s.load b) = true) (hw : s.writable b = true) :
    (assignFreshArray s b).load b = .arr s.arrs.length ∧
    (assignFreshArray s b).getArr s.arrs.length = { elems := [], nextKI := 0, count := 1 } ∧
    (assignFreshArray s b).arrs.length = s.arrs.length + 1 ∧
    (assignFreshArray s b).log = s.log ∧
    (∀ p, ((assignFreshArray s b).getStr p).data = (s.getStr p).data) ∧
    (∀ l : Loc, l ≠ b → (∀ k, l ≠ .arrElem s.arrs.length k) →
      (assignFreshArray s b).load l = s.load l) ∧
    (∀ l : Loc, s.writable l = true → (assignFreshArray s b).writable l = true) := by
  have hwa : ∀ ad : ArrayData, (s.allocArr ad).2.writable b = true :=
    fun ad => writable_allocArr_mono s ad b hw
  unfold assignFreshArray
  simp only [load_record, log_record, writable_record, getStr_record, getArr_record, arrs_record]
  refine ⟨?_, ?_, ?_, ?_, ?_, ?_, ?_⟩
  · rw [load_tvRefcountedDecRef, load_record]
    exact load_store_writable _ _ _ (hwa _)
  · rw [getArr_tvRefcountedDecRef_emptyish _ s _ _ hemp, getArr_record,
      getArr_store_other _ _ _ _ (ne_fresh_of_writable s b hw)]
    exact getArr_allocArr_new _ _
  · rw [arrs_tvRefcountedDecRef_emptyish _ s _ hemp, arrs_record, arrs_length_store]
    simp [State.allocArr]
  · rw [log_tvRefcountedDecRef, log_record, log_store]
    rfl
  · intro p
    rw [data_getStr_tvRefcountedDecRef, getStr_record, getStr_store]
    rfl
  · intro l hne hfresh
    rw [load_tvRefcountedDecRef, load_record, load_store_other _ _ _ _ (fun e => hne e.symm)]
    exact load_allocArr_ne _ _ _ hfresh
  · intro l hl
    rw [writable_tvRefcountedDecRef, writable_record, writable_store]
    exact writable_allocArr_mono _ _ _ hl

/-- What `lval(key)` through the `Array` handle of a cell leaves behind,
wherever the cell lives: the cell holds an array, the old one or a fresh copy,
whose entries are the old entries with the key created (as null) when it was
missing; the returned pointer designates the entry of the key; every other
cell that existed keeps its value. -/
theorem arrayLval_any (s : State) (b : Loc) (k : ArrayKey) (a : Nat)
    (hload : s.load b = .arr a) (ha : a < s.arrs.length) :
    ∃ q, (arrayLval s b k).1 = .arrElem q k ∧
      (arrayLval s b k).2.load b = .arr q ∧
      q < (arrayLval s b k).2.arrs.length ∧
      (q = a ∨ q = s.arrs.length) ∧
      ((arrayLval s b k).2.getArr q).elems = elemsLval (s.getArr a).elems k ∧
      ((arrayLval s b k).2.getArr q).hasMultipleRefs = false ∧
      (arrayLval s b k).2.strs = s.strs ∧
      (arrayLval s b k).2.log = s.log ∧
      (∀ l : Loc, l ≠ b → l ≠ .arrElem q k → (∀ k', l ≠ .arrElem s.arrs.length k') →
        (arrayLval s b k).2.load l = s.load l) ∧
      (∀ l : Loc, s.writable l = true → (arrayLval s b k).2.writable l = true) := by
  have hw : s.writable b = true := writable_of_load_arr s b a hload
  unfold arrayLval
  simp only [hload]
  by_cases hm : (s.getArr a).hasMultipleRefs = true
  · simp only [hm, if_true, allocArr_fst]
    have hne : a ≠ s.arrs.length := by omega
    have hget : ∀ ad : ArrayData,
        (decRefArr ((s.allocArr ad).2.store b (.arr s.arrs.length)) a).getArr s.arrs.length
          = ad := by
      intro ad
      unfold decRefArr
      rw [getArr_setArr_other _ _ _ _ hne,
        getArr_store_other _ _ _ _ (ne_fresh_of_writable s b hw), getArr_allocArr_new]
    refine ⟨s.arrs.length, rfl, ?_, ?_, Or.inr rfl, ?_, ?_, ?_, ?_, ?_, ?_⟩
    · rw [load_decRefArr]
      exact load_store_writable _ _ _ (writable_allocArr_mono _ _ _ hw)
    · rw [arrs_length_decRefArr, arrs_length_store]
      simp [State.allocArr]
    · rw [hget]
    · rw [hget]
      rfl
    · simp
    · simp
    · intro l hne' _ hfresh
      rw [load_decRefArr, load_store_other _ _ _ _ (fun e => hne' e.symm)]
      exact load_allocArr_ne _ _ _ hfresh
    · intro l hl
      rw [writable_decRefArr, writable_store]
      exact writable_allocArr_mono _ _ _ hl
  · simp only [hm, if_false, Bool.false_eq_true]
    have hm' : (s.getArr a).hasMultipleRefs = false := by simpa using hm
    refine ⟨a, rfl, ?_, ?_, Or.inl rfl, ?_, ?_, ?_, ?_, ?_, ?_⟩
    · rw [load_setArr_of_get]
      · exact hload
      · intro k0 e
        apply elemsGet_elemsLval_keep
        right
        rw [e] at hload
        exact isSome_elemsGet_of_load s a k0 _ hload (by simp)
    · simpa [State.setArr] using ha
    · rw [getArr_setArr_same _ _ _ ha]
    · rw [getArr_setArr_same _ _ _ ha]
      exact hm'
    · rfl
    · rfl
    · intro l _ hne' _
      apply load_setArr_of_get
      intro k0 e
      apply elemsGet_elemsLval_keep
      left
      intro ek
      rw [ek] at e
      exact hne' e
    · intro l hl
      apply writable_setArr_mono _ _ _ _ _ hl
      intro k0 h0
      rw [elemsGet_elemsLval_keep _ _ _ (Or.inr h0)]
      exact h0

/-- What `ElemDArray` does on a cell holding an array, wherever the cell
lives, for a legal key. -/
theorem ElemDArray_any (ext : Externals) (warn : Bool) (b : Loc) (key : Key) (s : State)
    (a : Nat) (k : ArrayKey)
    (hload : s.load b = .arr a) (ha : a < s.arrs.length)
    (hk : keyAsValue ext s key = some k) :
    ∃ q s', ElemDArray ext warn b key s = .ok (.arrElem q k) s' ∧
      s'.load b = .arr q ∧ q < s'.arrs.length ∧
      (q = a ∨ q = s.arrs.length) ∧
      (s'.getArr q).elems = elemsLval (s.getArr a).elems k ∧
      (s'.getArr q).hasMultipleRefs = false ∧
      s'.strs = s.strs ∧
      (∀ l : Loc, l ≠ b → l ≠ .arrElem q k → (∀ k', l ≠ .arrElem s.arrs.length k') →
        s'.load l = s.load l) ∧
      (∃ name, s'.log = s.log ++
        (if warn = true ∧ elemsGet (s.getArr a).elems k = none
         then [⟨.notice, "Undefined index: %s", .str name⟩] else [])) ∧
      (∀ l : Loc, s.writable l = true → s'.writable l = true) := by
  obtain ⟨q, h1, h2, h3, hq, h4, hm, h5, h6, h7, h8⟩ := arrayLval_any s b k a hload ha
  unfold ElemDArray
  cases warn with
  | false =>
    simp only [Bool.false_eq_true, if_false, Outcome.bind, Bool.false_and,
      ElemDArrayPre_legal ext b key s k hk, h1]
    exact ⟨q, _, rfl, h2, h3, hq, h4, hm, h5, h7, ⟨[], by simp [h6]⟩, h8⟩
  | true =>
    simp only [if_true, baseArrExists, hload, hk, Outcome.bind, Bool.true_and,
      ElemDArrayPre_legal ext b key s k hk, h1]
    cases hex : elemsGet (s.getArr a).elems k with
    | none =>
      have : arrayExists s a k = false := by simp [arrayExists, hex]
      simp only [this, Bool.not_false, if_true]
      refine ⟨q, _, rfl, ?_, ?_, hq, ?_, ?_, ?_, ?_, ⟨cStr (cellToString ext (arrayLval s b k).2
        (initScratchKey key)), ?_⟩, ?_⟩
      · simpa using h2
      · exact h3
      · exact h4
      · exact hm
      · exact h5
      · intro l hl hne hfresh
        simpa using h7 l hl hne hfresh
      · simp [h6, Strings.UNDEFINED_INDEX]
      · intro l hl
        rw [writable_raise_notice]
        exact h8 l hl
    | some v =>
      have : arrayExists s a k = true := by simp [arrayExists, hex]
      simp only [this, Bool.not_true, Bool.false_eq_true, if_false]
      exact ⟨q, _, rfl, h2, h3, hq, h4, hm, h5, h7, ⟨[], by simp [h6]⟩, h8⟩

/-- What `ElemDEmptyish` does on a cell that exists and holds an empty-ish
value, wherever the cell lives, for a legal key. -/
theorem ElemDEmptyish_any (ext : Externals) (warn : Bool) (b : Loc) (key : Key) (s : State)
    (k : ArrayKey)
    (hemp : isEmptyish s (s.load b) = true) (hw : s.writable b = true)
    (hk : keyAsValue ext s key = some k) :
    ∃ s', ElemDEmptyish ext warn b key s = .ok (.arrElem s.arrs.length k) s' ∧
      s'.load b = .arr s.arrs.length ∧
      s'.getArr s.arrs.length
        = { elems := [(k, .null)], nextKI := updNextKI 0 k, count := 1 } ∧
      s'.arrs.length = s.arrs.length + 1 ∧
      (∃ name, s'.log = s.log ++
        (if warn = true then [⟨.notice, "Undefined index: %s", .str name⟩] else [])) ∧
      (∀ p, (s'.getStr p).data = (s.getStr p).data) ∧
      (∀ l : Loc, l ≠ b → (∀ k', l ≠ .arrElem s.arrs.length k') → s'.load l = s.load l) ∧
      (∀ l : Loc, s.writable l = true → s'.writable l = true) := by
  obtain ⟨h1, hget, hlen, h3, h5, h6, h7⟩ := assignFreshArray_any s b hemp hw
  have hkey : toKey ext (assignFreshArray s b) (initScratchKey key) = some k := by
    rw [toKey_congr ext s _ _ h5, toKey_initScratchKey, hk]
  have hlt : s.arrs.length < (assignFreshArray s b).arrs.length := by rw [hlen]; omega
  have hlval : arrayLval (assignFreshArray s b) b k
      = (.arrElem s.arrs.length k,
         (assignFreshArray s b).setArr s.arrs.length
           { elems := [(k, .null)], nextKI := updNextKI 0 k, count := 1 }) := by
    simp only [arrayLval, h1, hget, ArrayData.hasMultipleRefs]
    simp [elemsLval, elemsGet, elemsSet]
  have hfin : ∀ (t : State), t = (assignFreshArray s b).setArr s.arrs.length
        { elems := [(k, .null)], nextKI := updNextKI 0 k, count := 1 } →
      t.load b = .arr s.arrs.length ∧
      t.getArr s.arrs.length
        = { elems := [(k, .null)], nextKI := updNextKI 0 k, count := 1 } ∧
      t.arrs.length = s.arrs.length + 1 ∧
      t.log = s.log ∧
      (∀ p, (t.getStr p).data = (s.getStr p).data) ∧
      (∀ l : Loc, l ≠ b → (∀ k', l ≠ .arrElem s.arrs.length k') → t.load l = s.load l) ∧
      (∀ l : Loc, s.writable l = true → t.writable l = true) := by
    intro t ht
    subst ht
    refine ⟨?_, ?_, ?_, ?_, ?_, ?_, ?_⟩
    · rw [load_setArr_ne _ _ _ _ (ne_fresh_of_writable s b hw)]
      exact h1
    · exact getArr_setArr_same _ _ _ hlt
    · simpa [State.setArr] using hlen
    · exact h3
    · intro p
      exact h5 p
    · intro l hne hfresh
      rw [load_setArr_ne _ _ _ _ hfresh]
      exact h6 l hne hfresh
    · intro l hl
      apply writable_setArr_mono _ _ _ _ _ (h7 l hl)
      intro k0 h0
      rw [hget] at h0
      simp [elemsGet] at h0
  obtain ⟨f1, f2, f3, f4, f5, f6, f7⟩ := hfin _ rfl
  unfold ElemDEmptyish
  simp only [arrayLvalVariant, hkey, hlval, Outcome.bind]
  cases warn with
  | true =>
    refine ⟨_, rfl, ?_, ?_, ?_, ⟨cStr (cellToString ext ((assignFreshArray s b).setArr
        s.arrs.length { elems := [(k, .null)], nextKI := updNextKI 0 k, count := 1 })
        (initScratchKey key)), ?_⟩, ?_, ?_, ?_⟩
    · rw [load_raise_notice]
      exact f1
    · exact f2
    · exact f3
    · simp only [log_raise_notice, if_true]
      rw [f4]
      rfl
    · exact f5
    · intro l hne hfresh
      rw [load_raise_notice]
      exact f6 l hne hfresh
    · intro l hl
      rw [writable_raise_notice]
      exact f7 l hl
  | false =>
    refine ⟨_, rfl, f1, f2, f3, ⟨[], ?_⟩, f5, f6, f7⟩
    rw [f4]
    simp

/-- A cell of an array that loads a value other than Uninit is an entry of
the array. -/
theorem elemsGet_of_load (s : State) (q : Nat) (k : ArrayKey) (v : TypedValue)
    (h : s.load (.arrElem q k) = v) (hv : v ≠ .uninit) :
    elemsGet (s.getArr q).elems k = some v := by
  simp only [State.load] at h
  cases hg : elemsGet (s.getArr q).elems k with
  | none =>
    rw [hg] at h
    exact absurd h.symm hv
  | some w =>
    rw [hg] at h
    simp only [Option.getD_some] at h
    rw [h]

/-- C5: on a base that is Uninit, Null, Bool false or the empty string,
wherever the base cell lives (a frame slot, an element of an array, a property
of an object, the inside of a reference box), `ElemD` with a legal key `k`
replaces the base with a fresh array whose only entry is `k` mapped to null
and returns an lvalue to that entry, raising exactly one "Undefined index"
notice when `warn` is true and none when `warn` is false; assigning a value
`v` (7 in the scenario) through the returned lvalue leaves the base equal to
`[k => v]`. -/
theorem ElemD_emptyish_base (ext : Externals) (warn reffy : Bool) (base : Loc) (key : Key)
    (s : State) (k : ArrayKey)
    (hemp : isEmptyish s (s.load (tvToCell s base)) = true)
    (hw : s.writable (tvToCell s base) = true)
    (hk : keyAsValue ext s key = some k) :
    ∃ p s', ElemD ext warn reffy base key s = .ok p s' ∧
      (∃ q, s'.load (tvToCell s base) = .arr q ∧ q = s.arrs.length ∧ p = .arrElem q k ∧
        (s'.getArr q).elems = [(k, .null)] ∧ (s'.getArr q).count = 1 ∧
        ∀ v, (s'.store p v).load (tvToCell s base) = .arr q ∧
          ((s'.store p v).getArr q).elems = [(k, v)]) ∧
      (∃ name, s'.log = s.log ++
        (if warn = true then [⟨.notice, "Undefined index: %s", .str name⟩] else [])) := by
  obtain ⟨s', hrun, hload, hget, harrs, hlog, _, _, _⟩ :=
    ElemDEmptyish_any ext warn (tvToCell s base) key s k hemp hw hk
  have hlen : s.arrs.length < s'.arrs.length := by rw [harrs]; omega
  refine ⟨_, s', ?_, ⟨s.arrs.length, hload, rfl, rfl, ?_, ?_, ?_⟩, hlog⟩
  · rw [ElemD_eq_ElemDEmptyish ext warn reffy base key s hemp, hrun]
  · rw [hget]
  · rw [hget]
  · intro v
    constructor
    · rw [load_store_other _ _ _ _ (fun e => ne_fresh_of_writable s _ hw k e.symm)]
      exact hload
    · simp only [State.store]
      rw [getArr_setArr_same _ _ _ hlen, hget]
      simp [elemsWrite]

/-- Witness for C5: the base is the element "x" of the array held in slot 0,
which is null; key "x", `warn = true`; afterwards the element holds the fresh
array 2, which is `["x" => null]`, and one notice has been raised. -/
theorem ElemD_emptyish_base_witness :
    (∃ p s', ElemD Externals.inert true false (.arrElem 0 (.str [120])) (.str (.static [120]))
        stNested = .ok p s' ∧
      (∃ q, s'.load (tvToCell stNested (.arrElem 0 (.str [120]))) = .arr q ∧
        q = stNested.arrs.length ∧
        p = .arrElem q (.str [120]) ∧
        (s'.getArr q).elems = [(.str [120], .null)] ∧ (s'.getArr q).count = 1 ∧
        ∀ v, (s'.store p v).load (tvToCell stNested (.arrElem 0 (.str [120]))) = .arr q ∧
          ((s'.store p v).getArr q).elems = [(.str [120], v)]) ∧
      (∃ name, s'.log = stNested.log ++
        (if true = true then [⟨.notice, "Undefined index: %s", .str name⟩] else []))) ∧
    (ElemD Externals.inert true false (.arrElem 0 (.str [120])) (.str (.static [120]))
        stNested).returned = some (.arrElem 2 (.str [120])) ∧
    (ElemD Externals.inert true false (.arrElem 0 (.str [120])) (.str (.static [120]))
        stNested).state.load (.arrElem 0 (.str [120])) = .arr 2 ∧
    (ElemD Externals.inert true false (.arrElem 0 (.str [120])) (.str (.static [120]))
        stNested).state.log = [⟨.notice, "Undefined index: %s", .str [120]⟩] ∧
    (ElemD Externals.inert false false (.objProp 0 [112]) (.str (.static [120]))
        stNested).state.load (.objProp 0 [112]) = .arr 2 ∧
    (ElemD Externals.inert false false (.objProp 0 [112]) (.str (.static [120]))
        stNested).state.log = [] :=
  ⟨ElemD_emptyish_base Externals.inert true false (.arrElem 0 (.str [120]))
      (.str (.static [120])) stNested (.str [120]) (by decide) (by decide) (by decide),
    by decide, by decide, by decide, by decide, by decide⟩

/-- C6 (amended): for a base that holds an array, or that `ElemD` auto-vivifies to an
array (Uninit, Null, Bool false, empty string), wherever the base cell lives,
and a legal key `k`: `ElemD` returns a pointer `p`, and, unless `p` is the
base slot itself, after a value `v` has been assigned through `p` (stored in
the cell that `p` designates) the next `Elem(base, k)` returns a cell equal to
`v`. -/
theorem ElemD_then_Elem (ext : Externals) (warn reffy warn2 : Bool) (base : Loc) (key : Key)
    (s : State) (k : ArrayKey)
    (hw : s.writable (tvToCell s base) = true)
    (hcase : (∃ a, s.load (tvToCell s base) = .arr a ∧ a < s.arrs.length) ∨
      isEmptyish s (s.load (tvToCell s base)) = true)
    (hk : keyAsValue ext s key = some k) :
    ∃ p s1, ElemD ext warn reffy base key s = .ok p s1 ∧
      ∀ v, v ≠ .uninit → p ≠ base →
        ∃ p' s3, Elem ext warn2 base key (s1.store p v) = .ok p' s3 ∧ s3.load p' = v := by
  -- the facts about the state after `ElemD` that both cases provide
  have key_step : ∀ (q : Nat) (s1 : State),
      s1.load (tvToCell s base) = .arr q → q < s1.arrs.length →
      (elemsGet (s1.getArr q).elems k).isSome = true →
      (∀ p, (s1.getStr p).data = (s.getStr p).data) →
      (∀ r, s.load (tvToCell s base) ≠ .ref r) →
      (∀ l : Loc, l ≠ tvToCell s base → l ≠ .arrElem q k →
        (∀ k', l ≠ .arrElem s.arrs.length k') → s1.load l = s.load l) →
      ∀ v, v ≠ .uninit → Loc.arrElem q k ≠ base →
        ∃ p' s3, Elem ext warn2 base key (s1.store (.arrElem q k) v) = .ok p' s3 ∧
          s3.load p' = v := by
    intro q s1 h1 h3 h4 h5 hnr h6 v hv hpb
    have hpc : Loc.arrElem q k ≠ tvToCell s base := by
      rcases tvToCell_cases s base with e | ⟨r, _, e⟩
      · rw [e]; exact hpb
      · rw [e]; simp
    have hl1 : (s1.store (.arrElem q k) v).load (tvToCell s base) = .arr q := by
      rw [load_store_other _ _ _ _ hpc]
      exact h1
    have hcell : tvToCell (s1.store (.arrElem q k) v) base = tvToCell s base := by
      apply tvToCell_eq_of s _ base hnr
      · intro r
        rw [hl1]
        simp
      · intro hne
        rw [load_store_other _ _ _ _ hpb]
        rcases tvToCell_cases s base with e | ⟨r, hr, _⟩
        · exact absurd e hne
        · apply h6 base (fun e => hne e.symm) (fun e => hpb e.symm)
          intro k'
          exact ne_fresh_of_writable s base (writable_of_load_ref s base r hr) k'
    have hload : (s1.store (.arrElem q k) v).load (tvToCell (s1.store (.arrElem q k) v) base)
        = .arr q := by
      rw [hcell]
      exact hl1
    have hkey : keyAsValue ext (s1.store (.arrElem q k) v) key = some k := by
      rw [keyAsValue_congr ext s _ key (fun p => by rw [getStr_store]; exact h5 p)]
      exact hk
    have hget : elemsGet ((s1.store (.arrElem q k) v).getArr q).elems k = some v := by
      simp only [State.store]
      rw [getArr_setArr_same _ _ _ h3]
      exact elemsGet_elemsWrite_same _ _ _ h4
    obtain ⟨hrun, hval⟩ :=
      (Elem_array_lookup ext warn2 base key _ q k hload hkey).1 v hget hv
    exact ⟨_, _, hrun, hval⟩
  rcases hcase with ⟨a, hload, ha⟩ | hemp
  · obtain ⟨q, s1, hrun, h1, h3, _, h4, _, h5, h6, _, _⟩ :=
      ElemDArray_any ext warn (tvToCell s base) key s a k hload ha hk
    refine ⟨.arrElem q k, s1, ?_, ?_⟩
    · simp only [ElemD, hload, hrun]
    · apply key_step q s1 h1 h3
      · rw [h4, elemsGet_elemsLval_same]
        rfl
      · intro p
        simp [State.getStr, h5]
      · intro r
        rw [hload]
        simp
      · exact h6
  · obtain ⟨s1, hrun, h1, hget, harrs, _, h5, h6, _⟩ :=
      ElemDEmptyish_any ext warn (tvToCell s base) key s k hemp hw hk
    refine ⟨.arrElem s.arrs.length k, s1, ?_, ?_⟩
    · rw [ElemD_eq_ElemDEmptyish ext warn reffy base key s hemp, hrun]
    · apply key_step s.arrs.length s1 h1
      · rw [harrs]; omega
      · rw [hget]
        simp [elemsGet]
      · exact h5
      · intro r hr
        rw [hr] at hemp
        simp [isEmptyish] at hemp
      · intro l hl _ hf
        exact h6 l hl hf

/-- Witness for C6 (amended): the base is the element "y" of the array held in slot 0,
which holds the array `["n" => 5]`; key "b", then a read of the same key. -/
theorem ElemD_then_Elem_witness :
    ∃ p s1, ElemD Externals.inert true false (.arrElem 0 (.str [121])) (.str (.static [98]))
        stNested = .ok p s1 ∧
      ∀ v, v ≠ .uninit → p ≠ .arrElem 0 (.str [121]) →
        ∃ p' s3, Elem Externals.inert true (.arrElem 0 (.str [121])) (.str (.static [98]))
            (s1.store p v) = .ok p' s3 ∧ s3.load p' = v :=
  ElemD_then_Elem Externals.inert true false true (.arrElem 0 (.str [121]))
    (.str (.static [98])) stNested
    (.str [98]) (by decide) (Or.inl ⟨1, by decide, by decide⟩) (by decide)

/-- C6 as stated fails: in the state that `$a[0] = &$a` leaves,
the base is the element 0 of the array, which is a reference to the box that
holds the array. `ElemD(base, 0)` unboxes the base, finds the array and
returns the pointer to its element 0, which is the base cell itself.
Assigning 5 through that pointer overwrites the base, so the next
`Elem(base, 0)` sees an integer base and returns the null sentinel, not 5. -/
theorem ElemD_then_Elem_counterexample :
    stRefCycle.load (tvToCell stRefCycle (.arrElem 0 (.int 0))) = .arr 0 ∧
    stRefCycle.writable (tvToCell stRefCycle (.arrElem 0 (.int 0))) = true ∧
    keyAsValue Externals.inert stRefCycle (.int 0) = some (.int 0) ∧
    ElemD Externals.inert false false (.arrElem 0 (.int 0)) (.int 0) stRefCycle
      = .ok (.arrElem 0 (.int 0)) stRefCycle ∧
    (Elem Externals.inert false (.arrElem 0 (.int 0)) (.int 0)
        (stRefCycle.store (.arrElem 0 (.int 0)) (.int 5))).returned = some .initNullVariant ∧
    (Elem Externals.inert false (.arrElem 0 (.int 0)) (.int 0)
        (stRefCycle.store (.arrElem 0 (.int 0)) (.int 5))).state.load .initNullVariant
      = .null := by
  decide

/-- The shape shared by the prefix operators of `IncDecBody`, for cells
anywhere: the new value is stored in the cell `e`, then copied to `dest`. -/
theorem store_then_copy_any (s1 : State) (e dest : Loc) (v : TypedValue)
    (hfw : s1.writable e = true) (hdw : s1.writable dest = true) (hne : dest ≠ e) :
    ((s1.store e v).store dest ((s1.store e v).load e)).load e = v ∧
    ((s1.store e v).store dest ((s1.store e v).load e)).load dest = v ∧
    (∀ l : Loc, l ≠ dest → l ≠ e →
      ((s1.store e v).store dest ((s1.store e v).load e)).load l = s1.load l) := by
  have hfr : (s1.store e v).load e = v := load_store_writable _ _ _ hfw
  rw [hfr]
  refine ⟨?_, ?_, ?_⟩
  · rw [load_store_other _ _ _ _ hne]
    exact hfr
  · apply load_store_writable
    rw [writable_store]
    exact hdw
  · intro l hl hle
    rw [load_store_other _ _ _ _ (fun e' => hl e'.symm),
      load_store_other _ _ _ _ (fun e' => hle e'.symm)]

/-- The shape shared by the postfix operators of `IncDecBody`, for cells
anywhere: the old value is copied to `dest`, then the new value is stored in
the cell `e`. -/
theorem copy_then_store_any (s1 : State) (e dest : Loc) (v : TypedValue)
    (hfw : s1.writable e = true) (hdw : s1.writable dest = true) (hne : dest ≠ e) :
    ((s1.store dest (s1.load e)).store e v).load e = v ∧
    ((s1.store dest (s1.load e)).store e v).load dest = s1.load e ∧
    (∀ l : Loc, l ≠ dest → l ≠ e →
      ((s1.store dest (s1.load e)).store e v).load l = s1.load l) := by
  refine ⟨?_, ?_, ?_⟩
  · apply load_store_writable
    rw [writable_store]
    exact hfw
  · rw [load_store_other _ _ _ _ (fun e' => hne e'.symm)]
    exact load_store_writable _ _ _ hdw
  · intro l hl hle
    rw [load_store_other _ _ _ _ (fun e' => hle e'.symm),
      load_store_other _ _ _ _ (fun e' => hl e'.symm)]

/-- What `IncDecElem` does with one of the four plain operators on an array
whose entry at the key is the integer `n`, for a base cell and a `dest` cell
anywhere: `elemVal` ends up in the entry and `destVal` in `dest`. -/
theorem IncDecElem_plain_on_entry_any (ext : Externals) (op : IncDecOp) (base : Loc)
    (key : TypedValue) (dest : Loc) (s : State) (a : Nat) (k : ArrayKey) (n : Int)
    (elemVal destVal : Int)
    (hload : s.load (tvToCell s base) = .arr a) (ha : a < s.arrs.length)
    (hk : toKey ext s key = some k)
    (hel : elemsGet (s.getArr a).elems k = some (.int n))
    (hdw : s.writable dest = true)
    (hdb : dest ≠ tvToCell s base) (hde : dest ≠ .arrElem a k)
    (hop : (op = .PreInc ∧ elemVal = wrap64 (n + 1) ∧ destVal = wrap64 (n + 1)) ∨
      (op = .PostInc ∧ elemVal = wrap64 (n + 1) ∧ destVal = n) ∨
      (op = .PreDec ∧ elemVal = wrap64 (n - 1) ∧ destVal = wrap64 (n - 1)) ∨
      (op = .PostDec ∧ elemVal = wrap64 (n - 1) ∧ destVal = n)) :
    ∃ q s', IncDecElem ext op base key dest s = .ok () s' ∧
      s'.load (tvToCell s base) = .arr q ∧
      elemsGet (s'.getArr q).elems k = some (.int elemVal) ∧
      s'.load dest = .int destVal := by
  obtain ⟨q, s1, hrun, h1, h3, hq, h4, _, _, _, _, h8⟩ :=
    ElemDArray_any ext ext.MoreWarnings (tvToCell s base) (.any key) s a k hload ha hk
  have hg : elemsGet (s1.getArr q).elems k = some (.int n) := by
    rw [h4, elemsGet_elemsLval_same, hel]
    rfl
  have h4' : s1.load (.arrElem q k) = .int n := by
    simp [State.load, hg]
  have hfw : s1.writable (.arrElem q k) = true :=
    writable_of_load s1 _ (by rw [h4']; simp) (by simp)
  have hdw1 : s1.writable dest = true := h8 dest hdw
  have hdq : dest ≠ .arrElem q k := by
    rcases hq with e | e
    · rw [e]; exact hde
    · rw [e]; exact ne_fresh_of_writable s dest hdw k
  have hcq : tvToCell s base ≠ .arrElem q k := by
    intro e
    rw [e, h4'] at h1
    simp at h1
  have hcell : tvToCell s1 (.arrElem q k) = .arrElem q k := by
    simp [tvToCell, h4']
  have hrun' : IncDecElem ext op base key dest s
      = IncDecBody ext op (.arrElem q k) dest s1 := by
    simp only [IncDecElem, hload, hrun, Outcome.bind, hcell]
  have hbne : tvToCell s base ≠ dest := fun e => hdb e.symm
  rcases hop with ⟨ho, he, hd⟩ | ⟨ho, he, hd⟩ | ⟨ho, he, hd⟩ | ⟨ho, he, hd⟩ <;>
    subst ho <;> rw [he, hd]
  · obtain ⟨g1, g2, g3⟩ :=
      store_then_copy_any s1 (.arrElem q k) dest (.int (wrap64 (n + 1))) hfw hdw1 hdq
    refine ⟨q, _, ?_, ?_, elemsGet_of_load _ q k _ g1 (by simp), g2⟩
    · rw [hrun']
      simp only [IncDecBody, h4']
    · rw [g3 _ hbne hcq]
      exact h1
  · obtain ⟨g1, g2, g3⟩ :=
      copy_then_store_any s1 (.arrElem q k) dest (.int (wrap64 (n + 1))) hfw hdw1 hdq
    refine ⟨q, _, ?_, ?_, elemsGet_of_load _ q k _ g1 (by simp), ?_⟩
    · rw [hrun']
      simp only [IncDecBody, h4']
    · rw [g3 _ hbne hcq]
      exact h1
    · rw [g2]
      exact h4'
  · obtain ⟨g1, g2, g3⟩ :=
      store_then_copy_any s1 (.arrElem q k) dest (.int (wrap64 (n - 1))) hfw hdw1 hdq
    refine ⟨q, _, ?_, ?_, elemsGet_of_load _ q k _ g1 (by simp), g2⟩
    · rw [hrun']
      simp only [IncDecBody, h4']
    · rw [g3 _ hbne hcq]
      exact h1
  · obtain ⟨g1, g2, g3⟩ :=
      copy_then_store_any s1 (.arrElem q k) dest (.int (wrap64 (n - 1))) hfw hdw1 hdq
    refine ⟨q, _, ?_, ?_, elemsGet_of_load _ q k _ g1 (by simp), ?_⟩
    · rw [hrun']
      simp only [IncDecBody, h4']
    · rw [g3 _ hbne hcq]
      exact h1
    · rw [g2]
      exact h4'

/-- C9: on an array base (wherever the base cell lives) whose element at key
`k` is the integer `n`, with `dest` any writable cell other than the base and
the element, `IncDecElem` with PostInc stores `n+1` in the element and `n` in
`dest`, with PreInc stores `n+1` in both, with PostDec stores `n-1` in the
element and `n` in `dest`, and with PreDec stores `n-1` in both; the
arithmetic of these four plain operators wraps modulo `2^64` into the range
of `int64_t`, and the element keeps the Int tag. -/
theorem IncDecElem_array_int (ext : Externals) (base : Loc) (key : TypedValue) (dest : Loc)
    (s : State) (a : Nat) (k : ArrayKey) (n : Int)
    (hload : s.load (tvToCell s base) = .arr a) (ha : a < s.arrs.length)
    (hk : toKey ext s key = some k)
    (hel : elemsGet (s.getArr a).elems k = some (.int n))
    (hdw : s.writable dest = true)
    (hdb : dest ≠ tvToCell s base) (hde : dest ≠ .arrElem a k) :
    (∃ q s', IncDecElem ext .PostInc base key dest s = .ok () s' ∧
      s'.load (tvToCell s base) = .arr q ∧
      elemsGet (s'.getArr q).elems k = some (.int (wrap64 (n + 1))) ∧
      s'.load dest = .int n) ∧
    (∃ q s', IncDecElem ext .PreInc base key dest s = .ok () s' ∧
      s'.load (tvToCell s base) = .arr q ∧
      elemsGet (s'.getArr q).elems k = some (.int (wrap64 (n + 1))) ∧
      s'.load dest = .int (wrap64 (n + 1))) ∧
    (∃ q s', IncDecElem ext .PostDec base key dest s = .ok () s' ∧
      s'.load (tvToCell s base) = .arr q ∧
      elemsGet (s'.getArr q).elems k = some (.int (wrap64 (n - 1))) ∧
      s'.load dest = .int n) ∧
    (∃ q s', IncDecElem ext .PreDec base key dest s = .ok () s' ∧
      s'.load (tvToCell s base) = .arr q ∧
      elemsGet (s'.getArr q).elems k = some (.int (wrap64 (n - 1))) ∧
      s'.load dest = .int (wrap64 (n - 1))) ∧
    (∀ z : Int, -(2 ^ 63) ≤ wrap64 z ∧ wrap64 z < 2 ^ 63 ∧ (wrap64 z - z) % 2 ^ 64 = 0) := by
  refine ⟨?_, ?_, ?_, ?_, ?_⟩
  · exact IncDecElem_plain_on_entry_any ext .PostInc base key dest s a k n _ _ hload ha hk
      hel hdw hdb hde (Or.inr (Or.inl ⟨rfl, rfl, rfl⟩))
  · exact IncDecElem_plain_on_entry_any ext .PreInc base key dest s a k n _ _ hload ha hk
      hel hdw hdb hde (Or.inl ⟨rfl, rfl, rfl⟩)
  · exact IncDecElem_plain_on_entry_any ext .PostDec base key dest s a k n _ _ hload ha hk
      hel hdw hdb hde (Or.inr (Or.inr (Or.inr ⟨rfl, rfl, rfl⟩)))
  · exact IncDecElem_plain_on_entry_any ext .PreDec base key dest s a k n _ _ hload ha hk
      hel hdw hdb hde (Or.inr (Or.inr (Or.inl ⟨rfl, rfl, rfl⟩)))
  · intro z
    exact ⟨(wrap64_range z).1, (wrap64_range z).2, wrap64_congruent z⟩

/-- Witness for C9: the base is the element "y" of the array held in slot 0,
which holds the array `["n" => 5]`; PostInc gives element 6 and `dest` 5, and
PreInc on the resulting state gives element 7 and `dest` 7. The same values
come out when the array `["n" => 5]` is held in a frame slot. -/
theorem IncDecElem_array_int_witness :
    ((∃ q s', IncDecElem Externals.inert .PostInc (.arrElem 0 (.str [121])) (.sstr [110])
        (.slot 1) stNested = .ok () s' ∧
      s'.load (tvToCell stNested (.arrElem 0 (.str [121]))) = .arr q ∧
      elemsGet (s'.getArr q).elems (.str [110]) = some (.int (wrap64 (5 + 1))) ∧
      s'.load (.slot 1) = .int 5) ∧
    (∃ q s', IncDecElem Externals.inert .PreInc (.arrElem 0 (.str [121])) (.sstr [110])
        (.slot 1) stNested = .ok () s' ∧
      s'.load (tvToCell stNested (.arrElem 0 (.str [121]))) = .arr q ∧
      elemsGet (s'.getArr q).elems (.str [110]) = some (.int (wrap64 (5 + 1))) ∧
      s'.load (.slot 1) = .int (wrap64 (5 + 1))) ∧
    (∃ q s', IncDecElem Externals.inert .PostDec (.arrElem 0 (.str [121])) (.sstr [110])
        (.slot 1) stNested = .ok () s' ∧
      s'.load (tvToCell stNested (.arrElem 0 (.str [121]))) = .arr q ∧
      elemsGet (s'.getArr q).elems (.str [110]) = some (.int (wrap64 (5 - 1))) ∧
      s'.load (.slot 1) = .int 5) ∧
    (∃ q s', IncDecElem Externals.inert .PreDec (.arrElem 0 (.str [121])) (.sstr [110])
        (.slot 1) stNested = .ok () s' ∧
      s'.load (tvToCell stNested (.arrElem 0 (.str [121]))) = .arr q ∧
      elemsGet (s'.getArr q).elems (.str [110]) = some (.int (wrap64 (5 - 1))) ∧
      s'.load (.slot 1) = .int (wrap64 (5 - 1))) ∧
    (∀ z : Int, -(2 ^ 63) ≤ wrap64 z ∧ wrap64 z < 2 ^ 63 ∧ (wrap64 z - z) % 2 ^ 64 = 0)) ∧
    ((IncDecElem Externals.inert .PostInc (.arrElem 0 (.str [121])) (.sstr [110]) (.slot 1)
        stNested).state.load (.arrElem 1 (.str [110])) = .int 6 ∧
      (IncDecElem Externals.inert .PostInc (.arrElem 0 (.str [121])) (.sstr [110]) (.slot 1)
        stNested).state.load (.slot 1) = .int 5 ∧
      (IncDecElem Externals.inert .PostInc (.slot 0) (.sstr [110]) (.slot 1) stArrayN5).state.load
        (.arrElem 0 (.str [110])) = .int 6 ∧
      (IncDecElem Externals.inert .PostInc (.slot 0) (.sstr [110]) (.slot 1) stArrayN5).state.load
        (.slot 1) = .int 5 ∧
      (IncDecElem Externals.inert .PreInc (.slot 0) (.sstr [110]) (.slot 1)
        (IncDecElem Externals.inert .PostInc (.slot 0) (.sstr [110]) (.slot 1)
          stArrayN5).state).state.load (.arrElem 0 (.str [110])) = .int 7 ∧
      (IncDecElem Externals.inert .PreInc (.slot 0) (.sstr [110]) (.slot 1)
        (IncDecElem Externals.inert .PostInc (.slot 0) (.sstr [110]) (.slot 1)
          stArrayN5).state).state.load (.slot 1) = .int 7) :=
  ⟨IncDecElem_array_int Externals.inert (.arrElem 0 (.str [121])) (.sstr [110]) (.slot 1)
      stNested 1 (.str [110]) 5 (by decide) (by decide) (by decide) (by decide) (by decide)
      (by decide) (by decide),
    by decide⟩

/-- C19: on an array base (wherever the base cell lives) and a legal key,
`ElemU` creates no entry when the key is absent: it returns the scratch cell,
set to Uninit, and the heap of arrays, the log and (when it is not the scratch
cell itself) the base cell are unchanged; when the key is present it returns
the pointer to the entry of that key in the array that the base holds
afterwards (the array of before, or its copy when that one was shared), whose
entries, and so whose set of keys, are those of before. -/
theorem ElemU_array_base (ext : Externals) (base : Loc) (key : Key) (s : State) (a : Nat)
    (k : ArrayKey)
    (hload : s.load (tvToCell s base) = .arr a)
    (hk : keyAsValue ext s key = some k) :
    (elemsGet (s.getArr a).elems k = none →
      ∃ s', ElemU ext base key s = .ok .tvRef s' ∧
        s'.load .tvRef = .uninit ∧ s'.arrs = s.arrs ∧ s'.log = s.log ∧
        (tvToCell s base ≠ .tvRef → s'.load (tvToCell s base) = .arr a)) ∧
    (∀ v, elemsGet (s.getArr a).elems k = some v → a < s.arrs.length →
      ∃ q s', ElemU ext base key s = .ok (.arrElem q k) s' ∧
        tvToCell s' base = tvToCell s base ∧
        s'.load (tvToCell s base) = .arr q ∧
        (q = a ∨ q = s.arrs.length) ∧
        (s'.getArr q).elems = (s.getArr a).elems ∧
        s'.load (.arrElem q k) = v ∧ s'.log = s.log) := by
  have hrun : ElemU ext base key s = ElemUArray ext (tvToCell s base) key s := by
    simp only [ElemU, hload]
  have hex : baseArrExists ext (tvToCell s base) key s
      = .ok (elemsGet (s.getArr a).elems k).isSome s := by
    simp only [baseArrExists, hload, hk, arrayExists]
  constructor
  · intro habs
    refine ⟨tvWriteUninit s .tvRef, ?_, rfl, rfl, rfl, ?_⟩
    · rw [hrun]
      simp [ElemUArray, hex, habs, Outcome.bind]
    · intro hne
      unfold tvWriteUninit
      rw [load_store_other _ _ _ _ (fun e => hne e.symm)]
      exact hload
  · intro v hpres ha
    obtain ⟨q, h1, h2, _, hq, h3, _, _, h5, h6, _⟩ :=
      arrayLval_any s (tvToCell s base) k a hload ha
    have hel : elemsLval (s.getArr a).elems k = (s.getArr a).elems := by
      simp [elemsLval, hpres]
    rw [hel] at h3
    have hcell : tvToCell (arrayLval s (tvToCell s base) k).2 base = tvToCell s base := by
      apply tvToCell_eq_of s _ base
      · intro r; rw [hload]; simp
      · intro r; rw [h2]; simp
      · intro hne
        rcases tvToCell_cases s base with e | ⟨r, hr, _⟩
        · exact absurd e hne
        · have hfresh : ∀ k', base ≠ .arrElem s.arrs.length k' :=
            fun k' => ne_fresh_of_writable s base (writable_of_load_ref s base r hr) k'
          by_cases hbq : base = .arrElem q k
          · rcases hq with e | e
            · rw [e] at h3 hbq
              have hb' : ∀ l, l = Loc.arrElem a k →
                  (arrayLval s (tvToCell s base) k).2.load l = s.load l := by
                intro l hl
                subst hl
                simp only [State.load]
                rw [h3]
              exact hb' base hbq
            · rw [e] at hbq
              exact absurd hbq (hfresh k)
          · exact h6 base (fun e => hne e.symm) hbq hfresh
    refine ⟨q, (arrayLval s (tvToCell s base) k).2, ?_, hcell, h2, hq, h3, ?_, h5⟩
    · rw [hrun]
      simp only [ElemUArray, hex, hpres, Option.isSome_some, Outcome.bind, if_true,
        ElemUArrayImpl_eq, ElemDArrayPre_legal ext _ key s k hk, h1]
    · simp only [State.load, h3, hpres, Option.getD_some]

/-- Witness for C19: the base is the element "y" of the array held in slot 0,
which holds the array `["n" => 5]`; the key "b" is absent and the key "n" is
present. On the array `["a" => 1]` held in a frame slot, the present key "a"
gives the pointer to its entry and the entries stay the same. -/
theorem ElemU_array_base_witness :
    (∃ s', ElemU Externals.inert (.arrElem 0 (.str [121])) (.str (.static [98])) stNested
        = .ok .tvRef s' ∧
      s'.load .tvRef = .uninit ∧ s'.arrs = stNested.arrs ∧ s'.log = stNested.log ∧
      (tvToCell stNested (.arrElem 0 (.str [121])) ≠ .tvRef →
        s'.load (tvToCell stNested (.arrElem 0 (.str [121]))) = .arr 1)) ∧
    (∃ q s', ElemU Externals.inert (.arrElem 0 (.str [121])) (.str (.static [110])) stNested
        = .ok (.arrElem q (.str [110])) s' ∧
      tvToCell s' (.arrElem 0 (.str [121])) = tvToCell stNested (.arrElem 0 (.str [121])) ∧
      s'.load (tvToCell stNested (.arrElem 0 (.str [121]))) = .arr q ∧
      (q = 1 ∨ q = stNested.arrs.length) ∧
      (s'.getArr q).elems = (stNested.getArr 1).elems ∧
      s'.load (.arrElem q (.str [110])) = .int 5 ∧ s'.log = stNested.log) ∧
    (ElemU Externals.inert (.arrElem 0 (.str [121])) (.str (.static [110])) stNested).returned
      = some (.arrElem 1 (.str [110])) ∧
    (ElemU Externals.inert (.slot 0) (.str (.static [97])) stArrayA1).returned
      = some (.arrElem 0 (.str [97])) ∧
    ((ElemU Externals.inert (.slot 0) (.str (.static [97])) stArrayA1).state.getArr 0).elems
      = [(.str [97], .int 1)] :=
  ⟨(ElemU_array_base Externals.inert (.arrElem 0 (.str [121])) (.str (.static [98])) stNested 1
      (.str [98]) (by decide) (by decide)).1 (by decide),
    (ElemU_array_base Externals.inert (.arrElem 0 (.str [121])) (.str (.static [110])) stNested 1
      (.str [110]) (by decide) (by decide)).2 (.int 5) (by decide) (by decide),
    by decide, by decide, by decide⟩

theorem elemsGet_elemsSet_isSome (e : List (ArrayKey × TypedValue)) (k k' : ArrayKey)
    (v : TypedValue) (h : (elemsGet e k').isSome = true) :
    (elemsGet (elemsSet e k v) k').isSome = true := by
  by_cases hk : k = k'
  · subst hk
    rw [elemsGet_elemsSet_same]
    rfl
  · rw [elemsGet_elemsSet_other _ _ _ _ hk]
    exact h

/-- What `SetElemArray` leaves behind on a cell holding an array, wherever the
cell lives, for a legal key: the array `q` that the base holds afterwards (the
array of before, or a fresh copy) maps the key to the value and keeps the
other entries. -/
theorem SetElemArray_any (ext : Externals) (setResult : Bool) (b : Loc) (key : Key)
    (value : Loc) (s : State) (a : Nat) (k : ArrayKey)
    (hload : s.load b = .arr a) (ha : a < s.arrs.length)
    (hk : keyAsValue ext s key = some k) :
    ∃ q s', SetElemArray ext setResult b a key value s = .ok () s' ∧
      (q = a ∨ q = s.arrs.length) ∧ q < s'.arrs.length ∧
      (b ≠ .arrElem a k → s'.load b = .arr q) ∧
      elemsGet (s'.getArr q).elems k = some (s.load value) ∧
      (∀ k', k' ≠ k → elemsGet (s'.getArr q).elems k' = elemsGet (s.getArr a).elems k') ∧
      s'.strs = s.strs ∧ s'.log = s.log ∧
      (∀ l : Loc, l ≠ b → l ≠ .arrElem a k → (∀ k', l ≠ .arrElem s.arrs.length k') →
        s'.load l = s.load l) ∧
      (∀ l : Loc, s.writable l = true → s'.writable l = true) := by
  have hw : s.writable b = true := writable_of_load_arr s b a hload
  simp only [SetElemArray, SetElemArrayPre_legal ext setResult a key value _ s k hk]
  by_cases hc : ((s.getArr a).hasMultipleRefs || decide (s.load value = .arr a)) = true
  · have hne : s.arrs.length ≠ a := by omega
    have hl0 : ∀ ad : ArrayData, (s.allocArr ad).2.load b = .arr a := by
      intro ad
      rw [load_allocArr_writable _ _ _ hw]
      exact hload
    have hget : ∀ ad : ArrayData,
        (decRefArr ((s.allocArr ad).2.store b (.arr s.arrs.length)) a).getArr s.arrs.length
          = ad := by
      intro ad
      unfold decRefArr
      rw [getArr_setArr_other _ _ _ _ (fun e => hne e.symm),
        getArr_store_other _ _ _ _ (ne_fresh_of_writable s b hw), getArr_allocArr_new]
    simp only [hc, arraySet, if_true, Outcome.bind, arrayRefShuffle, allocArr_fst, hne,
      if_false, hl0]
    refine ⟨s.arrs.length, _, rfl, Or.inr rfl, ?_, ?_, ?_, ?_, ?_, ?_, ?_, ?_⟩
    · rw [arrs_length_decRefArr, arrs_length_store]
      simp [State.allocArr]
    · intro _
      rw [load_decRefArr]
      exact load_store_writable _ _ _ (writable_allocArr_mono _ _ _ hw)
    · rw [hget]
      exact elemsGet_elemsSet_same _ _ _
    · intro k' hk'
      rw [hget]
      exact elemsGet_elemsSet_other _ _ _ _ (fun e => hk' e.symm)
    · simp
    · simp
    · intro l hne' _ hfresh
      rw [load_decRefArr, load_store_other _ _ _ _ (fun e => hne' e.symm)]
      exact load_allocArr_ne _ _ _ hfresh
    · intro l hl
      rw [writable_decRefArr, writable_store]
      exact writable_allocArr_mono _ _ _ hl
  · have hc' : ((s.getArr a).hasMultipleRefs || decide (s.load value = .arr a)) = false := by
      simpa using hc
    simp only [hc', arraySet, Bool.false_eq_true, if_false, Outcome.bind, arrayRefShuffle,
      if_true]
    have hkeep : ∀ l : Loc, l ≠ .arrElem a k →
        (s.setArr a { s.getArr a with
          elems := elemsSet (s.getArr a).elems k (s.load value),
          nextKI := updNextKI (s.getArr a).nextKI k }).load l = s.load l := by
      intro l hl
      apply load_setArr_of_get
      intro k0 e
      apply elemsGet_elemsSet_other
      intro ek
      rw [ek] at hl
      exact hl e
    refine ⟨a, _, rfl, Or.inl rfl, ?_, ?_, ?_, ?_, ?_, ?_, ?_, ?_⟩
    · simpa [State.setArr] using ha
    · intro hb
      rw [hkeep b hb]
      exact hload
    · rw [getArr_setArr_same _ _ _ ha]
      exact elemsGet_elemsSet_same _ _ _
    · intro k' hk'
      rw [getArr_setArr_same _ _ _ ha]
      exact elemsGet_elemsSet_other _ _ _ _ (fun e => hk' e.symm)
    · rfl
    · rfl
    · intro l _ hl _
      exact hkeep l hl
    · intro l hl
      apply writable_setArr_mono _ _ _ _ _ hl
      intro k0 h0
      exact elemsGet_elemsSet_isSome _ _ _ _ h0

/-- C14: on an array base, wherever the base cell lives, `SetElem` with an Any
key stores the value under the empty-string key when the key is Null or
Uninit, under the integer itself when the key is Int, and under the integer
cast of the key when the key is Double, Bool or Resource; in none of these
cases is a diagnostic raised, so no "Illegal offset type". The array `q` that
receives the entry is the array of before or a fresh copy of it, it keeps the
entries of the other keys, and the base holds it afterwards (unless the base
cell is the very entry that was assigned). -/
theorem SetElem_any_key_cast (ext : Externals) (setResult : Bool) (base : Loc)
    (tv : TypedValue) (value : Loc) (s : State) (a : Nat) (k : ArrayKey)
    (hload : s.load (tvToCell s base) = .arr a) (ha : a < s.arrs.length)
    (hkey : ((tv = .uninit ∨ tv = .null) ∧ k = .str []) ∨
      (∃ n, tv = .int n ∧ k = .int n) ∨
      (((∃ d, tv = .dbl d) ∨ (∃ b, tv = .bool b) ∨ (∃ i, tv = .res i)) ∧
        k = .int (cellToInt ext s tv))) :
    ∃ q s', SetElem ext setResult base (.any tv) value s = .ok none s' ∧
      (q = a ∨ q = s.arrs.length) ∧
      (tvToCell s base ≠ .arrElem a k → s'.load (tvToCell s base) = .arr q) ∧
      elemsGet (s'.getArr q).elems k = some (s.load value) ∧
      (∀ k', k' ≠ k → elemsGet (s'.getArr q).elems k' = elemsGet (s.getArr a).elems k') ∧
      s'.log = s.log := by
  have hk : keyAsValue ext s (.any tv) = some k := by
    rcases hkey with ⟨h | h, hk⟩ | ⟨n, h, hk⟩ | ⟨⟨d, h⟩ | ⟨b, h⟩ | ⟨i, h⟩, hk⟩ <;>
      subst h <;> subst hk <;> rfl
  obtain ⟨q, s', hrun, hq, _, h1, h4, h5, _, h7, _, _⟩ :=
    SetElemArray_any ext setResult (tvToCell s base) (.any tv) value s a k hload ha hk
  refine ⟨q, s', ?_, hq, h1, h4, h5, h7⟩
  rw [SetElem_eq_SetElemArray ext setResult base _ value s a hload, hrun]
  rfl

/-- Witness for C14: the base is the element "y" of the array held in slot 0,
which holds the array `["n" => 5]`; the key Null and the right-hand side 9
give `["n" => 5, "" => 9]`. On the shared array `[0, 1, 2]` of a frame slot,
the key `true` stores 9 at index 1 of a fresh copy, the key Null stores 9
under "", and neither raises a diagnostic. -/
theorem SetElem_any_key_cast_witness :
    (∃ q s', SetElem Externals.inert true (.arrElem 0 (.str [121])) (.any .null) (.slot 1)
        stNested = .ok none s' ∧
      (q = 1 ∨ q = stNested.arrs.length) ∧
      (tvToCell stNested (.arrElem 0 (.str [121])) ≠ .arrElem 1 (.str []) →
        s'.load (tvToCell stNested (.arrElem 0 (.str [121]))) = .arr q) ∧
      elemsGet (s'.getArr q).elems (.str []) = some (stNested.load (.slot 1)) ∧
      (∀ k', k' ≠ .str [] →
        elemsGet (s'.getArr q).elems k' = elemsGet (stNested.getArr 1).elems k') ∧
      s'.log = stNested.log) ∧
    ((SetElem Externals.inert true (.arrElem 0 (.str [121])) (.any .null) (.slot 1)
        stNested).state.getArr 1).elems = [(.str [110], .int 5), (.str [], .int 9)] ∧
    (SetElem Externals.inert true (.arrElem 0 (.str [121])) (.any .null) (.slot 1)
        stNested).state.load (.arrElem 0 (.str [121])) = .arr 1 ∧
    ((SetElem Externals.inert true (.slot 0) (.any (.bool true)) (.slot 2)
        stSharedArray).state.getArr 1).elems
      = [(.int 0, .int 0), (.int 1, .int 9), (.int 2, .int 2)] ∧
    ((SetElem Externals.inert true (.slot 0) (.any .null) (.slot 2)
        stSharedArray).state.getArr 1).elems
      = [(.int 0, .int 0), (.int 1, .int 1), (.int 2, .int 2), (.str [], .int 9)] ∧
    ((SetElem Externals.inert true (.slot 0) (.any (.int 2)) (.slot 2)
        stSharedArray).state.getArr 1).elems
      = [(.int 0, .int 0), (.int 1, .int 1), (.int 2, .int 9)] ∧
    (SetElem Externals.inert true (.slot 0) (.any (.bool true)) (.slot 2)
        stSharedArray).state.log = [] :=
  ⟨SetElem_any_key_cast Externals.inert true (.arrElem 0 (.str [121])) .null (.slot 1) stNested
      1 (.str []) (by decide) (by decide) (Or.inl ⟨Or.inr rfl, rfl⟩),
    by decide, by decide, by decide, by decide, by decide, by decide⟩

/-- What `UnsetElemArray` leaves behind on a cell holding an array, wherever
the cell lives, for a legal key: the array `q` that the base holds afterwards
(the array of before, or a fresh copy) is unshared, has no entry under the key
and keeps the other entries. -/
theorem UnsetElemArray_any (ext : Externals) (b : Loc) (key : Key) (s : State) (a : Nat)
    (k : ArrayKey)
    (hload : s.load b = .arr a) (ha : a < s.arrs.length)
    (hk : keyAsValue ext s key = some k) :
    ∃ q s', UnsetElemArray ext b a key s = .ok () s' ∧
      (q = a ∨ q = s.arrs.length) ∧ q < s'.arrs.length ∧
      (b ≠ .arrElem q k → s'.load b = .arr q) ∧
      elemsGet (s'.getArr q).elems k = none ∧
      (∀ k', k' ≠ k → elemsGet (s'.getArr q).elems k' = elemsGet (s.getArr a).elems k') ∧
      (s'.getArr q).hasMultipleRefs = false ∧
      s'.strs = s.strs ∧ s'.log = s.log ∧
      (∀ l : Loc, l ≠ b → l ≠ .arrElem q k → (∀ k', l ≠ .arrElem s.arrs.length k') →
        s'.load l = s.load l) := by
  have hw : s.writable b = true := writable_of_load_arr s b a hload
  simp only [UnsetElemArray, UnsetElemArrayPre_legal ext a key _ s k hk]
  by_cases hc : (s.getArr a).hasMultipleRefs = true
  · have hne : s.arrs.length ≠ a := by omega
    have hl0 : ∀ ad : ArrayData, (s.allocArr ad).2.load b = .arr a := by
      intro ad
      rw [load_allocArr_writable _ _ _ hw]
      exact hload
    have hget : ∀ ad : ArrayData,
        (decRefArr ((s.allocArr ad).2.store b (.arr s.arrs.length)) a).getArr s.arrs.length
          = ad := by
      intro ad
      unfold decRefArr
      rw [getArr_setArr_other _ _ _ _ (fun e => hne e.symm),
        getArr_store_other _ _ _ _ (ne_fresh_of_writable s b hw), getArr_allocArr_new]
    simp only [hc, arrayRemove, if_true, Outcome.bind, allocArr_fst, ne_eq, hne,
      not_false_eq_true, hl0]
    refine ⟨s.arrs.length, _, rfl, Or.inr rfl, ?_, ?_, ?_, ?_, ?_, ?_, ?_, ?_⟩
    · rw [arrs_length_decRefArr, arrs_length_store]
      simp [State.allocArr]
    · intro _
      rw [load_decRefArr]
      exact load_store_writable _ _ _ (writable_allocArr_mono _ _ _ hw)
    · rw [hget]
      exact elemsGet_elemsRemove_same _ _
    · intro k' hk'
      rw [hget]
      exact elemsGet_elemsRemove_other _ _ _ hk'
    · rw [hget]
      rfl
    · simp
    · simp
    · intro l hne' _ hfresh
      rw [load_decRefArr, load_store_other _ _ _ _ (fun e => hne' e.symm)]
      exact load_allocArr_ne _ _ _ hfresh
  · have hc' : (s.getArr a).hasMultipleRefs = false := by simpa using hc
    simp only [hc', arrayRemove, Bool.false_eq_true, if_false, Outcome.bind, ne_eq,
      not_true_eq_false]
    have hkeep : ∀ l : Loc, l ≠ .arrElem a k →
        (s.setArr a { s.getArr a with elems := elemsRemove (s.getArr a).elems k }).load l
          = s.load l := by
      intro l hl
      apply load_setArr_of_get
      intro k0 e
      apply elemsGet_elemsRemove_other
      intro ek
      rw [ek] at e
      exact hl e
    refine ⟨a, _, rfl, Or.inl rfl, ?_, ?_, ?_, ?_, ?_, ?_, ?_, ?_⟩
    · simpa [State.setArr] using ha
    · intro hb
      rw [hkeep b hb]
      exact hload
    · rw [getArr_setArr_same _ _ _ ha]
      exact elemsGet_elemsRemove_same _ _
    · intro k' hk'
      rw [getArr_setArr_same _ _ _ ha]
      exact elemsGet_elemsRemove_other _ _ _ hk'
    · rw [getArr_setArr_same _ _ _ ha]
      exact hc'
    · rfl
    · rfl
    · intro l _ hl _
      exact hkeep l hl

/-- On a base cell that holds Uninit `UnsetElem` returns at once. -/
theorem UnsetElem_of_uninit (ext : Externals) (base : Loc) (key : Key) (s : State)
    (h : s.load base = .uninit) : UnsetElem ext base key s = .ok () s := by
  have e : tvToCell s base = base := by simp [tvToCell, h]
  simp only [UnsetElem, h, UnsetElemSlow, e]

/-- For an Any key without a canonical form `UnsetElem` on an array base does
what the key conversion of the container does, and nothing else. -/
theorem UnsetElem_array_bad_key (ext : Externals) (base : Loc) (tv : TypedValue) (s : State)
    (a : Nat) (hload : s.load (tvToCell s base) = .arr a) (hbad : toKey ext s tv = none) :
    UnsetElem ext base (.any tv) s = (ext.toKeyBadKey tv s).bind fun _ s1 => .ok () s1 := by
  rw [UnsetElem_eq_UnsetElemArray ext base _ s a hload]
  cases tv <;> simp [toKey] at hbad <;>
    (simp only [UnsetElemArray, UnsetElemArrayPre, toKey]
     cases ext.toKeyBadKey _ s <;> simp [Outcome.bind])

/-- C17 (amended): for a base tagged Uninit, Null, Bool, Int, Double or
Resource `UnsetElem` returns and changes nothing, so a second application
changes nothing either; for an array base, wherever the base cell lives, and a
key that has a canonical form `UnsetElem` returns, the key is absent
afterwards from the array `q` of the base (the array of before, or its
unshared copy; the base holds it unless the base cell was itself the removed
entry) while the other keys are as before, and a second application with the
same key returns and leaves the whole state as it was after the first; for an
array base and an Any key without a canonical form (an Array or an Object)
`UnsetElem` removes nothing and does only what the key conversion of the
container does. -/
theorem UnsetElem_twice (ext : Externals) (base : Loc) (key : Key) (s : State) :
    ((s.load (tvToCell s base)).m_type ∈
        [DataType.KindOfUninit, .KindOfNull, .KindOfBoolean, .KindOfInt64, .KindOfDouble,
          .KindOfResource] →
      UnsetElem ext base key s = .ok () s) ∧
    (∀ a k, s.load (tvToCell s base) = .arr a → a < s.arrs.length →
      keyAsValue ext s key = some k →
      ∃ s1 q, UnsetElem ext base key s = .ok () s1 ∧
        (q = a ∨ q = s.arrs.length) ∧
        (tvToCell s base ≠ .arrElem q k → s1.load (tvToCell s base) = .arr q) ∧
        elemsGet (s1.getArr q).elems k = none ∧
        (∀ k', k' ≠ k → elemsGet (s1.getArr q).elems k' = elemsGet (s.getArr a).elems k') ∧
        UnsetElem ext base key s1 = .ok () s1) ∧
    (∀ a tv, s.load (tvToCell s base) = .arr a → key = .any tv → toKey ext s tv = none →
      UnsetElem ext base key s = (ext.toKeyBadKey tv s).bind fun _ s1 => .ok () s1) := by
  refine ⟨?_, ?_, ?_⟩
  · intro hty
    have hslow : UnsetElem ext base key s = UnsetElemSlow ext base key s := by
      unfold UnsetElem
      cases hb : s.load base with
      | arr a =>
        have : tvToCell s base = base := by simp [tvToCell, hb]
        rw [this, hb] at hty
        simp [TypedValue.m_type] at hty
      | _ => rfl
    rw [hslow]
    unfold UnsetElemSlow
    cases hl : s.load (tvToCell s base) <;> simp [hl, TypedValue.m_type] at hty ⊢
  · intro a k hload ha hk
    obtain ⟨q, s1, hrun, hqa, hq, hl1, habs, hoth, hone, hstrs, _, hfr⟩ :=
      UnsetElemArray_any ext (tvToCell s base) key s a k hload ha hk
    have hk1 : keyAsValue ext s1 key = some k := by
      rw [keyAsValue_congr ext s s1 key (by intro p; simp [State.getStr, hstrs])]
      exact hk
    have hB : ∀ l, l = Loc.arrElem q k → s1.load l = .uninit := by
      intro l hl
      subst hl
      simp [State.load, habs]
    have harr : s1.load (tvToCell s1 base) = .arr q →
        UnsetElem ext base key s1 = .ok () s1 := by
      intro h
      rw [UnsetElem_eq_UnsetElemArray ext base key s1 q h]
      exact UnsetElemArray_absent ext _ key s1 q k hq hk1 habs hone
    refine ⟨s1, q, ?_, hqa, hl1, habs, hoth, ?_⟩
    · rw [UnsetElem_eq_UnsetElemArray ext base key s a hload]
      exact hrun
    · by_cases hc : base = .arrElem q k
      · exact UnsetElem_of_uninit ext base key s1 (hB base hc)
      · rcases tvToCell_cases s base with e | ⟨r, hr, e⟩
        · have h1 : s1.load base = .arr q := by
            have := hl1 (by rw [e]; exact hc)
            rwa [e] at this
          apply harr
          rw [tvToCell_of_arr s1 base q h1]
          exact h1
        · have hbc : base ≠ tvToCell s base := by
            intro h'
            rw [← h', hr] at hload
            simp at hload
          have hb1 : s1.load base = .ref r := by
            rw [hfr base hbc hc
              (fun k' => ne_fresh_of_writable s base (writable_of_load_ref s base r hr) k')]
            exact hr
          have hcell : tvToCell s1 base = .refInner r := by simp [tvToCell, hb1]
          apply harr
          rw [hcell, ← e]
          exact hl1 (by rw [e]; simp)
  · intro a tv hload hkey hbad
    subst hkey
    exact UnsetElem_array_bad_key ext base tv s a hload hbad

/-- Witness for C17 (amended): the base is the element "y" of the array held
in slot 0, which holds the array `["n" => 5]`; unsetting "n" leaves it empty,
and unsetting "n" again changes nothing. The same on the array `["a" => 1]`
held in a frame slot. -/
theorem UnsetElem_twice_witness :
    (∃ s1 q, UnsetElem Externals.inert (.arrElem 0 (.str [121])) (.str (.static [110])) stNested
        = .ok () s1 ∧
      (q = 1 ∨ q = stNested.arrs.length) ∧
      (tvToCell stNested (.arrElem 0 (.str [121])) ≠ .arrElem q (.str [110]) →
        s1.load (tvToCell stNested (.arrElem 0 (.str [121]))) = .arr q) ∧
      elemsGet (s1.getArr q).elems (.str [110]) = none ∧
      (∀ k', k' ≠ .str [110] →
        elemsGet (s1.getArr q).elems k' = elemsGet (stNested.getArr 1).elems k') ∧
      UnsetElem Externals.inert (.arrElem 0 (.str [121])) (.str (.static [110])) s1
        = .ok () s1) ∧
    ((UnsetElem Externals.inert (.arrElem 0 (.str [121])) (.str (.static [110]))
        stNested).state.getArr 1).elems = [] ∧
    (UnsetElem Externals.inert (.arrElem 0 (.str [121])) (.str (.static [110]))
        stNested).state.load (.arrElem 0 (.str [121])) = .arr 1 ∧
    ((UnsetElem Externals.inert (.slot 0) (.str (.static [97])) stArrayA1).state.getArr 0).elems
      = [] ∧
    UnsetElem Externals.inert (.slot 0) (.str (.static [97]))
        (UnsetElem Externals.inert (.slot 0) (.str (.static [97])) stArrayA1).state
      = .ok () (UnsetElem Externals.inert (.slot 0) (.str (.static [97])) stArrayA1).state :=
  ⟨(UnsetElem_twice Externals.inert (.arrElem 0 (.str [121])) (.str (.static [110]))
      stNested).2.1 1 (.str [110]) (by decide) (by decide) (by decide),
    by decide, by decide, by decide, by decide⟩

/-- C17 as stated fails. On an object base `UnsetElem` hands the key to the
user-defined `offsetUnset` handler of the object, and with a handler that adds
a property at every call both applications return normally while the second
leaves the object in another state than the first did. On the array base
`["a" => 1]` with a key that has no canonical form (here an array) both
applications return normally, no entry is removed, and the second
application is not without effect either: the key conversion of the
container reports the illegal key once more. -/
theorem UnsetElem_twice_counterexample :
    ((UnsetElem Externals.countingUnset (.slot 0) (.int 0) stObject).returned = some () ∧
    (UnsetElem Externals.countingUnset (.slot 0) (.int 0)
      (UnsetElem Externals.countingUnset (.slot 0) (.int 0) stObject).state).returned
        = some () ∧
    ((UnsetElem Externals.countingUnset (.slot 0) (.int 0) stObject).state.getObj 0).props
      = [([110], .null)] ∧
    ((UnsetElem Externals.countingUnset (.slot 0) (.int 0)
      (UnsetElem Externals.countingUnset (.slot 0) (.int 0) stObject).state).state.getObj 0).props
      = [([110], .null), ([110], .null)]) ∧
    ((UnsetElem Externals.warnBadKey (.slot 0) (.any (.arr 0)) stArrayA1).returned = some () ∧
    (UnsetElem Externals.warnBadKey (.slot 0) (.any (.arr 0))
      (UnsetElem Externals.warnBadKey (.slot 0) (.any (.arr 0)) stArrayA1).state).returned
        = some () ∧
    ((UnsetElem Externals.warnBadKey (.slot 0) (.any (.arr 0)) stArrayA1).state.getArr 0).elems
      = [(.str [97], .int 1)] ∧
    (UnsetElem Externals.warnBadKey (.slot 0) (.any (.arr 0)) stArrayA1).state.log
      = [⟨.warning, "Illegal offset type", .none⟩] ∧
    (UnsetElem Externals.warnBadKey (.slot 0) (.any (.arr 0))
      (UnsetElem Externals.warnBadKey (.slot 0) (.any (.arr 0)) stArrayA1).state).state.log
      = [⟨.warning, "Illegal offset type", .none⟩,
         ⟨.warning, "Illegal offset type", .none⟩]) := by
  decide

/-- C7 (amended): on an array base, wherever the base cell lives, a Str key is
canonicalised identically by `Elem`, `SetElem`, `UnsetElem` and
`IssetEmptyElem`: with `k` the Int key `n` when the string is the
strictly-integer decimal form of `n`, and the string itself otherwise, `Elem`
returns the entry under `k` (the null sentinel when there is none), `SetElem`
stores the value under `k` and keeps the other entries, `UnsetElem` removes
the entry under `k` and keeps the others, and `IssetEmptyElem` tests the
entry under `k`; a string key differs from every Int key. So `SetElem` with a
strictly-integer string followed by `Elem` with its integer observes the
written value, unless the base slot is itself the element `k` of the array
it refers to; and "10" is the integer 10, while "010", " 10" and "10a" are
string keys distinct from 10 and from each other. -/
theorem Str_key_canonicalisation (ext : Externals) (base : Loc) (sd : StrRef) (value : Loc)
    (s : State) (a : Nat) (k : ArrayKey)
    (hload : s.load (tvToCell s base) = .arr a) (ha : a < s.arrs.length)
    (hk : (∃ n, isStrictlyInteger (sd.bytes s) = some n ∧ k = .int n) ∨
      (isStrictlyInteger (sd.bytes s) = none ∧ k = .str (sd.bytes s))) :
    (∀ warn v, elemsGet (s.getArr a).elems k = some v → v ≠ .uninit →
      Elem ext warn base (.str sd) s = .ok (.arrElem a k) s ∧ s.load (.arrElem a k) = v) ∧
    (∀ warn, elemsGet (s.getArr a).elems k = none →
      (Elem ext warn base (.str sd) s).returned = some .initNullVariant) ∧
    (∀ sr, ∃ q s1, SetElem ext sr base (.str sd) value s = .ok none s1 ∧
      (q = a ∨ q = s.arrs.length) ∧
      (tvToCell s base ≠ .arrElem a k → s1.load (tvToCell s base) = .arr q) ∧
      elemsGet (s1.getArr q).elems k = some (s.load value) ∧
      (∀ k', k' ≠ k → elemsGet (s1.getArr q).elems k' = elemsGet (s.getArr a).elems k') ∧
      (∀ n warn, k = .int n → s.load value ≠ .uninit → base ≠ .arrElem a k →
        ∃ p s2, Elem ext warn base (.int n) s1 = .ok p s2 ∧ s2.load p = s.load value)) ∧
    (∃ q s1, UnsetElem ext base (.str sd) s = .ok () s1 ∧
      (q = a ∨ q = s.arrs.length) ∧
      (tvToCell s base ≠ .arrElem q k → s1.load (tvToCell s base) = .arr q) ∧
      elemsGet (s1.getArr q).elems k = none ∧
      (∀ k', k' ≠ k → elemsGet (s1.getArr q).elems k' = elemsGet (s.getArr a).elems k')) ∧
    (∀ ue, IssetEmptyElem ext ue base (.str sd) s
      = .ok (if ue = true then !cellToBool ext s (s.load (tvToCell s (.arrElem a k)))
             else !isNullType (s.load (tvToCell s (.arrElem a k))).m_type) s) ∧
    (isStrictlyInteger (sd.bytes s) = none → ∀ m : Int, k ≠ .int m) ∧
    (isStrictlyInteger [49, 48] = some 10 ∧
      isStrictlyInteger [48, 49, 48] = none ∧
      isStrictlyInteger [32, 49, 48] = none ∧
      isStrictlyInteger [49, 48, 97] = none ∧
      ([48, 49, 48] : List Byte) ≠ [32, 49, 48] ∧
      ([48, 49, 48] : List Byte) ≠ [49, 48, 97] ∧
      ([32, 49, 48] : List Byte) ≠ [49, 48, 97]) := by
  have hk' : keyAsValue ext s (.str sd) = some k := by
    rcases hk with ⟨n, hi, e⟩ | ⟨hi, e⟩ <;> subst e <;> simp [keyAsValue, strKey, hi]
  refine ⟨?_, ?_, ?_, ?_, ?_, ?_, ?_⟩
  · intro warn v hv hne
    exact (Elem_array_lookup ext warn base (.str sd) s a k hload hk').1 v hv hne
  · intro warn hnone
    obtain ⟨s', hrun, _⟩ := (Elem_array_lookup ext warn base (.str sd) s a k hload hk').2 hnone
    rw [hrun]
    rfl
  · intro sr
    obtain ⟨q, s1, hrun, hq, _, h1, h4, h5, _, _, h6, _⟩ :=
      SetElemArray_any ext sr (tvToCell s base) (.str sd) value s a k hload ha hk'
    refine ⟨q, s1, ?_, hq, h1, h4, h5, ?_⟩
    · rw [SetElem_eq_SetElemArray ext sr base _ value s a hload, hrun]
      rfl
    · intro n warn hkn hv hbk
      have hck : tvToCell s base ≠ .arrElem a k := by
        rcases tvToCell_cases s base with e | ⟨r, _, e⟩
        · rw [e]; exact hbk
        · rw [e]; simp
      have hl1 : s1.load (tvToCell s base) = .arr q := h1 hck
      have hcell : tvToCell s1 base = tvToCell s base := by
        apply tvToCell_eq_of s s1 base
        · intro r; rw [hload]; simp
        · intro r; rw [hl1]; simp
        · intro hne
          rcases tvToCell_cases s base with e | ⟨r, hr, _⟩
          · exact absurd e hne
          · exact h6 base (fun e => hne e.symm) hbk
              (fun k' => ne_fresh_of_writable s base (writable_of_load_ref s base r hr) k')
      have hload1 : s1.load (tvToCell s1 base) = .arr q := by rw [hcell]; exact hl1
      rw [hkn] at h4
      obtain ⟨hrun2, hval⟩ :=
        (Elem_array_lookup ext warn base (.int n) s1 q (.int n) hload1 rfl).1 _ h4 hv
      exact ⟨_, _, hrun2, hval⟩
  · obtain ⟨q, s1, hrun, hq, _, hl1, habs, hoth, _⟩ :=
      UnsetElemArray_any ext (tvToCell s base) (.str sd) s a k hload ha hk'
    refine ⟨q, s1, ?_, hq, hl1, habs, hoth⟩
    rw [UnsetElem_eq_UnsetElemArray ext base _ s a hload]
    exact hrun
  · intro ue
    rw [IssetEmptyElem_eq_IssetEmptyElemArray ext ue base _ s a hload]
    simp only [IssetEmptyElemArray, ElemArray, ElemArrayPre_legal ext a (.str sd) s k hk',
      Outcome.bind, Bool.false_eq_true, if_false]
    cases hg : elemsGet (s.getArr a).elems k with
    | none =>
      have h1 : nvGetOrNullVariant s a k = .nullVariant := by
        simp [nvGetOrNullVariant, nvGet, hg]
      have h2 : s.load (.arrElem a k) = .uninit := by simp [State.load, hg]
      have h3 : tvToCell s (.arrElem a k) = .arrElem a k := by simp [tvToCell, h2]
      have h4 : tvToCell s .initNullVariant = .initNullVariant := by
        simp [tvToCell, State.load]
      rw [h1, h3, h2]
      simp only [State.load, TypedValue.m_type, if_true, h4]
      cases ue <;> simp [cellToBool, isNullType, TypedValue.m_type]
    | some v =>
      have h1 : nvGetOrNullVariant s a k = .arrElem a k := by
        simp [nvGetOrNullVariant, nvGet, hg]
      have h2 : s.load (.arrElem a k) = v := by simp [State.load, hg]
      rw [h1, h2]
      by_cases hv : v = .uninit
      · subst hv
        have h3 : tvToCell s (.arrElem a k) = .arrElem a k := by simp [tvToCell, h2]
        have h4 : tvToCell s .initNullVariant = .initNullVariant := by
          simp [tvToCell, State.load]
        rw [h3, h2]
        simp only [TypedValue.m_type, if_true, h4, State.load]
        cases ue <;> simp [cellToBool, isNullType, TypedValue.m_type]
      · have hty : v.m_type ≠ .KindOfUninit := by
          cases v <;> simp [TypedValue.m_type] at hv ⊢
        simp only [hty, if_false]
        cases ue <;> simp
  · intro hi m
    rcases hk with ⟨n, hi', _⟩ | ⟨_, e⟩
    · rw [hi] at hi'
      cases hi'
    · rw [e]
      simp
  · decide

/-- Witness for C7 (amended): on the shared array `[0, 1, 2]` of slot 0 the
Str key "1" is the Int key 1 for the four operations: `Elem` returns the
pointer to the entry 1, `SetElem` of 9 overwrites the entry 1 of the copy,
`UnsetElem` removes the entry 1 of the copy, `IssetEmptyElem` reports it
set and not empty. `SetElem` with "10" followed by `Elem` with 10 observes
the 9. The Str key "01" is a string key: nothing is set under it, and
`SetElem` stores under the string. -/
theorem Str_key_canonicalisation_witness :
    (∀ sr, ∃ q s1, SetElem Externals.inert sr (.slot 0) (.str (.static [49, 48])) (.slot 2)
        stSharedArray = .ok none s1 ∧
      (q = 0 ∨ q = stSharedArray.arrs.length) ∧
      (tvToCell stSharedArray (.slot 0) ≠ .arrElem 0 (.int 10) →
        s1.load (tvToCell stSharedArray (.slot 0)) = .arr q) ∧
      elemsGet (s1.getArr q).elems (.int 10) = some (stSharedArray.load (.slot 2)) ∧
      (∀ k', k' ≠ .int 10 →
        elemsGet (s1.getArr q).elems k' = elemsGet (stSharedArray.getArr 0).elems k') ∧
      (∀ n warn, ArrayKey.int 10 = .int n → stSharedArray.load (.slot 2) ≠ .uninit →
        Loc.slot 0 ≠ .arrElem 0 (.int 10) →
        ∃ p s2, Elem Externals.inert warn (.slot 0) (.int n) s1 = .ok p s2 ∧
          s2.load p = stSharedArray.load (.slot 2))) ∧
    (∃ q s1, UnsetElem Externals.inert (.arrElem 0 (.str [121])) (.str (.static [110]))
        stNested = .ok () s1 ∧
      (q = 1 ∨ q = stNested.arrs.length) ∧
      (tvToCell stNested (.arrElem 0 (.str [121])) ≠ .arrElem q (.str [110]) →
        s1.load (tvToCell stNested (.arrElem 0 (.str [121]))) = .arr q) ∧
      elemsGet (s1.getArr q).elems (.str [110]) = none ∧
      (∀ k', k' ≠ .str [110] →
        elemsGet (s1.getArr q).elems k' = elemsGet (stNested.getArr 1).elems k')) ∧
    (Elem Externals.inert true (.slot 0) (.str (.static [49])) stSharedArray
      = .ok (.arrElem 0 (.int 1)) stSharedArray ∧
    ((SetElem Externals.inert true (.slot 0) (.str (.static [49])) (.slot 2)
        stSharedArray).state.getArr 1).elems
      = [(.int 0, .int 0), (.int 1, .int 9), (.int 2, .int 2)] ∧
    ((UnsetElem Externals.inert (.slot 0) (.str (.static [49])) stSharedArray).state.getArr
        1).elems
      = [(.int 0, .int 0), (.int 2, .int 2)] ∧
    (IssetEmptyElem Externals.inert false (.slot 0) (.str (.static [49])) stSharedArray).returned
      = some true ∧
    (IssetEmptyElem Externals.inert true (.slot 0) (.str (.static [49])) stSharedArray).returned
      = some false ∧
    (Elem Externals.inert false (.slot 0) (.int 10)
      (SetElem Externals.inert true (.slot 0) (.str (.static [49, 48])) (.slot 2)
        stSharedArray).state).returned = some (.arrElem 1 (.int 10)) ∧
    (SetElem Externals.inert true (.slot 0) (.str (.static [49, 48])) (.slot 2)
        stSharedArray).state.load (.arrElem 1 (.int 10)) = .int 9 ∧
    (Elem Externals.inert false (.slot 0) (.str (.static [48, 49])) stSharedArray).returned
      = some .initNullVariant ∧
    (IssetEmptyElem Externals.inert false (.slot 0) (.str (.static [48, 49]))
      stSharedArray).returned = some false ∧
    ((UnsetElem Externals.inert (.slot 0) (.str (.static [48, 49])) stSharedArray).state.getArr
        1).elems
      = [(.int 0, .int 0), (.int 1, .int 1), (.int 2, .int 2)] ∧
    ((SetElem Externals.inert true (.slot 0) (.str (.static [48, 49])) (.slot 2)
        stSharedArray).state.getArr 1).elems
      = [(.int 0, .int 0), (.int 1, .int 1), (.int 2, .int 2), (.str [48, 49], .int 9)]) :=
  ⟨(Str_key_canonicalisation Externals.inert (.slot 0) (.static [49, 48]) (.slot 2)
      stSharedArray 0 (.int 10) (by decide) (by decide)
      (Or.inl ⟨10, by decide, rfl⟩)).2.2.1,
    (Str_key_canonicalisation Externals.inert (.arrElem 0 (.str [121])) (.static [110]) (.slot 1)
      stNested 1 (.str [110]) (by decide) (by decide)
      (Or.inr ⟨by decide, rfl⟩)).2.2.2.1,
    by decide⟩

/-- C7 as worded fails in one corner. In the state that `$a[0] = &$a` leaves,
the base is the element 0 of the array, a reference to the box that holds the
array. `SetElem` with the Str key "0" unboxes the base, finds the array and
stores the value 5 under the Int key 0, which overwrites the base cell
itself; the following `Elem` with the Int key 0 then sees an integer base
and returns the null sentinel, not the written value. -/
theorem Str_key_canonicalisation_counterexample :
    stRefCycle.load (tvToCell stRefCycle (.arrElem 0 (.int 0))) = .arr 0 ∧
    isStrictlyInteger ((StrRef.static [48]).bytes stRefCycle) = some 0 ∧
    (SetElem Externals.inert true (.arrElem 0 (.int 0)) (.str (.static [48])) (.slot 1)
      stRefCycle).returned = some none ∧
    ((SetElem Externals.inert true (.arrElem 0 (.int 0)) (.str (.static [48])) (.slot 1)
      stRefCycle).state.getArr 0).elems = [(.int 0, .int 5)] ∧
    (Elem Externals.inert false (.arrElem 0 (.int 0)) (.int 0)
      (SetElem Externals.inert true (.arrElem 0 (.int 0)) (.str (.static [48])) (.slot 1)
        stRefCycle).state).returned = some .initNullVariant ∧
    (Elem Externals.inert false (.arrElem 0 (.int 0)) (.int 0)
      (SetElem Externals.inert true (.arrElem 0 (.int 0)) (.str (.static [48])) (.slot 1)
        stRefCycle).state).state.load .initNullVariant = .null := by
  decide

/-- What `SetElemEmptyish` does on a cell that exists and holds an empty-ish
value, wherever the cell lives, for a legal key: the cell holds a fresh array
whose only entry is the key mapped to the value. -/
theorem SetElemEmptyish_any (ext : Externals) (b : Loc) (key : Key) (value : Loc) (s : State)
    (k : ArrayKey)
    (hemp : isEmptyish s (s.load b) = true) (hw : s.writable b = true)
    (hvw : s.writable value = true) (hvb : value ≠ b)
    (hk : keyAsValue ext s key = some k) :
    ∃ s', SetElemEmptyish ext b key value s = .ok () s' ∧
      s'.load b = .arr s.arrs.length ∧
      (s'.getArr s.arrs.length).elems = [(k, s.load value)] ∧
      s'.load value = s.load value ∧
      s'.log = s.log := by
  obtain ⟨h1, hget, hlen, h3, h5, h6, _⟩ := assignFreshArray_any s b hemp hw
  have hkey : toKey ext (assignFreshArray s b) (initScratchKey key) = some k := by
    rw [toKey_congr ext s _ _ h5, toKey_initScratchKey, hk]
  have hlt : s.arrs.length < (assignFreshArray s b).arrs.length := by
    rw [hlen]
    omega
  have hval : (assignFreshArray s b).load value = s.load value :=
    h6 value hvb (ne_fresh_of_writable s value hvw)
  unfold SetElemEmptyish
  simp only [arraySetVariant, hkey, h1, hget, arraySet, ArrayData.hasMultipleRefs, hval]
  simp only [Nat.lt_irrefl, decide_False, Bool.false_eq_true, if_false, if_true]
  refine ⟨_, rfl, ?_, ?_, ?_, ?_⟩
  · rw [load_setArr_ne _ _ _ _ (ne_fresh_of_writable s b hw)]
    exact h1
  · rw [getArr_setArr_same _ _ _ hlt]
    rfl
  · rw [load_setArr_ne _ _ _ _ (ne_fresh_of_writable s value hvw)]
    exact hval
  · exact h3

/-- What `SetNewElemEmptyish` does on a cell that exists, wherever it lives:
the cell holds a fresh array whose only entry is the value at index 0. -/
theorem SetNewElemEmptyish_any (b : Loc) (value : Loc) (s : State)
    (hw : s.writable b = true) :
    ∃ s', SetNewElemEmptyish b value s = .ok () s' ∧
      s'.load b = .arr s.arrs.length ∧
      (s'.getArr s.arrs.length).elems = [(.int 0, s.load value)] ∧
      s'.log = s.log := by
  unfold SetNewElemEmptyish
  refine ⟨_, rfl, ?_, ?_, ?_⟩
  · simp only [load_record, load_tvRefcountedDecRef, allocArr_fst]
    exact load_store_writable _ _ _ (writable_allocArr_mono _ _ _ hw)
  · simp only [getArr_record, allocArr_fst]
    rw [elems_getArr_tvRefcountedDecRef, getArr_record,
      getArr_store_other _ _ _ _ (ne_fresh_of_writable s b hw), getArr_allocArr_new]
  · simp [log_tvRefcountedDecRef, log_store]

/-- C23: for an empty-string base, wherever the base cell lives, and a legal
key, `SetElem` and `SetNewElem` leave the base slot as they leave it when the
same slot holds Null instead: the slot holds a fresh array whose only entry is
the key mapped to the value (for `SetNewElem`, index 0 mapped to the value),
and the string is no longer in the slot.  `SetElem` with `setResult = false`
ends, on the string only, by throwing `InvalidSetMException` carrying the
value, after the slot has been written. -/
theorem SetElem_empty_string_as_null (ext : Externals) (setResult : Bool) (base : Loc)
    (key : Key) (value : Loc) (s : State) (k : ArrayKey)
    (hstr : isStringType (s.load (tvToCell s base)).m_type = true)
    (hempty : cellBytes s (s.load (tvToCell s base)) = [])
    (hw : s.writable (tvToCell s base) = true)
    (hvw : s.writable value = true) (hvb : value ≠ tvToCell s base)
    (hk : keyAsValue ext s key = some k) :
    (∃ s', (if setResult = true then SetElem ext setResult base key value s = .ok none s'
            else SetElem ext setResult base key value s = .invalidSetM (s.load value) s') ∧
        s'.load (tvToCell s base) = .arr s.arrs.length ∧
        (s'.getArr s.arrs.length).elems = [(k, s.load value)]) ∧
    (∃ s', SetElem ext setResult base key value (s.store (tvToCell s base) .null)
          = .ok none s' ∧
        s'.load (tvToCell s base) = .arr s.arrs.length ∧
        (s'.getArr s.arrs.length).elems = [(k, s.load value)]) ∧
    (∃ s', SetNewElem ext setResult base value s = .ok () s' ∧
        s'.load (tvToCell s base) = .arr s.arrs.length ∧
        (s'.getArr s.arrs.length).elems = [(.int 0, s.load value)]) ∧
    (∃ s', SetNewElem ext setResult base value (s.store (tvToCell s base) .null) = .ok () s' ∧
        s'.load (tvToCell s base) = .arr s.arrs.length ∧
        (s'.getArr s.arrs.length).elems = [(.int 0, s.load value)]) := by
  have hemp : isEmptyish s (s.load (tvToCell s base)) = true :=
    isEmptyish_of_empty_string s _ hstr hempty
  -- the same state with Null in the base cell
  have hcellN : tvToCell (s.store (tvToCell s base) .null) base = tvToCell s base :=
    tvToCell_store_cell s base .null (by intro r h; cases h) hw
  have hloadN : (s.store (tvToCell s base) .null).load (tvToCell s base) = .null :=
    load_store_writable _ _ _ hw
  have hwN : (s.store (tvToCell s base) .null).writable (tvToCell s base) = true := by
    rw [writable_store]
    exact hw
  have hvwN : (s.store (tvToCell s base) .null).writable value = true := by
    rw [writable_store]
    exact hvw
  have hvalN : (s.store (tvToCell s base) .null).load value = s.load value :=
    load_store_other _ _ _ _ (fun e => hvb e.symm)
  have harrsN : (s.store (tvToCell s base) .null).arrs.length = s.arrs.length :=
    arrs_length_store _ _ _
  have hkN : keyAsValue ext (s.store (tvToCell s base) .null) key = some k := by
    rw [keyAsValue_congr ext s _ key (by intro p; rw [getStr_store])]
    exact hk
  have hempN : isEmptyish (s.store (tvToCell s base) .null)
      ((s.store (tvToCell s base) .null).load (tvToCell s base)) = true := by
    rw [hloadN]
    rfl
  refine ⟨?_, ?_, ?_, ?_⟩
  · obtain ⟨s1, hrun, h1, h2, h3, _⟩ :=
      SetElemEmptyish_any ext (tvToCell s base) key value s k hemp hw hvw hvb hk
    have hlen : (cellBytes s (s.load (tvToCell s base))).length = 0 := by
      rw [hempty]
      rfl
    rw [SetElem_eq_SetElemString ext setResult base key value s hstr]
    unfold SetElemString
    simp only [hlen, if_true, hrun, Outcome.bind]
    cases setResult with
    | true => exact ⟨s1, by simp, h1, h2⟩
    | false =>
      refine ⟨tvRefcountedIncRef s1 (s1.load value), by simp [h3], ?_, ?_⟩
      · rw [load_tvRefcountedIncRef]
        exact h1
      · rw [elems_getArr_tvRefcountedIncRef]
        exact h2
  · obtain ⟨s1, hrun, h1, h2, _, _⟩ :=
      SetElemEmptyish_any ext (tvToCell s base) key value (s.store (tvToCell s base) .null) k
        hempN hwN hvwN hvb hkN
    rw [harrsN] at h1 h2
    rw [hvalN] at h2
    refine ⟨s1, ?_, h1, h2⟩
    rw [SetElem_eq_SetElemSlow _ _ _ _ _ _ (by rw [hcellN, hloadN]; intro a h; cases h)]
    unfold SetElemSlow
    simp only [hcellN, hloadN, hrun, Outcome.bind]
  · obtain ⟨s1, hrun, h1, h2, _⟩ := SetNewElemEmptyish_any (tvToCell s base) value s hw
    refine ⟨s1, ?_, h1, h2⟩
    unfold SetNewElem
    have hlen : (cellBytes s (s.load (tvToCell s base))).length = 0 := by
      rw [hempty]
      rfl
    cases hl : s.load (tvToCell s base) <;>
      simp only [hl, isStringType, TypedValue.m_type] at hstr hlen ⊢ <;>
      first
        | (simp only [SetNewElemString, hl, hlen, if_true]; exact hrun)
        | (simp at hstr)
  · obtain ⟨s1, hrun, h1, h2, _⟩ :=
      SetNewElemEmptyish_any (tvToCell s base) value (s.store (tvToCell s base) .null) hwN
    rw [harrsN] at h1 h2
    rw [hvalN] at h2
    refine ⟨s1, ?_, h1, h2⟩
    unfold SetNewElem
    simp only [hcellN, hloadN]
    exact hrun

/-- Witness for C23: the base is the property "q" of the object held in slot
2, which holds the static empty string; key 3, value 9. The same with the
static empty string held in a frame slot, key 3, value 5. -/
theorem SetElem_empty_string_as_null_witness :
    (∃ s', (if true = true then
              SetElem Externals.inert true (.objProp 0 [113]) (.int 3) (.slot 1) stNested
                = .ok none s'
            else SetElem Externals.inert true (.objProp 0 [113]) (.int 3) (.slot 1) stNested
              = .invalidSetM (stNested.load (.slot 1)) s') ∧
        s'.load (tvToCell stNested (.objProp 0 [113])) = .arr stNested.arrs.length ∧
        (s'.getArr stNested.arrs.length).elems = [(.int 3, stNested.load (.slot 1))]) ∧
    (SetElem Externals.inert true (.objProp 0 [113]) (.int 3) (.slot 1) stNested).state.load
      (.objProp 0 [113]) = .arr 2 ∧
    ((SetElem Externals.inert true (.objProp 0 [113]) (.int 3) (.slot 1) stNested).state.getArr
      2).elems = [(.int 3, .int 9)] ∧
    ((SetElem Externals.inert true (.objProp 0 [113]) (.int 3) (.slot 1)
      (stNested.store (.objProp 0 [113]) .null)).state.getArr 2).elems = [(.int 3, .int 9)] ∧
    (SetElem Externals.inert true (.slot 0) (.int 3) (.slot 1) stEmptyString).state.arrs
      = [{ elems := [(.int 3, .int 5)], nextKI := 4, count := 1 }] ∧
    (SetElem Externals.inert true (.slot 0) (.int 3) (.slot 1)
        (stEmptyString.store (.slot 0) .null)).state.arrs
      = [{ elems := [(.int 3, .int 5)], nextKI := 4, count := 1 }] ∧
    (SetNewElem Externals.inert true (.slot 0) (.slot 1) stEmptyString).state.arrs
      = [{ elems := [(.int 0, .int 5)], nextKI := 1, count := 1 }] ∧
    (SetNewElem Externals.inert true (.slot 0) (.slot 1)
        (stEmptyString.store (.slot 0) .null)).state.arrs
      = [{ elems := [(.int 0, .int 5)], nextKI := 1, count := 1 }] :=
  ⟨(SetElem_empty_string_as_null Externals.inert true (.objProp 0 [113]) (.int 3) (.slot 1)
      stNested (.int 3) (by decide) (by decide) (by decide) (by decide) (by decide)
      (by decide)).1,
    by decide, by decide, by decide, by decide, by decide, by decide, by decide⟩

/-- C35: for an empty-string base, wherever the base cell lives, and a legal
key, `SetElem` with `setResult = false` first promotes the base as
`SetElemEmptyish` does, so that the slot holds a fresh array whose only entry
is the key mapped to the value, and then throws `InvalidSetMException` whose
payload is the value of the right-hand side, one more reference of that value
having been taken (a counted string gains one reference).  With Null in the
same slot the call returns normally after the same promotion. -/
theorem SetElem_empty_string_throws (ext : Externals) (base : Loc)
    (key : Key) (value : Loc) (s : State) (k : ArrayKey)
    (hstr : isStringType (s.load (tvToCell s base)).m_type = true)
    (hempty : cellBytes s (s.load (tvToCell s base)) = [])
    (hw : s.writable (tvToCell s base) = true)
    (hvw : s.writable value = true) (hvb : value ≠ tvToCell s base)
    (hk : keyAsValue ext s key = some k) :
    (∃ s1, SetElemEmptyish ext (tvToCell s base) key value s = .ok () s1 ∧
      SetElem ext false base key value s
        = .invalidSetM (s.load value) (tvRefcountedIncRef s1 (s.load value)) ∧
      (tvRefcountedIncRef s1 (s.load value)).load (tvToCell s base) = .arr s.arrs.length ∧
      ((tvRefcountedIncRef s1 (s.load value)).getArr s.arrs.length).elems
        = [(k, s.load value)] ∧
      (tvRefcountedIncRef s1 (s.load value)).load value = s.load value ∧
      (∀ p, s.load value = .str p → p < s1.strs.length →
        ((tvRefcountedIncRef s1 (s.load value)).getStr p).count = (s1.getStr p).count + 1)) ∧
    (∃ sN, SetElem ext false base key value (s.store (tvToCell s base) .null) = .ok none sN ∧
      sN.load (tvToCell s base) = .arr s.arrs.length ∧
      (sN.getArr s.arrs.length).elems = [(k, s.load value)] ∧
      sN.load value = s.load value) := by
  have hemp : isEmptyish s (s.load (tvToCell s base)) = true :=
    isEmptyish_of_empty_string s _ hstr hempty
  have hcellN : tvToCell (s.store (tvToCell s base) .null) base = tvToCell s base :=
    tvToCell_store_cell s base .null (by intro r h; cases h) hw
  have hloadN : (s.store (tvToCell s base) .null).load (tvToCell s base) = .null :=
    load_store_writable _ _ _ hw
  have hwN : (s.store (tvToCell s base) .null).writable (tvToCell s base) = true := by
    rw [writable_store]
    exact hw
  have hvwN : (s.store (tvToCell s base) .null).writable value = true := by
    rw [writable_store]
    exact hvw
  have hvalN : (s.store (tvToCell s base) .null).load value = s.load value :=
    load_store_other _ _ _ _ (fun e => hvb e.symm)
  have harrsN : (s.store (tvToCell s base) .null).arrs.length = s.arrs.length :=
    arrs_length_store _ _ _
  have hkN : keyAsValue ext (s.store (tvToCell s base) .null) key = some k := by
    rw [keyAsValue_congr ext s _ key (by intro p; rw [getStr_store])]
    exact hk
  have hempN : isEmptyish (s.store (tvToCell s base) .null)
      ((s.store (tvToCell s base) .null).load (tvToCell s base)) = true := by
    rw [hloadN]
    rfl
  refine ⟨?_, ?_⟩
  · obtain ⟨s1, hrun, h1, h2, h3, _⟩ :=
      SetElemEmptyish_any ext (tvToCell s base) key value s k hemp hw hvw hvb hk
    have hlen : (cellBytes s (s.load (tvToCell s base))).length = 0 := by
      rw [hempty]
      rfl
    refine ⟨s1, hrun, ?_, ?_, ?_, ?_, ?_⟩
    · rw [SetElem_eq_SetElemString ext false base key value s hstr]
      unfold SetElemString
      simp only [hlen, if_true, hrun, Outcome.bind]
      simp [h3]
    · rw [load_tvRefcountedIncRef]
      exact h1
    · rw [elems_getArr_tvRefcountedIncRef]
      exact h2
    · rw [load_tvRefcountedIncRef]
      exact h3
    · intro p hp hlt
      rw [hp]
      exact count_getStr_tvRefcountedIncRef s1 p hlt
  · obtain ⟨s1, hrun, h1, h2, h3, _⟩ :=
      SetElemEmptyish_any ext (tvToCell s base) key value (s.store (tvToCell s base) .null) k
        hempN hwN hvwN hvb hkN
    rw [harrsN] at h1 h2
    rw [hvalN] at h2 h3
    refine ⟨s1, ?_, h1, h2, h3⟩
    rw [SetElem_eq_SetElemSlow _ _ _ _ _ _ (by rw [hcellN, hloadN]; intro a h; cases h)]
    unfold SetElemSlow
    simp only [hcellN, hloadN, hrun, Outcome.bind]

/-- Witness for C35: the base is the property "q" of the object held in slot
2, which holds the static empty string; key 3, value 9: the call throws with
9 as payload after the property has become the array `[3 => 9]`. With the
static empty string in slot 0, key 3, and the counted string "hi" with one
reference in slot 1, the call throws with the string as payload, the slot
holds the array `[3 => "hi"]`, and the string has two references; with Null
in slot 0 the call returns and the string keeps its one reference. -/
theorem SetElem_empty_string_throws_witness :
    (∃ s1, SetElemEmptyish Externals.inert (tvToCell stNested (.objProp 0 [113])) (.int 3)
        (.slot 1) stNested = .ok () s1 ∧
      SetElem Externals.inert false (.objProp 0 [113]) (.int 3) (.slot 1) stNested
        = .invalidSetM (stNested.load (.slot 1))
            (tvRefcountedIncRef s1 (stNested.load (.slot 1))) ∧
      (tvRefcountedIncRef s1 (stNested.load (.slot 1))).load
        (tvToCell stNested (.objProp 0 [113])) = .arr stNested.arrs.length ∧
      ((tvRefcountedIncRef s1 (stNested.load (.slot 1))).getArr stNested.arrs.length).elems
        = [(.int 3, stNested.load (.slot 1))] ∧
      (tvRefcountedIncRef s1 (stNested.load (.slot 1))).load (.slot 1)
        = stNested.load (.slot 1) ∧
      (∀ p, stNested.load (.slot 1) = .str p → p < s1.strs.length →
        ((tvRefcountedIncRef s1 (stNested.load (.slot 1))).getStr p).count
          = (s1.getStr p).count + 1)) ∧
    (SetElem Externals.inert false (.objProp 0 [113]) (.int 3) (.slot 1)
      stNested).invalidSetMValue = some (.int 9) ∧
    (SetElem Externals.inert false (.objProp 0 [113]) (.int 3) (.slot 1)
      stNested).state.load (.objProp 0 [113]) = .arr 2 ∧
    (SetElem Externals.inert false (.slot 0) (.int 3) (.slot 1)
      stEmptyStringStrRhs).invalidSetMValue = some (.str 0) ∧
    (SetElem Externals.inert false (.slot 0) (.int 3) (.slot 1)
      stEmptyStringStrRhs).state.slots = [.arr 0, .str 0] ∧
    (SetElem Externals.inert false (.slot 0) (.int 3) (.slot 1)
      stEmptyStringStrRhs).state.arrs
      = [{ elems := [(.int 3, .str 0)], nextKI := 4, count := 1 }] ∧
    (SetElem Externals.inert false (.slot 0) (.int 3) (.slot 1)
      stEmptyStringStrRhs).state.strs = [{ data := [104, 105], count := 2 }] ∧
    (SetElem Externals.inert false (.slot 0) (.int 3) (.slot 1)
      (stEmptyStringStrRhs.store (.slot 0) .null)).returned = some none ∧
    (SetElem Externals.inert false (.slot 0) (.int 3) (.slot 1)
      (stEmptyStringStrRhs.store (.slot 0) .null)).state.strs
      = [{ data := [104, 105], count := 1 }] :=
  ⟨(SetElem_empty_string_throws Externals.inert (.objProp 0 [113]) (.int 3) (.slot 1)
      stNested (.int 3) (by decide) (by decide) (by decide) (by decide) (by decide)
      (by decide)).1,
    by decide, by decide, by decide, by decide, by decide, by decide, by decide, by decide⟩

/-- A cell that exists is not a property of the object about to be
allocated. -/
theorem ne_freshObj_of_writable (s : State) (l : Loc) (h : s.writable l = true)
    (n : List Byte) : l ≠ .objProp s.objs.length n := by
  intro e
  rw [e] at h
  simp [State.writable] at h

theorem writable_allocObj_mono (s : State) (od : ObjectData) (l : Loc)
    (h : s.writable l = true) : (s.allocObj od).2.writable l = true := by
  cases l with
  | objProp o n =>
    simp only [State.writable, Bool.and_eq_true, decide_eq_true_eq] at h ⊢
    have hne : o ≠ s.objs.length := by omega
    rw [getObj_allocObj_ne _ _ _ hne]
    refine ⟨?_, h.2⟩
    simp [State.allocObj]
    omega
  | _ => exact h

theorem getObj_store_other (s : State) (l : Loc) (v : TypedValue) (p : Nat)
    (h : ∀ n, l ≠ .objProp p n) : (s.store l v).getObj p = s.getObj p := by
  cases l with
  | objProp o n =>
    have hne : o ≠ p := by
      intro e
      exact h n (by rw [e])
    simp only [State.store]
    exact getObj_setObj_other _ _ _ _ hne
  | _ => rfl

theorem load_setObj_ne (s : State) (p : Nat) (od : ObjectData) (l : Loc)
    (h : ∀ n, l ≠ .objProp p n) : (s.setObj p od).load l = s.load l := by
  cases l with
  | objProp o n =>
    have hne : p ≠ o := by
      intro e
      exact h n (by rw [e])
    simp only [State.load]
    rw [getObj_setObj_other _ _ _ _ hne]
  | _ => rfl

theorem writable_setObj_ne (s : State) (p : Nat) (od : ObjectData) (l : Loc)
    (h : ∀ n, l ≠ .objProp p n) : (s.setObj p od).writable l = s.writable l := by
  cases l with
  | objProp o n =>
    have hne : p ≠ o := by
      intro e
      exact h n (by rw [e])
    simp only [State.writable]
    rw [getObj_setObj_other _ _ _ _ hne]
    simp [State.setObj]
  | _ => rfl

theorem objs_length_store (s : State) (l : Loc) (v : TypedValue) :
    (s.store l v).objs.length = s.objs.length := by
  cases l <;> simp [State.store, State.setArr, State.setObj]

/-- The transition of a cell that exists and holds an empty-ish value,
wherever it lives, to a fresh stdclass object, as `propPreStdclass`,
`SetOpPropStdclass` and `IncDecPropStdclass` make it: the old value is
released, then the object is written into the cell. -/
theorem stdclass_promote_any (s : State) (b : Loc)
    (hemp : isEmptyish s (s.load b) = true) (hw : s.writable b = true) :
    ∃ s2 : State,
      s2 = (((tvRefcountedDecRef (newInstanceStdclass s).2
        ((newInstanceStdclass s).2.load b)).record
          (.release ((newInstanceStdclass s).2.load b))).store b
            (.obj (newInstanceStdclass s).1)).record
              (.install b (.obj (newInstanceStdclass s).1)) ∧
      s2.load b = .obj s.objs.length ∧
      s2.getObj s.objs.length
        = { isCollection := false, isArrayObject := false, props := [], count := 1 } ∧
      s2.log = s.log ∧
      (∀ l : Loc, l ≠ b → s2.load l = s.load l) ∧
      s2.trace = s.trace ++ [.release (s.load b), .install b (.obj s.objs.length)] ∧
      (∀ p, (s2.getStr p).data = (s.getStr p).data) ∧
      s2.refs.length = s.refs.length ∧
      (∀ l : Loc, s.writable l = true → s2.writable l = true) ∧
      s2.objs.length = s.objs.length + 1 := by
  have hl0 : (newInstanceStdclass s).2.load b = s.load b := load_newInstanceStdclass s b
  have hfst : (newInstanceStdclass s).1 = s.objs.length := rfl
  refine ⟨_, rfl, ?_⟩
  rw [hl0, hfst]
  refine ⟨?_, ?_, ?_, ?_, ?_, ?_, ?_, ?_, ?_⟩
  · rw [load_record]
    apply load_store_writable
    rw [writable_record, writable_tvRefcountedDecRef]
    exact writable_allocObj_mono _ _ _ hw
  · rw [getObj_record, getObj_store_other _ _ _ _ (ne_freshObj_of_writable s b hw),
      getObj_record, getObj_tvRefcountedDecRef_emptyish _ s _ hemp]
    exact getObj_allocObj_new _ _
  · simp [newInstanceStdclass, State.allocObj]
  · intro l hne
    rw [load_record, load_store_other _ _ _ _ (fun e => hne e.symm), load_record,
      load_tvRefcountedDecRef]
    exact load_newInstanceStdclass s l
  · simp [newInstanceStdclass, State.allocObj]
  · intro p
    rw [getStr_record, getStr_store, getStr_record, data_getStr_tvRefcountedDecRef]
    rfl
  · show ((((tvRefcountedDecRef (newInstanceStdclass s).2 (s.load b)).record _).store b _)).refs.length
      = _
    rw [refs_length_store]
    show (tvRefcountedDecRef (newInstanceStdclass s).2 (s.load b)).refs.length = _
    rw [refs_tvRefcountedDecRef]
    rfl
  · intro l hl
    rw [writable_record, writable_store, writable_record, writable_tvRefcountedDecRef]
    exact writable_allocObj_mono _ _ _ hl
  · show (((tvRefcountedDecRef (newInstanceStdclass s).2 (s.load b)).record _).store b _).objs.length
      = _
    rw [objs_length_store]
    show (tvRefcountedDecRef (newInstanceStdclass s).2 (s.load b)).objs.length = _
    rw [objs_length_tvRefcountedDecRef_emptyish _ s _ hemp]
    simp [newInstanceStdclass, State.allocObj]

/-- What `propPreStdclass` in Define mode does on a cell that exists and holds
an empty-ish value, wherever it lives. -/
theorem propPreStdclass_define_any (ext : Externals) (warn : Bool) (b : Loc) (s : State)
    (hemp : isEmptyish s (s.load b) = true) (hw : s.writable b = true) :
    ∃ s1, propPreStdclass ext warn true b s = .ok b s1 ∧
      s1.load b = .obj s.objs.length ∧
      s1.getObj s.objs.length
        = { isCollection := false, isArrayObject := false, props := [], count := 1 } ∧
      s1.log = s.log ++
        (if ext.EnableHipHopSyntax = true then
          [⟨.warning, "Creating default object from empty value", .none⟩] else []) ∧
      s1.trace = s.trace ++ [.release (s.load b), .install b (.obj s.objs.length)] := by
  obtain ⟨s2, hs2, h1, h2, h3, _, h5, _⟩ := stdclass_promote_any s b hemp hw
  unfold propPreStdclass
  simp only [Bool.not_true, Bool.false_eq_true, if_false]
  rw [← hs2]
  cases hopt : ext.EnableHipHopSyntax with
  | true =>
    simp only [if_true]
    refine ⟨_, rfl, ?_, ?_, ?_, ?_⟩
    · rw [load_raise_warning]
      exact h1
    · exact h2
    · rw [log_raise_warning, h3]
      rfl
    · rw [trace_raise_warning]
      exact h5
  | false =>
    simp only [Bool.false_eq_true, if_false]
    refine ⟨_, rfl, h1, h2, ?_, h5⟩
    rw [h3]
    simp

/-- What `SetPropStdclass` does on a cell that exists and holds an empty-ish
value, wherever it lives: the cell holds a fresh stdclass object whose only
property is the value under the name of the key. -/
theorem SetPropStdclass_any (ext : Externals) (b : Loc) (key : TypedValue) (val : Loc)
    (s : State)
    (hemp : isEmptyish s (s.load b) = true) (hw : s.writable b = true) :
    ∃ s', SetPropStdclass ext b key val s = .ok () s' ∧
      s'.load b = .obj s.objs.length ∧
      s'.getObj s.objs.length
        = { isCollection := false, isArrayObject := false,
            props := [((prepareKey ext (newInstanceStdclass s).2 (.any key)).bytes
              (newInstanceStdclass s).2, s.load val)],
            count := 1 } ∧
      s'.log = s.log ++ [⟨.warning, "Creating default object from empty value", .none⟩] ∧
      s'.trace = s.trace ++ [.release (s.load b), .install b (.obj s.objs.length)] := by
  have hfst : (newInstanceStdclass s).1 = s.objs.length := rfl
  have hlt : s.objs.length < (newInstanceStdclass s).2.objs.length := by
    simp [newInstanceStdclass, State.allocObj]
  have hget0 : (newInstanceStdclass s).2.getObj s.objs.length
      = { isCollection := false, isArrayObject := false, props := [], count := 1 } :=
    getObj_allocObj_new _ _
  have hfresh := ne_freshObj_of_writable s b hw
  have hlb : ∀ (od : ObjectData), ((newInstanceStdclass s).2.setObj s.objs.length od).load b
      = s.load b := by
    intro od
    rw [load_setObj_ne _ _ _ _ hfresh, load_newInstanceStdclass]
  unfold SetPropStdclass
  simp only [hfst, stdclassSetProp, hget0, propsSet, load_newInstanceStdclass, hlb]
  refine ⟨_, rfl, ?_, ?_, ?_, ?_⟩
  · rw [load_raise_warning, load_record]
    apply load_store_writable
    rw [writable_record, writable_tvRefcountedDecRef, writable_setObj_ne _ _ _ _ hfresh]
    exact writable_allocObj_mono _ _ _ hw
  · rw [getObj_raise_warning, getObj_record, getObj_store_other _ _ _ _ hfresh, getObj_record,
      getObj_tvRefcountedDecRef_emptyish _ s _ hemp, getObj_setObj_same _ _ _ hlt]
  · simp [newInstanceStdclass, State.allocObj, State.setObj]
    rfl
  · simp [newInstanceStdclass, State.allocObj, State.setObj]

/-- What `SetOpPropStdclass` does on a cell that exists, other than the
scratch cell, and holds an empty-ish value: the cell holds a fresh stdclass
object and the warning is raised before `setopBody` runs on the scratch cell,
set to null; the outcome of the body then becomes the property. -/
theorem SetOpPropStdclass_any (ext : Externals) (op : SetOpOp) (b : Loc) (key : TypedValue)
    (rhs : Loc) (s : State)
    (hemp : isEmptyish s (s.load b) = true) (hw : s.writable b = true) (hb : b ≠ .tvRef) :
    ∃ s1 keySD, SetOpPropStdclass ext op b key rhs s
        = (ext.setopBody op .tvRef rhs s1).bind (fun _ s5 =>
            .ok .tvRef
              (stdclassSetProp s5 s.objs.length (StrRef.bytes s5 keySD) (s5.load .tvRef))) ∧
      s1.load b = .obj s.objs.length ∧
      s1.load .tvRef = .null ∧
      s1.getObj s.objs.length
        = { isCollection := false, isArrayObject := false, props := [], count := 1 } ∧
      s1.log = s.log ++ [⟨.warning, "Creating default object from empty value", .none⟩] ∧
      s1.trace = s.trace ++ [.release (s.load b), .install b (.obj s.objs.length)] := by
  obtain ⟨s2, hs2, h1, h2, h3, _, h5, _⟩ := stdclass_promote_any s b hemp hw
  have hcell : ∀ t : State, tvToCell (tvWriteNull t .tvRef) .tvRef = .tvRef := by
    intro t
    rfl
  unfold SetOpPropStdclass
  dsimp only
  rw [← hs2]
  simp only [hcell]
  refine ⟨_, _, rfl, ?_, rfl, ?_, ?_, ?_⟩
  · unfold tvWriteNull
    rw [load_store_other _ _ _ _ (fun e => hb e.symm), load_raise_warning]
    exact h1
  · exact h2
  · show (raise_warning s2 _ _).log = _
    rw [log_raise_warning, h3]
    rfl
  · exact h5

/-- What `IncDecPropStdclass` does on a cell that exists and holds an
empty-ish value, wherever it lives: the cell holds a fresh stdclass object and
the warning is raised before `incDecBodySlow` runs on a local null cell; the
property is then set from the destination cell. -/
theorem IncDecPropStdclass_any (ext : Externals) (op : IncDecOp) (b : Loc) (key : TypedValue)
    (dest : Loc) (s : State)
    (hemp : isEmptyish s (s.load b) = true) (hw : s.writable b = true) :
    ∃ s1 keySD, IncDecPropStdclass ext op b key dest s
        = (ext.incDecBodySlow op (.refInner s.refs.length) dest s1).bind (fun _ s4 =>
            .ok () (stdclassSetProp s4 s.objs.length (StrRef.bytes s4 keySD) (s4.load dest))) ∧
      s1.load b = .obj s.objs.length ∧
      s1.load (.refInner s.refs.length) = .null ∧
      s1.getObj s.objs.length
        = { isCollection := false, isArrayObject := false, props := [], count := 1 } ∧
      s1.log = s.log ++ [⟨.warning, "Creating default object from empty value", .none⟩] ∧
      s1.trace = s.trace ++ [.release (s.load b), .install b (.obj s.objs.length)] := by
  obtain ⟨s2, hs2, h1, h2, h3, _, h5, _, h7, h8, _⟩ := stdclass_promote_any s b hemp hw
  have hfr : ((raise_warning s2 Strings.CREATING_DEFAULT_OBJECT .none).allocTemp .null).1
      = s.refs.length := h7
  have hnew : ((raise_warning s2 Strings.CREATING_DEFAULT_OBJECT .none).allocTemp
      .null).2.load (.refInner s.refs.length) = .null := by
    rw [← h7]
    exact load_allocTemp_new _ _
  have hbody : IncDecBody ext op (.refInner s.refs.length) dest
        ((raise_warning s2 Strings.CREATING_DEFAULT_OBJECT .none).allocTemp .null).2
      = ext.incDecBodySlow op (.refInner s.refs.length) dest
        ((raise_warning s2 Strings.CREATING_DEFAULT_OBJECT .none).allocTemp .null).2 := by
    unfold IncDecBody
    rw [hnew]
  unfold IncDecPropStdclass
  dsimp only
  rw [← hs2, hfr, hbody]
  refine ⟨_, _, rfl, ?_, hnew, ?_, ?_, ?_⟩
  · rw [load_allocTemp_of_writable _ _ _ (by rw [writable_raise_warning]; exact h8 b hw),
      load_raise_warning]
    exact h1
  · exact h2
  · show (raise_warning s2 _ _).log = _
    rw [log_raise_warning, h3]
    rfl
  · exact h5

/-- C26 (amended): for every base that is Uninit, Null, Bool false or the
empty string, wherever the base cell lives (the scratch cell apart), `Prop`
in Define mode, `SetProp`, `SetOpProp` and `IncDecProp` each write a fresh
stdclass object into the base slot before they touch the property.
`SetProp`, `SetOpProp` and `IncDecProp` emit the warning "Creating default
object from empty value"; `Prop` in Define mode emits it when the option
`EnableHipHopSyntax` is on and emits nothing when it is off.  `Prop` goes on
with the property accessor of the new object, `SetOpProp` with `setopBody` on
the scratch cell set to null, `IncDecProp` with `incDecBodySlow` on a local
null cell. -/
theorem Prop_family_creates_stdclass (ext : Externals) (warn unset setResult : Bool)
    (ctx : Nat) (op : SetOpOp) (iop : IncDecOp) (base : Loc) (key : Key) (tvKey : TypedValue)
    (val dest : Loc) (s : State)
    (hemp : isEmptyish s (s.load (tvToCell s base)) = true)
    (hw : s.writable (tvToCell s base) = true)
    (hb : tvToCell s base ≠ .tvRef) :
    (∃ s1, Prop_ ext warn true unset ctx base key s
          = PropObj ext warn true unset ctx s.objs.length key s1 ∧
        s1.load (tvToCell s base) = .obj s.objs.length ∧
        s1.getObj s.objs.length
          = { isCollection := false, isArrayObject := false, props := [], count := 1 } ∧
        s1.log = s.log ++
          (if ext.EnableHipHopSyntax = true then
            [⟨.warning, "Creating default object from empty value", .none⟩] else [])) ∧
    (∃ s', SetProp ext setResult ctx base key val s = .ok () s' ∧
        s'.load (tvToCell s base) = .obj s.objs.length ∧
        s'.getObj s.objs.length
          = { isCollection := false, isArrayObject := false,
              props := [((prepareKey ext (newInstanceStdclass s).2
                (.any (initScratchKey key))).bytes (newInstanceStdclass s).2, s.load val)],
              count := 1 } ∧
        s'.log = s.log ++ [⟨.warning, "Creating default object from empty value", .none⟩]) ∧
    (∃ s1 keySD, SetOpProp ext ctx op base tvKey val s
          = (ext.setopBody op .tvRef val s1).bind (fun _ s5 =>
              .ok .tvRef
                (stdclassSetProp s5 s.objs.length (StrRef.bytes s5 keySD) (s5.load .tvRef))) ∧
        s1.load (tvToCell s base) = .obj s.objs.length ∧
        s1.getObj s.objs.length
          = { isCollection := false, isArrayObject := false, props := [], count := 1 } ∧
        s1.log = s.log ++ [⟨.warning, "Creating default object from empty value", .none⟩]) ∧
    (∃ s1 keySD, IncDecProp ext ctx iop base tvKey dest s
          = (ext.incDecBodySlow iop (.refInner s.refs.length) dest s1).bind (fun _ s4 =>
              .ok () (stdclassSetProp s4 s.objs.length (StrRef.bytes s4 keySD) (s4.load dest))) ∧
        s1.load (tvToCell s base) = .obj s.objs.length ∧
        s1.getObj s.objs.length
          = { isCollection := false, isArrayObject := false, props := [], count := 1 } ∧
        s1.log = s.log ++ [⟨.warning, "Creating default object from empty value", .none⟩]) := by
  refine ⟨?_, ?_, ?_, ?_⟩
  · obtain ⟨s1, hrun, h1, h2, h3, _⟩ :=
      propPreStdclass_define_any ext warn (tvToCell s base) s hemp hw
    refine ⟨s1, ?_, h1, h2, h3⟩
    unfold Prop_
    rw [propPre_eq_propPreStdclass ext warn true base s hemp, hrun]
    simp only [Outcome.bind, h1]
  · obtain ⟨s', hrun, h1, h2, h3, _⟩ :=
      SetPropStdclass_any ext (tvToCell s base) (initScratchKey key) val s hemp hw
    refine ⟨s', ?_, h1, h2, h3⟩
    rw [SetProp_eq_SetPropStdclass ext setResult ctx base key val s hemp]
    exact hrun
  · obtain ⟨s1, keySD, hrun, h1, _, h2, h3, _⟩ :=
      SetOpPropStdclass_any ext op (tvToCell s base) tvKey val s hemp hw hb
    refine ⟨s1, keySD, ?_, h1, h2, h3⟩
    rw [SetOpProp_eq_SetOpPropStdclass ext ctx op base tvKey val s hemp]
    exact hrun
  · obtain ⟨s1, keySD, hrun, h1, _, h2, h3, _⟩ :=
      IncDecPropStdclass_any ext iop (tvToCell s base) tvKey dest s hemp hw
    refine ⟨s1, keySD, ?_, h1, h2, h3⟩
    rw [IncDecProp_eq_IncDecPropStdclass ext ctx iop base tvKey dest s hemp]
    exact hrun

/-- Witness for C26 (amended): the base is the element "x" of the array held
in slot 0, which is null; property "f", value 9: the element becomes the
fresh object 1 whose property "f" is 9. The same on a Null base held in a
frame slot, with value 5. -/
theorem Prop_family_creates_stdclass_witness :
    (∃ s', SetProp Externals.inert true 0 (.arrElem 0 (.str [120])) (.str (.static [102]))
          (.slot 1) stNested = .ok () s' ∧
        s'.load (tvToCell stNested (.arrElem 0 (.str [120]))) = .obj stNested.objs.length ∧
        s'.getObj stNested.objs.length
          = { isCollection := false, isArrayObject := false,
              props := [((prepareKey Externals.inert (newInstanceStdclass stNested).2
                (.any (initScratchKey (.str (.static [102]))))).bytes
                  (newInstanceStdclass stNested).2, stNested.load (.slot 1))],
              count := 1 } ∧
        s'.log = stNested.log ++
          [⟨.warning, "Creating default object from empty value", .none⟩]) ∧
    (SetProp Externals.inert true 0 (.arrElem 0 (.str [120])) (.str (.static [102])) (.slot 1)
      stNested).state.load (.arrElem 0 (.str [120])) = .obj 1 ∧
    ((SetProp Externals.inert true 0 (.arrElem 0 (.str [120])) (.str (.static [102])) (.slot 1)
      stNested).state.getObj 1).props = [([102], .int 9)] ∧
    (SetProp Externals.inert true 0 (.slot 0) (.str (.static [102])) (.slot 1) stNull).state.objs
      = [{ isCollection := false, isArrayObject := false, props := [([102], .int 5)],
           count := 1 }] ∧
    (Prop_ Externals.inert false true false 0 (.slot 0) (.str (.static [102])) stNull).state.log
      = [⟨.warning, "Creating default object from empty value", .none⟩] :=
  ⟨(Prop_family_creates_stdclass Externals.inert false false true 0 .PlusEqual .PostInc
      (.arrElem 0 (.str [120])) (.str (.static [102])) (.sstr [102]) (.slot 1) (.slot 2)
      stNested (by decide) (by decide) (by decide)).2.1,
    by decide, by decide, by decide, by decide⟩

/-- C26 as stated fails: with the option `EnableHipHopSyntax` off, `Prop` in
Define mode on a Null base writes a fresh stdclass object into the base slot
and emits no warning. -/
theorem Prop_family_creates_stdclass_counterexample :
    stNull.load (tvToCell stNull (.slot 0)) = .null ∧
    (Prop_ Externals.plainSyntax false true false 0 (.slot 0) (.str (.static [102]))
      stNull).returned = some .tvRef ∧
    (Prop_ Externals.plainSyntax false true false 0 (.slot 0) (.str (.static [102]))
      stNull).state.load (.slot 0) = .obj 0 ∧
    (Prop_ Externals.plainSyntax false true false 0 (.slot 0) (.str (.static [102]))
      stNull).state.log = [] := by
  decide

/-- C27 (amended): in the auto-vivification of a base slot to an array, as the
element verbs make it (`ElemDEmptyish`, `NewElemEmptyish`, `SetElemEmptyish`,
`SetNewElemEmptyish`, `SetOpElemEmptyish`, `SetOpNewElemEmptyish`,
`IncDecElemEmptyish`, `IncDecNewElemEmptyish`), the fresh array is written into
the slot first and the old value of the slot is released after; in the
auto-vivification to a stdclass object (`propPreStdclass` in Define mode,
`SetPropStdclass`, `SetOpPropStdclass`, `IncDecPropStdclass`) the old value of
the slot is released first and the object is written into the slot after.  In
each case these are the only two events of the transition.  The base is a cell
that exists, wherever it lives; the key is legal, and `setopBody` and
`incDecBodySlow` make no such transition themselves. -/
theorem vivification_event_order (ext : Externals) (warn : Bool) (op : SetOpOp)
    (iop : IncDecOp) (b : Loc) (key : Key) (value dest : Loc) (s : State) (k : ArrayKey)
    (hw : s.writable b = true)
    (hk : keyAsValue ext s key = some k)
    (hset : ∀ o l r t, (ext.setopBody o l r t).state.trace = t.trace)
    (hinc : ∀ o f d t, (ext.incDecBodySlow o f d t).state.trace = t.trace) :
    ((ElemDEmptyish ext warn b key s).state.trace
        = s.trace ++ [.install b (.arr s.arrs.length), .release (s.load b)] ∧
      (NewElemEmptyish b s).state.trace
        = s.trace ++ [.install b (.arr s.arrs.length), .release (s.load b)] ∧
      (SetElemEmptyish ext b key value s).state.trace
        = s.trace ++ [.install b (.arr s.arrs.length), .release (s.load b)] ∧
      (SetNewElemEmptyish b value s).state.trace
        = s.trace ++ [.install b (.arr s.arrs.length), .release (s.load b)] ∧
      (SetOpElemEmptyish ext op b (initScratchKey key) value s).state.trace
        = s.trace ++ [.install b (.arr s.arrs.length), .release (s.load b)] ∧
      (SetOpNewElemEmptyish ext op b value s).state.trace
        = s.trace ++ [.install b (.arr s.arrs.length), .release (s.load b)] ∧
      (IncDecElemEmptyish ext iop b (initScratchKey key) dest s).state.trace
        = s.trace ++ [.install b (.arr s.arrs.length), .release (s.load b)] ∧
      (IncDecNewElemEmptyish ext iop b dest s).state.trace
        = s.trace ++ [.install b (.arr s.arrs.length), .release (s.load b)]) ∧
    ((propPreStdclass ext warn true b s).state.trace
        = s.trace ++ [.release (s.load b), .install b (.obj s.objs.length)] ∧
      (SetPropStdclass ext b (initScratchKey key) value s).state.trace
        = s.trace ++ [.release (s.load b), .install b (.obj s.objs.length)] ∧
      (SetOpPropStdclass ext op b (initScratchKey key) value s).state.trace
        = s.trace ++ [.release (s.load b), .install b (.obj s.objs.length)] ∧
      (IncDecPropStdclass ext iop b (initScratchKey key) dest s).state.trace
        = s.trace ++ [.release (s.load b), .install b (.obj s.objs.length)]) := by
  have hkey : toKey ext s (initScratchKey key) = some k := by
    rw [toKey_initScratchKey]
    exact hk
  have hkeyA : toKey ext (assignFreshArray s b) (initScratchKey key) = some k := by
    rw [toKey_congr ext s _ _ (data_getStr_assignFreshArray s b)]
    exact hkey
  have hobj : (newInstanceStdclass s).1 = s.objs.length := rfl
  refine ⟨⟨?_, ?_, ?_, ?_, ?_, ?_, ?_, ?_⟩, ?_, ?_, ?_, ?_⟩
  · unfold ElemDEmptyish
    simp only [arrayLvalVariant, hkeyA, Outcome.bind]
    cases warn <;>
      simp [Outcome.state, trace_arrayLval, trace_assignFreshArray]
  · unfold NewElemEmptyish createLvalNewAssign
    simp [Outcome.state, State.allocArr]
  · unfold SetElemEmptyish
    simp only []
    rw [trace_arraySetVariant_legal ext b _ _ _ k hkeyA, trace_assignFreshArray]
  · unfold SetNewElemEmptyish
    simp [Outcome.state, State.allocArr]
  · unfold SetOpElemEmptyish createLvalAssign
    simp only [hkey, bind_ok]
    rw [trace_bind _ _ (by intro r t; rfl), hset]
    split <;> simp [State.allocArr]
  · unfold SetOpNewElemEmptyish createLvalNewAssign
    simp only []
    rw [trace_bind _ _ (by intro r t; rfl), hset]
    simp [State.allocArr]
  · unfold IncDecElemEmptyish createLvalAssign
    simp only [hkey, bind_ok]
    rw [trace_IncDecBody ext iop _ _ _ hinc]
    split <;> simp [State.allocArr]
  · unfold IncDecNewElemEmptyish createLvalNewAssign
    simp only []
    rw [trace_IncDecBody ext iop _ _ _ hinc]
    simp [State.allocArr]
  · unfold propPreStdclass
    simp only [Bool.not_true, Bool.false_eq_true, if_false, load_newInstanceStdclass, hobj]
    split <;> simp [Outcome.state]
  · unfold SetPropStdclass
    have hlb : ∀ (od : ObjectData), ((newInstanceStdclass s).2.setObj s.objs.length od).load b
        = s.load b := by
      intro od
      rw [load_setObj_ne _ _ _ _ (ne_freshObj_of_writable s b hw), load_newInstanceStdclass]
    simp only [hobj, stdclassSetProp, hlb]
    simp [Outcome.state]
  · unfold SetOpPropStdclass
    simp only [load_newInstanceStdclass, hobj]
    rw [trace_bind _ _ (by intro r t; rfl), hset]
    simp [tvWriteNull]
  · unfold IncDecPropStdclass
    simp only [load_newInstanceStdclass, hobj]
    rw [trace_bind _ _ (by intro r t; rfl), trace_IncDecBody ext iop _ _ _ hinc]
    simp

/-- Witness for C27 (amended): the base is the element "x" of the array held
in slot 0, which is null; key 3. The same on a Null base held in a frame
slot. -/
theorem vivification_event_order_witness :
    ((ElemDEmptyish Externals.inert true (.arrElem 0 (.str [120])) (.int 3) stNested).state.trace
      = stNested.trace ++ [.install (.arrElem 0 (.str [120])) (.arr stNested.arrs.length),
          .release (stNested.load (.arrElem 0 (.str [120])))] ∧
    (SetPropStdclass Externals.inert (.arrElem 0 (.str [120])) (initScratchKey (.int 3))
        (.slot 1) stNested).state.trace
      = stNested.trace ++ [.release (stNested.load (.arrElem 0 (.str [120]))),
          .install (.arrElem 0 (.str [120])) (.obj stNested.objs.length)]) ∧
    ((ElemDEmptyish Externals.inert true (.slot 0) (.int 3) stNull).state.trace
      = [.install (.slot 0) (.arr 0), .release .null] ∧
    (propPreStdclass Externals.inert true true (.slot 0) stNull).state.trace
      = [.release .null, .install (.slot 0) (.obj 0)]) := by
  have h := vivification_event_order Externals.inert true .PlusEqual .PostInc
    (.arrElem 0 (.str [120])) (.int 3) (.slot 1) (.slot 2) stNested (.int 3) (by decide)
    (by decide) (fun _ _ _ _ => rfl) (fun _ _ _ _ => rfl)
  exact ⟨⟨h.1.1, h.2.2.1⟩, by decide⟩

/-- C27 as stated fails: on a base holding a counted empty string, the four
transitions to a stdclass object release the string before the new object is
written into the slot. -/
theorem vivification_event_order_counterexample :
    (Prop_ Externals.inert false true false 0 (.slot 0) (.str (.static [102]))
      stEmptyCountedString).state.trace
      = [.release (.str 0), .install (.slot 0) (.obj 0)] ∧
    (SetProp Externals.inert true 0 (.slot 0) (.str (.static [102])) (.slot 1)
      stEmptyCountedString).state.trace
      = [.release (.str 0), .install (.slot 0) (.obj 0)] ∧
    (SetOpProp Externals.inert 0 .PlusEqual (.slot 0) (.sstr [102]) (.slot 1)
      stEmptyCountedString).state.trace
      = [.release (.str 0), .install (.slot 0) (.obj 0)] ∧
    (IncDecProp Externals.inert 0 .PostInc (.slot 0) (.sstr [102]) (.slot 2)
      stEmptyCountedString).state.trace
      = [.release (.str 0), .install (.slot 0) (.obj 0)] ∧
    (SetElem Externals.inert true (.slot 0) (.int 3) (.slot 1)
      stEmptyCountedString).state.trace
      = [.install (.slot 0) (.arr 0), .release (.str 0)] := by
  decide

/-- On an empty-ish base, whatever `incDecBodySlow` computes, `IncDecProp`
sets the property of the new object from the destination cell, not from the
cell that the operator has mutated. -/
theorem IncDecProp_sets_property_from_dest (ext : Externals) (ctx : Nat) (op : IncDecOp)
    (base : Loc) (key : TypedValue) (dest : Loc) (s : State)
    (hemp : isEmptyish s (s.load (tvToCell s base)) = true)
    (hw : s.writable (tvToCell s base) = true) :
    ∃ s1 keySD, s1.load (.refInner s.refs.length) = .null ∧
      ∀ s4, ext.incDecBodySlow op (.refInner s.refs.length) dest s1 = .ok () s4 →
        IncDecProp ext ctx op base key dest s
          = .ok () (stdclassSetProp s4 s.objs.length (StrRef.bytes s4 keySD) (s4.load dest)) := by
  obtain ⟨s1, keySD, hrun, _, hnull, _⟩ :=
    IncDecPropStdclass_any ext op (tvToCell s base) key dest s hemp hw
  refine ⟨s1, keySD, hnull, ?_⟩
  intro s4 h4
  rw [IncDecProp_eq_IncDecPropStdclass ext ctx op base key dest s hemp, hrun, h4]
  rfl

/-- An overwrite through an interior pointer keeps the keys of the array. -/
theorem keys_elemsWrite (e : List (ArrayKey × TypedValue)) (k : ArrayKey) (v : TypedValue) :
    (elemsWrite e k v).map Prod.fst = e.map Prod.fst := by
  induction e with
  | nil => rfl
  | cons hd tl ih =>
    obtain ⟨k0, v0⟩ := hd
    by_cases h : k0 = k
    · simp [elemsWrite, h]
    · simp [elemsWrite, h, ih]

/-- A store keeps the keys of every array. -/
theorem keys_getArr_store (s : State) (l : Loc) (v : TypedValue) (p : Nat) :
    ((s.store l v).getArr p).elems.map Prod.fst = (s.getArr p).elems.map Prod.fst := by
  cases l with
  | arrElem a k =>
    simp only [State.store]
    by_cases hap : a = p
    · subst hap
      by_cases ha : a < s.arrs.length
      · rw [getArr_setArr_same _ _ _ ha]
        exact keys_elemsWrite _ _ _
      · rw [setArr_dangling _ _ _ ha]
    · rw [getArr_setArr_other _ _ _ _ hap]
  | _ => rfl

/-- C31: `arrayRefShuffle` with `setRef = true`, on a base slot anywhere (a
frame slot, an element of an array, a property of an object, the inside of a
reference box).  When the new pointer is the old one the state is unchanged.
When they differ and the slot holds the old array, the slot holds the new
pointer afterwards, every other cell keeps its value and the old array loses
exactly one reference.  When they differ and the slot does not hold the old
array, every cell keeps its value and the new array loses exactly one
reference.  In every case no other array changes its count, no array changes
its set of keys, the arrays and objects that do not contain the slot are as
before, and strings, diagnostics and the counts of the objects are untouched:
at most one reference is released. -/
theorem arrayRefShuffle_setRef (oldData newData : Nat) (base : Loc) (s : State) :
    (newData = oldData → arrayRefShuffle true oldData newData base s = (none, s)) ∧
    (newData ≠ oldData → s.load base = .arr oldData →
      (arrayRefShuffle true oldData newData base s).2.load base = .arr newData ∧
      ((arrayRefShuffle true oldData newData base s).2.getArr oldData).count
        = (s.getArr oldData).count - 1 ∧
      (∀ q, q ≠ oldData →
        ((arrayRefShuffle true oldData newData base s).2.getArr q).count = (s.getArr q).count) ∧
      (∀ l : Loc, l ≠ base →
        (arrayRefShuffle true oldData newData base s).2.load l = s.load l)) ∧
    (newData ≠ oldData → s.load base ≠ .arr oldData →
      (∀ l : Loc, (arrayRefShuffle true oldData newData base s).2.load l = s.load l) ∧
      ((arrayRefShuffle true oldData newData base s).2.getArr newData).count
        = (s.getArr newData).count - 1 ∧
      (∀ q, q ≠ newData →
        ((arrayRefShuffle true oldData newData base s).2.getArr q).count = (s.getArr q).count)) ∧
    (∀ q, ((arrayRefShuffle true oldData newData base s).2.getArr q).elems.map Prod.fst
      = (s.getArr q).elems.map Prod.fst) ∧
    (∀ q, (∀ k, base ≠ .arrElem q k) →
      ((arrayRefShuffle true oldData newData base s).2.getArr q).elems = (s.getArr q).elems) ∧
    (∀ q, (∀ n, base ≠ .objProp q n) →
      (arrayRefShuffle true oldData newData base s).2.getObj q = s.getObj q) ∧
    (arrayRefShuffle true oldData newData base s).2.strs = s.strs ∧
    (∀ q, ((arrayRefShuffle true oldData newData base s).2.getObj q).count
      = (s.getObj q).count) ∧
    (arrayRefShuffle true oldData newData base s).2.log = s.log ∧
    (arrayRefShuffle true oldData newData base s).1 = none := by
  have hobj : ∀ (t : State) (p q : Nat), (decRefArr t p).getObj q = t.getObj q :=
    fun _ _ _ => rfl
  have hstrs : ∀ (t : State) (v : TypedValue), (t.store base v).strs = t.strs := by
    intro t v
    cases base <;> rfl
  refine ⟨?_, ?_, ?_, ?_, ?_, ?_, ?_, ?_, ?_, ?_⟩
  · intro h
    simp [arrayRefShuffle, h]
  · intro hne hload
    have hb1 : s.load base ≠ .uninit := by rw [hload]; simp
    have hb2 : base ≠ .initNullVariant := by
      intro e
      rw [e] at hload
      simp [State.load] at hload
    simp only [arrayRefShuffle, hne, if_false, if_true, hload]
    refine ⟨?_, ?_, ?_, ?_⟩
    · rw [load_decRefArr]
      exact load_store_same _ _ _ hb1 hb2
    · rw [(getArr_decRefArr _ oldData oldData).1, (count_getArr_store _ _ _ _).1]
      simp
    · intro q hq
      rw [(getArr_decRefArr _ oldData q).1, (count_getArr_store _ _ _ _).1]
      simp [hq]
    · intro l hl
      rw [load_decRefArr, load_store_other _ _ _ _ (fun e => hl e.symm)]
  · intro hne hload
    simp only [arrayRefShuffle, hne, if_false, if_true, hload]
    refine ⟨?_, ?_, ?_⟩
    · intro l
      rw [load_decRefArr]
    · rw [(getArr_decRefArr _ newData newData).1]
      simp
    · intro q hq
      rw [(getArr_decRefArr _ newData q).1]
      simp [hq]
  · intro q
    unfold arrayRefShuffle
    by_cases h1 : newData = oldData
    · simp [h1]
    · by_cases h2 : s.load base = .arr oldData
      · simp only [h1, if_false, if_true, h2]
        rw [(getArr_decRefArr _ _ _).2.1, keys_getArr_store]
      · simp only [h1, if_false, if_true, h2]
        rw [(getArr_decRefArr _ _ _).2.1]
  · intro q hq
    unfold arrayRefShuffle
    by_cases h1 : newData = oldData
    · simp [h1]
    · by_cases h2 : s.load base = .arr oldData
      · simp only [h1, if_false, if_true, h2]
        rw [(getArr_decRefArr _ _ _).2.1, getArr_store_other _ _ _ _ hq]
      · simp only [h1, if_false, if_true, h2]
        rw [(getArr_decRefArr _ _ _).2.1]
  · intro q hq
    unfold arrayRefShuffle
    by_cases h1 : newData = oldData
    · simp [h1]
    · by_cases h2 : s.load base = .arr oldData
      · simp only [h1, if_false, if_true, h2]
        rw [hobj, getObj_store_other _ _ _ _ hq]
      · simp only [h1, if_false, if_true, h2]
        rw [hobj]
  · unfold arrayRefShuffle
    by_cases h1 : newData = oldData
    · simp [h1]
    · by_cases h2 : s.load base = .arr oldData <;>
        simp [h1, h2, decRefArr, State.setArr, hstrs]
  · intro q
    unfold arrayRefShuffle
    by_cases h1 : newData = oldData
    · simp [h1]
    · by_cases h2 : s.load base = .arr oldData
      · simp only [h1, if_false, if_true, h2]
        rw [hobj, (count_getObj_store _ _ _ _).1]
      · simp only [h1, if_false, if_true, h2]
        rw [hobj]
  · unfold arrayRefShuffle
    by_cases h1 : newData = oldData
    · simp [h1]
    · by_cases h2 : s.load base = .arr oldData <;>
        simp [h1, h2, decRefArr, State.setArr]
  · unfold arrayRefShuffle
    by_cases h1 : newData = oldData
    · simp [h1]
    · by_cases h2 : s.load base = .arr oldData <;> simp [h1, h2]

/-- Witness for C31: the base is the element "y" of the array held in slot 0;
it holds the array 1, shared with slot 1, and the array 2 is the fresh copy:
the element takes the copy and the array 1 drops from two references to one.
With slot 2 as base (an integer) no cell changes and the copy drops from one
reference to none.  In the frame scenario slots 0 and 1 share array 0 and
array 1 is its fresh copy: with slot 0 as base the slot takes the copy and
array 0 drops from two references to one. -/
theorem arrayRefShuffle_setRef_witness :
    ((arrayRefShuffle true 1 2 (.arrElem 0 (.str [121])) stNestedShared).2.load
        (.arrElem 0 (.str [121])) = .arr 2 ∧
      ((arrayRefShuffle true 1 2 (.arrElem 0 (.str [121])) stNestedShared).2.getArr 1).count
        = (stNestedShared.getArr 1).count - 1 ∧
      (∀ q, q ≠ 1 →
        ((arrayRefShuffle true 1 2 (.arrElem 0 (.str [121])) stNestedShared).2.getArr q).count
          = (stNestedShared.getArr q).count) ∧
      (∀ l : Loc, l ≠ .arrElem 0 (.str [121]) →
        (arrayRefShuffle true 1 2 (.arrElem 0 (.str [121])) stNestedShared).2.load l
          = stNestedShared.load l)) ∧
    ((arrayRefShuffle true 1 2 (.arrElem 0 (.str [121])) stNestedShared).2.getArr 1).count = 1 ∧
    ((arrayRefShuffle true 1 2 (.arrElem 0 (.str [121])) stNestedShared).2.getArr 0).elems
      = [(.str [121], .arr 2)] ∧
    ((arrayRefShuffle true 1 2 (.slot 2) stNestedShared).2.getArr 2).count = 0 ∧
    (arrayRefShuffle true 1 2 (.slot 2) stNestedShared).2.slots = stNestedShared.slots ∧
    (arrayRefShuffle true 0 1 (.slot 0) stTwoArrays).2.load (.slot 0) = .arr 1 ∧
    ((arrayRefShuffle true 0 1 (.slot 0) stTwoArrays).2.getArr 0).count = 1 ∧
    ((arrayRefShuffle true 0 1 (.slot 2) stTwoArrays).2.getArr 1).count = 0 :=
  ⟨(arrayRefShuffle_setRef 1 2 (.arrElem 0 (.str [121])) stNestedShared).2.1 (by decide)
      (by decide),
    by decide, by decide, by decide, by decide, by decide, by decide, by decide⟩

/-- What `Elem` does on a string base, with the log given exactly: the log
after the cast of the key, then the warning "Out of bounds" in the
out-of-range case with `warn` and the HipHop syntax set. -/
theorem Elem_string_exact (ext : Externals) (warn : Bool) (base : Loc) (key : Key) (s : State)
    (hstr : isStringType (s.load (tvToCell s base)).m_type = true)
    (hb : tvToCell s base ≠ .tvRef) :
    ∃ s', Elem ext warn base key s = .ok .tvRef s' ∧
      (0 ≤ (ElemStringPre ext key s).1 ∧
        (ElemStringPre ext key s).1 < ((cellBytes s (s.load (tvToCell s base))).length : Int) →
          ∃ c, (cellBytes s (s.load (tvToCell s base)))[((ElemStringPre ext key s).1).toNat]? = some c ∧
            s'.load .tvRef = .sstr [c]) ∧
      (¬ (0 ≤ (ElemStringPre ext key s).1 ∧
        (ElemStringPre ext key s).1 < ((cellBytes s (s.load (tvToCell s base))).length : Int)) →
          s'.load .tvRef = .sstr []) ∧
      s'.load (tvToCell s base) = s.load (tvToCell s base) ∧
      cellBytes s' (s'.load (tvToCell s base)) = cellBytes s (s.load (tvToCell s base)) ∧
      (∀ l : Loc, l ≠ .tvRef → s'.load l = s.load l) ∧
      s'.strs = s.strs ∧
      s'.log = (ElemStringPre ext key s).2.log ++
          (if ¬ (0 ≤ (ElemStringPre ext key s).1 ∧
                (ElemStringPre ext key s).1 < ((cellBytes s (s.load (tvToCell s base))).length : Int))
              ∧ warn = true ∧ ext.EnableHipHopSyntax = true
           then [⟨.warning, "Out of bounds", .none⟩] else []) := by
  have hslow : Elem ext warn base key s = ElemString ext warn (tvToCell s base) key s := by
    rw [Elem_eq_ElemSlow]
    · unfold ElemSlow
      cases hl : s.load (tvToCell s base) <;>
        simp [hl, isStringType, TypedValue.m_type] at hstr ⊢
    · intro a h
      rw [h] at hstr
      simp [isStringType, TypedValue.m_type] at hstr
  have hb' : Loc.tvRef ≠ tvToCell s base := fun e => hb e.symm
  have hloadl : ∀ l, (ElemStringPre ext key s).2.load l = s.load l := by
    intro l
    rcases ElemStringPre_state ext key s with e | e <;> simp [e]
  have hload := hloadl (tvToCell s base)
  have hstrs : (ElemStringPre ext key s).2.strs = s.strs := by
    rcases ElemStringPre_state ext key s with e | e <;> rw [e]
    rfl
  have hbytes : cellBytes (ElemStringPre ext key s).2 (s.load (tvToCell s base))
      = cellBytes s (s.load (tvToCell s base)) := by
    rcases ElemStringPre_state ext key s with e | e <;> rw [e]
    exact cellBytes_raise_notice _ _ _ _
  rw [hslow]
  unfold ElemString
  simp only [hload, hbytes]
  by_cases hout : (ElemStringPre ext key s).1 < 0 ∨
      (ElemStringPre ext key s).1 ≥ ((cellBytes s (s.load (tvToCell s base))).length : Int)
  · have hnin : ¬ (0 ≤ (ElemStringPre ext key s).1 ∧
        (ElemStringPre ext key s).1 < ((cellBytes s (s.load (tvToCell s base))).length : Int)) := by
      omega
    simp only [hout, if_true]
    by_cases hw : (warn && ext.EnableHipHopSyntax) = true
    · simp only [hw, if_true]
      refine ⟨_, rfl, ?_, ?_, ?_, ?_, ?_, ?_, ?_⟩
      · intro h
        exact absurd h hnin
      · intro _
        rfl
      · rw [load_store_other _ _ _ _ hb']
        simp [hload]
      · rw [load_store_other _ _ _ _ hb', cellBytes_store]
        simp only [load_raise_warning, hload, cellBytes_raise_warning, hbytes]
      · intro l hl
        rw [load_store_other _ _ _ _ (fun e => hl e.symm), load_raise_warning]
        exact hloadl l
      · rw [strs_store]
        exact hstrs
      · simp only [Bool.and_eq_true] at hw
        simp [hnin, hw.1, hw.2]
    · simp only [hw, if_false]
      refine ⟨_, rfl, ?_, ?_, ?_, ?_, ?_, ?_, ?_⟩
      · intro h
        exact absurd h hnin
      · intro _
        rfl
      · rw [load_store_other _ _ _ _ hb']
        exact hload
      · rw [load_store_other _ _ _ _ hb', cellBytes_store, hload, hbytes]
      · intro l hl
        rw [load_store_other _ _ _ _ (fun e => hl e.symm)]
        exact hloadl l
      · rw [strs_store]
        exact hstrs
      · have hw' : ¬ (warn = true ∧ ext.EnableHipHopSyntax = true) := by
          simpa [Bool.and_eq_true] using hw
        have : ¬ (¬ (0 ≤ (ElemStringPre ext key s).1 ∧
            (ElemStringPre ext key s).1 < ((cellBytes s (s.load (tvToCell s base))).length : Int))
              ∧ warn = true ∧ ext.EnableHipHopSyntax = true) := fun h => hw' h.2
        simp only [log_store, this, if_false, List.append_nil]
  · have hin : 0 ≤ (ElemStringPre ext key s).1 ∧
        (ElemStringPre ext key s).1 < ((cellBytes s (s.load (tvToCell s base))).length : Int) := by
      omega
    simp only [hout, if_false]
    refine ⟨_, rfl, ?_, ?_, ?_, ?_, ?_, ?_, ?_⟩
    · intro _
      have hlt : ((ElemStringPre ext key s).1).toNat
          < (cellBytes s (s.load (tvToCell s base))).length := by omega
      refine ⟨(cellBytes s (s.load (tvToCell s base)))[((ElemStringPre ext key s).1).toNat], ?_, ?_⟩
      · exact List.getElem?_eq_getElem hlt
      · show getChar _ _ = _
        simp [getChar, List.getD_eq_getElem?_getD, List.getElem?_eq_getElem hlt]
    · intro h
      exact absurd hin h
    · rw [load_store_other _ _ _ _ hb']
      exact hload
    · rw [load_store_other _ _ _ _ hb', cellBytes_store, hload, hbytes]
    · intro l hl
      rw [load_store_other _ _ _ _ (fun e => hl e.symm)]
      exact hloadl l
    · rw [strs_store]
      exact hstrs
    · have : ¬ (¬ (0 ≤ (ElemStringPre ext key s).1 ∧
          (ElemStringPre ext key s).1 < ((cellBytes s (s.load (tvToCell s base))).length : Int))
            ∧ warn = true ∧ ext.EnableHipHopSyntax = true) := fun h => h.1 hin
      simp only [log_store, this, if_false, List.append_nil]

/-- C10: on a string base `s` of length `n`, wherever the base cell lives
(the scratch cell apart), `Elem` writes into the scratch cell and returns it.
The integer offset `i` of the key is the integer itself for an Int key, the
base-10 value of the bytes for a Str key and for an Any key that is a string,
and the integer cast of any other Any key.  The scratch cell holds the
one-character static string with byte `i` of `s` when `0 ≤ i < n` and the
static empty string otherwise; the base and every cell other than the scratch
cell are unchanged; the log gains the notice "String offset cast occurred"
exactly for an Any key that is neither an integer nor a string, and after it
the warning "Out of bounds" exactly in the out-of-range case with `warn` and
the HipHop syntax set. -/
theorem Elem_string_base (ext : Externals) (warn : Bool) (base : Loc) (key : Key) (s : State)
    (i : Int)
    (hstr : isStringType (s.load (tvToCell s base)).m_type = true)
    (hb : tvToCell s base ≠ .tvRef) :
    (i = match key with
      | .int n => n
      | .str (.static b) => toInt64 b
      | .str (.heap p) => toInt64 (s.getStr p).data
      | .any (.int n) => n
      | .any (.sstr b) => toInt64 b
      | .any (.str p) => toInt64 (s.getStr p).data
      | .any .uninit => 0
      | .any .null => 0
      | .any (.bool b) => if b then 1 else 0
      | .any (.dbl d) => ext.dblToInt64 d
      | .any (.res id) => id
      | .any (.arr p) => if (s.getArr p).elems.isEmpty then 0 else 1
      | .any (.obj p) =>
        ext.objToInt64 (raise_notice s "String offset cast occurred" .none) p
      | .any (.ref _) => 0
      | .any (.cls _) => 0) →
    ∃ s', Elem ext warn base key s = .ok .tvRef s' ∧
      (0 ≤ i ∧ i < ((cellBytes s (s.load (tvToCell s base))).length : Int) →
          ∃ c, (cellBytes s (s.load (tvToCell s base)))[i.toNat]? = some c ∧
            s'.load .tvRef = .sstr [c]) ∧
      (¬ (0 ≤ i ∧ i < ((cellBytes s (s.load (tvToCell s base))).length : Int)) →
          s'.load .tvRef = .sstr []) ∧
      s'.load (tvToCell s base) = s.load (tvToCell s base) ∧
      cellBytes s' (s'.load (tvToCell s base)) = cellBytes s (s.load (tvToCell s base)) ∧
      (∀ l : Loc, l ≠ .tvRef → s'.load l = s.load l) ∧
      s'.strs = s.strs ∧
      s'.log = s.log ++
          (match key with
            | .int _ => []
            | .str _ => []
            | .any (.int _) => []
            | .any (.sstr _) => []
            | .any (.str _) => []
            | .any _ => [⟨.notice, "String offset cast occurred", .none⟩]) ++
          (if ¬ (0 ≤ i ∧ i < ((cellBytes s (s.load (tvToCell s base))).length : Int))
              ∧ warn = true ∧ ext.EnableHipHopSyntax = true
           then [⟨.warning, "Out of bounds", .none⟩] else []) := by
  have hlog : (ElemStringPre ext key s).2.log = s.log ++
      (match key with
        | .int _ => []
        | .str _ => []
        | .any (.int _) => []
        | .any (.sstr _) => []
        | .any (.str _) => []
        | .any _ => [⟨.notice, "String offset cast occurred", .none⟩]) := by
    cases key with
    | int n => simp [ElemStringPre]
    | str sd => simp [ElemStringPre]
    | any tv => cases tv <;> simp [ElemStringPre, raise_notice, State.raise]
  intro hi
  have hoff : (ElemStringPre ext key s).1 = i := by
    rw [hi]
    cases key with
    | int n => rfl
    | str sd => cases sd <;> rfl
    | any tv => cases tv <;> rfl
  obtain ⟨s', hrun, h1, h2, h3, h4, h5, h6, h7⟩ := Elem_string_exact ext warn base key s hstr hb
  rw [hoff] at h1 h2 h7
  rw [hlog] at h7
  exact ⟨s', hrun, h1, h2, h3, h4, h5, h6, h7⟩

/-- Witness for C10: base "ab" with `warn = true`.  The Int key 1 gives "b",
the Int key 0 gives "a", the keys 2 and -1 give the empty string and the
warning; the Str key "1" gives "b"; the Any key `true` gives "b" after the
notice of the cast, the Any key Null gives "a" after the notice; with
`warn = false` the key 2 gives the empty string and no warning. The base is
the string in every case. -/
theorem Elem_string_base_witness :
    (∃ s', Elem Externals.inert true (.slot 0) (.int 1) stStringAb = .ok .tvRef s' ∧
      (0 ≤ (1 : Int) ∧ (1 : Int)
          < ((cellBytes stStringAb (stStringAb.load (tvToCell stStringAb (.slot 0)))).length : Int) →
          ∃ c, (cellBytes stStringAb (stStringAb.load (tvToCell stStringAb (.slot 0))))[
              (1 : Int).toNat]? = some c ∧
            s'.load .tvRef = .sstr [c]) ∧
      (¬ (0 ≤ (1 : Int) ∧ (1 : Int)
          < ((cellBytes stStringAb (stStringAb.load (tvToCell stStringAb (.slot 0)))).length : Int)) →
          s'.load .tvRef = .sstr []) ∧
      s'.load (tvToCell stStringAb (.slot 0)) = stStringAb.load (tvToCell stStringAb (.slot 0)) ∧
      cellBytes s' (s'.load (tvToCell stStringAb (.slot 0)))
        = cellBytes stStringAb (stStringAb.load (tvToCell stStringAb (.slot 0))) ∧
      (∀ l : Loc, l ≠ .tvRef → s'.load l = stStringAb.load l) ∧
      s'.strs = stStringAb.strs ∧
      s'.log = stStringAb.log ++ [] ++
          (if ¬ (0 ≤ (1 : Int) ∧ (1 : Int)
                  < ((cellBytes stStringAb (stStringAb.load (tvToCell stStringAb (.slot 0)))).length : Int))
              ∧ true = true ∧ Externals.inert.EnableHipHopSyntax = true
           then [⟨.warning, "Out of bounds", .none⟩] else [])) ∧
    ((Elem Externals.inert true (.slot 0) (.int 1) stStringAb).state.load .tvRef = .sstr [98] ∧
      (Elem Externals.inert true (.slot 0) (.int 1) stStringAb).state.log = [] ∧
      (Elem Externals.inert true (.slot 0) (.int 0) stStringAb).state.load .tvRef = .sstr [97] ∧
      (Elem Externals.inert true (.slot 0) (.int 2) stStringAb).state.load .tvRef = .sstr [] ∧
      (Elem Externals.inert true (.slot 0) (.int 2) stStringAb).state.log
        = [⟨.warning, "Out of bounds", .none⟩] ∧
      (Elem Externals.inert true (.slot 0) (.int (-1)) stStringAb).state.load .tvRef = .sstr [] ∧
      (Elem Externals.inert true (.slot 0) (.int (-1)) stStringAb).state.log
        = [⟨.warning, "Out of bounds", .none⟩] ∧
      (Elem Externals.inert false (.slot 0) (.int 2) stStringAb).state.load .tvRef = .sstr [] ∧
      (Elem Externals.inert false (.slot 0) (.int 2) stStringAb).state.log = [] ∧
      (Elem Externals.inert true (.slot 0) (.str (.static [49])) stStringAb).state.load .tvRef
        = .sstr [98] ∧
      (Elem Externals.inert true (.slot 0) (.any (.sstr [49])) stStringAb).state.load .tvRef
        = .sstr [98] ∧
      (Elem Externals.inert true (.slot 0) (.any (.bool true)) stStringAb).state.load .tvRef
        = .sstr [98] ∧
      (Elem Externals.inert true (.slot 0) (.any (.bool true)) stStringAb).state.log
        = [⟨.notice, "String offset cast occurred", .none⟩] ∧
      (Elem Externals.inert true (.slot 0) (.any .null) stStringAb).state.load .tvRef
        = .sstr [97] ∧
      (Elem Externals.inert true (.slot 0) (.int 1) stStringAb).state.load (.slot 0)
        = stStringAb.load (.slot 0)) :=
  ⟨Elem_string_base Externals.inert true (.slot 0) (.int 1) stStringAb 1 (by decide) (by decide)
      rfl,
    by decide⟩

/-- C16 (amended): on a string base, `IssetEmptyElem` with `useEmpty = false`
returns true exactly when the key is not a bad key (a string that, after its
leading blanks, is not strictly an integer, or a key tagged Array, Object or
Resource) and the integer offset that `ElemStringPre` computes for the key
lies in `[0, len)`; the latter condition alone is exactly when `Elem` on the
same base and key yields a one-character string.  `IssetEmptyElem` leaves the
state as it was for an integer key, and for every other key, bad or not, adds
the diagnostics that the cast of the key to an integer raises. -/
theorem IssetElem_string_offset (ext : Externals) (warn : Bool) (base : Loc) (key : Key)
    (s : State)
    (hstr : isStringType (s.load (tvToCell s base)).m_type = true)
    (hb : tvToCell s base ≠ .tvRef) :
    IssetEmptyElem ext false base key s
      = .ok (!(match key with
              | .int _ => false
              | .str (.static b) => (isStrictlyInteger (b.dropWhile isIssetSpace)).isNone
              | .str (.heap p) =>
                (isStrictlyInteger ((s.getStr p).data.dropWhile isIssetSpace)).isNone
              | .any (.sstr b) => (isStrictlyInteger (b.dropWhile isIssetSpace)).isNone
              | .any (.str p) =>
                (isStrictlyInteger ((s.getStr p).data.dropWhile isIssetSpace)).isNone
              | .any (.arr _) => true
              | .any (.obj _) => true
              | .any (.res _) => true
              | .any _ => false) &&
          decide (0 ≤ (ElemStringPre ext key s).1 ∧
            (ElemStringPre ext key s).1 < ((cellBytes s (s.load (tvToCell s base))).length : Int)))
          (match key with
            | .int _ => s
            | .any (.int _) => s
            | .str (.static b) => s.raiseAll (ext.castToInt64Diags s (.sstr b))
            | .str (.heap p) => s.raiseAll (ext.castToInt64Diags s (.str p))
            | .any tv => s.raiseAll (ext.castToInt64Diags s tv)) ∧
    ∃ s', Elem ext warn base key s = .ok .tvRef s' ∧
      ((∃ c, s'.load .tvRef = .sstr [c]) ↔
        (0 ≤ (ElemStringPre ext key s).1 ∧
          (ElemStringPre ext key s).1 < ((cellBytes s (s.load (tvToCell s base))).length : Int))) := by
  have hbadk : ∀ key : Key, (match key with
      | .int _ => false
      | .str (.static b) => (isStrictlyInteger (b.dropWhile isIssetSpace)).isNone
      | .str (.heap p) => (isStrictlyInteger ((s.getStr p).data.dropWhile isIssetSpace)).isNone
      | .any (.sstr b) => (isStrictlyInteger (b.dropWhile isIssetSpace)).isNone
      | .any (.str p) => (isStrictlyInteger ((s.getStr p).data.dropWhile isIssetSpace)).isNone
      | .any (.arr _) => true
      | .any (.obj _) => true
      | .any (.res _) => true
      | .any _ => false) = issetBadKey s (initScratchKey key) := by
    intro key
    cases key with
    | int n => rfl
    | str sd => cases sd <;> rfl
    | any tv => cases tv <;> rfl
  have hstate : ∀ key : Key, (match key with
      | .int _ => s
      | .any (.int _) => s
      | .str (.static b) => s.raiseAll (ext.castToInt64Diags s (.sstr b))
      | .str (.heap p) => s.raiseAll (ext.castToInt64Diags s (.str p))
      | .any tv => s.raiseAll (ext.castToInt64Diags s tv))
      = s.raiseAll (match initScratchKey key with
          | .int _ => []
          | tv => ext.castToInt64Diags s tv) := by
    intro key
    cases key with
    | int n => simp [initScratchKey, raiseAll_nil]
    | str sd => cases sd <;> rfl
    | any tv => cases tv <;> simp [initScratchKey, raiseAll_nil]
  constructor
  · have hslow : IssetEmptyElem ext false base key s
        = IssetEmptyElemString ext false (tvToCell s base) key s := by
      rw [IssetEmptyElem_eq_Slow]
      · unfold IssetEmptyElemSlow
        cases hl : s.load (tvToCell s base) <;>
          simp [hl, isStringType, TypedValue.m_type] at hstr ⊢
      · intro a h
        rw [h] at hstr
        simp [isStringType, TypedValue.m_type] at hstr
    rw [hslow, IssetEmptyElemString_eq, hbadk, hstate]
    congr 1
    cases hbad : issetBadKey s (initScratchKey key) with
    | true => simp
    | false =>
      rw [cellToInt_eq_ElemStringPre ext key s hbad]
      by_cases hin : 0 ≤ (ElemStringPre ext key s).1 ∧
          (ElemStringPre ext key s).1 < ((cellBytes s (s.load (tvToCell s base))).length : Int)
      · have hout : ¬ ((ElemStringPre ext key s).1 < 0 ∨
            (ElemStringPre ext key s).1 ≥ ((cellBytes s (s.load (tvToCell s base))).length : Int)) := by
          omega
        simp [hin, hout]
      · have hout : (ElemStringPre ext key s).1 < 0 ∨
            (ElemStringPre ext key s).1 ≥ ((cellBytes s (s.load (tvToCell s base))).length : Int) := by
          omega
        simp [hin, hout]
  · obtain ⟨s', hrun, h1, h2, _⟩ := Elem_string_lookup ext warn base key s hstr hb
    refine ⟨s', hrun, ?_, ?_⟩
    · intro ⟨c, hc⟩
      by_contra hn
      rw [h2 hn] at hc
      cases hc
    · intro hin
      obtain ⟨c, _, hc⟩ := h1 hin
      exact ⟨c, hc⟩

/-- Witness for C16 (amended): base "ab".  The key 1 is set and the key 2 is
not, with the state unchanged; the Str key "1" is set; the Str key " 1" (a
blank, then 1) is set; the Any key `true` is set (offset 1); an object as key
is a bad key: nothing is set, and the cast of the object to an integer has
raised its notice all the same. -/
theorem IssetElem_string_offset_witness :
    (IssetEmptyElem Externals.inert false (.slot 0) (.int 1) stStringAb
      = .ok (!false &&
          decide (0 ≤ (ElemStringPre Externals.inert (.int 1) stStringAb).1 ∧
            (ElemStringPre Externals.inert (.int 1) stStringAb).1
              < ((cellBytes stStringAb
                  (stStringAb.load (tvToCell stStringAb (.slot 0)))).length : Int)))
          stStringAb ∧
    ∃ s', Elem Externals.inert true (.slot 0) (.int 1) stStringAb = .ok .tvRef s' ∧
      ((∃ c, s'.load .tvRef = .sstr [c]) ↔
        (0 ≤ (ElemStringPre Externals.inert (.int 1) stStringAb).1 ∧
          (ElemStringPre Externals.inert (.int 1) stStringAb).1
            < ((cellBytes stStringAb
                (stStringAb.load (tvToCell stStringAb (.slot 0)))).length : Int)))) ∧
    (IssetEmptyElem Externals.inert false (.slot 0) (.int 1) stStringAb = .ok true stStringAb ∧
      IssetEmptyElem Externals.inert false (.slot 0) (.int 2) stStringAb = .ok false stStringAb ∧
      IssetEmptyElem Externals.inert false (.slot 0) (.int (-1)) stStringAb
        = .ok false stStringAb ∧
      (IssetEmptyElem Externals.inert false (.slot 0) (.str (.static [49])) stStringAb).returned
        = some true ∧
      (IssetEmptyElem Externals.inert false (.slot 0) (.str (.static [32, 49]))
        stStringAb).returned = some true ∧
      (IssetEmptyElem Externals.inert false (.slot 0) (.str (.static [49, 120]))
        stStringAb).returned = some false ∧
      (IssetEmptyElem Externals.inert false (.slot 0) (.any (.bool true)) stStringAb).returned
        = some true ∧
      (IssetEmptyElem Externals.noisyCast false (.slot 0) (.any (.obj 0)) stStringAb).returned
        = some false ∧
      (IssetEmptyElem Externals.noisyCast false (.slot 0) (.any (.obj 0)) stStringAb).state.log
        = [⟨.notice, "Object could not be converted to int", .none⟩] ∧
      (IssetEmptyElem Externals.noisyCast false (.slot 0) (.int 1) stStringAb).state.log = []) :=
  ⟨IssetElem_string_offset Externals.inert true (.slot 0) (.int 1) stStringAb
    (by decide) (by decide), by decide⟩

/-- C16 as stated fails: with the base "ab" and the Str key "01", the offset
that `ElemStringPre` computes is 1, which lies in `[0, 2)`, and `Elem` yields
the one-character string "b"; yet `IssetEmptyElem` with `useEmpty = false`
returns false, because "01" is not strictly an integer. -/
theorem IssetElem_string_offset_counterexample :
    isStringType (stStringAb.load (tvToCell stStringAb (.slot 0))).m_type = true ∧
    (ElemStringPre Externals.inert (.str (.static [48, 49])) stStringAb).1 = 1 ∧
    (Elem Externals.inert false (.slot 0) (.str (.static [48, 49])) stStringAb).returned
      = some .tvRef ∧
    (Elem Externals.inert false (.slot 0) (.str (.static [48, 49])) stStringAb).state.load .tvRef
      = .sstr [98] ∧
    (IssetEmptyElem Externals.inert false (.slot 0) (.str (.static [48, 49])) stStringAb).returned
      = some false := by
  decide

/-- The object that `instanceFromTv` reads from a cell, by the tag of the
cell. -/
theorem instanceFromTv_match {α : Type} (s : State) (b : Loc) (f : Nat → Outcome α)
    (g : Outcome α) :
    (match instanceFromTv s b with
      | some o2 => f o2
      | none => g)
    = (match s.load b with
      | .obj o2 => f o2
      | _ => g) := by
  unfold instanceFromTv
  cases s.load b <;> rfl

/-- C30: for every non-collection object base, `SetOpElem` reads the element
with one call of `objOffsetGet` on the object of the base into the scratch
cell, applies `setopBody` to the (unboxed) scratch cell, writes the result
back with one call of `objOffsetSet` under the same key, handing it the
scratch cell, and returns the scratch cell; a step that does not return ends
the call there.  The object handed to `objOffsetSet` is the one that the base
cell holds after the operator has run (the code reads the base again), which
is the object of before whenever the user code has left the base alone; a
base that holds no object any more fails the assertion of `instanceFromTv`.
When the value read is not a reference, the cell that the operator works on
is the scratch cell itself, holding that value. -/
theorem SetOpElem_object_offset (ext : Externals) (op : SetOpOp) (base : Loc)
    (key : TypedValue) (rhs : Loc) (s : State) (o : Nat)
    (hobj : s.load (tvToCell s base) = .obj o)
    (hnc : (s.getObj o).isCollection = false) :
    SetOpElem ext op base key rhs s
      = (ext.objOffsetGet o key s).bind (fun tv s1 =>
          (ext.setopBody op (tvToCell (s1.store .tvRef tv) .tvRef) rhs
              (s1.store .tvRef tv)).bind (fun _ s3 =>
            match s3.load (tvToCell s base) with
            | .obj o2 =>
              (ext.objOffsetSet o2 key .tvRef false s3).bind (fun _ s4 => .ok .tvRef s4)
            | _ => .abort s3)) ∧
    (∀ tv s1 u s3, ext.objOffsetGet o key s = .ok tv s1 →
      ext.setopBody op (tvToCell (s1.store .tvRef tv) .tvRef) rhs (s1.store .tvRef tv)
        = .ok u s3 →
      s3.load (tvToCell s base) = .obj o →
      SetOpElem ext op base key rhs s
        = (ext.objOffsetSet o key .tvRef false s3).bind (fun _ s4 => .ok .tvRef s4)) ∧
    (∀ tv (s1 : State), (∀ r, tv ≠ .ref r) →
      tvToCell (s1.store .tvRef tv) .tvRef = .tvRef ∧ (s1.store .tvRef tv).load .tvRef = tv) ∧
    (∀ p s', SetOpElem ext op base key rhs s = .ok p s' → p = .tvRef) := by
  have hrun : SetOpElem ext op base key rhs s
      = (ext.objOffsetGet o key s).bind (fun tv s1 =>
          (ext.setopBody op (tvToCell (s1.store .tvRef tv) .tvRef) rhs
              (s1.store .tvRef tv)).bind (fun _ s3 =>
            match s3.load (tvToCell s base) with
            | .obj o2 =>
              (ext.objOffsetSet o2 key .tvRef false s3).bind (fun _ s4 => .ok .tvRef s4)
            | _ => .abort s3)) := by
    unfold SetOpElem
    simp only [hobj, hnc, Bool.false_eq_true, if_false, instanceFromTv_match]
  refine ⟨hrun, ?_, ?_, ?_⟩
  · intro tv s1 u s3 h1 h2 h3
    rw [hrun, h1]
    simp only [Outcome.bind, h2, h3]
  · intro tv s1 hnr
    have hl : (s1.store .tvRef tv).load .tvRef = tv := rfl
    refine ⟨?_, hl⟩
    unfold tvToCell
    rw [hl]
    cases tv <;> first | rfl | exact absurd rfl (hnr _)
  · intro p s' h
    rw [hrun] at h
    cases h1 : ext.objOffsetGet o key s with
    | ok tv s1 =>
      rw [h1] at h
      simp only [Outcome.bind] at h
      cases h2 : ext.setopBody op (tvToCell (s1.store .tvRef tv) .tvRef) rhs
          (s1.store .tvRef tv) with
      | ok u s3 =>
        rw [h2] at h
        simp only at h
        cases hb : s3.load (tvToCell s base) with
        | obj o2 =>
          rw [hb] at h
          simp only at h
          cases h3 : ext.objOffsetSet o2 key .tvRef false s3 with
          | ok u2 s4 =>
            rw [h3] at h
            simp only [Outcome.ok.injEq] at h
            exact h.1.symm
          | _ => rw [h3] at h; simp at h
        | _ => rw [hb] at h; simp at h
      | _ => rw [h2] at h; simp at h
    | _ => rw [h1] at h; simp [Outcome.bind] at h

/-- Witness for C30: an object whose property "k" is 5, the operator `+=`
with right-hand side 3: one `offsetGet`, then one `offsetSet`, the scratch
cell and the property both hold 8.  When the `offsetGet` handler rebinds the
variable of the base to another object, `offsetSet` is called on that other
object: its property "k" becomes 8 and the first object keeps its 5. -/
theorem SetOpElem_object_offset_witness :
    (SetOpElem Externals.arrayAccess .PlusEqual (.slot 0) (.sstr [107]) (.slot 1) stObjectK5
      = (Externals.arrayAccess.objOffsetGet 0 (.sstr [107]) stObjectK5).bind (fun tv s1 =>
          (Externals.arrayAccess.setopBody .PlusEqual (tvToCell (s1.store .tvRef tv) .tvRef)
              (.slot 1) (s1.store .tvRef tv)).bind (fun _ s3 =>
            match s3.load (tvToCell stObjectK5 (.slot 0)) with
            | .obj o2 =>
              (Externals.arrayAccess.objOffsetSet o2 (.sstr [107]) .tvRef false s3).bind
                (fun _ s4 => .ok .tvRef s4)
            | _ => .abort s3))) ∧
    (SetOpElem Externals.arrayAccess .PlusEqual (.slot 0) (.sstr [107]) (.slot 1)
      stObjectK5).returned = some .tvRef ∧
    (SetOpElem Externals.arrayAccess .PlusEqual (.slot 0) (.sstr [107]) (.slot 1)
      stObjectK5).state.tvRef = .int 8 ∧
    ((SetOpElem Externals.arrayAccess .PlusEqual (.slot 0) (.sstr [107]) (.slot 1)
      stObjectK5).state.getObj 0).props = [([107], .int 8)] ∧
    (SetOpElem Externals.arrayAccess .PlusEqual (.slot 0) (.sstr [107]) (.slot 1)
      stObjectK5).state.log
      = [⟨.notice, "offsetGet", .none⟩, ⟨.notice, "offsetSet", .none⟩] ∧
    (SetOpElem Externals.rebinding .PlusEqual (.slot 0) (.sstr [107]) (.slot 1)
      stTwoObjects).returned = some .tvRef ∧
    (SetOpElem Externals.rebinding .PlusEqual (.slot 0) (.sstr [107]) (.slot 1)
      stTwoObjects).state.tvRef = .int 8 ∧
    ((SetOpElem Externals.rebinding .PlusEqual (.slot 0) (.sstr [107]) (.slot 1)
      stTwoObjects).state.getObj 0).props = [([107], .int 5)] ∧
    ((SetOpElem Externals.rebinding .PlusEqual (.slot 0) (.sstr [107]) (.slot 1)
      stTwoObjects).state.getObj 1).props = [([107], .int 8)] :=
  ⟨(SetOpElem_object_offset Externals.arrayAccess .PlusEqual (.slot 0) (.sstr [107]) (.slot 1)
      stObjectK5 0 (by decide) (by decide)).1,
    by decide, by decide, by decide, by decide, by decide, by decide, by decide, by decide⟩

/-- C39: for a non-collection object base, `IncDecElem` and `IncDecNewElem`
read the element with `objOffsetGet` into the scratch cell and apply
`IncDecBody` to it, and that is all: their outcome does not depend on what
`objOffsetSet` and `objOffsetAppend` are, and when the value read is an integer
the call returns with every cell other than the scratch cell and the
destination, every property of every object included, as `objOffsetGet` left
it, and with nothing more in the log.  `SetOpElem` and `SetOpNewElem`, in
contrast, end with `objOffsetSet` and `objOffsetAppend` on the scratch cell,
for the object that the base cell holds after the operator has run. -/
theorem IncDecElem_object_no_write_back (ext : Externals) (op : IncDecOp) (sop : SetOpOp)
    (base : Loc) (key : TypedValue) (dest : Loc) (s : State) (o : Nat)
    (hobj : s.load (tvToCell s base) = .obj o)
    (hnc : (s.getObj o).isCollection = false) :
    (IncDecElem ext op base key dest s
      = (ext.objOffsetGet o key s).bind (fun tv s1 =>
          IncDecBody ext op (tvToCell (s1.store .tvRef tv) .tvRef) dest (s1.store .tvRef tv))) ∧
    (IncDecNewElem ext op base dest s
      = (ext.objOffsetGet o .null s).bind (fun tv s1 =>
          IncDecBody ext op (tvToCell (s1.store .tvRef tv) .tvRef) dest (s1.store .tvRef tv))) ∧
    (∀ f g, IncDecElem { ext with objOffsetSet := f, objOffsetAppend := g } op base key dest s
      = IncDecElem ext op base key dest s) ∧
    (∀ f g, IncDecNewElem { ext with objOffsetSet := f, objOffsetAppend := g } op base dest s
      = IncDecNewElem ext op base dest s) ∧
    (∀ n s1, ext.objOffsetGet o key s = .ok (.int n) s1 →
      (IncDecElem ext op base key dest s).returned = some () ∧
      (IncDecElem ext op base key dest s).state.log = s1.log ∧
      (∀ l : Loc, l ≠ .tvRef → l ≠ dest →
        (IncDecElem ext op base key dest s).state.load l = s1.load l)) ∧
    (∀ n s1, ext.objOffsetGet o .null s = .ok (.int n) s1 →
      (IncDecNewElem ext op base dest s).returned = some () ∧
      (IncDecNewElem ext op base dest s).state.log = s1.log ∧
      (∀ l : Loc, l ≠ .tvRef → l ≠ dest →
        (IncDecNewElem ext op base dest s).state.load l = s1.load l)) ∧
    (SetOpElem ext sop base key dest s
      = (ext.objOffsetGet o key s).bind (fun tv s1 =>
          (ext.setopBody sop (tvToCell (s1.store .tvRef tv) .tvRef) dest
              (s1.store .tvRef tv)).bind (fun _ s3 =>
            match s3.load (tvToCell s base) with
            | .obj o2 =>
              (ext.objOffsetSet o2 key .tvRef false s3).bind (fun _ s4 => .ok .tvRef s4)
            | _ => .abort s3))) ∧
    (SetOpNewElem ext sop base dest s
      = (ext.objOffsetGet o .null s).bind (fun tv s1 =>
          (ext.setopBody sop (tvToCell (s1.store .tvRef tv) .tvRef) dest
              (s1.store .tvRef tv)).bind (fun _ s3 =>
            match s3.load (tvToCell s base) with
            | .obj o2 =>
              (ext.objOffsetAppend o2 .tvRef false s3).bind (fun _ s4 => .ok .tvRef s4)
            | _ => .abort s3))) := by
  have h1 : IncDecElem ext op base key dest s
      = (ext.objOffsetGet o key s).bind (fun tv s1 =>
          IncDecBody ext op (tvToCell (s1.store .tvRef tv) .tvRef) dest
            (s1.store .tvRef tv)) := by
    unfold IncDecElem
    simp only [hobj, hnc, Bool.false_eq_true, if_false]
  have h2 : IncDecNewElem ext op base dest s
      = (ext.objOffsetGet o .null s).bind (fun tv s1 =>
          IncDecBody ext op (tvToCell (s1.store .tvRef tv) .tvRef) dest
            (s1.store .tvRef tv)) := by
    unfold IncDecNewElem
    simp only [hobj, hnc, Bool.false_eq_true, if_false]
  have hstep : ∀ (n : Int) (s1 : State),
      (IncDecBody ext op (tvToCell (s1.store .tvRef (.int n)) .tvRef) dest
          (s1.store .tvRef (.int n))).returned = some () ∧
      (IncDecBody ext op (tvToCell (s1.store .tvRef (.int n)) .tvRef) dest
          (s1.store .tvRef (.int n))).state.log = s1.log ∧
      (∀ l : Loc, l ≠ .tvRef → l ≠ dest →
        (IncDecBody ext op (tvToCell (s1.store .tvRef (.int n)) .tvRef) dest
          (s1.store .tvRef (.int n))).state.load l = s1.load l) := by
    intro n s1
    have hl : (s1.store .tvRef (.int n)).load .tvRef = .int n := rfl
    have hc : tvToCell (s1.store .tvRef (.int n)) .tvRef = .tvRef := by
      simp [tvToCell, hl]
    rw [hc]
    obtain ⟨a, b, c⟩ := IncDecBody_int_frame ext op .tvRef dest (s1.store .tvRef (.int n)) n hl
    refine ⟨a, ?_, ?_⟩
    · rw [b, log_store]
    · intro l hl1 hl2
      rw [c l hl1 hl2, load_store_other _ _ _ _ (fun e => hl1 e.symm)]
  refine ⟨h1, h2, ?_, ?_, ?_, ?_, ?_, ?_⟩
  · intro f g
    unfold IncDecElem
    simp only [hobj, hnc, Bool.false_eq_true, if_false]
    rfl
  · intro f g
    unfold IncDecNewElem
    simp only [hobj, hnc, Bool.false_eq_true, if_false]
    rfl
  · intro n s1 hg
    rw [h1, hg]
    exact hstep n s1
  · intro n s1 hg
    rw [h2, hg]
    exact hstep n s1
  · unfold SetOpElem
    simp only [hobj, hnc, Bool.false_eq_true, if_false, instanceFromTv_match]
  · unfold SetOpNewElem
    simp only [hobj, hnc, Bool.false_eq_true, if_false, instanceFromTv_match]

/-- Witness for C39: an object whose property "k" is 5, its subscript
protocol logging each call.  `$obj["k"]++` calls `offsetGet` once and nothing
else: the destination holds 5, the scratch cell 6, and the property is still
5.  `$obj["k"] += 3` calls `offsetGet` and then `offsetSet`, and the property
becomes 8. -/
theorem IncDecElem_object_no_write_back_witness :
    (IncDecElem Externals.arrayAccess .PostInc (.slot 0) (.sstr [107]) (.slot 1) stObjectK5
      = (Externals.arrayAccess.objOffsetGet 0 (.sstr [107]) stObjectK5).bind (fun tv s1 =>
          IncDecBody Externals.arrayAccess .PostInc (tvToCell (s1.store .tvRef tv) .tvRef)
            (.slot 1) (s1.store .tvRef tv))) ∧
    (IncDecElem Externals.arrayAccess .PostInc (.slot 0) (.sstr [107]) (.slot 1)
      stObjectK5).state.log = [⟨.notice, "offsetGet", .none⟩] ∧
    (IncDecElem Externals.arrayAccess .PostInc (.slot 0) (.sstr [107]) (.slot 1)
      stObjectK5).state.load (.slot 1) = .int 5 ∧
    (IncDecElem Externals.arrayAccess .PostInc (.slot 0) (.sstr [107]) (.slot 1)
      stObjectK5).state.tvRef = .int 6 ∧
    ((IncDecElem Externals.arrayAccess .PostInc (.slot 0) (.sstr [107]) (.slot 1)
      stObjectK5).state.getObj 0).props = [([107], .int 5)] ∧
    (IncDecNewElem Externals.arrayAccess .PostInc (.slot 0) (.slot 1)
      stObjectK5).state.log = [⟨.notice, "offsetGet", .none⟩] ∧
    (SetOpElem Externals.arrayAccess .PlusEqual (.slot 0) (.sstr [107]) (.slot 1)
      stObjectK5).state.log
      = [⟨.notice, "offsetGet", .none⟩, ⟨.notice, "offsetSet", .none⟩] ∧
    ((SetOpElem Externals.arrayAccess .PlusEqual (.slot 0) (.sstr [107]) (.slot 1)
      stObjectK5).state.getObj 0).props = [([107], .int 8)] :=
  ⟨(IncDecElem_object_no_write_back Externals.arrayAccess .PostInc .PlusEqual (.slot 0)
      (.sstr [107]) (.slot 1) stObjectK5 0 (by decide) (by decide)).1,
    by decide, by decide, by decide, by decide, by decide, by decide, by decide⟩

end HPHP
